import Mathlib

/-! Platformer simulation core: collision engine, entity resets, active-set maintenance.

A shallow embedding of `src/Source.cpp`.  C++ `int` values are modelled as `Int`
(signed overflow is undefined behaviour in the source and is not modelled), `double`
speeds as exact rationals, pointers to entities as natural-number addresses, and
`while`/`for` loops as structurally recursive functions over an explicit iteration
budget.  Sums of `double`s are exact, except where the rounding of a sum to the nearest
`double` is the subject: `roundDouble` and `Player.moveXRounded`.
-/

namespace Platformer

/-! ## Collision engine -/

/-- The rectangle type of the source (`SDL_Rect`): four `int` fields. -/
structure SDL_Rect where
  x : Int
  y : Int
  w : Int
  h : Int
deriving DecidableEq, Repr

/-- The test in the body of the two loops of `collided` (Source.cpp lines 73-74). -/
def samplePointInside (left right : SDL_Rect) (h v : Int) : Bool :=
  decide (left.x + h > right.x) && decide (left.x + h < right.x + right.w)
    && decide (left.y + v > right.y) && decide (left.y + v < right.y + right.h)

/-- Inner loop of `collided`: `for (int v = 0; v <= left.h; v += 8)`, started at `v`, for a
fixed horizontal offset `h`.  `true` means the function returned `true` from inside the loop;
`false` means the loop ran to its end.  `fuel` bounds the number of loop tests. -/
def collidedInner (left right : SDL_Rect) (h : Int) : Nat → Int → Bool
  | 0, _ => false
  | fuel + 1, v =>
    if v ≤ left.h then
      if samplePointInside left right h v then true
      else collidedInner left right h fuel (v + 8)
    else false

/-- Outer loop of `collided`: `for (int h = 0; h <= left.w; h += 8)`, started at `h`. -/
def collidedOuter (left right : SDL_Rect) : Nat → Int → Bool
  | 0, _ => false
  | fuel + 1, h =>
    if h ≤ left.w then
      if collidedInner left right h (left.h.toNat / 8 + 2) 0 then true
      else collidedOuter left right fuel (h + 8)
    else false

/-- `bool collided(SDL_Rect &left, SDL_Rect &right)` (Source.cpp lines 67-79).  Each loop is
given one test more than the number of iterations it can make, so the budget never runs out. -/
def collided (left right : SDL_Rect) : Bool :=
  collidedOuter left right (left.w.toNat / 8 + 2) 0

/-- One iteration of the loop body of `align` (Source.cpp line 88). -/
def alignStep (left : SDL_Rect) (xstep ystep : Int) : SDL_Rect :=
  { x := left.x - xstep, y := left.y - ystep, w := left.w, h := left.h }

/-- The `while (collided(left, right))` loop of `align`, carrying `rvalue`.  `fuel` bounds the
number of evaluations of the loop condition; `none` means the budget ran out while the loop was
still running. -/
def alignLoop (right : SDL_Rect) (xstep ystep : Int) : Nat → SDL_Rect → Bool → Option (SDL_Rect × Bool)
  | 0, _, _ => none
  | fuel + 1, left, rvalue =>
    if collided left right then alignLoop right xstep ystep fuel (alignStep left xstep ystep) true
    else some (left, rvalue)

/-- `bool align(SDL_Rect &left, SDL_Rect &right, int xstep, int ystep)` (Source.cpp lines
83-92): the final value of `left` and the returned flag, or `none` when `fuel` loop tests were
not enough. -/
def align (fuel : Nat) (left right : SDL_Rect) (xstep ystep : Int) : Option (SDL_Rect × Bool) :=
  alignLoop right xstep ystep fuel left false

/-- The rectangle `left` after `k` iterations of the loop body of `align`. -/
def translated (left : SDL_Rect) (xstep ystep : Int) (k : Nat) : SDL_Rect :=
  { x := left.x - k * xstep, y := left.y - k * ystep, w := left.w, h := left.h }

/-! ## Vector helpers -/

/-- Addresses of heap-allocated entities (`Object*`). -/
abbrev ObjPtr := Nat

/-- The loop of `getIndex` (Source.cpp lines 99-103), started at index `i`. -/
def getIndexFrom {α : Type} [DecidableEq α] (term : α) : List α → Int → Int
  | [], _ => -1
  | a :: rest, i => if a = term then i else getIndexFrom term rest (i + 1)

/-- `int getIndex(std::vector<T> *vector, T &term)` (Source.cpp lines 96-105): the first index
at which `term` appears, or `-1`. -/
def getIndex {α : Type} [DecidableEq α] (vector : List α) (term : α) : Int :=
  getIndexFrom term vector 0

/-- `v.erase(v.begin() + i)` of `std::vector`: defined only for a position inside the vector;
`none` stands for the undefined behaviour of any other position (such as `begin() - 1`). -/
def vectorErase {α : Type} (v : List α) (i : Int) : Option (List α) :=
  if 0 ≤ i ∧ i < v.length then some (v.eraseIdx i.toNat) else none

/-! ## Entities -/

/-- The data members of `class Object` (Source.cpp lines 149-172).  `m_traction` is a `double`
in the source and is modelled as a rational. -/
structure Object where
  m_x : Int
  m_y : Int
  m_vx : Int
  m_vy : Int
  m_frame : Int
  m_traction : ℚ
  m_rect : SDL_Rect
  m_exists : Bool
  m_protected : Bool
  m_startx : Int
  m_starty : Int
  m_solid : Bool
  m_hazard : Bool
  m_enemy : Bool
  m_collectible : Bool
deriving DecidableEq, Repr

/-- `Object::Object(x, y, w, h, solid, hazard, enemy, collectible)` (Source.cpp lines 159-161)
with the default member initialisers.  `m_vx` and `m_vy` are left uninitialised by the source;
their values are parameters here. -/
def Object.mk0 (vx vy : Int) (x y w h : Int) (solid hazard enemy collectible : Bool) : Object :=
  { m_x := x, m_y := y, m_vx := vx, m_vy := vy, m_frame := 0, m_traction := 1 / 2,
    m_rect := ⟨x, y, w, h⟩, m_exists := true, m_protected := false,
    m_startx := x, m_starty := y,
    m_solid := solid, m_hazard := hazard, m_enemy := enemy, m_collectible := collectible }

/-- `virtual void Object::reset()` (Source.cpp lines 174-179). -/
def Object.reset (o : Object) : Object :=
  { o with m_x := o.m_startx, m_y := o.m_starty, m_exists := true }

/-- `class Wall` (Source.cpp lines 418-468). -/
structure Wall extends Object where
  m_check : Bool
  m_adjacent : List Bool
deriving DecidableEq, Repr

/-- `class Water` (Source.cpp lines 473-507). -/
structure Water extends Object where
  m_check : Bool
  m_top : Bool
deriving DecidableEq, Repr

/-- `class Thorns` (Source.cpp lines 512-524): no members of its own. -/
structure Thorns extends Object where
deriving DecidableEq, Repr

/-- `class Ice` (Source.cpp lines 529-544): no members of its own. -/
structure Ice extends Object where
deriving DecidableEq, Repr

/-- `class ThinIce` (Source.cpp lines 549-622).  The class declares its own `m_frame`, which
hides `Object::m_frame` inside its member functions; it is called `m_frameThinIce` here. -/
structure ThinIce extends Object where
  m_cracks : Int
  m_timerBase : Int
  m_frameThinIce : Int
deriving DecidableEq, Repr

/-- `class Scenery3` (Source.cpp lines 627-652), the base of `Tree` and `Flower`. -/
structure Scenery3 extends Object where
  m_type : Int
  m_check : Bool
deriving DecidableEq, Repr

/-- `class Snake` (Source.cpp lines 677-735). -/
structure Snake extends Object where
  m_hspd : Int
  m_flip : Bool
deriving DecidableEq, Repr

/-- `class Ptero` (Source.cpp lines 740-805); the `double` members are rationals. -/
structure Ptero extends Object where
  m_timerBase : Int
  m_interval : Int
  m_acc : ℚ
  m_hspd : ℚ
  m_flip : Bool
deriving DecidableEq, Repr

/-- `class Frog` (Source.cpp lines 810-911); the `double` members are rationals. -/
structure Frog extends Object where
  m_timerBase : Int
  m_hspd : ℚ
  m_vspd : ℚ
  m_grounded : Bool
deriving DecidableEq, Repr

/-- `class Spore` (Source.cpp lines 916-975); the `double` members are rationals. -/
structure Spore extends Object where
  m_hspd : ℚ
  m_vspd : ℚ
deriving DecidableEq, Repr

/-- `class Snowball` (Source.cpp lines 980-1040); the `double` members are rationals. -/
structure Snowball extends Object where
  m_hspd : ℚ
  m_vspd : ℚ
deriving DecidableEq, Repr

/-- `class Plant` (Source.cpp lines 1045-1106).  `m_spores` holds the spores the plant owns:
each entry is the address of a heap-allocated `Spore` together with that spore. -/
structure Plant extends Object where
  m_timerBase : Int
  m_spores : List (ObjPtr × Spore)
deriving DecidableEq, Repr

/-- `class Spit` (Source.cpp lines 1111-1195). -/
structure Spit extends Object where
  m_timerBase : Int
  m_shake : Int
  m_spores : List (ObjPtr × Spore)
deriving DecidableEq, Repr

/-- `class Yeti` (Source.cpp lines 1200-1264). -/
structure Yeti extends Object where
  m_timerBase : Int
  m_snowballs : List (ObjPtr × Snowball)
deriving DecidableEq, Repr

/-- `class Mushroom` (Source.cpp lines 1269-1297). -/
structure Mushroom extends Object where
  m_timerBase : Int
deriving DecidableEq, Repr

/-- `class Gem100` (Source.cpp lines 1302-1329): no members of its own. -/
structure Gem100 extends Object where
deriving DecidableEq, Repr

/-- `class GemL` (Source.cpp lines 1334-1361): no members of its own. -/
structure GemL extends Object where
deriving DecidableEq, Repr

/-- `class Mammoth` (Source.cpp lines 1366-1431); the `double` speed is a rational. -/
structure Mammoth extends Object where
  m_hspd : ℚ
  m_flip : Bool
deriving DecidableEq, Repr

/-! ### Reset operations -/

/-- `Wall` inherits `Object::reset`. -/
def Wall.reset (s : Wall) : Wall := { s with toObject := s.toObject.reset }

/-- `Water` inherits `Object::reset`. -/
def Water.reset (s : Water) : Water := { s with toObject := s.toObject.reset }

/-- `Thorns` inherits `Object::reset`. -/
def Thorns.reset (s : Thorns) : Thorns := { s with toObject := s.toObject.reset }

/-- `Ice` inherits `Object::reset`. -/
def Ice.reset (s : Ice) : Ice := { s with toObject := s.toObject.reset }

/-- `Scenery3` (and so `Tree`, `Flower`) inherits `Object::reset`. -/
def Scenery3.reset (s : Scenery3) : Scenery3 := { s with toObject := s.toObject.reset }

/-- `Snake` inherits `Object::reset`. -/
def Snake.reset (s : Snake) : Snake := { s with toObject := s.toObject.reset }

/-- `Mushroom` inherits `Object::reset`. -/
def Mushroom.reset (s : Mushroom) : Mushroom := { s with toObject := s.toObject.reset }

/-- `Mammoth` inherits `Object::reset`. -/
def Mammoth.reset (s : Mammoth) : Mammoth := { s with toObject := s.toObject.reset }

/-- `ThinIce::reset` (Source.cpp lines 611-621). -/
def ThinIce.reset (s : ThinIce) : ThinIce :=
  let s1 : ThinIce := { s with m_timerBase := -1, m_cracks := 0 }
  if s1.m_frameThinIce > 3 then
    { s1 with
      m_frameThinIce := 0
      toObject := { s1.toObject with
        m_rect := { s1.m_rect with y := s1.m_rect.y - 3, h := 32 } } }
  else s1

/-- `Ptero::reset` (Source.cpp lines 788-796).  `m_interval / 2` is an `int` division. -/
def Ptero.reset (s : Ptero) : Ptero :=
  let acc : ℚ := -|s.m_acc|
  { s with
    toObject := { s.toObject with m_x := s.m_startx, m_y := s.m_starty, m_exists := true }
    m_timerBase := -1
    m_acc := acc
    m_hspd := ((Int.tdiv s.m_interval 2 : Int) : ℚ) * acc }

/-- `Frog::reset` (Source.cpp lines 897-906). -/
def Frog.reset (s : Frog) : Frog :=
  { s with
    toObject := { s.toObject with
      m_x := s.m_startx, m_y := s.m_starty,
      m_rect := ⟨s.m_startx, s.m_starty, 32, 32⟩,
      m_exists := true }
    m_timerBase := -1
    m_hspd := 0
    m_vspd := 0 }

/-- `Plant::reset` (Source.cpp lines 1091-1098): the owned spores are deleted. -/
def Plant.reset (s : Plant) : Plant :=
  { s with
    toObject := { s.toObject with m_exists := true }
    m_timerBase := -1
    m_spores := [] }

/-- `Spit::reset` (Source.cpp lines 1178-1187). -/
def Spit.reset (s : Spit) : Spit :=
  { s with
    toObject := { s.toObject with m_exists := true }
    m_timerBase := -1
    m_spores := [] }

/-- `Yeti::reset` (Source.cpp lines 1247-1254). -/
def Yeti.reset (s : Yeti) : Yeti :=
  { s with
    toObject := { s.toObject with m_exists := true }
    m_timerBase := -1
    m_snowballs := [] }

/-- `Gem100::reset` (Source.cpp lines 1319-1320): empty body. -/
def Gem100.reset (s : Gem100) : Gem100 := s

/-- `Gem100::resetStrong` (Source.cpp lines 1321-1324). -/
def Gem100.resetStrong (s : Gem100) : Gem100 :=
  { s with toObject := { s.toObject with m_exists := true } }

/-- `GemL::reset` (Source.cpp lines 1351-1352): empty body. -/
def GemL.reset (s : GemL) : GemL := s

/-- `GemL::resetStrong` (Source.cpp lines 1353-1356). -/
def GemL.resetStrong (s : GemL) : GemL :=
  { s with toObject := { s.toObject with m_exists := true } }

/-- A grid-resident entity: one constructor for each class that `main` instantiates into the
level grid (Source.cpp lines 2043-2127).  The constructor plays the role of the dynamic type. -/
inductive Entity
  | wall (s : Wall)
  | water (s : Water)
  | thorns (s : Thorns)
  | ice (s : Ice)
  | thinIce (s : ThinIce)
  | tree (s : Scenery3)
  | flower (s : Scenery3)
  | snake (s : Snake)
  | ptero (s : Ptero)
  | frog (s : Frog)
  | plant (s : Plant)
  | spit (s : Spit)
  | yeti (s : Yeti)
  | mushroom (s : Mushroom)
  | gem100 (s : Gem100)
  | gemL (s : GemL)
  | mammoth (s : Mammoth)
deriving DecidableEq, Repr

/-- The `Object` sub-object of an entity. -/
def Entity.toObject : Entity → Object
  | .wall s => s.toObject
  | .water s => s.toObject
  | .thorns s => s.toObject
  | .ice s => s.toObject
  | .thinIce s => s.toObject
  | .tree s => s.toObject
  | .flower s => s.toObject
  | .snake s => s.toObject
  | .ptero s => s.toObject
  | .frog s => s.toObject
  | .plant s => s.toObject
  | .spit s => s.toObject
  | .yeti s => s.toObject
  | .mushroom s => s.toObject
  | .gem100 s => s.toObject
  | .gemL s => s.toObject
  | .mammoth s => s.toObject

/-- Virtual dispatch of `reset()` on the dynamic type. -/
def Entity.reset : Entity → Entity
  | .wall s => .wall s.reset
  | .water s => .water s.reset
  | .thorns s => .thorns s.reset
  | .ice s => .ice s.reset
  | .thinIce s => .thinIce s.reset
  | .tree s => .tree s.reset
  | .flower s => .flower s.reset
  | .snake s => .snake s.reset
  | .ptero s => .ptero s.reset
  | .frog s => .frog s.reset
  | .plant s => .plant s.reset
  | .spit s => .spit s.reset
  | .yeti s => .yeti s.reset
  | .mushroom s => .mushroom s.reset
  | .gem100 s => .gem100 s.reset
  | .gemL s => .gemL s.reset
  | .mammoth s => .mammoth s.reset

/-- Virtual dispatch of `resetStrong()`: `Object::resetStrong` (Source.cpp lines 180-183) calls
the virtual `reset()`, `Ptero` and `Yeti` override it with the same call, and the two gems
override it to restore `m_exists`. -/
def Entity.resetStrong : Entity → Entity
  | .gem100 s => .gem100 s.resetStrong
  | .gemL s => .gemL s.resetStrong
  | e => e.reset

/-- The classes constructed with the enemy flag set: `Snake`, `Ptero`, `Frog`, `Yeti`,
`Mushroom`, `Mammoth`. -/
def Entity.isEnemyKind : Entity → Bool
  | .snake _ => true
  | .ptero _ => true
  | .frog _ => true
  | .yeti _ => true
  | .mushroom _ => true
  | .mammoth _ => true
  | _ => false

/-- The collectible classes: `Gem100` and `GemL`. -/
def Entity.isCollectibleKind : Entity → Bool
  | .gem100 _ => true
  | .gemL _ => true
  | _ => false

/-! ### Projectile retirement -/

/-- `Spore::cleanup` (Source.cpp lines 968-974), for the spore at address `this`.  The result
is `none` when the `erase` would be given a position outside the vector. -/
def Spore.cleanup (s : Spore) (this : ObjPtr) (hazards : List ObjPtr) :
    Option (Spore × List ObjPtr) :=
  let s1 : Spore := { s with toObject := { s.toObject with m_exists := false } }
  if getIndex hazards this ≠ -1 then
    (vectorErase hazards (getIndex hazards this)).map fun hz => (s1, hz)
  else some (s1, hazards)

/-- `Snowball::cleanup` (Source.cpp lines 1033-1039), for the snowball at address `this`. -/
def Snowball.cleanup (s : Snowball) (this : ObjPtr) (hazards : List ObjPtr) :
    Option (Snowball × List ObjPtr) :=
  let s1 : Snowball := { s with toObject := { s.toObject with m_exists := false } }
  if getIndex hazards this ≠ -1 then
    (vectorErase hazards (getIndex hazards this)).map fun hz => (s1, hz)
  else some (s1, hazards)

/-! ## Player: horizontal move -/

/-- The data members of `class Player` (Source.cpp lines 206-220); the `double` speeds are
rationals. -/
structure Player where
  m_x : Int
  m_y : Int
  m_frame : Int
  m_flip : Int
  m_hspd : ℚ
  m_vspd : ℚ
  m_rect : SDL_Rect
  m_grounded : Bool
  m_jumping : Bool
  v_x : Int
  v_y : Int
deriving DecidableEq, Repr

/-- Conversion of a `double` to `int`: truncation toward zero. -/
def doubleToInt (q : ℚ) : Int := if 0 ≤ q then ⌊q⌋ else ⌈q⌉

/-- The step argument `spd / abs(spd)` converted to `int`, as passed to `align`.  For
`spd = 0` the quotient is not a number and its conversion to `int` is undefined in the source;
`nan` is the value the platform produces there. -/
def signStep (nan : Int) (spd : ℚ) : Int :=
  if spd = 0 then nan else doubleToInt (spd / |spd|)

/-- One iteration of the loop at Source.cpp lines 313-320 against the rectangle `right` of one
solid: `if (align(m_rect, right, m_hspd / abs(m_hspd), 0)) m_hspd = 0; m_x = m_rect.x;`. -/
def Player.alignX (fuel : Nat) (nan : Int) (p : Player) (right : SDL_Rect) : Option Player :=
  match align fuel p.m_rect right (signStep nan p.m_hspd) 0 with
  | none => none
  | some (rect, hit) =>
    let p1 : Player := { p with m_rect := rect }
    let p2 : Player := if hit then { p1 with m_hspd := 0 } else p1
    some { p2 with m_x := p2.m_rect.x }

/-- The loop at Source.cpp lines 313-320 over the rectangles (`getRect()`) of the active
solids, in order. -/
def Player.alignXAll (fuel : Nat) (nan : Int) : Player → List SDL_Rect → Option Player
  | p, [] => some p
  | p, right :: rest => (p.alignX fuel nan right).bind fun p1 => Player.alignXAll fuel nan p1 rest

/-- The horizontal move of `Player::update` (Source.cpp lines 310-320): `m_x += m_hspd`, the
rectangle is rebuilt, then the player is aligned against every active solid.  `fuel` is the
budget of each `align` call.  The sum is taken exactly; `Player.moveXRounded` rounds it to
the nearest `double` first, as the machine does. -/
def Player.moveX (fuel : Nat) (nan : Int) (p : Player) (solids : List SDL_Rect) : Option Player :=
  let x : Int := doubleToInt ((p.m_x : ℚ) + p.m_hspd)
  Player.alignXAll fuel nan { p with m_x := x, m_rect := ⟨x, p.m_y, 28, 32⟩ } solids

/-! ## Active-set maintenance in `play` -/

/-- `const int screenw{ 640 }`. -/
def screenw : Int := 640

/-- `const int screenh{ 416 }`. -/
def screenh : Int := 416

/-- `const int viewRangeH{ 10 }`. -/
def viewRangeH : Int := 10

/-- `const int viewRangeV{ 8 }`. -/
def viewRangeV : Int := 8

/-- The level grid `std::vector<std::vector<Object*>>`; `none` is a null pointer. -/
abbrev Level := List (List (Option ObjPtr))

/-- The part of the state of `play` that active-set maintenance reads and writes: the entities
on the heap, the six pointer vectors and the tracking variables.  `resetLog` is a ghost
variable recording, in order, the address of every entity on which `reset()` was invoked. -/
structure PlayState where
  heap : ObjPtr → Entity
  instances : List ObjPtr
  solids : List ObjPtr
  hazards : List ObjPtr
  enemies : List ObjPtr
  collectibles : List ObjPtr
  protQueue : List ObjPtr
  lastgridx : Int
  lastgridy : Int
  first : Bool
  resetLog : List ObjPtr

/-- Store `e` at address `q`. -/
def heapSet (heap : ObjPtr → Entity) (q : ObjPtr) (e : Entity) : ObjPtr → Entity :=
  fun r => if r = q then e else heap r

/-- The call `q->reset()`. -/
def PlayState.resetAt (s : PlayState) (q : ObjPtr) : PlayState :=
  { s with heap := heapSet s.heap q (s.heap q).reset, resetLog := s.resetLog ++ [q] }

/-- `groupInstance` (Source.cpp lines 1442-1453). -/
def groupInstance (ptr : ObjPtr) (s : PlayState) : PlayState :=
  let o := (s.heap ptr).toObject
  let s1 : PlayState := { s with instances := s.instances ++ [ptr] }
  let s2 : PlayState := if o.m_solid then { s1 with solids := s1.solids ++ [ptr] } else s1
  let s3 : PlayState := if o.m_hazard then { s2 with hazards := s2.hazards ++ [ptr] } else s2
  let s4 : PlayState := if o.m_enemy then { s3 with enemies := s3.enemies ++ [ptr] } else s3
  if o.m_collectible then { s4 with collectibles := s4.collectibles ++ [ptr] } else s4

/-- The tracked tile column at the start of a frame (Source.cpp lines 1557, 1560-1563). -/
def newGridX (s : PlayState) (player : Player) : Int :=
  if !s.first && (player.v_x == Int.tdiv screenw 2 || decide (s.lastgridx < 0)) then
    Int.tdiv player.m_x 32
  else s.lastgridx

/-- The tracked tile row at the start of a frame (Source.cpp lines 1558, 1564-1565). -/
def newGridY (s : PlayState) (player : Player) : Int :=
  if !s.first && (player.v_y == Int.tdiv screenh 2 + 64 || decide (s.lastgridy < 0)) then
    Int.tdiv player.m_y 32
  else s.lastgridy

/-- The body of the loop "fill protected queue" (Source.cpp lines 1570-1573) for one member
`inst` of `instances`. -/
def fillStep (st : PlayState) (inst : ObjPtr) : PlayState :=
  if (st.heap inst).toObject.m_protected && decide (getIndex st.protQueue inst = -1)
  then { st with protQueue := st.protQueue ++ [inst] } else st

/-- The loop "fill protected queue" (Source.cpp lines 1569-1573). -/
def fillProtQueue (s : PlayState) : PlayState :=
  s.instances.foldl fillStep s

/-- Conversion of an `int` to `size_t` (64 bits), as happens when an `int` is compared with or
used as an index next to `vector::size()`. -/
def toSizeT (i : Int) : Nat := (i % 2 ^ 64).toNat

/-- The integers `lo, lo + 1, ..., hi - 1`: the values taken by the counter of
`for (int c{ lo }; c < hi; c++)`. -/
def intRange (lo hi : Int) : List Int :=
  (List.range (hi - lo).toNat).map fun k => lo + (k : Int)

/-- The body of the inner window loop (Source.cpp lines 1592-1598) for the row vector `row`
and the column offset `x`.  `none` is an index outside the row. -/
def scanCell (row : List (Option ObjPtr)) (newgridx x : Int) (s : PlayState) : Option PlayState :=
  if toSizeT (newgridx + x) > toSizeT ((row.length : Int) - 1) ∨ newgridx + x < 0 then some s
  else
    match row.get? (toSizeT (newgridx + x)) with
    | none => none
    | some none => some s
    | some (some ptr) => some (groupInstance ptr s)

/-- The inner window loop over the column offsets `xs`. -/
def scanCells (row : List (Option ObjPtr)) (newgridx : Int) : List Int → PlayState → Option PlayState
  | [], s => some s
  | x :: xs, s => (scanCell row newgridx x s).bind fun s1 => scanCells row newgridx xs s1

/-- The body of the outer window loop (Source.cpp lines 1588-1600) for the row offset `y`.
`none` is a failed `level.at` or an index outside a row. -/
def scanRow (level : Level) (newgridx newgridy y : Int) (s : PlayState) : Option PlayState :=
  if toSizeT (newgridy + y) > toSizeT ((level.length : Int) - 1) ∨ newgridy + y < 0 then some s
  else
    match level.get? (toSizeT (newgridy + y)) with
    | none => none
    | some row => scanCells row newgridx (intRange (-viewRangeH) (viewRangeH + 1)) s

/-- The outer window loop over the row offsets `ys`. -/
def scanRows (level : Level) (newgridx newgridy : Int) : List Int → PlayState → Option PlayState
  | [], s => some s
  | y :: ys, s => (scanRow level newgridx newgridy y s).bind fun s1 =>
      scanRows level newgridx newgridy ys s1

/-- The body of the loop over the protected queue after the window scan (Source.cpp lines
1603-1606) for one queue member `ptr`. -/
def addProtectedStep (st : PlayState) (ptr : ObjPtr) : PlayState :=
  if getIndex st.instances ptr = -1 then groupInstance ptr st else st

/-- The loop over the protected queue after the window scan (Source.cpp lines 1601-1607). -/
def addProtected (s : PlayState) : PlayState :=
  s.protQueue.foldl addProtectedStep s

/-- The body of the loop over the previous instances (Source.cpp lines 1609-1610) for one
member `inst` of the previous `instances`. -/
def resetDepartedStep (st : PlayState) (inst : ObjPtr) : PlayState :=
  if getIndex st.instances inst = -1 then st.resetAt inst else st

/-- The loop over the previous instances (Source.cpp lines 1608-1610). -/
def resetDeparted (lastInstances : List ObjPtr) (s : PlayState) : PlayState :=
  lastInstances.foldl resetDepartedStep s

/-- The window rebuild (Source.cpp lines 1577-1610). -/
def rebuild (level : Level) (newgridx newgridy : Int) (s : PlayState) : Option PlayState :=
  let lastInstances := s.instances
  let s0 : PlayState :=
    { s with instances := [], solids := [], hazards := [], enemies := [], collectibles := [] }
  (scanRows level newgridx newgridy (intRange (-viewRangeV) (viewRangeV + 1)) s0).map fun s1 =>
    resetDeparted lastInstances (addProtected s1)

/-- The test "check if should be loaded" (Source.cpp lines 1617-1620) on the spawn position of
an entity. -/
def outsideEnlargedWindow (o : Object) (newgridx newgridy : Int) : Bool :=
  let igridx := Int.tdiv o.m_startx 32
  let igridy := Int.tdiv o.m_starty 32
  decide (igridx < newgridx - viewRangeH - 1) || decide (igridx > newgridx + viewRangeH)
    || decide (igridy < newgridy - viewRangeV) || decide (igridy > newgridy + viewRangeV)

/-- The eviction of queue member `q` (Source.cpp lines 1623-1632).  `none` is an `erase` at a
position outside its vector. -/
def evict (s : PlayState) (q : ObjPtr) : Option PlayState :=
  let s1 := s.resetAt q
  let o := (s1.heap q).toObject
  (vectorErase s1.instances (getIndex s1.instances q)).bind fun instances =>
  (if o.m_solid then vectorErase s1.solids (getIndex s1.solids q) else some s1.solids).bind
    fun solids =>
  (if o.m_hazard then vectorErase s1.hazards (getIndex s1.hazards q) else some s1.hazards).bind
    fun hazards =>
  (if o.m_enemy then vectorErase s1.enemies (getIndex s1.enemies q) else some s1.enemies).bind
    fun enemies =>
  (if o.m_collectible then vectorErase s1.collectibles (getIndex s1.collectibles q)
    else some s1.collectibles).bind fun collectibles =>
  some { s1 with instances := instances, solids := solids, hazards := hazards,
                 enemies := enemies, collectibles := collectibles }

/-- The loop "protected queue cleanup" (Source.cpp lines 1614-1635).  The queue is
`kept ++ remaining` throughout, the loop index `i` being `kept.length`: an entry that is
erased (`erase(begin() + i--)`) is dropped from the front of `remaining`, an entry that is
passed over moves to the end of `kept`. -/
def cleanupLoop (newgridx newgridy : Int) : List ObjPtr → List ObjPtr → PlayState → Option PlayState
  | [], kept, s => some { s with protQueue := kept }
  | q :: remaining, kept, s =>
    if !(s.heap q).toObject.m_protected then
      if outsideEnlargedWindow (s.heap q).toObject newgridx newgridy then
        (evict s q).bind fun s1 => cleanupLoop newgridx newgridy remaining kept s1
      else cleanupLoop newgridx newgridy remaining kept s
    else cleanupLoop newgridx newgridy remaining (kept ++ [q]) s

/-- Whether the window is rebuilt in this frame (Source.cpp line 1575). -/
def rebuilds (newgridx newgridy : Int) (s : PlayState) : Bool :=
  decide (newgridx ≠ s.lastgridx) || decide (newgridy ≠ s.lastgridy) || s.first

/-- Active-set maintenance of one frame (Source.cpp lines 1569-1637): protect-queue fill,
window rebuild when the tracked tile changed, protect-queue cleanup, `first = false`. -/
def maintain (level : Level) (newgridx newgridy : Int) (s : PlayState) : Option PlayState :=
  let s1 := fillProtQueue s
  (if rebuilds newgridx newgridy s1 then rebuild level newgridx newgridy s1 else some s1).bind
    fun s2 =>
  (cleanupLoop newgridx newgridy s2.protQueue [] s2).map fun s3 => { s3 with first := false }

/-- The entity at `q` is in `instances` and in every category vector that its capability flags
select: the state in which `groupInstance` leaves an entity. -/
def Grouped (s : PlayState) (q : ObjPtr) : Prop :=
  q ∈ s.instances ∧
  ((s.heap q).toObject.m_solid = true → q ∈ s.solids) ∧
  ((s.heap q).toObject.m_hazard = true → q ∈ s.hazards) ∧
  ((s.heap q).toObject.m_enemy = true → q ∈ s.enemies) ∧
  ((s.heap q).toObject.m_collectible = true → q ∈ s.collectibles)

/-- The level grid is one on which the window scan cannot leave a vector: it has a row, no row
is empty, and the sizes fit `size_t`. -/
def Level.Scannable (level : Level) : Prop :=
  level ≠ [] ∧ level.length < 2 ^ 64 ∧ ∀ row ∈ level, row ≠ [] ∧ row.length < 2 ^ 64

/-! ### An example frame -/

/-- Example heap: at address 1 a plant spawned at tile (0, 0) that is protected because it owns
a spore in flight (at address 9); at every other address a wall spawned at tile (0, 15). -/
def exampleHeap : ObjPtr → Entity := fun q =>
  if q = 1 then
    .plant ⟨{ Object.mk0 0 0 0 0 32 32 false false false false with m_protected := true }, 5,
      [(9, ⟨Object.mk0 0 0 8 8 16 16 false true false false, 0, -10⟩)]⟩
  else .wall ⟨Object.mk0 0 0 480 0 32 32 true false false false, false, [true, true, true, true]⟩

/-- Example level: one row of 40 slots holding the plant in column 0 and the wall in
column 15. -/
def exampleLevel : Level :=
  [((List.replicate 40 none).set 0 (some 1)).set 15 (some 2)]

/-- Example state at the start of a frame: the window was centred on column 10 and held only
the plant; its spore is in the hazards list. -/
def exampleState : PlayState :=
  { heap := exampleHeap, instances := [1], solids := [], hazards := [9], enemies := [],
    collectibles := [], protQueue := [], lastgridx := 10, lastgridy := 0, first := false,
    resetLog := [] }

/-- The state after maintenance of the example frame when the tracked column moved to 12: the
window now spans columns 2 to 22, the wall was loaded and the plant was kept. -/
def exampleStateAfter : PlayState :=
  { heap := exampleHeap, instances := [2, 1], solids := [2], hazards := [], enemies := [],
    collectibles := [], protQueue := [1], lastgridx := 10, lastgridy := 0, first := false,
    resetLog := [] }

/-- Whether the cleanup loop evicts queue member `q`: its protected flag is off
(Source.cpp line 1615) and its spawn tile lies outside the enlarged window (line 1620). -/
def evictable (heap : ObjPtr → Entity) (newgridx newgridy : Int) (q : ObjPtr) : Bool :=
  !(heap q).toObject.m_protected && outsideEnlargedWindow (heap q).toObject newgridx newgridy

/-- Erase from `l` the first occurrence of each member of `qs`, in order: the effect of the
successive `erase(begin() + getIndex(..))` calls of the evictions on one vector. -/
def eraseAll (l qs : List ObjPtr) : List ObjPtr := qs.foldl List.erase l

/-- Active-set maintenance up to the start of the protect-queue cleanup (Source.cpp lines
1569-1611): protect-queue fill, then the window rebuild when the tracked tile changed. -/
def beforeCleanup (level : Level) (newgridx newgridy : Int) (s : PlayState) : Option PlayState :=
  let s1 := fillProtQueue s
  if rebuilds newgridx newgridy s1 then rebuild level newgridx newgridy s1 else some s1

/-- The entity at `e` is filed at most once: it occurs at most once in `instances` and in each
category vector, and in a category vector only if the matching capability flag is set. -/
def FiledOnce (s : PlayState) (e : ObjPtr) : Prop :=
  s.instances.count e ≤ 1 ∧
  s.solids.count e ≤ (if (s.heap e).toObject.m_solid then 1 else 0) ∧
  s.hazards.count e ≤ (if (s.heap e).toObject.m_hazard then 1 else 0) ∧
  s.enemies.count e ≤ (if (s.heap e).toObject.m_enemy then 1 else 0) ∧
  s.collectibles.count e ≤ (if (s.heap e).toObject.m_collectible then 1 else 0)

/-- Example heap of an eviction frame: at address 3 a snake spawned at tile (0, 0) that was
killed at `m_x = 40` and is no longer protected; at every other address a wall spawned at
tile (0, 15). -/
def evictionHeap : ObjPtr → Entity := fun q =>
  if q = 3 then
    .snake ⟨{ Object.mk0 0 0 0 0 16 32 false true true false with
      m_x := 40, m_rect := ⟨40, 0, 16, 32⟩, m_exists := false }, -2, true⟩
  else .wall ⟨Object.mk0 0 0 480 0 32 32 true false false false, false, [true, true, true, true]⟩

/-- Example state at the start of a frame in which the tracked tile (12, 0) did not change:
the dead snake is still in the window vectors and in the protect queue. -/
def evictionState : PlayState :=
  { heap := evictionHeap, instances := [3, 2], solids := [2], hazards := [3], enemies := [3],
    collectibles := [], protQueue := [3], lastgridx := 12, lastgridy := 0, first := false,
    resetLog := [] }

/-- The state after maintenance of the eviction frame: the snake was reset and removed. -/
def evictionStateAfter : PlayState :=
  { heap := heapSet evictionHeap 3 (evictionHeap 3).reset, instances := [2], solids := [2],
    hazards := [], enemies := [], collectibles := [], protQueue := [], lastgridx := 12,
    lastgridy := 0, first := false, resetLog := [3] }

/-! ## Thin ice -/

/-- The test "player standing on this block" of `ThinIce::update` (Source.cpp line 603); the
divisions are `int` divisions. -/
def ThinIce.playerOnTop (s : ThinIce) (p : Player) : Bool :=
  decide (Int.tdiv (p.m_x + 14) 32 = Int.tdiv s.m_x 32) &&
    decide (Int.tdiv p.m_y 32 = Int.tdiv s.m_y 32 - 1)

/-- `ThinIce::update` (Source.cpp lines 562-610) for the tile at address `this`, at frame
clock `g_count`, without the draw call: the new tile state and the new hazards list.
`std::find` reaching `hazards->end()` is `this ∉ hazards`, and `hazards->erase(i)` removes the
first occurrence. -/
def ThinIce.update (s : ThinIce) (this : ObjPtr) (g_count : Int) (p : Player)
    (hazards : List ObjPtr) : ThinIce × List ObjPtr :=
  if s.m_cracks = 40 then
    if s.m_timerBase = -1 then
      ({ s with
          m_timerBase := g_count
          m_frameThinIce := 4
          toObject := { s.toObject with
            m_rect := { s.m_rect with y := s.m_rect.y + 3, h := 29 } } },
        hazards)
    else if g_count - s.m_timerBase < 100 then
      ({ s with
          m_frameThinIce :=
            if Int.tmod g_count 40 = 0 then 5
            else if Int.tmod g_count 40 = 20 then 4 else s.m_frameThinIce },
        if this ∈ hazards then hazards else hazards ++ [this])
    else if this ∈ hazards then
      ({ s with
          m_timerBase := -1
          m_frameThinIce := 0
          m_cracks := 0
          toObject := { s.toObject with
            m_rect := { s.m_rect with y := s.m_rect.y - 3, h := 32 } } },
        hazards.erase this)
    else (s, hazards)
  else
    let s1 : ThinIce := { s with m_frameThinIce := Int.tdiv s.m_cracks 10 }
    if s1.playerOnTop p then ({ s1 with m_cracks := s1.m_cracks + 1 }, hazards)
    else if Int.tmod g_count 20 = 0 ∧ s1.m_cracks > 0 then
      ({ s1 with m_cracks := s1.m_cracks - 1 }, hazards)
    else (s1, hazards)

/-- The first `n` of a run of consecutive `ThinIce::update` calls on the tile at `this`: call
number `k` (from 0) runs at frame clock `g0 + k` and sees the player `player k`; nothing else
touches the hazards list between the calls. -/
def ThinIce.updates (this : ObjPtr) (g0 : Int) (player : Nat → Player) :
    Nat → ThinIce × List ObjPtr → ThinIce × List ObjPtr
  | 0, st => st
  | n + 1, st =>
    let st1 := ThinIce.updates this g0 player n st
    st1.1.update this (g0 + n) (player n) st1.2

/-! ## Construction of the level entities -/

/-- `Wall::Wall(x, y, ren)` (Source.cpp lines 425-427). -/
def Wall.new (vx vy x y : Int) : Wall :=
  { toObject := Object.mk0 vx vy x y 32 32 true false false false,
    m_check := false, m_adjacent := [true, true, true, true] }

/-- `Water::Water(x, y, ren)` (Source.cpp lines 480-482). -/
def Water.new (vx vy x y : Int) : Water :=
  { toObject := Object.mk0 vx vy x (y + 3) 32 29 false true false false,
    m_check := false, m_top := true }

/-- `Thorns::Thorns(x, y, ren)` (Source.cpp lines 516-518). -/
def Thorns.new (vx vy x y : Int) : Thorns :=
  { toObject := Object.mk0 vx vy x (y + 3) 32 29 false true false false }

/-- `Ice::Ice(x, y, ren)` (Source.cpp lines 533-537). -/
def Ice.new (vx vy x y : Int) : Ice :=
  { toObject := { Object.mk0 vx vy x y 32 32 true false false false with m_traction := 1 / 10 } }

/-- `ThinIce::ThinIce(x, y, ren)` (Source.cpp lines 557-561). -/
def ThinIce.new (vx vy x y : Int) : ThinIce :=
  { toObject := { Object.mk0 vx vy x y 32 32 true false false false with m_traction := 1 / 10 },
    m_cracks := 0, m_timerBase := -1, m_frameThinIce := 0 }

/-- `Scenery3::Scenery3(x, y, ren, imageSet)` (Source.cpp lines 634-636), as called by `Tree`
and `Flower`. -/
def Scenery3.new (vx vy x y : Int) : Scenery3 :=
  { toObject := Object.mk0 vx vy x y 32 32 false false false false,
    m_type := 0, m_check := false }

/-- `Snake::Snake(x, y, ren)` (Source.cpp lines 684-686). -/
def Snake.new (vx vy x y : Int) : Snake :=
  { toObject := Object.mk0 vx vy x y 16 32 false true true false, m_hspd := 2, m_flip := false }

/-- `Ptero::Ptero(x, y, ren)` (Source.cpp lines 743-752): `m_hspd{ m_interval / 2 * m_acc }`. -/
def Ptero.new (vx vy x y : Int) : Ptero :=
  { toObject := Object.mk0 vx vy x y 32 32 false true true false,
    m_timerBase := -1, m_interval := 80, m_acc := -(1 / 8),
    m_hspd := ((Int.tdiv 80 2 : Int) : ℚ) * -(1 / 8), m_flip := false }

/-- `Frog::Frog(x, y, ren)` (Source.cpp lines 813-821). -/
def Frog.new (vx vy x y : Int) : Frog :=
  { toObject := Object.mk0 vx vy x y 32 32 false true true false,
    m_timerBase := -1, m_hspd := 0, m_vspd := 0, m_grounded := true }

/-- `Plant::Plant(x, y, ren)` (Source.cpp lines 1048-1054). -/
def Plant.new (vx vy x y : Int) : Plant :=
  { toObject := Object.mk0 vx vy x y 32 32 false false false false,
    m_timerBase := -1, m_spores := [] }

/-- `Spit::Spit(x, y, ren)` (Source.cpp lines 1114-1121). -/
def Spit.new (vx vy x y : Int) : Spit :=
  { toObject := Object.mk0 vx vy x y 32 32 false false false false,
    m_timerBase := -1, m_shake := -1, m_spores := [] }

/-- `Yeti::Yeti(x, y, ren)` (Source.cpp lines 1203-1209). -/
def Yeti.new (vx vy x y : Int) : Yeti :=
  { toObject := Object.mk0 vx vy x y 32 32 false true true false,
    m_timerBase := -1, m_snowballs := [] }

/-- `Mushroom::Mushroom(x, y, ren)` (Source.cpp lines 1272-1277). -/
def Mushroom.new (vx vy x y : Int) : Mushroom :=
  { toObject := Object.mk0 vx vy x (y + 4) 32 28 false false true false, m_timerBase := -1 }

/-- `Gem100::Gem100(x, y, ren)` (Source.cpp lines 1306-1308). -/
def Gem100.new (vx vy x y : Int) : Gem100 :=
  { toObject := Object.mk0 vx vy (x + 8) (y + 8) 16 16 false false false true }

/-- `GemL::GemL(x, y, ren)` (Source.cpp lines 1338-1340). -/
def GemL.new (vx vy x y : Int) : GemL :=
  { toObject := Object.mk0 vx vy (x + 8) (y + 8) 16 16 false false false true }

/-- `Mammoth::Mammoth(x, y, ren)` (Source.cpp lines 1369-1375). -/
def Mammoth.new (vx vy x y : Int) : Mammoth :=
  { toObject := Object.mk0 vx vy x (y + 18) 64 44 false true true false,
    m_hspd := 1, m_flip := false }

/-- `Object::setFrame(i)` (Source.cpp lines 190-193) on a wall. -/
def Wall.setFrame (s : Wall) (i : Int) : Wall := { s with toObject := { s.toObject with m_frame := i } }

/-- `Object::setFrame(i)` (Source.cpp lines 190-193) on thorns. -/
def Thorns.setFrame (s : Thorns) (i : Int) : Thorns :=
  { s with toObject := { s.toObject with m_frame := i } }

/-- The pointer `ptr` that level construction in `main` stores for the tile code `code` at
column `x`, row `y` (Source.cpp lines 2040-2124): the switch over `tileSet` and the tile code.
`none` is the null pointer of an unmapped code or tileset. -/
def construct (vx vy : Int) (tileSet code : Int) (x y : Int) : Option Entity :=
  if tileSet = 0 then
    if code = 1 then some (.wall ((Wall.new vx vy (x * 32) (y * 32)).setFrame (tileSet * 5)))
    else if code = 2 then some (.water (Water.new vx vy (x * 32) (y * 32)))
    else if code = 3 then some (.thorns ((Thorns.new vx vy (x * 32) (y * 32)).setFrame tileSet))
    else if code = 4 then some (.gem100 (Gem100.new vx vy (x * 32) (y * 32)))
    else if code = 5 then some (.gemL (GemL.new vx vy (x * 32) (y * 32)))
    else if code = 6 then some (.snake (Snake.new vx vy (x * 32) (y * 32)))
    else if code = 7 then some (.ptero (Ptero.new vx vy (x * 32) (y * 32)))
    else if code = 8 then some (.plant (Plant.new vx vy (x * 32) (y * 32)))
    else if code = 9 then some (.spit (Spit.new vx vy (x * 32) (y * 32)))
    else if code = 10 then some (.mushroom (Mushroom.new vx vy (x * 32) (y * 32)))
    else if code = 11 then some (.tree (Scenery3.new vx vy (x * 32) (y * 32)))
    else if code = 12 then some (.flower (Scenery3.new vx vy (x * 32) (y * 32)))
    else if code = 13 then some (.frog (Frog.new vx vy (x * 32) (y * 32)))
    else none
  else if tileSet = 1 then
    if code = 1 then some (.wall ((Wall.new vx vy (x * 32) (y * 32)).setFrame (tileSet * 5)))
    else if code = 2 then some (.water (Water.new vx vy (x * 32) (y * 32)))
    else if code = 3 then some (.thorns ((Thorns.new vx vy (x * 32) (y * 32)).setFrame tileSet))
    else if code = 4 then some (.gem100 (Gem100.new vx vy (x * 32) (y * 32)))
    else if code = 5 then some (.gemL (GemL.new vx vy (x * 32) (y * 32)))
    else if code = 6 then some (.ice (Ice.new vx vy (x * 32) (y * 32)))
    else if code = 7 then some (.thinIce (ThinIce.new vx vy (x * 32) (y * 32)))
    else if code = 8 then some (.mammoth (Mammoth.new vx vy (x * 32) (y * 32)))
    else if code = 9 then some (.yeti (Yeti.new vx vy (x * 32) (y * 32)))
    else none
  else none

/-- The offset that the constructor of each class adds to the tile corner it is given, fitting
the hitbox to the sprite. -/
def Entity.spawnOffset : Entity → Int × Int
  | .water _ => (0, 3)
  | .thorns _ => (0, 3)
  | .gem100 _ => (8, 8)
  | .gemL _ => (8, 8)
  | .mushroom _ => (0, 4)
  | .mammoth _ => (0, 18)
  | _ => (0, 0)

/-! ## Player: the whole update -/

/-- The keyboard state read through `keys[SDL_SCANCODE_...]`. -/
structure Keys where
  escape : Bool
  a : Bool
  left : Bool
  d : Bool
  right : Bool
  w : Bool
  space : Bool
  up : Bool
deriving DecidableEq, Repr

/-- The process-wide variables `g_count`, `g_lives`, `g_score`, `g_levelW`, `g_levelH`
(Source.cpp lines 23-27). -/
structure Globals where
  g_count : Int
  g_lives : Int
  g_score : Int
  g_levelW : Int
  g_levelH : Int
deriving DecidableEq, Repr

/-- Apply `f` to the `Object` sub-object of an entity, whatever its class. -/
def Entity.mapObject (f : Object → Object) : Entity → Entity
  | .wall s => .wall { s with toObject := f s.toObject }
  | .water s => .water { s with toObject := f s.toObject }
  | .thorns s => .thorns { s with toObject := f s.toObject }
  | .ice s => .ice { s with toObject := f s.toObject }
  | .thinIce s => .thinIce { s with toObject := f s.toObject }
  | .tree s => .tree { s with toObject := f s.toObject }
  | .flower s => .flower { s with toObject := f s.toObject }
  | .snake s => .snake { s with toObject := f s.toObject }
  | .ptero s => .ptero { s with toObject := f s.toObject }
  | .frog s => .frog { s with toObject := f s.toObject }
  | .plant s => .plant { s with toObject := f s.toObject }
  | .spit s => .spit { s with toObject := f s.toObject }
  | .yeti s => .yeti { s with toObject := f s.toObject }
  | .mushroom s => .mushroom { s with toObject := f s.toObject }
  | .gem100 s => .gem100 { s with toObject := f s.toObject }
  | .gemL s => .gemL { s with toObject := f s.toObject }
  | .mammoth s => .mammoth { s with toObject := f s.toObject }

/-- The assignment `ptr->m_exists = b`. -/
def Entity.setExists (e : Entity) (b : Bool) : Entity :=
  e.mapObject fun o => { o with m_exists := b }

/-- Virtual dispatch of `action()`: `Object::action` does nothing (Source.cpp lines 188-189);
`Snake` and `Mammoth` add 50 to the score, `Ptero`, `Frog` and `Gem100` add 100, `GemL` adds a
life. -/
def Entity.action : Entity → Globals → Globals
  | .snake _, g => { g with g_score := g.g_score + 50 }
  | .ptero _, g => { g with g_score := g.g_score + 100 }
  | .frog _, g => { g with g_score := g.g_score + 100 }
  | .gem100 _, g => { g with g_score := g.g_score + 100 }
  | .gemL _, g => { g with g_lives := g.g_lives + 1 }
  | .mammoth _, g => { g with g_score := g.g_score + 50 }
  | _, g => g

/-- The test `className == "class Ice" || className == "class ThinIce"` on the dynamic type
(Source.cpp lines 248-249). -/
def Entity.isIcy : Entity → Bool
  | .ice _ => true
  | .thinIce _ => true
  | _ => false

/-- The `Object` part of whatever lives at address `q`: one of the live projectiles, which are
owned by their spawner and given here with their addresses, or else the grid entity on the
heap. -/
def derefObject (heap : ObjPtr → Entity) (projectiles : List (ObjPtr × Object)) (q : ObjPtr) :
    Object :=
  match projectiles.lookup q with
  | some o => o
  | none => (heap q).toObject

/-- The locals `m_grounded`, `acc` and `slide` computed by the grounded probe. -/
structure GroundProbe where
  m_grounded : Bool
  acc : ℚ
  slide : Bool
deriving DecidableEq, Repr

/-- The body of the grounded-probe loop (Source.cpp lines 242-253) for one solid, `rect` being
the player rectangle shifted down by one. -/
def groundProbeStep (rect : SDL_Rect) (heap : ObjPtr → Entity) (st : GroundProbe)
    (q : ObjPtr) : GroundProbe :=
  if collided rect (heap q).toObject.m_rect then
    { m_grounded := true, acc := (heap q).toObject.m_traction,
      slide := st.slide || (heap q).isIcy }
  else st

/-- The grounded probe (Source.cpp lines 234-255): `acc` starts at 0.25, `slide` at false. -/
def Player.groundProbe (p : Player) (heap : ObjPtr → Entity) (solids : List ObjPtr) :
    GroundProbe :=
  solids.foldl (groundProbeStep { p.m_rect with y := p.m_rect.y + 1 } heap)
    { m_grounded := false, acc := 1 / 4, slide := false }

/-- The horizontal controls (Source.cpp lines 259-285), with `maxSpd = 4`. -/
def Player.horizontalInput (keys : Keys) (gp : GroundProbe) (p : Player) : Player :=
  let p1 : Player :=
    if keys.a || keys.left then
      let q : Player := { p with m_flip := 1 }
      if q.m_hspd > -4 then { q with m_hspd := q.m_hspd - gp.acc } else q
    else if keys.d || keys.right then
      let q : Player := { p with m_flip := 0 }
      if q.m_hspd < 4 then { q with m_hspd := q.m_hspd + gp.acc } else q
    else if p.m_hspd ≠ 0 then
      let h1 : ℚ :=
        if gp.m_grounded && !gp.slide then p.m_hspd - gp.acc * p.m_hspd / |p.m_hspd|
        else p.m_hspd
      let h2 : ℚ := if !gp.m_grounded then h1 - gp.acc / 3 * h1 / |h1| else h1
      let h3 : ℚ := if |h2| < gp.acc then 0 else h2
      { p with m_hspd := h3 }
    else p
  if |p1.m_hspd| > 4 then { p1 with m_hspd := 4 * p1.m_hspd / |p1.m_hspd| } else p1

/-- The jump controls (Source.cpp lines 286-303), without the sound calls. -/
def Player.jumpInput (keys : Keys) (p : Player) : Player :=
  let p1 : Player :=
    if keys.w || keys.space || keys.up then
      if p.m_grounded then { p with m_jumping := true, m_vspd := -10 } else p
    else if p.m_jumping then { p with m_jumping := false, m_vspd := p.m_vspd * (1 / 2) }
    else p
  if p1.m_jumping && decide (p1.m_vspd > 0) then { p1 with m_jumping := false } else p1

/-- One iteration of the loop at Source.cpp lines 324-331 against the rectangle `right` of one
solid: `if (align(m_rect, right, 0, m_vspd / abs(m_vspd))) m_vspd = 0; m_y = m_rect.y;`. -/
def Player.alignY (fuel : Nat) (nan : Int) (p : Player) (right : SDL_Rect) : Option Player :=
  match align fuel p.m_rect right 0 (signStep nan p.m_vspd) with
  | none => none
  | some (rect, hit) =>
    let p1 : Player := { p with m_rect := rect }
    let p2 : Player := if hit then { p1 with m_vspd := 0 } else p1
    some { p2 with m_y := p2.m_rect.y }

/-- The loop at Source.cpp lines 324-331 over the rectangles of the active solids. -/
def Player.alignYAll (fuel : Nat) (nan : Int) : Player → List SDL_Rect → Option Player
  | p, [] => some p
  | p, right :: rest => (p.alignY fuel nan right).bind fun p1 => Player.alignYAll fuel nan p1 rest

/-- The vertical move of `Player::update` (Source.cpp lines 322-331). -/
def Player.moveY (fuel : Nat) (nan : Int) (p : Player) (solids : List SDL_Rect) : Option Player :=
  let y : Int := doubleToInt ((p.m_y : ℚ) + p.m_vspd)
  Player.alignYAll fuel nan { p with m_y := y, m_rect := ⟨p.m_x, y, 28, 32⟩ } solids

/-- The level boundary checks (Source.cpp lines 334-338) on the result code so far. -/
def boundsResult (gl : Globals) (p : Player) (result : Int) : Int :=
  let r1 : Int := if p.m_y > gl.g_levelH * 32 then -1 else result
  if p.m_x > gl.g_levelW * 32 then 1 else r1

/-- `Player::update` from its start to the level boundary checks (Source.cpp lines 232-338):
grounded probe, quit check, controls, gravity, horizontal and vertical move, boundary checks.
The result is the player and the result code so far; `none` means that an `align` call did not
return within `fuel` loop tests. -/
def Player.beforeContacts (fuel : Nat) (nan : Int) (keys : Keys) (gl : Globals)
    (heap : ObjPtr → Entity) (solids : List ObjPtr) (p : Player) : Option (Player × Int) :=
  let gp := p.groundProbe heap solids
  let p1 : Player := { p with m_grounded := gp.m_grounded }
  let result : Int := if keys.escape then -2 else 0
  let p2 := p1.horizontalInput keys gp
  let p3 := p2.jumpInput keys
  let p4 : Player := { p3 with m_vspd := p3.m_vspd + 3 / 10 }
  let rects := solids.map fun q => (heap q).toObject.m_rect
  (p4.moveX fuel nan rects).bind fun p5 =>
  (p5.moveY fuel nan rects).bind fun p6 =>
  some (p6, boundsResult gl p6 result)

/-- The state threaded through the contact passes of `Player::update`. -/
structure Contact where
  player : Player
  heap : ObjPtr → Entity
  globals : Globals

/-- The enemy loop (Source.cpp lines 343-365) from the enemy at the head of the list on,
the player rectangle being shifted down by one; `enemyhit` is the local of that name.  A
pounce ends the loop (`break`). -/
def enemyPass (keys : Keys) : List ObjPtr → Bool → Contact → Contact
  | [], _, c => c
  | e :: rest, enemyhit, c =>
    if (c.heap e).toObject.m_exists && collided c.player.m_rect (c.heap e).toObject.m_rect then
      if c.player.m_y + 16 < (c.heap e).toObject.m_y then
        let heap1 := heapSet c.heap e ((c.heap e).setExists false)
        let player1 : Player :=
          if keys.w || keys.space || keys.up then
            { c.player with m_vspd := -10, m_jumping := true }
          else { c.player with m_vspd := -4 }
        { player := player1, heap := heap1, globals := (heap1 e).action c.globals }
      else if enemyhit then
        enemyPass keys rest enemyhit
          { c with heap := heapSet c.heap e ((c.heap e).setExists false) }
      else enemyPass keys rest enemyhit c
    else enemyPass keys rest enemyhit c

/-- The test of the hazard loop (Source.cpp line 369) for the hazard at address `h`. -/
def hazardHit (rect : SDL_Rect) (heap : ObjPtr → Entity) (projectiles : List (ObjPtr × Object))
    (h : ObjPtr) : Bool :=
  (derefObject heap projectiles h).m_exists &&
    collided rect (derefObject heap projectiles h).m_rect

/-- The hazard loop (Source.cpp lines 368-370) on the result code so far. -/
def hazardPass (rect : SDL_Rect) (heap : ObjPtr → Entity) (projectiles : List (ObjPtr × Object))
    (hazards : List ObjPtr) (result : Int) : Int :=
  hazards.foldl (fun r h => if hazardHit rect heap projectiles h then -1 else r) result

/-- The body of the collectible loop (Source.cpp lines 375-380) for one collectible. -/
def collectibleStep (c : Contact) (q : ObjPtr) : Contact :=
  if collided c.player.m_rect (c.heap q).toObject.m_rect && (c.heap q).toObject.m_exists then
    let heap1 := heapSet c.heap q ((c.heap q).setExists false)
    { c with heap := heap1, globals := (heap1 q).action c.globals }
  else c

/-- The choice of sprite (Source.cpp lines 383-391). -/
def Player.animate (keys : Keys) (gl : Globals) (p : Player) : Player :=
  let f1 : Int :=
    if ⌊|p.m_hspd|⌋ > 0 ∧ p.m_frame ≠ 1 ∧ p.m_frame ≠ 2 then 1 else p.m_frame
  let f2 : Int :=
    if p.m_hspd = 0 ∨ !(keys.a || keys.left || keys.d || keys.right) then 0 else f1
  let f3 : Int :=
    if Int.tmod gl.g_count 6 = 0 ∧ p.m_grounded then
      (if f2 ≠ 0 then Int.tmod f2 2 + 1 else f2)
    else f2
  { p with m_frame := f3 }

/-- The viewpoint centre (Source.cpp lines 393-402). -/
def Player.camera (gl : Globals) (p : Player) : Player :=
  let v_y : Int :=
    if p.m_y + Int.tdiv screenh 2 > 32 * gl.g_levelH then screenh + p.m_y - 32 * gl.g_levelH + 64
    else if p.m_y - Int.tdiv screenh 2 < 0 then p.m_y + 64
    else Int.tdiv screenh 2 + 64
  let v_x : Int :=
    if p.m_x + Int.tdiv screenw 2 > 32 * gl.g_levelW then screenw + p.m_x - 32 * gl.g_levelW
    else if p.m_x - Int.tdiv screenw 2 < 0 then p.m_x
    else Int.tdiv screenw 2
  { p with v_x := v_x, v_y := v_y }

/-- What `Player::update` hands back: the player, the entities it changed, the counters, and
the returned result code. -/
structure UpdateResult where
  player : Player
  heap : ObjPtr → Entity
  globals : Globals
  result : Int

/-- The state at the hazard pass: the player rectangle shifted down by one (Source.cpp line
341) and the enemy loop done. -/
def atHazardPass (keys : Keys) (gl : Globals) (heap : ObjPtr → Entity) (enemies : List ObjPtr)
    (p : Player) : Contact :=
  enemyPass keys enemies false
    { player := { p with m_rect := { p.m_rect with y := p.m_rect.y + 1 } }, heap := heap,
      globals := gl }

/-- `Player::update` from the enemy loop to its end (Source.cpp lines 340-404), entered with
the player and the result code left by the boundary checks. -/
def Player.contacts (keys : Keys) (gl : Globals) (heap : ObjPtr → Entity)
    (projectiles : List (ObjPtr × Object)) (hazards enemies collectibles : List ObjPtr)
    (p : Player) (result : Int) : UpdateResult :=
  let c1 := atHazardPass keys gl heap enemies p
  let result1 := hazardPass c1.player.m_rect c1.heap projectiles hazards result
  let c2 : Contact :=
    { c1 with player := { c1.player with
        m_rect := { c1.player.m_rect with y := c1.player.m_rect.y - 1 } } }
  let c3 := collectibles.foldl collectibleStep c2
  { player := (c3.player.animate keys c3.globals).camera c3.globals, heap := c3.heap,
    globals := c3.globals, result := result1 }

/-- `int Player::update(ren, solids, hazards, enemies, collectibles)` (Source.cpp lines
229-405), without the sound and draw calls. -/
def Player.update (fuel : Nat) (nan : Int) (keys : Keys) (gl : Globals)
    (heap : ObjPtr → Entity) (projectiles : List (ObjPtr × Object))
    (solids hazards enemies collectibles : List ObjPtr) (p : Player) : Option UpdateResult :=
  (p.beforeContacts fuel nan keys gl heap solids).map fun pr =>
    Player.contacts keys gl heap projectiles hazards enemies collectibles pr.1 pr.2

/-- Example heap of a pounce: two live snakes side by side, at address 1 with rectangle
(104, 96, 16, 32) and at every other address with rectangle (112, 96, 16, 32). -/
def pounceHeap : ObjPtr → Entity := fun q =>
  if q = 1 then
    .snake ⟨{ Object.mk0 0 0 96 96 16 32 false true true false with
      m_x := 104, m_rect := ⟨104, 96, 16, 32⟩ }, 2, false⟩
  else
    .snake ⟨{ Object.mk0 0 0 128 96 16 32 false true true false with
      m_x := 112, m_rect := ⟨112, 96, 16, 32⟩ }, -2, true⟩

/-- Example player of a pounce: in the air at (100, 70), above both snakes, with no
horizontal speed and a vertical speed that gravity brings to zero in this update. -/
def pouncePlayer : Player :=
  { m_x := 100, m_y := 70, m_frame := 0, m_flip := 0, m_hspd := 0, m_vspd := -(3 / 10),
    m_rect := ⟨100, 70, 28, 32⟩, m_grounded := false, m_jumping := false, v_x := 320,
    v_y := 272 }

/-- Example counters: a level of 40 by 13 tiles. -/
def exampleGlobals : Globals :=
  { g_count := 1, g_lives := 3, g_score := 0, g_levelW := 40, g_levelH := 13 }

/-- No key pressed, except Escape when `escape` is set. -/
def idleKeys (escape : Bool) : Keys :=
  { escape := escape, a := false, left := false, d := false, right := false, w := false,
    space := false, up := false }


/-- Example counters of a level only 3 tiles wide: the example player at x = 100 is past its
right edge (96). -/
def narrowGlobals : Globals :=
  { g_count := 1, g_lives := 3, g_score := 0, g_levelW := 3, g_levelH := 13 }

/-! ## The end of a frame of `play` -/

/-- The body of the closing loops of `play` (Source.cpp lines 1775-1776) for one slot of the
grid: `if (instance != nullptr) instance->resetStrong();`.  The second component is a ghost
log of the addresses on which `resetStrong()` was invoked, in order. -/
def strongResetSlot (st : (ObjPtr → Entity) × List ObjPtr) :
    Option ObjPtr → (ObjPtr → Entity) × List ObjPtr
  | none => st
  | some q => (heapSet st.1 q (st.1 q).resetStrong, st.2 ++ [q])

/-- The inner loop `for (Object *instance : row)` (Source.cpp lines 1774-1776). -/
def strongResetRow (st : (ObjPtr → Entity) × List ObjPtr) (row : List (Option ObjPtr)) :
    (ObjPtr → Entity) × List ObjPtr :=
  row.foldl strongResetSlot st

/-- The loops "strongly reset all objects before level is restarted" (Source.cpp lines
1772-1776), started with an empty log. -/
def strongResetAll (level : Level) (heap : ObjPtr → Entity) :
    (ObjPtr → Entity) × List ObjPtr :=
  level.foldl strongResetRow (heap, [])

/-- What the end of a frame of `play` leaves: the entities, the counters, the log of the
`resetStrong()` calls made, and the value `play` returned, `none` when the game loop goes on
to its next frame. -/
structure FrameEnd where
  heap : ObjPtr → Entity
  globals : Globals
  strongLog : List ObjPtr
  returned : Option Int

/-- The end of a frame of `play` (Source.cpp lines 1721-1780), `result` being the value that
`Player::update` returned in this frame and `startScore` the score at the start of `play`:
`g_count++`; on -1 a life is taken, the score is restored, the loop is left (`break`), every
occupied slot is strongly reset and `play` returns 0; on -2 `play` returns -1 and on 1 it
returns 1, both from inside the loop; otherwise the loop goes on. -/
def frameEnd (level : Level) (startScore result : Int) (heap : ObjPtr → Entity) (gl : Globals) :
    FrameEnd :=
  let gl1 : Globals := { gl with g_count := gl.g_count + 1 }
  if result = -1 then
    let gl2 : Globals := { gl1 with g_lives := gl1.g_lives - 1 }
    let gl3 : Globals := { gl2 with g_score := startScore }
    let r := strongResetAll level heap
    { heap := r.1, globals := gl3, strongLog := r.2, returned := some 0 }
  else if result = -2 then
    { heap := heap, globals := { gl1 with g_lives := -3 }, strongLog := [],
      returned := some (-1) }
  else if result = 1 then
    { heap := heap, globals := gl1, strongLog := [], returned := some 1 }
  else
    { heap := heap, globals := gl1, strongLog := [], returned := none }

/-- Example heap with consumed gems: a consumed score gem at address 1, a consumed life gem
at address 2, and a dead snake at every other address. -/
def gemHeap : ObjPtr → Entity := fun q =>
  if q = 1 then
    .gem100 ⟨{ Object.mk0 0 0 104 72 16 16 false false false true with m_exists := false }⟩
  else if q = 2 then
    .gemL ⟨{ Object.mk0 0 0 40 40 16 16 false false false true with m_exists := false }⟩
  else
    .snake ⟨{ Object.mk0 0 0 96 64 16 32 false true true false with m_exists := false },
      2, false⟩

/-- Example level of 3 rows by 4 columns holding the two gems and one snake. -/
def gemLevel : Level :=
  [[none, none, none, none],
   [none, some 2, none, none],
   [none, none, some 5, some 1]]

/-- Example state of a frame during scrolling: the consumed score gem, spawned at tile (3, 2),
is still in the window vectors and in the protect queue while the tracked tile is (30, 2). -/
def gemState : PlayState :=
  { heap := gemHeap, instances := [1], solids := [], hazards := [], enemies := [],
    collectibles := [1], protQueue := [1], lastgridx := 30, lastgridy := 2, first := false,
    resetLog := [] }

/-! ## Reads of the level grid by the entity updates -/

/-- The read `level[r][c]` of the grid with `int` indices.  `operator[]` checks nothing: the
read is defined only when `r` is the index of a row and `c` the index of a slot of that row.
`none` is a read outside the grid; `some none` is an empty slot (`nullptr`). -/
def gridAt (level : Level) (r c : Int) : Option (Option ObjPtr) :=
  if 0 ≤ r ∧ r < level.length then
    match level.get? r.toNat with
    | some row => if 0 ≤ c ∧ c < row.length then row.get? c.toNat else none
    | none => none
  else none

/-- The grid has `rows` rows of `cols` slots each. -/
def Level.Rectangular (level : Level) (rows cols : Nat) : Prop :=
  level.length = rows ∧ ∀ row ∈ level, row.length = cols

/-- The body of the adjacency loop of `Wall::update` (Source.cpp lines 435-446) for the side
`i` (0 top, 1 left, 2 bottom, 3 right), with `yx = { m_y, m_x }` and
`checks = { 0, 0, -g_levelH + 1, -g_levelW + 1 }`.  `none` is a read outside the grid. -/
def Wall.adjacentStep (level : Level) (gl : Globals) (heap : ObjPtr → Entity) (s : Wall)
    (i : Nat) : Option Wall :=
  let sign : Int := (-1) ^ (i / 2)
  let yx : Int := if i % 2 = 0 then s.m_y else s.m_x
  let check : Int :=
    if i = 0 then 0 else if i = 1 then 0 else if i = 2 then -gl.g_levelH + 1
    else -gl.g_levelW + 1
  if sign * (Int.tdiv yx 32 - sign) < check then
    some { s with m_adjacent := s.m_adjacent.set i false }
  else
    match gridAt level (Int.tdiv s.m_y 32 - sign * (((i + 1) % 2 : Nat) : Int))
        (Int.tdiv s.m_x 32 - sign * ((i % 2 : Nat) : Int)) with
    | none => none
    | some none => some s
    | some (some q) =>
      if (heap q).toObject.m_solid then some { s with m_adjacent := s.m_adjacent.set i false }
      else some s

/-- The state part of `Wall::update` (Source.cpp lines 431-448): on the first update the four
adjacency checks, then `m_check = true`. -/
def Wall.update (level : Level) (gl : Globals) (heap : ObjPtr → Entity) (s : Wall) :
    Option Wall :=
  if !s.m_check then
    (Wall.adjacentStep level gl heap s 0).bind fun s0 =>
    (Wall.adjacentStep level gl heap s0 1).bind fun s1 =>
    (Wall.adjacentStep level gl heap s1 2).bind fun s2 =>
    (Wall.adjacentStep level gl heap s2 3).bind fun s3 =>
    some { s3 with m_check := true }
  else some s

/-- The state part of `Water::update` (Source.cpp lines 483-503).  The slot above is read
before the test `m_y / 32 - 1 < 0`; `none` is a read outside the grid. -/
def Water.update (level : Level) (g_count : Int) (heap : ObjPtr → Entity) (s : Water) :
    Option Water :=
  let checked : Option Water :=
    if !s.m_check then
      match gridAt level (Int.tdiv s.m_y 32 - 1) (Int.tdiv s.m_x 32) with
      | none => none
      | some ptr =>
        let s1 : Water :=
          if Int.tdiv s.m_y 32 - 1 < 0 then { s with m_top := false }
          else
            match ptr with
            | none => s
            | some q =>
              if (heap q).toObject.m_solid ||
                  ((heap q).toObject.m_hazard && !(heap q).toObject.m_enemy) then
                { s with m_top := false }
              else s
        some { s1 with m_check := true }
    else some s
  checked.map fun s2 =>
    if s2.m_top then
      if Int.tmod g_count 40 = 0 then { s2 with toObject := { s2.toObject with m_frame := 1 } }
      else if Int.tmod g_count 40 = 20 then
        { s2 with toObject := { s2.toObject with m_frame := 0 } }
      else s2
    else { s2 with toObject := { s2.toObject with m_frame := 2 } }

/-- The turn decision shared by the lookahead of `Snake::update` (Source.cpp lines 707-716)
and of `Mammoth::update` (lines 1404-1413): whether `m_hspd *= -1` is executed, given the two
slots read. -/
def turnsAround (heap : ObjPtr → Entity) (adjacent1 adjacent2 : Option ObjPtr) : Bool :=
  match adjacent1 with
  | none => adjacent2.isSome
  | some a1 =>
    if !(heap a1).toObject.m_solid || (heap a1).toObject.m_hazard then
      match adjacent2 with
      | none => false
      | some a2 => (heap a2).toObject.m_solid || !(heap a2).toObject.m_hazard
    else false

/-- The lookahead of `Snake::update` (Source.cpp lines 703-717), entered after the move of the
frame: the slots in front of and behind the snake, one row below, are read with no test of
the indices.  `none` is a division by zero (`m_hspd = 0`) or a read outside the grid. -/
def Snake.lookahead (level : Level) (heap : ObjPtr → Entity) (s : Snake) : Option Snake :=
  if s.m_hspd = 0 then none
  else
    (gridAt level (Int.tdiv s.m_y 32 + 1)
      (Int.tdiv (s.m_x + 8 + Int.tdiv (32 * s.m_hspd) |s.m_hspd|) 32)).bind fun adjacent1 =>
    (gridAt level (Int.tdiv s.m_y 32 + 1)
      (Int.tdiv (s.m_x + 8 - Int.tdiv (32 * s.m_hspd) |s.m_hspd|) 32)).bind fun adjacent2 =>
    let hspd : Int := if turnsAround heap adjacent1 adjacent2 then s.m_hspd * -1 else s.m_hspd
    some { s with m_hspd := hspd, m_flip := decide (hspd < 0) }

/-- The lookahead of `Mammoth::update` (Source.cpp lines 1401-1414), entered after the move of
the frame.  The column expressions are `double`s, truncated when used as an index.  `none` is
a division of zero by zero (`m_hspd = 0`) or a read outside the grid. -/
def Mammoth.lookahead (level : Level) (heap : ObjPtr → Entity) (s : Mammoth) : Option Mammoth :=
  if s.m_hspd = 0 then none
  else
    (gridAt level (Int.tdiv (s.m_y + 16) 32 + 1)
      (doubleToInt ((((s.m_x - 1 + 32 : Int) : ℚ) + 32 * s.m_hspd / |s.m_hspd|) / 32))).bind
      fun adjacent1 =>
    (gridAt level (Int.tdiv (s.m_y + 16) 32 + 1)
      (doubleToInt ((((s.m_x + 1 : Int) : ℚ) - 32 * s.m_hspd / |s.m_hspd|) / 32))).bind
      fun adjacent2 =>
    let hspd : ℚ := if turnsAround heap adjacent1 adjacent2 then s.m_hspd * -1 else s.m_hspd
    some { s with m_hspd := hspd, m_flip := decide (hspd < 0) }

/-- Example level of 3 rows by 4 columns: a floor of four walls in the bottom row and a water
tile in the top row. -/
def probeLevel : Level :=
  [[none, some 7, none, none],
   [none, none, none, none],
   [some 1, some 2, some 3, some 4]]

/-- Example counters of the 3 by 4 level. -/
def probeGlobals : Globals :=
  { g_count := 10, g_lives := 3, g_score := 0, g_levelW := 4, g_levelH := 3 }

/-- Example snake in the bottom row of the example level, at tile (1, 2). -/
def bottomSnake : Snake := Snake.new 0 0 32 64

/-- Example snake in the middle row of the example level, at tile (1, 1). -/
def middleSnake : Snake := Snake.new 0 0 32 32

/-! ## Level loading -/

/-- The lines that successive `std::getline(levelInput, line)` calls extract from a stream
holding the characters `content` (as `char` values, 10 being the newline): a line ends at a
newline or at the end of the stream, and a call that extracts nothing fails. -/
def splitLines : List Int → List (List Int)
  | [] => []
  | c :: rest =>
    if c = 10 then [] :: splitLines rest
    else
      match splitLines rest with
      | [] => [[c]]
      | l :: ls => (c :: l) :: ls

/-- `v.clear()` of `std::vector`: whatever the vector held, it is empty afterwards. -/
def vectorClear {α : Type} (_ : List α) : List α := []

/-- The four outputs of `loadLevel`: `*level`, `*tileSet`, `*weather`, `*track`. -/
structure LoadOut where
  level : List (List Int)
  tileSet : Int
  weather : Bool
  track : Int
deriving DecidableEq, Repr

/-- How a call of `loadLevel` ends: it returns, or `std::string::at` throws
`std::out_of_range`, which nothing in `loadLevel` catches.  Either way the outputs are as
they stood at that moment. -/
inductive LoadResult
  | returned (out : LoadOut)
  | thrown (out : LoadOut)
deriving DecidableEq, Repr

/-- `void loadLevel(level, tileSet, weather, track, path)` (Source.cpp lines 118-139).  `file`
is what `std::ifstream levelInput(path)` finds: `none` when the file cannot be opened, else
its characters.  The arguments are the values of the four outputs before the call. -/
def loadLevel (file : Option (List Int)) (level : List (List Int)) (tileSet : Int)
    (weather : Bool) (track : Int) : LoadResult :=
  let cleared : List (List Int) := vectorClear level
  match file with
  | none => .returned ⟨cleared, tileSet, weather, track⟩
  | some content =>
    match splitLines content with
    | [] => .thrown ⟨cleared, tileSet, weather, track⟩
    | [] :: _ => .thrown ⟨cleared, tileSet, weather, track⟩
    | [c0] :: _ => .thrown ⟨cleared, tileSet, decide (c0 - 48 ≠ 0), track⟩
    | [c0, c1] :: _ => .thrown ⟨cleared, tileSet, decide (c0 - 48 ≠ 0), c1 - 48⟩
    | (c0 :: c1 :: c2 :: _) :: rows =>
      .returned ⟨cleared ++ rows.map (fun line => line.map fun c => c - 97), c2 - 48,
        decide (c0 - 48 ≠ 0), c1 - 48⟩

/-! ## Level construction in `main` -/

/-- The entities of the occupied slots `(r, c)` with `gy - 8 ≤ r ≤ gy + 8`,
`gx - 10 ≤ c ≤ gx + 10`, `0 ≤ r <` number of rows and `0 ≤ c <` length of row `r`, in
row-major order: what the specification says the window scan collects. -/
def windowEntities (level : Level) (gx gy : Int) : List ObjPtr :=
  (intRange (gy - 8) (gy + 9)).flatMap fun r =>
    (intRange (gx - 10) (gx + 11)).filterMap fun c => (gridAt level r c).join

/-- The members of a list, each once, in the order of their first occurrence. -/
def firstOccurrences : List ObjPtr → List ObjPtr
  | [] => []
  | a :: l => a :: (firstOccurrences l).filter fun x => decide (x ≠ a)

/-- The call `groupInstance(ptr, ...)` for each pointer of `ptrs` in turn. -/
def groupAll (ptrs : List ObjPtr) (s : PlayState) : PlayState :=
  ptrs.foldl (fun st ptr => groupInstance ptr st) s

/-- Each category vector is the sublist of `instances` that its capability flag selects, in
the same order. -/
def Filed (s : PlayState) : Prop :=
  s.solids = s.instances.filter (fun q => (s.heap q).toObject.m_solid) ∧
  s.hazards = s.instances.filter (fun q => (s.heap q).toObject.m_hazard) ∧
  s.enemies = s.instances.filter (fun q => (s.heap q).toObject.m_enemy) ∧
  s.collectibles = s.instances.filter (fun q => (s.heap q).toObject.m_collectible)

/-! ## The frame invariant of the active set -/

/-- Each slot of the grid owns a distinct entity: an address stored in two slots is stored in
the same slot. -/
def Level.DistinctSlots (level : Level) : Prop :=
  ∀ (r c r2 c2 : Int) (p : ObjPtr), gridAt level r c = some (some p) →
    gridAt level r2 c2 = some (some p) → r = r2 ∧ c = c2

/-- The state in which the vectors of `play` are between two frames: the protect queue is a
duplicate-free subset of `instances`, `instances` is duplicate-free, and every member of
`instances` occurs in each category vector that its capability flags select. -/
def FrameInvariant (s : PlayState) : Prop :=
  s.protQueue.Nodup ∧ (∀ q ∈ s.protQueue, q ∈ s.instances) ∧ s.instances.Nodup ∧
  ∀ q ∈ s.instances, Grouped s q

/-- The state of `play` before its first frame (Source.cpp lines 1467-1472, 1484-1487): the
six vectors are empty, `lastgridx = screenw / 64`, `lastgridy = level.size() - screenh / 64`
and `first = true`. -/
def playStart (level : Level) (heap : ObjPtr → Entity) : PlayState :=
  { heap := heap, instances := [], solids := [], hazards := [], enemies := [],
    collectibles := [], protQueue := [], lastgridx := Int.tdiv screenw 64,
    lastgridy := (level.length : Int) - Int.tdiv screenh 64, first := true, resetLog := [] }

/-- Example level of one row with two occupied slots. -/
def pairLevel : Level := [[some 1, some 2]]

/-! ## Projectiles and their spawners -/

/-- `Spore::Spore(x, y, hspd, vspd, ren, hazards)` (Source.cpp lines 923-927), without the
`push_back` into the hazards vector, which the spawner models below perform. -/
def Spore.new (vx vy x y : Int) (hspd vspd : ℚ) : Spore :=
  { toObject := Object.mk0 vx vy (x + 8) (y + 8) 16 16 false true false false,
    m_hspd := hspd, m_vspd := vspd }

/-- `Snowball::Snowball(x, y, hspd, vspd, ren, hazards)` (Source.cpp lines 987-991), without
the `push_back` into the hazards vector. -/
def Snowball.new (vx vy x y : Int) (hspd vspd : ℚ) : Snowball :=
  { toObject := Object.mk0 vx vy (x + 8) (y + 8) 16 16 false true false false,
    m_hspd := hspd, m_vspd := vspd }

/-- One iteration of the horizontal loop of `Spore::update` (Source.cpp lines 938-946)
against the rectangle `right` of one solid, for the spore at address `this`. -/
def Spore.alignX (fuel : Nat) (nan : Int) (this : ObjPtr) (st : Spore × List ObjPtr)
    (right : SDL_Rect) : Option (Spore × List ObjPtr) :=
  match align fuel st.1.m_rect right (signStep nan st.1.m_hspd) 0 with
  | none => none
  | some (rect, hit) =>
    let s1 : Spore := { st.1 with toObject := { st.1.toObject with m_rect := rect } }
    (if hit then Spore.cleanup { s1 with m_hspd := 0 } this st.2 else some (s1, st.2)).map
      fun r => ({ r.1 with toObject := { r.1.toObject with m_x := r.1.m_rect.x } }, r.2)

/-- One iteration of the vertical loop of `Spore::update` (Source.cpp lines 950-958). -/
def Spore.alignY (fuel : Nat) (nan : Int) (this : ObjPtr) (st : Spore × List ObjPtr)
    (right : SDL_Rect) : Option (Spore × List ObjPtr) :=
  match align fuel st.1.m_rect right 0 (signStep nan st.1.m_vspd) with
  | none => none
  | some (rect, hit) =>
    let s1 : Spore := { st.1 with toObject := { st.1.toObject with m_rect := rect } }
    (if hit then Spore.cleanup { s1 with m_vspd := 0 } this st.2 else some (s1, st.2)).map
      fun r => ({ r.1 with toObject := { r.1.toObject with m_y := r.1.m_rect.y } }, r.2)

/-- A loop over the rectangles of the active solids with an `Option`-valued body. -/
def foldSolids {σ : Type} (body : σ → SDL_Rect → Option σ) :
    σ → List SDL_Rect → Option σ
  | st, [] => some st
  | st, right :: rest => (body st right).bind fun st1 => foldSolids body st1 rest

/-- `Spore::update` (Source.cpp lines 928-967) for the spore at address `this`, without the
draw call; `rows` is `level.size()` and `solids` the rectangles of the active solids. -/
def Spore.update (fuel : Nat) (nan : Int) (rows : Nat) (solids : List SDL_Rect) (this : ObjPtr)
    (s : Spore) (hazards : List ObjPtr) : Option (Spore × List ObjPtr) :=
  if s.m_exists then
    let hz1 := if getIndex hazards this = -1 then hazards ++ [this] else hazards
    let s1 : Spore := { s with m_vspd := s.m_vspd + 3 / 10 }
    let x : Int := doubleToInt ((s1.m_x : ℚ) + s1.m_hspd)
    let s2 : Spore :=
      { s1 with toObject := { s1.toObject with m_x := x, m_rect := ⟨x, s1.m_y, 16, 16⟩ } }
    (foldSolids (Spore.alignX fuel nan this) (s2, hz1) solids).bind fun st3 =>
    let y : Int := doubleToInt ((st3.1.m_y : ℚ) + st3.1.m_vspd)
    let s4 : Spore :=
      { st3.1 with
        toObject := { st3.1.toObject with m_y := y, m_rect := ⟨st3.1.m_x, y, 16, 16⟩ } }
    (foldSolids (Spore.alignY fuel nan this) (s4, st3.2) solids).bind fun st5 =>
    if st5.1.m_y > (rows : Int) * 32 then Spore.cleanup st5.1 this st5.2 else some st5
  else some (s, hazards)

/-- One iteration of the horizontal loop of `Snowball::update` (Source.cpp lines
1001-1009). -/
def Snowball.alignX (fuel : Nat) (nan : Int) (this : ObjPtr) (st : Snowball × List ObjPtr)
    (right : SDL_Rect) : Option (Snowball × List ObjPtr) :=
  match align fuel st.1.m_rect right (signStep nan st.1.m_hspd) 0 with
  | none => none
  | some (rect, hit) =>
    let s1 : Snowball := { st.1 with toObject := { st.1.toObject with m_rect := rect } }
    (if hit then Snowball.cleanup { s1 with m_hspd := 0 } this st.2 else some (s1, st.2)).map
      fun r => ({ r.1 with toObject := { r.1.toObject with m_x := r.1.m_rect.x } }, r.2)

/-- One iteration of the vertical loop of `Snowball::update` (Source.cpp lines 1013-1021). -/
def Snowball.alignY (fuel : Nat) (nan : Int) (this : ObjPtr) (st : Snowball × List ObjPtr)
    (right : SDL_Rect) : Option (Snowball × List ObjPtr) :=
  match align fuel st.1.m_rect right 0 (signStep nan st.1.m_vspd) with
  | none => none
  | some (rect, hit) =>
    let s1 : Snowball := { st.1 with toObject := { st.1.toObject with m_rect := rect } }
    (if hit then Snowball.cleanup { s1 with m_vspd := 0 } this st.2 else some (s1, st.2)).map
      fun r => ({ r.1 with toObject := { r.1.toObject with m_y := r.1.m_rect.y } }, r.2)

/-- A step of the form `if (cond) cleanup(hazards);` of `Snowball::update`. -/
def Snowball.cleanupIf (cond : Bool) (this : ObjPtr) (st : Snowball × List ObjPtr) :
    Option (Snowball × List ObjPtr) :=
  if cond then Snowball.cleanup st.1 this st.2 else some st

/-- `Snowball::update` (Source.cpp lines 992-1032) for the snowball at address `this`,
without the draw call; `rows` is `level.size()` and `cols` is `level.at(0).size()`, `none`
when the grid has no row (`at` throws). -/
def Snowball.update (fuel : Nat) (nan : Int) (rows : Nat) (cols : Option Nat) (p : Player)
    (solids : List SDL_Rect) (this : ObjPtr) (s : Snowball) (hazards : List ObjPtr) :
    Option (Snowball × List ObjPtr) :=
  if s.m_exists then
    let hz1 := if getIndex hazards this = -1 then hazards ++ [this] else hazards
    let x : Int := doubleToInt ((s.m_x : ℚ) + s.m_hspd)
    let s2 : Snowball :=
      { s with toObject := { s.toObject with m_x := x, m_rect := ⟨x, s.m_y, 16, 16⟩ } }
    (foldSolids (Snowball.alignX fuel nan this) (s2, hz1) solids).bind fun st3 =>
    let y : Int := doubleToInt ((st3.1.m_y : ℚ) + st3.1.m_vspd)
    let s4 : Snowball :=
      { st3.1 with
        toObject := { st3.1.toObject with m_y := y, m_rect := ⟨st3.1.m_x, y, 16, 16⟩ } }
    (foldSolids (Snowball.alignY fuel nan this) (s4, st3.2) solids).bind fun st5 =>
    (Snowball.cleanupIf (decide (st5.1.m_y > (rows : Int) * 32)) this st5).bind fun st6 =>
    cols.bind fun w =>
    (Snowball.cleanupIf (decide (st6.1.m_x > (w : Int) * 32) || decide (st6.1.m_x < 0)) this
      st6).bind fun st7 =>
    Snowball.cleanupIf (decide (p.v_x + st7.1.m_x - p.m_x < -8) ||
      decide (p.v_x + st7.1.m_x - p.m_x > 648)) this st7
  else some (s, hazards)

/-- The loop of a spawner over the projectiles it owns (Source.cpp lines 1079-1087,
1162-1170, 1212-1220): each is updated, and one that no longer exists afterwards is deleted
and erased from the vector (`erase(begin() + i--)`).  `upd` is the projectile's `update`. -/
def updateOwned {π : Type} (exists_ : π → Bool)
    (upd : ObjPtr → π → List ObjPtr → Option (π × List ObjPtr)) :
    List (ObjPtr × π) → List ObjPtr → Option (List (ObjPtr × π) × List ObjPtr)
  | [], hazards => some ([], hazards)
  | (a, x) :: rest, hazards =>
    (upd a x hazards).bind fun r =>
    (updateOwned exists_ upd rest r.2).map fun t =>
      (if exists_ r.1 then (a, r.1) :: t.1 else t.1, t.2)

/-- `Plant::update` (Source.cpp lines 1055-1090), without the draw call.  `a1`, `a2`, `a3`
are the addresses that the three `new Spore` return when the plant fires. -/
def Plant.update (fuel : Nat) (nan : Int) (g_count : Int) (rows : Nat)
    (solids : List SDL_Rect) (a1 a2 a3 : ObjPtr) (s : Plant) (hazards : List ObjPtr) :
    Option (Plant × List ObjPtr) :=
  let s1 : Plant :=
    if !s.m_exists then { s with toObject := { s.toObject with m_exists := true } } else s
  let s2 : Plant := if s1.m_timerBase = -1 then { s1 with m_timerBase := g_count } else s1
  let fired : Plant × List ObjPtr :=
    if Int.tmod (g_count - s2.m_timerBase) 150 = 0 then
      ({ s2 with m_spores := s2.m_spores ++
          [(a1, Spore.new s2.m_vx s2.m_vy s2.m_x s2.m_y (-3) (-10)),
           (a2, Spore.new s2.m_vx s2.m_vy s2.m_x s2.m_y 0 (-10)),
           (a3, Spore.new s2.m_vx s2.m_vy s2.m_x s2.m_y 3 (-10))] },
        hazards ++ [a1, a2, a3])
    else (s2, hazards)
  let s3 : Plant :=
    { fired.1 with toObject := { fired.1.toObject with
        m_protected := decide (fired.1.m_spores.length ≠ 0) } }
  (updateOwned (fun sp : Spore => sp.m_exists) (Spore.update fuel nan rows solids)
      s3.m_spores fired.2).map fun r => ({ s3 with m_spores := r.1 }, r.2)

/-- `Spit::update` (Source.cpp lines 1122-1177), without the draw call.  The distance test
`pdist < 272 && pdist > 64` is made on the squared distance, an integer.  `shot` is what the
trajectory computation gives: `none` when `dir` is not a number, else the velocity of the new
spore; `a1` is the address that `new Spore` returns. -/
def Spit.update (fuel : Nat) (nan : Int) (g_count : Int) (rows : Nat) (p : Player)
    (solids : List SDL_Rect) (shot : Option (ℚ × ℚ)) (a1 : ObjPtr) (s : Spit)
    (hazards : List ObjPtr) : Option (Spit × List ObjPtr) :=
  let s1 : Spit :=
    if !s.m_exists then { s with toObject := { s.toObject with m_exists := true } } else s
  let d2 : Int := (s1.m_x - p.m_x - 16) ^ 2 + (s1.m_y - p.m_y) ^ 2
  let fired : Spit × List ObjPtr :=
    if d2 < 272 ^ 2 ∧ d2 > 64 ^ 2 then
      if s1.m_shake = 5 then
        let s2 : Spit :=
          if s1.m_timerBase = -1 then { s1 with m_timerBase := g_count + 5 } else s1
        let s3 : Spit := { s2 with toObject := { s2.toObject with m_frame := 1 } }
        if Int.tmod (g_count - s3.m_timerBase) 40 = 0 then
          match shot with
          | some v =>
            ({ s3 with m_spores := s3.m_spores ++
                [(a1, Spore.new s3.m_vx s3.m_vy s3.m_x s3.m_y v.1 v.2)] }, hazards ++ [a1])
          | none => (s3, hazards)
        else (s3, hazards)
      else if Int.tmod g_count 2 = 0 then ({ s1 with m_shake := s1.m_shake + 1 }, hazards)
      else (s1, hazards)
    else
      ({ s1 with m_timerBase := -1, m_shake := -1,
                 toObject := { s1.toObject with m_frame := 0 } }, hazards)
  let s4 : Spit :=
    { fired.1 with toObject := { fired.1.toObject with
        m_protected := decide (fired.1.m_spores.length ≠ 0) } }
  (updateOwned (fun sp : Spore => sp.m_exists) (Spore.update fuel nan rows solids)
      s4.m_spores fired.2).map fun r => ({ s4 with m_spores := r.1 }, r.2)

/-- `Yeti::update` (Source.cpp lines 1210-1246), without the draw call.  `shot` is the
velocity `(-8 * cos(dir), -8 * sin(dir))` of a new snowball and `a1` the address that
`new Snowball` returns. -/
def Yeti.update (fuel : Nat) (nan : Int) (g_count : Int) (rows : Nat) (cols : Option Nat)
    (p : Player) (solids : List SDL_Rect) (shot : ℚ × ℚ) (a1 : ObjPtr) (s : Yeti)
    (hazards : List ObjPtr) : Option (Yeti × List ObjPtr) :=
  (updateOwned (fun sb : Snowball => sb.m_exists) (Snowball.update fuel nan rows cols p solids)
      s.m_snowballs hazards).map fun r =>
    let s1 : Yeti := { s with m_snowballs := r.1 }
    if s1.m_exists then
      let d2 : Int := (s1.m_x - p.m_x - 16) ^ 2 + (s1.m_y - p.m_y) ^ 2
      let fired : Yeti × List ObjPtr :=
        if d2 < 272 ^ 2 then
          let s2 : Yeti :=
            if s1.m_timerBase = -1 then { s1 with m_timerBase := g_count } else s1
          if Int.tmod (g_count - s2.m_timerBase) 100 = 0 then
            ({ s2 with m_snowballs := s2.m_snowballs ++
                [(a1, Snowball.new s2.m_vx s2.m_vy s2.m_x s2.m_y shot.1 shot.2)] },
              r.2 ++ [a1])
          else (s2, r.2)
        else ({ s1 with m_timerBase := -1 }, r.2)
      ({ fired.1 with toObject := { fired.1.toObject with
          m_protected := decide (fired.1.m_snowballs.length ≠ 0) } }, fired.2)
    else (s1, r.2)

/-- Example plant between two volleys: built at (96, 64), timer started at frame 0, owning
one live spore at address 9 that is at the top of its flight. -/
def firingPlant : Plant :=
  { Plant.new 0 0 96 64 with
    m_timerBase := 0
    m_spores := [(9, Spore.new 0 0 96 20 0 (-(3 / 10)))] }

/-! ## Sequences of calls on a thin ice tile -/

/-- A call that `play` makes on a thin ice tile: `update` at frame clock `g_count`, seeing
the player `p` and the hazards list `hazards` as they stand at that moment, or `reset`. -/
inductive ThinIceCall
  | update (g_count : Int) (p : Player) (hazards : List ObjPtr)
  | reset

/-- The tile at address `this` after one call. -/
def ThinIce.call (this : ObjPtr) (s : ThinIce) : ThinIceCall → ThinIce
  | .update g_count p hazards => (s.update this g_count p hazards).1
  | .reset => s.reset

/-- The tile at address `this` after a sequence of calls, in order. -/
def ThinIce.run (this : ObjPtr) (calls : List ThinIceCall) (s : ThinIce) : ThinIce :=
  calls.foldl (ThinIce.call this) s

/-- The frame clock of the call is not negative. -/
def ThinIceCall.ClockNonneg : ThinIceCall → Prop
  | .update g_count _ _ => 0 ≤ g_count
  | .reset => True

/-- Sprite and collision rectangle of a thin ice tile agree: the tile shows ice (sprite frame
at most 3), its refreeze timer is idle and its rectangle is the full tile, or it shows water
(sprite frame 4 or 5), its timer is set and its rectangle is the lowered one. -/
def ThinIce.Synchronised (s : ThinIce) : Prop :=
  (s.m_frameThinIce ≤ 3 ∧ s.m_timerBase = -1 ∧ s.m_rect.y = s.m_y ∧ s.m_rect.h = 32) ∨
  ((s.m_frameThinIce = 4 ∨ s.m_frameThinIce = 5) ∧ s.m_timerBase ≠ -1 ∧
    s.m_rect.y = s.m_y + 3 ∧ s.m_rect.h = 29)

/-- The states a thin ice tile can be in: the crack-count is between 0 and 40 and the tile is
synchronised, the water state going with a crack-count of exactly 40. -/
def ThinIce.WellFormed (s : ThinIce) : Prop :=
  0 ≤ s.m_cracks ∧ s.m_cracks ≤ 40 ∧
  ((s.m_frameThinIce ≤ 3 ∧ s.m_timerBase = -1 ∧ s.m_rect.y = s.m_y ∧ s.m_rect.h = 32) ∨
    ((s.m_frameThinIce = 4 ∨ s.m_frameThinIce = 5) ∧ s.m_timerBase ≠ -1 ∧
      s.m_rect.y = s.m_y + 3 ∧ s.m_rect.h = 29 ∧ s.m_cracks = 40))

/-! ## Snake: the whole update -/

/-- What stops an entity update short of its end: an integer division by zero, a read outside
the level grid, or the loop budget of `align` running out. -/
inductive Fault
  | divByZero
  | outOfRange
  | noFuel
deriving DecidableEq, Repr

/-- The move of a movement frame of `Snake::update` (Source.cpp lines 693-695): the animation
frame advances, `m_x += m_hspd` and the collision rectangle follows. -/
def Snake.step (s : Snake) : Snake :=
  { s with toObject := { s.toObject with
      m_frame := Int.tmod (s.m_frame + 1) 2
      m_x := s.m_x + s.m_hspd
      m_rect := ⟨s.m_x + s.m_hspd, s.m_y, s.m_rect.w, s.m_rect.h⟩ } }

/-- One iteration of the loop of `Snake::update` over the solids (Source.cpp lines 697-702)
against the rectangle `right` of one solid: the step `m_hspd / abs(m_hspd)` is an `int`
division, evaluated before the call of `align`; `start` is the speed on entry of the loop. -/
def Snake.alignX (fuel : Nat) (start : Int) (s : Snake) (right : SDL_Rect) :
    Except Fault Snake :=
  if s.m_hspd = 0 then .error .divByZero
  else
    match align fuel s.m_rect right (Int.tdiv s.m_hspd |s.m_hspd|) 0 with
    | none => .error .noFuel
    | some (rect, hit) =>
      let s1 : Snake := { s with toObject := { s.toObject with m_rect := rect } }
      let s2 : Snake := if hit then { s1 with m_hspd := -start } else s1
      .ok { s2 with toObject := { s2.toObject with m_x := s2.m_rect.x } }

/-- The loop of `Snake::update` over the rectangles of the active solids. -/
def Snake.alignAll (fuel : Nat) (start : Int) : Snake → List SDL_Rect → Except Fault Snake
  | s, [] => .ok s
  | s, right :: rest => (Snake.alignX fuel start s right).bind fun s1 =>
      Snake.alignAll fuel start s1 rest

/-- The two grid reads and the turn decision of `Snake::update` (Source.cpp lines 703-717)
with the reason of a failure: the column expressions divide by `abs(m_hspd)`. -/
def Snake.look (level : Level) (heap : ObjPtr → Entity) (s : Snake) : Except Fault Snake :=
  if s.m_hspd = 0 then .error .divByZero
  else
    match Snake.lookahead level heap s with
    | none => .error .outOfRange
    | some s1 => .ok s1

/-- The test of `Snake::update` (Source.cpp line 720) that keeps a snake near the camera in
the update queue. -/
def Snake.nearCamera (s : Snake) (p : Player) : Bool :=
  decide (|s.m_x - p.m_x - (320 - p.v_x)| < viewRangeH * 32) &&
    decide (|s.m_y - p.m_y - (320 - p.v_y)| < viewRangeV * 32)

/-- `Snake::update` (Source.cpp lines 687-730), without the draw call; `solids` holds the
rectangles of the active solids. -/
def Snake.update (fuel : Nat) (level : Level) (heap : ObjPtr → Entity) (g_count : Int)
    (p : Player) (solids : List SDL_Rect) (s : Snake) : Except Fault Snake :=
  if s.m_exists then
    let moved : Except Fault Snake :=
      if Int.tmod g_count 10 = 0 then
        (Snake.alignAll fuel s.m_hspd s.step solids).bind fun s2 => Snake.look level heap s2
      else .ok s
    moved.map fun s4 =>
      { s4 with toObject := { s4.toObject with m_protected := s4.nearCamera p } }
  else .ok { s with toObject := { s.toObject with m_protected := false } }

/-- A call made on a snake by the game loop: `update` in a frame, with everything the call
reads, or `reset`. -/
inductive SnakeCall
  | update (level : Level) (heap : ObjPtr → Entity) (g_count : Int) (p : Player)
      (solids : List SDL_Rect)
  | reset

/-- The effect of one call on a snake. -/
def Snake.call (fuel : Nat) (s : Snake) : SnakeCall → Except Fault Snake
  | .update level heap g_count p solids => s.update fuel level heap g_count p solids
  | .reset => .ok s.reset

/-- The calls of a list made in order on a snake; a fault ends the run. -/
def Snake.run (fuel : Nat) : List SnakeCall → Snake → Except Fault Snake
  | [], s => .ok s
  | c :: rest, s => (Snake.call fuel s c).bind fun s1 => Snake.run fuel rest s1

/-- Example heap of the 3 by 4 level: every address holds a wall. -/
def wallHeap : ObjPtr → Entity := fun _ =>
  .wall ⟨Object.mk0 0 0 0 64 32 32 true false false false, false, [true, true, true, true]⟩

/-- Example level of 3 rows by 4 columns with a ledge: the bottom row holds walls in columns
0 and 1 only. -/
def ledgeLevel : Level :=
  [[none, none, none, none],
   [none, none, none, none],
   [some 1, some 2, none, none]]

/-- Example level of 3 rows by 4 columns with an empty bottom row. -/
def pitLevel : Level :=
  [[none, none, none, none],
   [none, none, none, none],
   [none, none, none, none]]

/-! ## One frame of the game loop -/

/-- What a call `instance->update(ren, level, &player, &solids, &hazards)` can write: the
entities, and the two vectors it is handed pointers to. -/
structure Reach where
  heap : ObjPtr → Entity
  solids : List ObjPtr
  hazards : List ObjPtr

/-- The virtual call `q->update(ren, level, &player, &solids, &hazards)` for the entity at
address `q`: it reads the player and the counters; `none` is an update without a defined
result. -/
abbrev EntityUpdate := ObjPtr → Player → Globals → Reach → Option Reach

/-- The loops "update non-solids" (`solid = false`, Source.cpp lines 1650-1655) and "update
solids" (`solid = true`, lines 1660-1665) over the members of `instances`: the member is
updated when its `m_solid` flag, read at its turn, is `solid`. -/
def updateWhere (upd : EntityUpdate) (player : Player) (gl : Globals) (solid : Bool) :
    List ObjPtr → Reach → Option Reach
  | [], r => some r
  | q :: rest, r =>
    if (r.heap q).toObject.m_solid == solid then
      (upd q player gl r).bind fun r1 => updateWhere upd player gl solid rest r1
    else updateWhere upd player gl solid rest r

/-- The state carried by the game loop of `play` from frame to frame, with the local `result`
of the frame. -/
structure FrameState where
  play : PlayState
  player : Player
  globals : Globals
  result : Int

/-- The body of the game loop of `play` from the tracking variables to the assignment of
`lastgridx` and `lastgridy` (Source.cpp lines 1557-1668), without the event poll and the draw
calls, in the order of the source: `newgridx` and `newgridy` are computed from the player as
the frame finds it, the active set is maintained, the player is updated against the
maintained vectors, the non-solid and then the solid members of `instances` are updated, and
the tracking variables are stored.  `projectiles` holds the projectiles in flight, which
live in their spawners. -/
def frameStep (fuel : Nat) (nan : Int) (keys : Keys) (level : Level)
    (projectiles : List (ObjPtr × Object)) (upd : EntityUpdate) (w : FrameState) :
    Option FrameState :=
  let newgridx := newGridX w.play w.player
  let newgridy := newGridY w.play w.player
  (maintain level newgridx newgridy w.play).bind fun s1 =>
  (Player.update fuel nan keys w.globals s1.heap projectiles s1.solids s1.hazards s1.enemies
    s1.collectibles w.player).bind fun out =>
  (updateWhere upd out.player out.globals false s1.instances
    { heap := out.heap, solids := s1.solids, hazards := s1.hazards }).bind fun r1 =>
  (updateWhere upd out.player out.globals true s1.instances r1).bind fun r2 =>
  some { play := { s1 with heap := r2.heap, solids := r2.solids, hazards := r2.hazards,
                           lastgridx := newgridx, lastgridy := newgridy },
         player := out.player, globals := out.globals, result := out.result }

/-- The phase "player update (physics and collision)" on its own: `Player::update` against
the vectors as the phase finds them. -/
def phasePlayer (fuel : Nat) (nan : Int) (keys : Keys) (projectiles : List (ObjPtr × Object))
    (w : FrameState) : Option FrameState :=
  (Player.update fuel nan keys w.globals w.play.heap projectiles w.play.solids w.play.hazards
    w.play.enemies w.play.collectibles w.player).map fun out =>
    { play := { w.play with heap := out.heap }, player := out.player, globals := out.globals,
      result := out.result }

/-- The phase "active-set maintenance" on its own: protect-queue fill, window rebuild and
eviction against the tile of the player as the phase finds it, which becomes the tracked
tile. -/
def phaseMaintain (level : Level) (w : FrameState) : Option FrameState :=
  (maintain level (newGridX w.play w.player) (newGridY w.play w.player) w.play).map fun s1 =>
    { w with play := { s1 with lastgridx := newGridX w.play w.player,
                               lastgridy := newGridY w.play w.player } }

/-- The phases "updates of all non-solid active entities" (`solid = false`) and "updates of
all solid active entities" (`solid = true`) on their own. -/
def phaseEntities (upd : EntityUpdate) (solid : Bool) (w : FrameState) : Option FrameState :=
  (updateWhere upd w.player w.globals solid w.play.instances
    { heap := w.play.heap, solids := w.play.solids, hazards := w.play.hazards }).map fun r =>
    { w with play := { w.play with heap := r.heap, solids := r.solids, hazards := r.hazards } }

/-- The frame step as the specification orders it: player update, then maintenance, then the
non-solid and the solid entity updates. -/
def specFrameStep (fuel : Nat) (nan : Int) (keys : Keys) (level : Level)
    (projectiles : List (ObjPtr × Object)) (upd : EntityUpdate) (w : FrameState) :
    Option FrameState :=
  (phasePlayer fuel nan keys projectiles w).bind fun w1 =>
  (phaseMaintain level w1).bind fun w2 =>
  (phaseEntities upd false w2).bind fun w3 => phaseEntities upd true w3

/-- The composition of the phases with maintenance first: maintenance, then player update,
then the non-solid and the solid entity updates. -/
def maintainFirstFrameStep (fuel : Nat) (nan : Int) (keys : Keys) (level : Level)
    (projectiles : List (ObjPtr × Object)) (upd : EntityUpdate) (w : FrameState) :
    Option FrameState :=
  (phaseMaintain level w).bind fun w1 =>
  (phasePlayer fuel nan keys projectiles w1).bind fun w2 =>
  (phaseEntities upd false w2).bind fun w3 => phaseEntities upd true w3

/-- Example level of 13 rows by 40 columns holding one entity, at row 6, column 21. -/
def runLevel : Level :=
  (List.replicate 13 (List.replicate 40 none)).set 6
    ((List.replicate 40 (none : Option ObjPtr)).set 21 (some 1))

/-- Example heap of that level: a plant spawned at tile (21, 6). -/
def runHeap : ObjPtr → Entity := fun _ => .plant (Plant.new 0 0 672 192)

/-- Example player running right at full speed in the air: at (351, 208), the last pixels of
tile column 10, with the camera centred. -/
def runner : Player :=
  { m_x := 351, m_y := 208, m_frame := 0, m_flip := 0, m_hspd := 4, m_vspd := -(3 / 10),
    m_rect := ⟨351, 208, 28, 32⟩, m_grounded := false, m_jumping := false, v_x := 320,
    v_y := 272 }

/-- The runner after its update: four pixels on, in tile column 11. -/
def runnerAfter : Player :=
  { m_x := 355, m_y := 208, m_frame := 1, m_flip := 0, m_hspd := 4, m_vspd := 0,
    m_rect := ⟨355, 208, 28, 32⟩, m_grounded := false, m_jumping := false, v_x := 320,
    v_y := 272 }

/-- The right arrow key held, nothing else. -/
def rightKeys : Keys := { idleKeys false with right := true }

/-- Example state at the start of a frame: the window is centred on tile (10, 6), spans
columns 0 to 20 and holds nothing. -/
def runState : PlayState :=
  { heap := runHeap, instances := [], solids := [], hazards := [], enemies := [],
    collectibles := [], protQueue := [], lastgridx := 10, lastgridy := 6, first := false,
    resetLog := [] }

/-- The example frame: the runner in the example state. -/
def runFrame : FrameState :=
  { play := runState, player := runner, globals := exampleGlobals, result := 0 }

/-! ## Rounding of `double` sums -/

/-- Rounding of a rational to the nearest integer, a tie going to the even one. -/
def roundHalfEven (q : ℚ) : Int :=
  if q - ⌊q⌋ < 1 / 2 then ⌊q⌋
  else if 1 / 2 < q - ⌊q⌋ then ⌊q⌋ + 1
  else if ⌊q⌋ % 2 = 0 then ⌊q⌋ else ⌊q⌋ + 1

/-- The spacing of the `double` values (IEEE 754 binary64, 53 significant bits) around a
rational `q`: `2 ^ (e - 52)` when `2 ^ e <= |q| < 2 ^ (e + 1)`, and `2 ^ (-1074)` for `|q|`
below `2 ^ (-1022)`. -/
def ulp (q : ℚ) : ℚ := (2 : ℚ) ^ (max (Int.log 2 |q|) (-1022) - 52)

/-- The `double` that a rational `q` is rounded to (round to nearest, ties to even), for `q`
below the overflow threshold. -/
def roundDouble (q : ℚ) : ℚ := (roundHalfEven (q / ulp q) : ℚ) * ulp q

/-- The horizontal move of `Player::update` (Source.cpp lines 308-320) with the sum of
`m_x += m_hspd` formed as the machine forms it: `m_x` is converted to `double`, the sum is
rounded to the nearest `double`, and the conversion back to `int` truncates toward zero.
`Player.moveX` takes the sum exactly; the two agree whenever the sum is a `double`. -/
def Player.moveXRounded (fuel : Nat) (nan : Int) (p : Player) (solids : List SDL_Rect) :
    Option Player :=
  let x : Int := doubleToInt (roundDouble ((p.m_x : ℚ) + p.m_hspd))
  Player.alignXAll fuel nan { p with m_x := x, m_rect := ⟨x, p.m_y, 28, 32⟩ } solids

/-- The sum `a + b` of two `double`s, as the `double` it is rounded to. -/
def fadd (a b : ℚ) : ℚ := roundDouble (a + b)

/-- The literal `0.1`, the traction of ice and of thin ice (Source.cpp lines 536 and 560), as
a `double`. -/
def iceTraction : ℚ := roundDouble (1 / 10)

/-- The horizontal speed after `n` frames of `m_hspd += acc` (Source.cpp line 269; with
`acc` negated, `m_hspd -= acc` of line 263), from the speed `h`. -/
def frames (acc : ℚ) : Nat → ℚ → ℚ
  | 0, h => h
  | n + 1, h => frames acc n (fadd h acc)

/-- The rectangles of the four floor walls of the 3 by 4 example level. -/
def floorRects : List SDL_Rect :=
  [⟨0, 64, 32, 32⟩, ⟨32, 64, 32, 32⟩, ⟨64, 64, 32, 32⟩, ⟨96, 64, 32, 32⟩]

/-! ## Theorems: collision engine -/

theorem samplePointInside_iff (left right : SDL_Rect) (h v : Int) :
    samplePointInside left right h v = true ↔
      (right.x < left.x + h ∧ left.x + h < right.x + right.w ∧
        right.y < left.y + v ∧ left.y + v < right.y + right.h) := by
  simp [samplePointInside, and_assoc]

theorem collidedInner_iff (left right : SDL_Rect) (h : Int) (fuel : Nat) (v : Int) :
    collidedInner left right h fuel v = true ↔
      ∃ k : Nat, k < fuel ∧ v + 8 * (k : Int) ≤ left.h ∧
        samplePointInside left right h (v + 8 * (k : Int)) = true := by
  induction fuel generalizing v with
  | zero => simp [collidedInner]
  | succ n ih =>
    unfold collidedInner
    by_cases hv : v ≤ left.h
    · simp only [hv, if_true]
      cases hs : samplePointInside left right h v with
      | true =>
        simp only [if_true, true_iff]
        exact ⟨0, by omega, by simpa using hv, by simpa using hs⟩
      | false =>
        simp only [Bool.false_eq_true, if_false, ih]
        constructor
        · rintro ⟨k, hk, hle, hin⟩
          refine ⟨k + 1, by omega, ?_, ?_⟩
          · push_cast; omega
          · have e : v + 8 * ((k + 1 : Nat) : Int) = v + 8 + 8 * (k : Int) := by push_cast; ring
            rw [e]; exact hin
        · rintro ⟨k, hk, hle, hin⟩
          cases k with
          | zero => simp [hs] at hin
          | succ j =>
            have e : v + 8 * ((j + 1 : Nat) : Int) = v + 8 + 8 * (j : Int) := by push_cast; ring
            rw [e] at hle hin
            exact ⟨j, by omega, hle, hin⟩
    · simp only [hv, if_false, Bool.false_eq_true, false_iff]
      rintro ⟨k, _, hle, _⟩
      omega

theorem collidedOuter_iff (left right : SDL_Rect) (fuel : Nat) (h : Int) :
    collidedOuter left right fuel h = true ↔
      ∃ k : Nat, k < fuel ∧ h + 8 * (k : Int) ≤ left.w ∧
        collidedInner left right (h + 8 * (k : Int)) (left.h.toNat / 8 + 2) 0 = true := by
  induction fuel generalizing h with
  | zero => simp [collidedOuter]
  | succ n ih =>
    unfold collidedOuter
    by_cases hv : h ≤ left.w
    · simp only [hv, if_true]
      cases hs : collidedInner left right h (left.h.toNat / 8 + 2) 0 with
      | true =>
        simp only [if_true, true_iff]
        exact ⟨0, by omega, by simpa using hv, by simpa using hs⟩
      | false =>
        simp only [Bool.false_eq_true, if_false, ih]
        constructor
        · rintro ⟨k, hk, hle, hin⟩
          refine ⟨k + 1, by omega, ?_, ?_⟩
          · push_cast; omega
          · have e : h + 8 * ((k + 1 : Nat) : Int) = h + 8 + 8 * (k : Int) := by push_cast; ring
            rw [e]; exact hin
        · rintro ⟨k, hk, hle, hin⟩
          cases k with
          | zero => simp [hs] at hin
          | succ j =>
            have e : h + 8 * ((j + 1 : Nat) : Int) = h + 8 + 8 * (j : Int) := by push_cast; ring
            rw [e] at hle hin
            exact ⟨j, by omega, hle, hin⟩
    · simp only [hv, if_false, Bool.false_eq_true, false_iff]
      rintro ⟨k, _, hle, _⟩
      omega

/-- The sampled overlap test in closed form: some sample point of `left`, at offsets that are
multiples of 8 within its width and height, lies strictly inside `right`. -/
theorem collided_iff_sample (left right : SDL_Rect) :
    collided left right = true ↔
      ∃ h v : Int, 8 ∣ h ∧ 0 ≤ h ∧ h ≤ left.w ∧ 8 ∣ v ∧ 0 ≤ v ∧ v ≤ left.h ∧
        right.x < left.x + h ∧ left.x + h < right.x + right.w ∧
        right.y < left.y + v ∧ left.y + v < right.y + right.h := by
  unfold collided
  rw [collidedOuter_iff]
  constructor
  · rintro ⟨k, _, hle, hin⟩
    rw [collidedInner_iff] at hin
    obtain ⟨j, _, hjle, hs⟩ := hin
    rw [samplePointInside_iff] at hs
    refine ⟨8 * (k : Int), 8 * (j : Int), Dvd.intro _ rfl, by omega, by omega,
      Dvd.intro _ rfl, by omega, by omega, ?_⟩
    simpa using hs
  · rintro ⟨h, v, ⟨a, rfl⟩, h0, hw, ⟨b, rfl⟩, v0, vh, hs⟩
    refine ⟨a.toNat, by omega, by omega, ?_⟩
    rw [collidedInner_iff]
    refine ⟨b.toNat, by omega, by omega, ?_⟩
    rw [samplePointInside_iff]
    have ea : ((a.toNat : Nat) : Int) = a := Int.toNat_of_nonneg (by omega)
    have eb : ((b.toNat : Nat) : Int) = b := Int.toNat_of_nonneg (by omega)
    rw [ea, eb]
    simpa using hs

/-- C1: for all integer rectangles A and B, `collided A B` is true exactly when there are
multiples of 8, `h` with `0 ≤ h ≤ A.w` and `v` with `0 ≤ v ≤ A.h`, such that
`B.x < A.x + h < B.x + B.w` and `B.y < A.y + v < B.y + B.h`; in particular
`collided (0,0,32,32) (16,16,32,32)` is true and `collided (0,0,32,32) (40,0,32,32)` is
false. -/
theorem C1_collided_samples :
    (∀ A B : SDL_Rect, collided A B = true ↔
      ∃ h v : Int, 8 ∣ h ∧ 0 ≤ h ∧ h ≤ A.w ∧ 8 ∣ v ∧ 0 ≤ v ∧ v ≤ A.h ∧
        B.x < A.x + h ∧ A.x + h < B.x + B.w ∧ B.y < A.y + v ∧ A.y + v < B.y + B.h) ∧
    collided ⟨0, 0, 32, 32⟩ ⟨16, 16, 32, 32⟩ = true ∧
    collided ⟨0, 0, 32, 32⟩ ⟨40, 0, 32, 32⟩ = false :=
  ⟨collided_iff_sample, by decide, by decide⟩

theorem translated_zero (left : SDL_Rect) (xstep ystep : Int) :
    translated left xstep ystep 0 = left := by
  cases left; simp [translated]

theorem translated_alignStep (left : SDL_Rect) (xstep ystep : Int) (k : Nat) :
    translated (alignStep left xstep ystep) xstep ystep k = translated left xstep ystep (k + 1) := by
  simp only [translated, alignStep, SDL_Rect.mk.injEq, and_true]
  constructor <;> (push_cast; ring)

/-- If `k` translations are the first to separate the rectangles, the loop of `align` makes
exactly `k` of them, whatever budget above `k` it is given. -/
theorem alignLoop_of_least (right : SDL_Rect) (xstep ystep : Int) (k : Nat) :
    ∀ (fuel : Nat) (left : SDL_Rect) (rvalue : Bool), k < fuel →
      (∀ j, j < k → collided (translated left xstep ystep j) right = true) →
      collided (translated left xstep ystep k) right = false →
      alignLoop right xstep ystep fuel left rvalue =
        some (translated left xstep ystep k, rvalue || decide (0 < k)) := by
  induction k with
  | zero =>
    intro fuel left rvalue hf _ hk
    cases fuel with
    | zero => omega
    | succ n =>
      rw [translated_zero] at hk
      simp [alignLoop, hk, translated_zero]
  | succ m ih =>
    intro fuel left rvalue hf hlt hk
    cases fuel with
    | zero => omega
    | succ n =>
      have h0 : collided left right = true := by
        have := hlt 0 (by omega)
        rwa [translated_zero] at this
      have step := ih n (alignStep left xstep ystep) true (by omega)
        (fun j hj => by rw [translated_alignStep]; exact hlt (j + 1) (by omega))
        (by rw [translated_alignStep]; exact hk)
      rw [translated_alignStep] at step
      simp [alignLoop, h0, step]

/-- Whenever the loop of `align` returns, the number of translations it made is the least one
that separates the rectangles. -/
theorem alignLoop_some (right : SDL_Rect) (xstep ystep : Int) :
    ∀ (fuel : Nat) (left : SDL_Rect) (rvalue : Bool) (res : SDL_Rect × Bool),
      alignLoop right xstep ystep fuel left rvalue = some res →
      ∃ k : Nat, k < fuel ∧
        (∀ j, j < k → collided (translated left xstep ystep j) right = true) ∧
        collided (translated left xstep ystep k) right = false ∧
        res = (translated left xstep ystep k, rvalue || decide (0 < k)) := by
  intro fuel
  induction fuel with
  | zero => intro left rvalue res h; simp [alignLoop] at h
  | succ n ih =>
    intro left rvalue res h
    unfold alignLoop at h
    cases hc : collided left right with
    | false =>
      simp only [hc, Bool.false_eq_true, if_false, Option.some.injEq] at h
      refine ⟨0, by omega, fun j hj => by omega, by rw [translated_zero]; exact hc, ?_⟩
      simp [translated_zero, ← h]
    | true =>
      simp only [hc, if_true] at h
      obtain ⟨k, hk, hlt, hfalse, hres⟩ := ih _ _ _ h
      refine ⟨k + 1, by omega, ?_, ?_, ?_⟩
      · intro j hj
        cases j with
        | zero => rw [translated_zero]; exact hc
        | succ i =>
          have := hlt i (by omega)
          rwa [translated_alignStep] at this
      · rw [← translated_alignStep]; exact hfalse
      · rw [hres, translated_alignStep]; simp

/-- C2: whenever `align` terminates (returns with some budget `fuel`), it leaves A equal to
the original A translated by `-k * (sx, sy)`, where `k` is the least natural number such that
`collided (A - k * (sx, sy)) B` is false; the width and height of A are unchanged; the
returned flag is true exactly when `k > 0`, that is exactly when A and B collided on entry
(when they did not, A is unchanged and false is returned); and every budget above `k` gives
the same result. -/
theorem C2_align_least_translation (A B : SDL_Rect) (sx sy : Int) (fuel : Nat)
    (A1 : SDL_Rect) (r : Bool) (hterm : align fuel A B sx sy = some (A1, r)) :
    ∃ k : Nat,
      collided (translated A sx sy k) B = false ∧
      (∀ j, j < k → collided (translated A sx sy j) B = true) ∧
      A1 = translated A sx sy k ∧
      A1.x = A.x - k * sx ∧ A1.y = A.y - k * sy ∧ A1.w = A.w ∧ A1.h = A.h ∧
      (r = true ↔ 0 < k) ∧
      (r = true ↔ collided A B = true) ∧
      (collided A B = false → A1 = A ∧ r = false) ∧
      (∀ fuel2, k < fuel2 → align fuel2 A B sx sy = some (A1, r)) := by
  obtain ⟨k, _, hlt, hfalse, hres⟩ := alignLoop_some B sx sy fuel A false (A1, r) hterm
  simp only [Bool.false_or, Prod.mk.injEq] at hres
  obtain ⟨hA, hr⟩ := hres
  have hrk : r = true ↔ 0 < k := by rw [hr]; simp
  have hck : collided A B = true ↔ 0 < k := by
    constructor
    · intro hc
      rcases Nat.eq_zero_or_pos k with h0 | h0
      · rw [h0, translated_zero, hc] at hfalse; cases hfalse
      · exact h0
    · intro hk
      have := hlt 0 hk
      rwa [translated_zero] at this
  refine ⟨k, hfalse, hlt, hA, by rw [hA]; rfl, by rw [hA]; rfl, by rw [hA]; rfl,
    by rw [hA]; rfl, hrk, hrk.trans hck.symm, ?_, ?_⟩
  · intro hc
    have hk0 : k = 0 := by
      rcases Nat.eq_zero_or_pos k with h0 | h0
      · exact h0
      · rw [hck.mpr h0] at hc; cases hc
    subst hk0
    refine ⟨by rw [hA, translated_zero], ?_⟩
    rw [hr]; simp
  · intro fuel2 hf
    have := alignLoop_of_least B sx sy k fuel2 A false hf hlt hfalse
    simp only [Bool.false_or] at this
    rw [align, this, hA, hr]

/-- Witness for C2: the two overlapping 32x32 squares of the collision test. -/
theorem C2_align_least_translation_witness :
    align 40 ⟨0, 0, 32, 32⟩ ⟨16, 16, 32, 32⟩ 1 0 = some (⟨-16, 0, 32, 32⟩, true) ∧
    ∃ k : Nat,
      collided (translated ⟨0, 0, 32, 32⟩ 1 0 k) ⟨16, 16, 32, 32⟩ = false ∧
      (∀ j, j < k → collided (translated ⟨0, 0, 32, 32⟩ 1 0 j) ⟨16, 16, 32, 32⟩ = true) ∧
      (⟨-16, 0, 32, 32⟩ : SDL_Rect) = translated ⟨0, 0, 32, 32⟩ 1 0 k ∧
      (⟨-16, 0, 32, 32⟩ : SDL_Rect).x = (⟨0, 0, 32, 32⟩ : SDL_Rect).x - k * 1 ∧
      (⟨-16, 0, 32, 32⟩ : SDL_Rect).y = (⟨0, 0, 32, 32⟩ : SDL_Rect).y - k * 0 ∧
      (⟨-16, 0, 32, 32⟩ : SDL_Rect).w = (⟨0, 0, 32, 32⟩ : SDL_Rect).w ∧
      (⟨-16, 0, 32, 32⟩ : SDL_Rect).h = (⟨0, 0, 32, 32⟩ : SDL_Rect).h ∧
      (true = true ↔ 0 < k) ∧
      (true = true ↔ collided ⟨0, 0, 32, 32⟩ ⟨16, 16, 32, 32⟩ = true) ∧
      (collided ⟨0, 0, 32, 32⟩ ⟨16, 16, 32, 32⟩ = false →
        (⟨-16, 0, 32, 32⟩ : SDL_Rect) = ⟨0, 0, 32, 32⟩ ∧ true = false) ∧
      (∀ fuel2, k < fuel2 →
        align fuel2 ⟨0, 0, 32, 32⟩ ⟨16, 16, 32, 32⟩ 1 0 = some (⟨-16, 0, 32, 32⟩, true)) :=
  ⟨by decide,
    C2_align_least_translation ⟨0, 0, 32, 32⟩ ⟨16, 16, 32, 32⟩ 1 0 40 ⟨-16, 0, 32, 32⟩ true
      (by decide)⟩

/-- Once the rightmost sample column of `left` is at or left of the left edge of `right`, the
rectangles no longer collide. -/
theorem not_collided_of_left (left right : SDL_Rect)
    (h : left.x + 8 * (left.w / 8) ≤ right.x) : collided left right = false := by
  rw [← Bool.not_eq_true, collided_iff_sample]
  rintro ⟨a, v, ha, ha0, haw, _, _, _, hx, _⟩
  omega

/-- C3 (counterexample): a 28x32 rectangle overlapping a 32x32 one from inside still collides
after `A.w = 28` one-unit translations (a budget of 29 loop tests is not enough); it separates
only after 44. -/
theorem C3_counterexample :
    collided ⟨20, 0, 28, 32⟩ ⟨0, 0, 32, 32⟩ = true ∧
    align (28 + 1) ⟨20, 0, 28, 32⟩ ⟨0, 0, 32, 32⟩ 1 0 = none ∧
    collided (translated ⟨20, 0, 28, 32⟩ 1 0 28) ⟨0, 0, 32, 32⟩ = true ∧
    align (44 + 1) ⟨20, 0, 28, 32⟩ ⟨0, 0, 32, 32⟩ 1 0 =
      some (translated ⟨20, 0, 28, 32⟩ 1 0 44, true) := by
  decide

/-- C3 (amended): for all rectangles A and B with `collided A B` true, `align A B 1 0`
terminates after `k` one-unit translations of A with `0 < k ≤ A.w + B.w - 1`, and with
`k ≤ A.w` when A's left edge is not to the right of B's (`A.x ≤ B.x`); on return
`collided A B` is false. -/
theorem C3_align_unit_step_bound (A B : SDL_Rect) (hc : collided A B = true) :
    ∃ k : Nat, 0 < k ∧ (k : Int) ≤ A.w + B.w - 1 ∧ (A.x ≤ B.x → (k : Int) ≤ A.w) ∧
      align (k + 1) A B 1 0 = some (translated A 1 0 k, true) ∧
      collided (translated A 1 0 k) B = false := by
  have hs := (collided_iff_sample A B).mp hc
  obtain ⟨a, v, ha, ha0, haw, _, _, _, hx1, hx2, _, _⟩ := hs
  have hex : ∃ n : Nat, collided (translated A 1 0 n) B = false := by
    refine ⟨(A.x + 8 * (A.w / 8) - B.x).toNat, not_collided_of_left _ _ ?_⟩
    simp only [translated]
    omega
  let k := Nat.find hex
  have hk : collided (translated A 1 0 k) B = false := Nat.find_spec hex
  have hmin : ∀ j, j < k → collided (translated A 1 0 j) B = true := by
    intro j hj
    have := Nat.find_min hex hj
    simpa using this
  have hkle : k ≤ (A.x + 8 * (A.w / 8) - B.x).toNat := by
    apply Nat.find_min'
    apply not_collided_of_left
    simp only [translated]
    omega
  have hkpos : 0 < k := by
    rcases Nat.eq_zero_or_pos k with h0 | h0
    · rw [h0, translated_zero, hc] at hk; cases hk
    · exact h0
  refine ⟨k, hkpos, by omega, fun _ => by omega, ?_, hk⟩
  have := alignLoop_of_least B 1 0 k (k + 1) A false (by omega) hmin hk
  rw [align, this]
  simp [hkpos]

/-- Witness for C3 (amended): the rectangles of the counterexample, where 44 translations are
needed and `A.w + B.w - 1 = 59`. -/
theorem C3_align_unit_step_bound_witness :
    collided ⟨20, 0, 28, 32⟩ ⟨0, 0, 32, 32⟩ = true ∧
    ∃ k : Nat, 0 < k ∧
      (k : Int) ≤ (⟨20, 0, 28, 32⟩ : SDL_Rect).w + (⟨0, 0, 32, 32⟩ : SDL_Rect).w - 1 ∧
      ((⟨20, 0, 28, 32⟩ : SDL_Rect).x ≤ (⟨0, 0, 32, 32⟩ : SDL_Rect).x →
        (k : Int) ≤ (⟨20, 0, 28, 32⟩ : SDL_Rect).w) ∧
      align (k + 1) ⟨20, 0, 28, 32⟩ ⟨0, 0, 32, 32⟩ 1 0 =
        some (translated ⟨20, 0, 28, 32⟩ 1 0 k, true) ∧
      collided (translated ⟨20, 0, 28, 32⟩ 1 0 k) ⟨0, 0, 32, 32⟩ = false :=
  ⟨by decide, C3_align_unit_step_bound ⟨20, 0, 28, 32⟩ ⟨0, 0, 32, 32⟩ (by decide)⟩

/-! ## Theorems: the player against a wall -/

theorem doubleToInt_intCast (n : Int) : doubleToInt (n : ℚ) = n := by
  unfold doubleToInt
  split <;> simp

theorem signStep_of_pos (nan : Int) (q : ℚ) (hq : 0 < q) : signStep nan q = 1 := by
  unfold signStep
  rw [if_neg (ne_of_gt hq), abs_of_pos hq, div_self (ne_of_gt hq)]
  exact doubleToInt_intCast 1

/-- A 28x32 rectangle at `(X, y)` collides with a 32x32 rectangle at `(W, y)` in the same row
exactly when its sample column at offset 24 is right of `W` and its left edge left of
`W + 32`. -/
theorem collided_player_wall (X y W : Int) :
    collided ⟨X, y, 28, 32⟩ ⟨W, y, 32, 32⟩ = true ↔ W - 24 < X ∧ X < W + 32 := by
  rw [collided_iff_sample]
  constructor
  · rintro ⟨a, v, ha, ha0, haw, _, _, _, hx1, hx2, _, _⟩
    simp only at haw hx1 hx2
    omega
  · rintro ⟨h1, h2⟩
    by_cases hneg : W < X
    · exact ⟨0, 8, by simp, by omega, by simp, by simp, by omega, by simp,
        by simpa using hneg, by simpa using h2, by simp, by simp⟩
    · refine ⟨8 * ((W - X) / 8 + 1), 8, Dvd.intro _ rfl, by omega, ?_, by simp, by omega,
        by simp, ?_, ?_, by simp, by simp⟩
      · simp only; omega
      · simp only; omega
      · simp only; omega

/-- Aligning the 28x32 player rectangle leftwards against a 32x32 wall in the same row that it
collides with stops at `W - 24`. -/
theorem align_player_wall (X y W : Int) (h1 : W - 24 < X) (h2 : X < W + 32) :
    align 64 ⟨X, y, 28, 32⟩ ⟨W, y, 32, 32⟩ 1 0 = some (⟨W - 24, y, 28, 32⟩, true) := by
  have hk := alignLoop_of_least ⟨W, y, 32, 32⟩ 1 0 (X - (W - 24)).toNat 64 ⟨X, y, 28, 32⟩ false
    (by omega)
    (fun j hj => by
      simp only [translated]
      rw [mul_zero, sub_zero, collided_player_wall]
      omega)
    (by
      simp only [translated]
      rw [mul_zero, sub_zero, ← Bool.not_eq_true, collided_player_wall]
      omega)
  have hpos : 0 < (X - (W - 24)).toNat := by omega
  have ht : translated ⟨X, y, 28, 32⟩ 1 0 (X - (W - 24)).toNat = ⟨W - 24, y, 28, 32⟩ := by
    simp only [translated, SDL_Rect.mk.injEq, and_true]
    constructor <;> omega
  rw [align, hk, ht, decide_eq_true hpos]
  rfl

/-- C4 (counterexample): a player at `m_x = 67` on the row `y = 64`, moving right at speed 4
toward the wall tile at `(96, 64)` (one unit right of its right edge `67 + 28`), with two floor
tiles below.  The first horizontal move reaches `m_x = 71` without alignment; the second one
aligns against the wall and ends with `m_hspd = 0` and `m_x = 72 = 96 - 24`, not
`96 - 28 = 68`. -/
theorem C4_counterexample :
    Player.moveX 64 (-2147483648)
        ⟨67, 64, 0, 0, 4, 0, ⟨67, 64, 28, 32⟩, true, false, 320, 272⟩
        [⟨96, 64, 32, 32⟩, ⟨64, 96, 32, 32⟩, ⟨96, 96, 32, 32⟩] =
      some ⟨71, 64, 0, 0, 4, 0, ⟨71, 64, 28, 32⟩, true, false, 320, 272⟩ ∧
    Player.moveX 64 (-2147483648)
        ⟨71, 64, 0, 0, 4, 0, ⟨71, 64, 28, 32⟩, true, false, 320, 272⟩
        [⟨96, 64, 32, 32⟩, ⟨64, 96, 32, 32⟩, ⟨96, 96, 32, 32⟩] =
      some ⟨72, 64, 0, 0, 0, 0, ⟨72, 64, 28, 32⟩, true, false, 320, 272⟩ ∧
    (72 : Int) ≠ (⟨96, 64, 32, 32⟩ : SDL_Rect).x - 28 := by
  have e1 : doubleToInt (67 + 4 : ℚ) = 71 := by
    rw [show (67 + 4 : ℚ) = ((71 : Int) : ℚ) by norm_num]; exact doubleToInt_intCast 71
  have e2 : doubleToInt (71 + 4 : ℚ) = 75 := by
    rw [show (71 + 4 : ℚ) = ((75 : Int) : ℚ) by norm_num]; exact doubleToInt_intCast 75
  have s4 : signStep (-2147483648) 4 = 1 := signStep_of_pos _ _ (by norm_num)
  have s0 : signStep (-2147483648) 0 = -2147483648 := by simp [signStep]
  have a1 : align 64 ⟨71, 64, 28, 32⟩ ⟨96, 64, 32, 32⟩ 1 0 = some (⟨71, 64, 28, 32⟩, false) := by
    decide
  have a2 : align 64 ⟨71, 64, 28, 32⟩ ⟨64, 96, 32, 32⟩ 1 0 = some (⟨71, 64, 28, 32⟩, false) := by
    decide
  have a3 : align 64 ⟨71, 64, 28, 32⟩ ⟨96, 96, 32, 32⟩ 1 0 = some (⟨71, 64, 28, 32⟩, false) := by
    decide
  have b1 : align 64 ⟨75, 64, 28, 32⟩ ⟨96, 64, 32, 32⟩ 1 0 = some (⟨72, 64, 28, 32⟩, true) := by
    decide
  have b2 : align 64 ⟨72, 64, 28, 32⟩ ⟨64, 96, 32, 32⟩ (-2147483648) 0 =
      some (⟨72, 64, 28, 32⟩, false) := by decide
  have b3 : align 64 ⟨72, 64, 28, 32⟩ ⟨96, 96, 32, 32⟩ (-2147483648) 0 =
      some (⟨72, 64, 28, 32⟩, false) := by decide
  refine ⟨?_, ?_, by decide⟩
  · simp [Player.moveX, Player.alignXAll, Player.alignX, e1, s4, a1, a2, a3]
  · simp [Player.moveX, Player.alignXAll, Player.alignX, e2, s4, s0, b1, b2, b3]

/-- C4 (amended): for a player (28x32 rectangle) moving right at max speed (`m_hspd = 4`)
toward a 32x32 wall in the same row whose left edge `W` starts one unit to the right of the
player's right edge, the first horizontal move of `Player::update` advances the player by 4
without alignment (speed still 4), and the next one, entered at the same height and speed, in
which the alignment against the wall occurs, ends with `m_hspd = 0` and `m_x = W - 24`: the
rightmost sample column of the 28-wide rectangle is at offset 24, so the player stops four
units inside the wall's left edge. -/
theorem C4_player_stops_at_sample_column (p : Player) (W nan : Int)
    (hspd : p.m_hspd = 4) (hgap : W = p.m_x + 28 + 1) :
    Player.moveX 64 nan p [⟨W, p.m_y, 32, 32⟩] =
      some { p with m_x := p.m_x + 4, m_rect := ⟨p.m_x + 4, p.m_y, 28, 32⟩ } ∧
    Player.moveX 64 nan { p with m_x := p.m_x + 4, m_rect := ⟨p.m_x + 4, p.m_y, 28, 32⟩ }
        [⟨W, p.m_y, 32, 32⟩] =
      some { p with m_x := W - 24, m_hspd := 0, m_rect := ⟨W - 24, p.m_y, 28, 32⟩ } := by
  have s4 : signStep nan 4 = 1 := signStep_of_pos _ _ (by norm_num)
  have e1 : doubleToInt ((p.m_x : ℚ) + 4) = p.m_x + 4 := by
    have : ((p.m_x : ℚ) + 4) = ((p.m_x + 4 : Int) : ℚ) := by push_cast; ring
    rw [this, doubleToInt_intCast]
  have e2 : doubleToInt ((p.m_x : ℚ) + 4 + 4) = p.m_x + 8 := by
    have : ((p.m_x : ℚ) + 4 + 4) = ((p.m_x + 8 : Int) : ℚ) := by push_cast; ring
    rw [this, doubleToInt_intCast]
  have hfree : collided ⟨p.m_x + 4, p.m_y, 28, 32⟩ ⟨W, p.m_y, 32, 32⟩ = false := by
    rw [← Bool.not_eq_true, collided_player_wall]; omega
  have a1 : align 64 ⟨p.m_x + 4, p.m_y, 28, 32⟩ ⟨W, p.m_y, 32, 32⟩ 1 0 =
      some (⟨p.m_x + 4, p.m_y, 28, 32⟩, false) := by
    simp [align, alignLoop, hfree]
  have a2 := align_player_wall (p.m_x + 8) p.m_y W (by omega) (by omega)
  constructor
  · simp [Player.moveX, Player.alignXAll, Player.alignX, hspd, e1, s4, a1]
  · simp [Player.moveX, Player.alignXAll, Player.alignX, hspd, e2, s4, a2]

/-- Witness for C4 (amended): the player at `m_x = 67` and the wall at `W = 96`. -/
theorem C4_player_stops_at_sample_column_witness :
    Player.moveX 64 0 ⟨67, 64, 0, 0, 4, 0, ⟨67, 64, 28, 32⟩, true, false, 320, 272⟩
        [⟨96, 64, 32, 32⟩] =
      some ⟨67 + 4, 64, 0, 0, 4, 0, ⟨67 + 4, 64, 28, 32⟩, true, false, 320, 272⟩ ∧
    Player.moveX 64 0 ⟨67 + 4, 64, 0, 0, 4, 0, ⟨67 + 4, 64, 28, 32⟩, true, false, 320, 272⟩
        [⟨96, 64, 32, 32⟩] =
      some ⟨96 - 24, 64, 0, 0, 0, 0, ⟨96 - 24, 64, 28, 32⟩, true, false, 320, 272⟩ :=
  C4_player_stops_at_sample_column
    ⟨67, 64, 0, 0, 4, 0, ⟨67, 64, 28, 32⟩, true, false, 320, 272⟩ 96 0 rfl (by decide)

/-! ## Theorems: reset semantics -/

theorem object_reset_reset (o : Object) : o.reset.reset = o.reset := rfl

theorem thinIce_reset_reset (s : ThinIce) : s.reset.reset = s.reset := by
  unfold ThinIce.reset
  by_cases h : s.m_frameThinIce > 3
  · simp [h]
  · simp [h]

theorem ptero_reset_reset (s : Ptero) : s.reset.reset = s.reset := by
  simp [Ptero.reset, abs_neg, abs_abs]

/-- C5: for every entity kind and every state, `reset (reset s) = reset s`: invoking soft
reset twice in succession yields the same state as invoking it once.  The statement covers the
kinds that inherit `Object::reset` (Wall, Water, Thorns, Ice, Snake, Mushroom, Mammoth, and the
scenery kinds) and those that override it (ThinIce, Ptero, Frog, Plant, Spit, Yeti, Gem100,
GemL). -/
theorem C5_reset_idempotent (e : Entity) : e.reset.reset = e.reset := by
  cases e with
  | thinIce s => simp only [Entity.reset, thinIce_reset_reset]
  | ptero s => simp only [Entity.reset, ptero_reset_reset]
  | wall s => rfl
  | water s => rfl
  | thorns s => rfl
  | ice s => rfl
  | tree s => rfl
  | flower s => rfl
  | snake s => rfl
  | frog s => rfl
  | plant s => rfl
  | spit s => rfl
  | yeti s => rfl
  | mushroom s => rfl
  | gem100 s => rfl
  | gemL s => rfl
  | mammoth s => rfl

/-- C6 (counterexample): a dead snake (`m_exists = false`) exists again after `reset()`. -/
theorem C6_counterexample :
    (Entity.snake ⟨{ Object.mk0 0 0 96 64 16 32 false true true false with m_exists := false },
        2, false⟩).isEnemyKind = true ∧
    (Entity.snake ⟨{ Object.mk0 0 0 96 64 16 32 false true true false with m_exists := false },
        2, false⟩).toObject.m_exists = false ∧
    (Entity.snake ⟨{ Object.mk0 0 0 96 64 16 32 false true true false with m_exists := false },
        2, false⟩).reset.toObject.m_exists = true := by
  refine ⟨rfl, rfl, rfl⟩

/-- C6 (amended): for every enemy kind (Snake, Ptero, Frog, Yeti, Mammoth, Mushroom) and every
state, soft reset sets the exists flag to true; in particular `reset()` applied to a dead
enemy (`m_exists = false`) yields `m_exists = true`, so an enemy that is reset when it leaves
the window is restored. -/
theorem C6_reset_restores_enemy (e : Entity) (hk : e.isEnemyKind = true) :
    e.reset.toObject.m_exists = true ∧ e.reset.isEnemyKind = true := by
  cases e <;> first | exact ⟨rfl, rfl⟩ | cases hk

/-- Witness for C6 (amended): a dead frog. -/
theorem C6_reset_restores_enemy_witness :
    (Entity.frog ⟨{ Object.mk0 0 0 96 64 32 32 false true true false with m_exists := false },
        -1, 0, 0, true⟩).isEnemyKind = true ∧
    (Entity.frog ⟨{ Object.mk0 0 0 96 64 32 32 false true true false with m_exists := false },
        -1, 0, 0, true⟩).reset.toObject.m_exists = true ∧
    (Entity.frog ⟨{ Object.mk0 0 0 96 64 32 32 false true true false with m_exists := false },
        -1, 0, 0, true⟩).reset.isEnemyKind = true :=
  ⟨rfl, C6_reset_restores_enemy
    (Entity.frog ⟨{ Object.mk0 0 0 96 64 32 32 false true true false with m_exists := false },
        -1, 0, 0, true⟩) rfl⟩

/-- C7: for every collectible (Gem100, GemL) in any state, however many times it has been
consumed, `resetStrong` yields `m_exists = true` and changes no other field: the result is the
same kind of gem whose `Object` part is the old one with `m_exists` set. -/
theorem C7_resetStrong_restores_collectible (e : Entity) (hk : e.isCollectibleKind = true) :
    e.resetStrong.toObject.m_exists = true ∧
    e.resetStrong.toObject = { e.toObject with m_exists := true } ∧
    ((∃ s : Gem100, e = .gem100 s ∧ e.resetStrong = .gem100 ⟨{ s.toObject with m_exists := true }⟩) ∨
     (∃ s : GemL, e = .gemL s ∧ e.resetStrong = .gemL ⟨{ s.toObject with m_exists := true }⟩)) := by
  cases e with
  | gem100 s => exact ⟨rfl, rfl, Or.inl ⟨s, rfl, rfl⟩⟩
  | gemL s => exact ⟨rfl, rfl, Or.inr ⟨s, rfl, rfl⟩⟩
  | _ => cases hk

/-- Witness for C7: a consumed score gem spawned at tile (3, 2). -/
theorem C7_resetStrong_restores_collectible_witness :
    (Entity.gem100 ⟨{ Object.mk0 0 0 104 72 16 16 false false false true with
        m_exists := false }⟩).isCollectibleKind = true ∧
    (Entity.gem100 ⟨{ Object.mk0 0 0 104 72 16 16 false false false true with
        m_exists := false }⟩).resetStrong.toObject.m_exists = true :=
  ⟨rfl, (C7_resetStrong_restores_collectible
    (Entity.gem100 ⟨{ Object.mk0 0 0 104 72 16 16 false false false true with
        m_exists := false }⟩) rfl).1⟩

/-- C8: for every collectible (Gem100, GemL) and every state, soft reset is the identity:
`reset()` changes no field, so any number of soft resets leaves the collectible as it was, a
consumed one (`m_exists = false`) still consumed, and a `reset()` call made by active-set
maintenance on its address leaves the heap unchanged. -/
theorem C8_reset_ignores_collectible (e : Entity) (hk : e.isCollectibleKind = true) :
    e.reset = e ∧
    (∀ n : Nat, Entity.reset^[n] e = e) ∧
    (e.toObject.m_exists = false → ∀ n : Nat, (Entity.reset^[n] e).toObject.m_exists = false) ∧
    (∀ (s : PlayState) (q : ObjPtr), s.heap q = e → (s.resetAt q).heap = s.heap) := by
  have h1 : e.reset = e := by
    cases e <;> first | rfl | cases hk
  have h2 : ∀ n : Nat, Entity.reset^[n] e = e := fun n => Function.iterate_fixed h1 n
  refine ⟨h1, h2, fun hx n => by rw [h2 n]; exact hx, ?_⟩
  intro s q hq
  funext r
  simp only [PlayState.resetAt, heapSet]
  split
  · next hr => rw [hr, hq, h1]
  · rfl

/-- Witness for C8: a consumed life gem. -/
theorem C8_reset_ignores_collectible_witness :
    (Entity.gemL ⟨{ Object.mk0 0 0 104 72 16 16 false false false true with
        m_exists := false }⟩).isCollectibleKind = true ∧
    (Entity.gemL ⟨{ Object.mk0 0 0 104 72 16 16 false false false true with
        m_exists := false }⟩).reset =
      Entity.gemL ⟨{ Object.mk0 0 0 104 72 16 16 false false false true with
        m_exists := false }⟩ :=
  ⟨rfl, (C8_reset_ignores_collectible
    (Entity.gemL ⟨{ Object.mk0 0 0 104 72 16 16 false false false true with
        m_exists := false }⟩) rfl).1⟩

/-! ## Theorems: vector helpers and projectile retirement -/

theorem getIndexFrom_of_not_mem {α : Type} [DecidableEq α] (t : α) (l : List α) (i : Int)
    (h : t ∉ l) : getIndexFrom t l i = -1 := by
  induction l generalizing i with
  | nil => rfl
  | cons a rest ih =>
    have ha : a ≠ t := fun e => h (by simp [e])
    have hr : t ∉ rest := fun m => h (List.mem_cons_of_mem _ m)
    simp [getIndexFrom, ha, ih _ hr]

theorem getIndexFrom_of_mem {α : Type} [DecidableEq α] (t : α) (l : List α) (i : Int)
    (h : t ∈ l) : getIndexFrom t l i = i + (l.indexOf t : Int) := by
  induction l generalizing i with
  | nil => cases h
  | cons a rest ih =>
    by_cases ha : a = t
    · subst ha
      simp [getIndexFrom]
    · have hr : t ∈ rest := by
        rcases List.mem_cons.mp h with e | m
        · exact absurd e.symm ha
        · exact m
      have hne : ¬ (a == t) = true := by simpa using ha
      simp only [getIndexFrom, ha, if_false, ih _ hr, List.indexOf_cons, hne, cond_false]
      push_cast
      ring

theorem getIndex_of_not_mem {α : Type} [DecidableEq α] (l : List α) (t : α) (h : t ∉ l) :
    getIndex l t = -1 :=
  getIndexFrom_of_not_mem t l 0 h

theorem getIndex_of_mem {α : Type} [DecidableEq α] (l : List α) (t : α) (h : t ∈ l) :
    getIndex l t = (l.indexOf t : Int) := by
  rw [getIndex, getIndexFrom_of_mem t l 0 h, zero_add]

theorem getIndex_eq_neg_one_iff {α : Type} [DecidableEq α] (l : List α) (t : α) :
    getIndex l t = -1 ↔ t ∉ l := by
  constructor
  · intro h hm
    rw [getIndex_of_mem l t hm] at h
    omega
  · exact getIndex_of_not_mem l t

/-- Erasing at the position found by `getIndex` removes the first occurrence. -/
theorem vectorErase_getIndex {α : Type} [DecidableEq α] (l : List α) (t : α) (h : t ∈ l) :
    vectorErase l (getIndex l t) = some (l.erase t) := by
  have hlt : l.indexOf t < l.length := List.indexOf_lt_length.mpr h
  rw [getIndex_of_mem l t h, vectorErase, if_pos ⟨by omega, by omega⟩, Int.toNat_ofNat,
    List.eraseIdx_indexOf_eq_erase]

/-- Erasing at the position `-1` that `getIndex` returns for an absent element is undefined. -/
theorem vectorErase_getIndex_of_not_mem {α : Type} [DecidableEq α] (l : List α) (t : α)
    (h : t ∉ l) : vectorErase l (getIndex l t) = none := by
  rw [getIndex_of_not_mem l t h, vectorErase, if_neg (by omega)]

theorem filter_ne_eq_self_of_not_mem (l : List ObjPtr) (t : ObjPtr) (h : t ∉ l) :
    l.filter (fun q => decide (q ≠ t)) = l := by
  rw [List.filter_eq_self]
  intro b hb
  have hbt : b ≠ t := fun e => h (e ▸ hb)
  simpa using hbt

theorem erase_eq_filter_of_count_le_one (l : List ObjPtr) (t : ObjPtr) (h : l.count t ≤ 1) :
    l.erase t = l.filter (fun q => decide (q ≠ t)) := by
  induction l with
  | nil => rfl
  | cons a rest ih =>
    by_cases ha : a = t
    · subst ha
      have hr : a ∉ rest := by
        intro m
        have := List.count_pos_iff.mpr m
        simp at h
        omega
      rw [List.erase_cons_head, List.filter_cons_of_neg (by simp),
        filter_ne_eq_self_of_not_mem rest a hr]
    · have hc : rest.count t ≤ 1 := by
        rw [List.count_cons_of_ne (Ne.symm ha)] at h
        exact h
      have hbeq : (a == t) = false := by simpa using ha
      rw [List.erase_cons, hbeq, List.filter_cons_of_pos (by simpa using ha), ih hc]
      rfl

theorem not_mem_filter_ne (l : List ObjPtr) (t : ObjPtr) :
    t ∉ l.filter (fun q => decide (q ≠ t)) := by
  simp [List.mem_filter]

/-- The guarded erase of `cleanup` always succeeds and removes the first occurrence, if any. -/
theorem guarded_erase_eq (H : List ObjPtr) (this : ObjPtr) :
    (if getIndex H this ≠ -1 then vectorErase H (getIndex H this) else some H) =
      some (H.erase this) := by
  by_cases hm : this ∈ H
  · have hne : getIndex H this ≠ -1 := fun e => (getIndex_eq_neg_one_iff H this).mp e hm
    rw [if_pos hne, vectorErase_getIndex H this hm]
  · rw [if_neg (by rw [getIndex_of_not_mem H this hm]; simp), List.erase_of_not_mem hm]

theorem spore_cleanup_eq (s : Spore) (this : ObjPtr) (H : List ObjPtr) :
    s.cleanup this H =
      some ({ s with toObject := { s.toObject with m_exists := false } }, H.erase this) := by
  have h := guarded_erase_eq H this
  unfold Spore.cleanup
  by_cases hne : getIndex H this ≠ -1
  · rw [if_pos hne] at h
    simp only [if_pos hne, h, Option.map_some']
  · rw [if_neg hne] at h
    simp only [if_neg hne]
    rw [← Option.some.inj h]

theorem snowball_cleanup_eq (s : Snowball) (this : ObjPtr) (H : List ObjPtr) :
    s.cleanup this H =
      some ({ s with toObject := { s.toObject with m_exists := false } }, H.erase this) := by
  have h := guarded_erase_eq H this
  unfold Snowball.cleanup
  by_cases hne : getIndex H this ≠ -1
  · rw [if_pos hne] at h
    simp only [if_pos hne, h, Option.map_some']
  · rw [if_neg hne] at h
    simp only [if_neg hne]
    rw [← Option.some.inj h]

/-- C9: for every projectile (Spore or Snowball) at address `this` and every hazards list in
which it occurs at most once, `cleanup` is idempotent and error-free: it returns normally
(no out-of-range erase), sets `m_exists = false` and changes no other field, yields the
hazards list with the projectile removed and all other entries in their original order, and a
second `cleanup` returns exactly the same projectile state and list. -/
theorem C9_cleanup_idempotent (sp : Spore) (sb : Snowball) (this : ObjPtr) (H : List ObjPtr)
    (hocc : H.count this ≤ 1) :
    (∃ sp1 H1, sp.cleanup this H = some (sp1, H1) ∧
      sp1 = { sp with toObject := { sp.toObject with m_exists := false } } ∧
      sp1.m_exists = false ∧
      H1 = H.filter (fun q => decide (q ≠ this)) ∧ this ∉ H1 ∧
      sp1.cleanup this H1 = some (sp1, H1)) ∧
    (∃ sb1 H1, sb.cleanup this H = some (sb1, H1) ∧
      sb1 = { sb with toObject := { sb.toObject with m_exists := false } } ∧
      sb1.m_exists = false ∧
      H1 = H.filter (fun q => decide (q ≠ this)) ∧ this ∉ H1 ∧
      sb1.cleanup this H1 = some (sb1, H1)) := by
  have hnot := not_mem_filter_ne H this
  have he := erase_eq_filter_of_count_le_one H this hocc
  constructor
  · refine ⟨{ sp with toObject := { sp.toObject with m_exists := false } },
      H.filter (fun q => decide (q ≠ this)), ?_, rfl, rfl, rfl, hnot, ?_⟩
    · rw [spore_cleanup_eq, he]
    · rw [spore_cleanup_eq, List.erase_of_not_mem hnot]
  · refine ⟨{ sb with toObject := { sb.toObject with m_exists := false } },
      H.filter (fun q => decide (q ≠ this)), ?_, rfl, rfl, rfl, hnot, ?_⟩
    · rw [snowball_cleanup_eq, he]
    · rw [snowball_cleanup_eq, List.erase_of_not_mem hnot]

/-- Witness for C9: a spore and a snowball at address 7 in the hazards list `[3, 7, 5]`. -/
theorem C9_cleanup_idempotent_witness :
    ([3, 7, 5] : List ObjPtr).count 7 ≤ 1 ∧
    (⟨Object.mk0 0 0 104 72 16 16 false true false false, -3, -10⟩ : Spore).cleanup 7 [3, 7, 5] =
      some (⟨{ Object.mk0 0 0 104 72 16 16 false true false false with m_exists := false },
        -3, -10⟩, [3, 5]) :=
  ⟨by decide, by
    obtain ⟨sp1, H1, h1, h2, _, h4, _⟩ :=
      (C9_cleanup_idempotent ⟨Object.mk0 0 0 104 72 16 16 false true false false, -3, -10⟩
        ⟨Object.mk0 0 0 104 72 16 16 false true false false, -8, 0⟩ 7 [3, 7, 5] (by decide)).1
    rw [h1, h2, h4]
    rfl⟩

/-! ## Theorems: active-set maintenance -/

theorem groupInstance_frame (ptr : ObjPtr) (s : PlayState) :
    (groupInstance ptr s).heap = s.heap ∧ (groupInstance ptr s).protQueue = s.protQueue ∧
    (groupInstance ptr s).resetLog = s.resetLog ∧
    (groupInstance ptr s).instances = s.instances ++ [ptr] := by
  simp only [groupInstance]
  split_ifs <;> exact ⟨rfl, rfl, rfl, rfl⟩

theorem fillStep_frame (st : PlayState) (inst : ObjPtr) :
    (fillStep st inst).heap = st.heap ∧ (fillStep st inst).instances = st.instances ∧
    (fillStep st inst).resetLog = st.resetLog ∧
    (fillStep st inst).lastgridx = st.lastgridx ∧ (fillStep st inst).lastgridy = st.lastgridy ∧
    (fillStep st inst).first = st.first := by
  unfold fillStep
  split <;> exact ⟨rfl, rfl, rfl, rfl, rfl, rfl⟩

theorem fillFold_frame (l : List ObjPtr) (st : PlayState) :
    (l.foldl fillStep st).heap = st.heap ∧ (l.foldl fillStep st).instances = st.instances ∧
    (l.foldl fillStep st).resetLog = st.resetLog ∧
    (l.foldl fillStep st).lastgridx = st.lastgridx ∧
    (l.foldl fillStep st).lastgridy = st.lastgridy ∧
    (l.foldl fillStep st).first = st.first := by
  induction l generalizing st with
  | nil => exact ⟨rfl, rfl, rfl, rfl, rfl, rfl⟩
  | cons a rest ih =>
    obtain ⟨h1, h2, h3, h4, h5, h6⟩ := ih (fillStep st a)
    obtain ⟨g1, g2, g3, g4, g5, g6⟩ := fillStep_frame st a
    exact ⟨h1.trans g1, h2.trans g2, h3.trans g3, h4.trans g4, h5.trans g5, h6.trans g6⟩

theorem fillStep_mono (st : PlayState) (inst e : ObjPtr) (h : e ∈ st.protQueue) :
    e ∈ (fillStep st inst).protQueue := by
  unfold fillStep
  split
  · exact List.mem_append_left _ h
  · exact h

theorem fillFold_mono (l : List ObjPtr) (st : PlayState) (e : ObjPtr) (h : e ∈ st.protQueue) :
    e ∈ (l.foldl fillStep st).protQueue := by
  induction l generalizing st with
  | nil => exact h
  | cons a rest ih => exact ih _ (fillStep_mono st a e h)

theorem fillStep_self (st : PlayState) (e : ObjPtr)
    (hp : (st.heap e).toObject.m_protected = true) : e ∈ (fillStep st e).protQueue := by
  unfold fillStep
  by_cases hidx : getIndex st.protQueue e = -1
  · simp [hp, hidx]
  · have hm : e ∈ st.protQueue := by
      by_contra hn
      exact hidx (getIndex_of_not_mem _ _ hn)
    simp [hidx, hm]

/-- After the fill loop every protected member of the list it ran over is in the queue. -/
theorem fillFold_protected (l : List ObjPtr) (st : PlayState) (e : ObjPtr) (hl : e ∈ l)
    (hp : (st.heap e).toObject.m_protected = true) : e ∈ (l.foldl fillStep st).protQueue := by
  induction l generalizing st with
  | nil => cases hl
  | cons a rest ih =>
    rcases List.mem_cons.mp hl with rfl | hr
    · exact fillFold_mono rest _ e (fillStep_self st e hp)
    · exact ih (fillStep st a) hr (by rw [(fillStep_frame st a).1]; exact hp)

theorem scanCell_frame (row : List (Option ObjPtr)) (gx x : Int) (s s1 : PlayState)
    (h : scanCell row gx x s = some s1) :
    s1.heap = s.heap ∧ s1.protQueue = s.protQueue ∧ s1.resetLog = s.resetLog := by
  unfold scanCell at h
  split at h
  · cases h; exact ⟨rfl, rfl, rfl⟩
  · split at h
    · cases h
    · cases h; exact ⟨rfl, rfl, rfl⟩
    · cases h
      obtain ⟨h1, h2, h3, _⟩ := groupInstance_frame _ s
      exact ⟨h1, h2, h3⟩

theorem scanCells_frame (row : List (Option ObjPtr)) (gx : Int) (xs : List Int)
    (s s1 : PlayState) (h : scanCells row gx xs s = some s1) :
    s1.heap = s.heap ∧ s1.protQueue = s.protQueue ∧ s1.resetLog = s.resetLog := by
  induction xs generalizing s with
  | nil => cases h; exact ⟨rfl, rfl, rfl⟩
  | cons x rest ih =>
    unfold scanCells at h
    cases hc : scanCell row gx x s with
    | none => rw [hc] at h; cases h
    | some s2 =>
      rw [hc] at h
      obtain ⟨a1, a2, a3⟩ := scanCell_frame row gx x s s2 hc
      obtain ⟨b1, b2, b3⟩ := ih s2 h
      exact ⟨b1.trans a1, b2.trans a2, b3.trans a3⟩

theorem scanRow_frame (level : Level) (gx gy y : Int) (s s1 : PlayState)
    (h : scanRow level gx gy y s = some s1) :
    s1.heap = s.heap ∧ s1.protQueue = s.protQueue ∧ s1.resetLog = s.resetLog := by
  unfold scanRow at h
  split at h
  · cases h; exact ⟨rfl, rfl, rfl⟩
  · split at h
    · cases h
    · exact scanCells_frame _ _ _ _ _ h

theorem scanRows_frame (level : Level) (gx gy : Int) (ys : List Int) (s s1 : PlayState)
    (h : scanRows level gx gy ys s = some s1) :
    s1.heap = s.heap ∧ s1.protQueue = s.protQueue ∧ s1.resetLog = s.resetLog := by
  induction ys generalizing s with
  | nil => cases h; exact ⟨rfl, rfl, rfl⟩
  | cons y rest ih =>
    unfold scanRows at h
    cases hc : scanRow level gx gy y s with
    | none => rw [hc] at h; cases h
    | some s2 =>
      rw [hc] at h
      obtain ⟨a1, a2, a3⟩ := scanRow_frame level gx gy y s s2 hc
      obtain ⟨b1, b2, b3⟩ := ih s2 h
      exact ⟨b1.trans a1, b2.trans a2, b3.trans a3⟩

theorem addProtectedStep_frame (st : PlayState) (ptr : ObjPtr) :
    (addProtectedStep st ptr).heap = st.heap ∧
    (addProtectedStep st ptr).protQueue = st.protQueue ∧
    (addProtectedStep st ptr).resetLog = st.resetLog ∧
    (∀ e, e ∈ st.instances → e ∈ (addProtectedStep st ptr).instances) ∧
    ptr ∈ (addProtectedStep st ptr).instances := by
  unfold addProtectedStep
  by_cases hidx : getIndex st.instances ptr = -1
  · obtain ⟨h1, h2, h3, h4⟩ := groupInstance_frame ptr st
    rw [if_pos hidx]
    refine ⟨h1, h2, h3, fun e he => ?_, ?_⟩
    · rw [h4]; exact List.mem_append_left _ he
    · rw [h4]; simp
  · rw [if_neg hidx]
    refine ⟨rfl, rfl, rfl, fun e he => he, ?_⟩
    by_contra hn
    exact hidx (getIndex_of_not_mem _ _ hn)

theorem addProtectedFold_frame (l : List ObjPtr) (st : PlayState) :
    (l.foldl addProtectedStep st).heap = st.heap ∧
    (l.foldl addProtectedStep st).protQueue = st.protQueue ∧
    (l.foldl addProtectedStep st).resetLog = st.resetLog ∧
    (∀ e, e ∈ st.instances → e ∈ (l.foldl addProtectedStep st).instances) ∧
    (∀ e, e ∈ l → e ∈ (l.foldl addProtectedStep st).instances) := by
  induction l generalizing st with
  | nil => exact ⟨rfl, rfl, rfl, fun e he => he, fun e he => by cases he⟩
  | cons a rest ih =>
    obtain ⟨h1, h2, h3, h4, h5⟩ := ih (addProtectedStep st a)
    obtain ⟨g1, g2, g3, g4, g5⟩ := addProtectedStep_frame st a
    refine ⟨h1.trans g1, h2.trans g2, h3.trans g3, fun e he => h4 e (g4 e he), ?_⟩
    intro e he
    rcases List.mem_cons.mp he with rfl | hr
    · exact h4 e g5
    · exact h5 e hr

theorem resetAt_heap_of_ne (s : PlayState) (q e : ObjPtr) (h : e ≠ q) :
    (s.resetAt q).heap e = s.heap e := by
  simp [PlayState.resetAt, heapSet, h]

/-- The loop over the previous instances leaves the entities of the new `instances` alone. -/
theorem resetDepartedFold_frame (l : List ObjPtr) (st : PlayState) (e : ObjPtr)
    (he : e ∈ st.instances) :
    (l.foldl resetDepartedStep st).instances = st.instances ∧
    (l.foldl resetDepartedStep st).protQueue = st.protQueue ∧
    (l.foldl resetDepartedStep st).heap e = st.heap e ∧
    ∃ added, (l.foldl resetDepartedStep st).resetLog = st.resetLog ++ added ∧ e ∉ added := by
  induction l generalizing st with
  | nil => exact ⟨rfl, rfl, rfl, [], by simp, by simp⟩
  | cons a rest ih =>
    simp only [List.foldl_cons]
    by_cases hidx : getIndex st.instances a = -1
    · have hstep : resetDepartedStep st a = st.resetAt a := by
        unfold resetDepartedStep; rw [if_pos hidx]
      have hne : e ≠ a := by
        rintro rfl
        exact (getIndex_eq_neg_one_iff _ _).mp hidx he
      rw [hstep]
      obtain ⟨h1, h2, h3, added, h4, h5⟩ := ih (st.resetAt a) he
      refine ⟨h1, h2, h3.trans (resetAt_heap_of_ne st a e hne), a :: added, ?_, ?_⟩
      · rw [h4]; simp [PlayState.resetAt]
      · simp [hne, h5]
    · have hstep : resetDepartedStep st a = st := by
        unfold resetDepartedStep; rw [if_neg hidx]
      rw [hstep]
      exact ih st he

/-- A window rebuild keeps every member of the protect queue in `instances` and does not
reset it. -/
theorem rebuild_keeps_queue (level : Level) (gx gy : Int) (s s2 : PlayState) (e : ObjPtr)
    (h : rebuild level gx gy s = some s2) (he : e ∈ s.protQueue) :
    s2.protQueue = s.protQueue ∧ e ∈ s2.instances ∧ s2.heap e = s.heap e ∧
    ∃ added, s2.resetLog = s.resetLog ++ added ∧ e ∉ added := by
  unfold rebuild at h
  simp only [Option.map_eq_some'] at h
  obtain ⟨s1, hscan, hs2⟩ := h
  obtain ⟨a1, a2, a3⟩ := scanRows_frame _ _ _ _ _ _ hscan
  obtain ⟨b1, b2, b3, _, b5⟩ := addProtectedFold_frame s1.protQueue s1
  have hin : e ∈ (addProtected s1).instances := b5 e (by rw [a2]; exact he)
  obtain ⟨c1, c2, c3, added, c4, c5⟩ := resetDepartedFold_frame s.instances (addProtected s1) e hin
  subst hs2
  refine ⟨?_, ?_, ?_, added, ?_, c5⟩
  · exact c2.trans (b2.trans a2)
  · unfold resetDeparted; rw [c1]; exact hin
  · exact c3.trans ((congrFun b1 e).trans (congrFun a1 e))
  · exact c4.trans (by rw [show (addProtected s1).resetLog = s1.resetLog from b3, a3])

theorem vectorErase_getIndex_some {α : Type} [DecidableEq α] (l l1 : List α) (t : α)
    (h : vectorErase l (getIndex l t) = some l1) : t ∈ l ∧ l1 = l.erase t := by
  by_cases hm : t ∈ l
  · rw [vectorErase_getIndex l t hm] at h
    exact ⟨hm, (Option.some.inj h).symm⟩
  · rw [vectorErase_getIndex_of_not_mem l t hm] at h
    cases h

/-- An eviction that is well defined removes the first occurrence of `q` from `instances`,
resets `q` and touches no other entity. -/
theorem evict_frame (s s1 : PlayState) (q : ObjPtr) (h : evict s q = some s1) :
    q ∈ s.instances ∧ s1.instances = s.instances.erase q ∧
    s1.heap = heapSet s.heap q (s.heap q).reset ∧ s1.resetLog = s.resetLog ++ [q] ∧
    s1.protQueue = s.protQueue := by
  unfold evict at h
  simp only [Option.bind_eq_some] at h
  obtain ⟨inst, hinst, _, _, _, _, _, _, _, _, hs1⟩ := h
  have := vectorErase_getIndex_some _ _ _ hinst
  cases hs1
  exact ⟨this.1, this.2, rfl, rfl, rfl⟩

/-- The cleanup loop never evicts an entity whose protected flag is set: it stays in
`instances` and is not reset. -/
theorem cleanupLoop_keeps_protected (gx gy : Int) (e : ObjPtr) :
    ∀ (remaining kept : List ObjPtr) (s s1 : PlayState),
      cleanupLoop gx gy remaining kept s = some s1 →
      e ∈ s.instances → (s.heap e).toObject.m_protected = true →
      e ∈ s1.instances ∧ s1.heap e = s.heap e ∧
      ∃ added, s1.resetLog = s.resetLog ++ added ∧ e ∉ added := by
  intro remaining
  induction remaining with
  | nil =>
    intro kept s s1 h he _
    simp only [cleanupLoop, Option.some.injEq] at h
    subst h
    exact ⟨he, rfl, [], by simp, by simp⟩
  | cons q rest ih =>
    intro kept s s1 h he hp
    unfold cleanupLoop at h
    by_cases hq : (s.heap q).toObject.m_protected = true
    · simp only [hq, Bool.not_true, Bool.false_eq_true, if_false] at h
      exact ih _ _ _ h he hp
    · have hq2 : (s.heap q).toObject.m_protected = false := by simpa using hq
      have hne : e ≠ q := by
        rintro rfl
        exact hq hp
      simp only [hq2, Bool.not_false, if_true] at h
      by_cases hout : outsideEnlargedWindow (s.heap q).toObject gx gy = true
      · simp only [hout, if_true, Option.bind_eq_some] at h
        obtain ⟨s2, hev, hrest⟩ := h
        obtain ⟨_, e1, e2, e3, _⟩ := evict_frame s s2 q hev
        have he2 : e ∈ s2.instances := by
          rw [e1]; exact (List.mem_erase_of_ne hne).mpr he
        have hh2 : s2.heap e = s.heap e := by
          rw [e2]; simp [heapSet, hne]
        obtain ⟨r1, r2, added, r3, r4⟩ := ih _ _ _ hrest he2 (by rw [hh2]; exact hp)
        refine ⟨r1, r2.trans hh2, q :: added, ?_, ?_⟩
        · rw [r3, e3]; simp
        · simp [hne, r4]
      · simp only [hout, Bool.false_eq_true, if_false] at h
        exact ih _ _ _ h he hp

/-! ### Maintenance of a rebuild frame is well defined -/

theorem reset_keeps_flags (e : Entity) :
    e.reset.toObject.m_solid = e.toObject.m_solid ∧
    e.reset.toObject.m_hazard = e.toObject.m_hazard ∧
    e.reset.toObject.m_enemy = e.toObject.m_enemy ∧
    e.reset.toObject.m_collectible = e.toObject.m_collectible := by
  cases e with
  | thinIce s =>
    simp only [Entity.reset, Entity.toObject, ThinIce.reset]
    split <;> exact ⟨rfl, rfl, rfl, rfl⟩
  | _ => exact ⟨rfl, rfl, rfl, rfl⟩

theorem grouped_groupInstance_of_grouped (s : PlayState) (p q : ObjPtr) (h : Grouped s q) :
    Grouped (groupInstance p s) q := by
  obtain ⟨h0, h1, h2, h3, h4⟩ := h
  simp only [groupInstance, Grouped]
  split_ifs <;>
    exact ⟨List.mem_append_left _ h0,
      fun x => by first | exact List.mem_append_left _ (h1 x) | exact h1 x,
      fun x => by first | exact List.mem_append_left _ (h2 x) | exact h2 x,
      fun x => by first | exact List.mem_append_left _ (h3 x) | exact h3 x,
      fun x => by first | exact List.mem_append_left _ (h4 x) | exact h4 x⟩

theorem grouped_groupInstance_self (s : PlayState) (p : ObjPtr) :
    Grouped (groupInstance p s) p := by
  simp only [groupInstance, Grouped]
  split_ifs <;> simp_all

theorem allGrouped_groupInstance (s : PlayState) (p : ObjPtr)
    (h : ∀ q ∈ s.instances, Grouped s q) :
    ∀ q ∈ (groupInstance p s).instances, Grouped (groupInstance p s) q := by
  intro q hq
  rw [(groupInstance_frame p s).2.2.2, List.mem_append] at hq
  rcases hq with hq | hq
  · exact grouped_groupInstance_of_grouped s p q (h q hq)
  · rw [List.mem_singleton] at hq
    subst hq
    exact grouped_groupInstance_self s q

theorem toSizeT_pred_length (n : Nat) (h0 : 0 < n) (h : n < 2 ^ 64) :
    toSizeT ((n : Int) - 1) = n - 1 := by
  unfold toSizeT
  have h2 : ((n : Int) - 1) % 2 ^ 64 = (n : Int) - 1 :=
    Int.emod_eq_of_lt (by omega) (by omega)
  rw [h2]
  omega

theorem scanCell_defined (row : List (Option ObjPtr)) (gx x : Int) (s : PlayState)
    (hrow : row ≠ [] ∧ row.length < 2 ^ 64) (hg : ∀ q ∈ s.instances, Grouped s q) :
    ∃ s1, scanCell row gx x s = some s1 ∧ ∀ q ∈ s1.instances, Grouped s1 q := by
  have hpos : 0 < row.length := List.length_pos.mpr hrow.1
  unfold scanCell
  split
  · exact ⟨s, rfl, hg⟩
  · next hc =>
    have hle : toSizeT (gx + x) < row.length := by
      have := toSizeT_pred_length row.length hpos hrow.2
      have h1 : ¬ toSizeT (gx + x) > toSizeT ((row.length : Int) - 1) := fun h => hc (Or.inl h)
      omega
    obtain ⟨slot, hslot⟩ : ∃ slot, row.get? (toSizeT (gx + x)) = some slot :=
      ⟨row.get ⟨_, hle⟩, List.get?_eq_get hle⟩
    rw [hslot]
    cases slot with
    | none => exact ⟨s, rfl, hg⟩
    | some ptr => exact ⟨groupInstance ptr s, rfl, allGrouped_groupInstance s ptr hg⟩

theorem scanCells_defined (row : List (Option ObjPtr)) (gx : Int) (xs : List Int)
    (s : PlayState) (hrow : row ≠ [] ∧ row.length < 2 ^ 64)
    (hg : ∀ q ∈ s.instances, Grouped s q) :
    ∃ s1, scanCells row gx xs s = some s1 ∧ ∀ q ∈ s1.instances, Grouped s1 q := by
  induction xs generalizing s with
  | nil => exact ⟨s, rfl, hg⟩
  | cons x rest ih =>
    obtain ⟨s2, h2, g2⟩ := scanCell_defined row gx x s hrow hg
    obtain ⟨s3, h3, g3⟩ := ih s2 g2
    exact ⟨s3, by simp [scanCells, h2, h3], g3⟩

theorem scanRow_defined (level : Level) (gx gy y : Int) (s : PlayState)
    (hlevel : level.Scannable) (hg : ∀ q ∈ s.instances, Grouped s q) :
    ∃ s1, scanRow level gx gy y s = some s1 ∧ ∀ q ∈ s1.instances, Grouped s1 q := by
  obtain ⟨hne, hlen, hrows⟩ := hlevel
  have hpos : 0 < level.length := List.length_pos.mpr hne
  unfold scanRow
  split
  · exact ⟨s, rfl, hg⟩
  · next hc =>
    have hle : toSizeT (gy + y) < level.length := by
      have := toSizeT_pred_length level.length hpos hlen
      have h1 : ¬ toSizeT (gy + y) > toSizeT ((level.length : Int) - 1) := fun h => hc (Or.inl h)
      omega
    have hrow : level.get? (toSizeT (gy + y)) = some (level.get ⟨_, hle⟩) :=
      List.get?_eq_get hle
    rw [hrow]
    exact scanCells_defined _ gx _ s (hrows _ (List.get_mem _ _ _)) hg

theorem scanRows_defined (level : Level) (gx gy : Int) (ys : List Int) (s : PlayState)
    (hlevel : level.Scannable) (hg : ∀ q ∈ s.instances, Grouped s q) :
    ∃ s1, scanRows level gx gy ys s = some s1 ∧ ∀ q ∈ s1.instances, Grouped s1 q := by
  induction ys generalizing s with
  | nil => exact ⟨s, rfl, hg⟩
  | cons y rest ih =>
    obtain ⟨s2, h2, g2⟩ := scanRow_defined level gx gy y s hlevel hg
    obtain ⟨s3, h3, g3⟩ := ih s2 g2
    exact ⟨s3, by simp [scanRows, h2, h3], g3⟩

theorem addProtectedFold_grouped (l : List ObjPtr) (st : PlayState)
    (hg : ∀ q ∈ st.instances, Grouped st q) :
    ∀ q ∈ (l.foldl addProtectedStep st).instances, Grouped (l.foldl addProtectedStep st) q := by
  induction l generalizing st with
  | nil => exact hg
  | cons a rest ih =>
    apply ih
    unfold addProtectedStep
    split
    · exact allGrouped_groupInstance st a hg
    · exact hg

theorem grouped_resetAt (s : PlayState) (a q : ObjPtr) (h : Grouped s q) :
    Grouped (s.resetAt a) q := by
  obtain ⟨h0, h1, h2, h3, h4⟩ := h
  have hflags : (s.resetAt a).heap q = s.heap q ∨ (s.resetAt a).heap q = (s.heap q).reset := by
    by_cases hqa : q = a
    · right; subst hqa; simp [PlayState.resetAt, heapSet]
    · left; exact resetAt_heap_of_ne s a q hqa
  obtain ⟨f1, f2, f3, f4⟩ := reset_keeps_flags (s.heap q)
  refine ⟨h0, ?_, ?_, ?_, ?_⟩ <;> rcases hflags with e | e <;> rw [e]
  · exact h1
  · rw [f1]; exact h1
  · exact h2
  · rw [f2]; exact h2
  · exact h3
  · rw [f3]; exact h3
  · exact h4
  · rw [f4]; exact h4

theorem resetDepartedFold_grouped (l : List ObjPtr) (st : PlayState)
    (hg : ∀ q ∈ st.instances, Grouped st q) :
    ∀ q ∈ (l.foldl resetDepartedStep st).instances,
      Grouped (l.foldl resetDepartedStep st) q := by
  induction l generalizing st with
  | nil => exact hg
  | cons a rest ih =>
    apply ih
    unfold resetDepartedStep
    split
    · intro q hq
      exact grouped_resetAt st a q (hg q hq)
    · exact hg

theorem resetDepartedFold_lists (l : List ObjPtr) (st : PlayState) :
    (l.foldl resetDepartedStep st).protQueue = st.protQueue ∧
    (l.foldl resetDepartedStep st).instances = st.instances := by
  induction l generalizing st with
  | nil => exact ⟨rfl, rfl⟩
  | cons a rest ih =>
    simp only [List.foldl_cons]
    obtain ⟨h1, h2⟩ := ih (resetDepartedStep st a)
    rw [h1, h2]
    unfold resetDepartedStep
    split <;> exact ⟨rfl, rfl⟩

/-- On a scannable level the window rebuild is defined and leaves every member of the protect
queue grouped. -/
theorem rebuild_defined (level : Level) (gx gy : Int) (s : PlayState)
    (hlevel : level.Scannable) :
    ∃ s2, rebuild level gx gy s = some s2 ∧ s2.protQueue = s.protQueue ∧
      ∀ q ∈ s2.protQueue, Grouped s2 q := by
  obtain ⟨s1, h1, g1⟩ := scanRows_defined level gx gy (intRange (-viewRangeV) (viewRangeV + 1))
    { s with instances := [], solids := [], hazards := [], enemies := [], collectibles := [] }
    hlevel (fun q hq => by cases hq)
  obtain ⟨_, a2, _⟩ := scanRows_frame _ _ _ _ _ _ h1
  obtain ⟨_, b2, _, _, b5⟩ := addProtectedFold_frame s1.protQueue s1
  have g2 := addProtectedFold_grouped s1.protQueue s1 g1
  have g3 := resetDepartedFold_grouped s.instances (addProtected s1) g2
  obtain ⟨c1, c2⟩ := resetDepartedFold_lists s.instances (addProtected s1)
  have hq : (resetDeparted s.instances (addProtected s1)).protQueue = s1.protQueue :=
    c1.trans b2
  refine ⟨resetDeparted s.instances (addProtected s1), ?_, hq.trans a2, ?_⟩
  · unfold rebuild
    simp only [h1, Option.map_some']
  · intro q hmem
    rw [hq] at hmem
    apply g3
    rw [c2]
    exact b5 q hmem

theorem evict_defined (s : PlayState) (q : ObjPtr) (h : Grouped s q) :
    ∃ s1, evict s q = some s1 := by
  obtain ⟨h0, h1, h2, h3, h4⟩ := grouped_resetAt s q q h
  have e0 := vectorErase_getIndex (s.resetAt q).instances q h0
  unfold evict
  simp only [e0, Option.some_bind]
  have step : ∀ (flag : Bool) (v : List ObjPtr), (flag = true → q ∈ v) →
      ∃ v1, (if flag = true then vectorErase v (getIndex v q) else some v) = some v1 := by
    intro flag v hv
    cases flag with
    | false => exact ⟨v, by simp⟩
    | true => exact ⟨v.erase q, by simp [vectorErase_getIndex v q (hv rfl)]⟩
  obtain ⟨v1, e1⟩ := step _ _ h1
  obtain ⟨v2, e2⟩ := step _ _ h2
  obtain ⟨v3, e3⟩ := step _ _ h3
  obtain ⟨v4, e4⟩ := step _ _ h4
  rw [e1, Option.some_bind, e2, Option.some_bind, e3, Option.some_bind, e4, Option.some_bind]
  exact ⟨_, rfl⟩

theorem evict_keeps_grouped (s s1 : PlayState) (q r : ObjPtr) (h : evict s q = some s1)
    (hne : r ≠ q) (hr : Grouped s r) : Grouped s1 r := by
  obtain ⟨h0, h1, h2, h3, h4⟩ := grouped_resetAt s q r hr
  unfold evict at h
  simp only [Option.bind_eq_some] at h
  obtain ⟨v0, e0, v1, e1, v2, e2, v3, e3, v4, e4, hs1⟩ := h
  have keep : ∀ (flag : Bool) (v w : List ObjPtr),
      (if flag = true then vectorErase v (getIndex v q) else some v) = some w →
      r ∈ v → r ∈ w := by
    intro flag v w hw hv
    cases flag with
    | false =>
      simp only [Bool.false_eq_true, if_false, Option.some.injEq] at hw
      rw [← hw]; exact hv
    | true =>
      simp only [if_true] at hw
      rw [(vectorErase_getIndex_some v w q hw).2]
      exact (List.mem_erase_of_ne hne).mpr hv
  have k0 : r ∈ v0 := by
    rw [(vectorErase_getIndex_some _ v0 q e0).2]
    exact (List.mem_erase_of_ne hne).mpr h0
  cases hs1
  exact ⟨k0, fun x => keep _ _ _ e1 (h1 x), fun x => keep _ _ _ e2 (h2 x),
    fun x => keep _ _ _ e3 (h3 x), fun x => keep _ _ _ e4 (h4 x)⟩

/-- The cleanup loop is defined when the queue entries still to be visited are distinct and
grouped. -/
theorem cleanupLoop_defined (gx gy : Int) :
    ∀ (remaining kept : List ObjPtr) (s : PlayState), remaining.Nodup →
      (∀ q ∈ remaining, Grouped s q) → ∃ s1, cleanupLoop gx gy remaining kept s = some s1 := by
  intro remaining
  induction remaining with
  | nil => intro kept s _ _; exact ⟨_, rfl⟩
  | cons q rest ih =>
    intro kept s hnd hg
    have hnd2 : rest.Nodup := (List.nodup_cons.mp hnd).2
    have hq : q ∉ rest := (List.nodup_cons.mp hnd).1
    have hg2 : ∀ r ∈ rest, Grouped s r := fun r hr => hg r (List.mem_cons_of_mem _ hr)
    unfold cleanupLoop
    split
    · split
      · obtain ⟨s2, h2⟩ := evict_defined s q (hg q (List.mem_cons_self _ _))
        rw [h2, Option.some_bind]
        apply ih kept s2 hnd2
        intro r hr
        exact evict_keeps_grouped s s2 q r h2 (fun e => hq (e ▸ hr)) (hg2 r hr)
      · exact ih kept s hnd2 hg2
    · exact ih _ s hnd2 hg2

theorem fillFold_nodup (l : List ObjPtr) (st : PlayState) (h : st.protQueue.Nodup) :
    (l.foldl fillStep st).protQueue.Nodup := by
  induction l generalizing st with
  | nil => exact h
  | cons a rest ih =>
    apply ih
    unfold fillStep
    split
    · next hc =>
      simp only [Bool.and_eq_true, decide_eq_true_eq] at hc
      have hn : a ∉ st.protQueue := (getIndex_eq_neg_one_iff _ _).mp hc.2
      exact List.Nodup.append h (List.nodup_singleton a) (by simpa using hn)
    · exact h

/-- Active-set maintenance of a rebuild frame is well defined whenever the level is scannable
and the protect queue holds no entity twice. -/
theorem maintain_defined_of_rebuild (level : Level) (gx gy : Int) (s : PlayState)
    (hreb : rebuilds gx gy s = true) (hlevel : level.Scannable)
    (hnodup : s.protQueue.Nodup) : ∃ s1, maintain level gx gy s = some s1 := by
  obtain ⟨_, _, _, f4, f5, f6⟩ := fillFold_frame s.instances s
  have hreb2 : rebuilds gx gy (fillProtQueue s) = true := by
    unfold rebuilds at hreb ⊢
    unfold fillProtQueue
    rw [f4, f5, f6]; exact hreb
  obtain ⟨s2, h2, q2, g2⟩ := rebuild_defined level gx gy (fillProtQueue s) hlevel
  have hnd : s2.protQueue.Nodup := by
    rw [q2]; exact fillFold_nodup s.instances s hnodup
  obtain ⟨s3, h3⟩ := cleanupLoop_defined gx gy s2.protQueue [] s2 hnd g2
  exact ⟨{ s3 with first := false }, by simp [maintain, hreb2, h2, h3]⟩

/-- C10: for every frame of play in which the window is rebuilt, every entity that was in
`instances` at the start of the frame with `m_protected = true` is still in `instances` after
the active-set maintenance of that frame (protect-queue fill, rebuild, eviction), wherever its
slot lies relative to the new window, and that maintenance does not soft-reset it: its state
is unchanged and its address is not among the `reset()` calls made.  This holds for every
outcome of a maintenance that is well defined, and the maintenance is well defined whenever
the level is scannable and the protect queue holds no entity twice. -/
theorem C10_protected_survives_rebuild (level : Level) (gx gy : Int) (s : PlayState)
    (e : ObjPtr) (hreb : rebuilds gx gy s = true) (hin : e ∈ s.instances)
    (hprot : (s.heap e).toObject.m_protected = true) :
    (∀ s1, maintain level gx gy s = some s1 →
      e ∈ s1.instances ∧ s1.heap e = s.heap e ∧
      ∃ added, s1.resetLog = s.resetLog ++ added ∧ e ∉ added) ∧
    (level.Scannable → s.protQueue.Nodup → ∃ s1, maintain level gx gy s = some s1) := by
  refine ⟨?_, maintain_defined_of_rebuild level gx gy s hreb⟩
  intro s1 hrun
  obtain ⟨f1, f2, f3, f4, f5, f6⟩ := fillFold_frame s.instances s
  have hq : e ∈ (fillProtQueue s).protQueue := fillFold_protected s.instances s e hin hprot
  have hreb2 : rebuilds gx gy (fillProtQueue s) = true := by
    unfold rebuilds at hreb ⊢
    unfold fillProtQueue
    rw [f4, f5, f6]; exact hreb
  unfold maintain at hrun
  simp only [hreb2, if_true, Option.bind_eq_some, Option.map_eq_some'] at hrun
  obtain ⟨s2, hrebuild, s3, hclean, hs1⟩ := hrun
  obtain ⟨_, a2, a3, added1, a4, a5⟩ := rebuild_keeps_queue level gx gy _ s2 e hrebuild hq
  have hheap2 : s2.heap e = s.heap e := a3.trans (congrFun f1 e)
  obtain ⟨b1, b2, added2, b3, b4⟩ :=
    cleanupLoop_keeps_protected gx gy e _ _ s2 s3 hclean a2 (by rw [hheap2]; exact hprot)
  subst hs1
  refine ⟨b1, b2.trans hheap2, added1 ++ added2, ?_, ?_⟩
  · show s3.resetLog = _
    rw [b3, a4]
    unfold fillProtQueue
    rw [f3, List.append_assoc]
  · simp [a5, b4]

/-- Witness for C10: the example frame, in which the plant's slot (column 0) lies outside the
new window (columns 2 to 22) and outside the enlarged one. -/
theorem C10_protected_survives_rebuild_witness :
    (rebuilds 12 0 exampleState = true ∧ 1 ∈ exampleState.instances ∧
      (exampleState.heap 1).toObject.m_protected = true) ∧
    outsideEnlargedWindow (exampleState.heap 1).toObject 12 0 = true ∧
    maintain exampleLevel 12 0 exampleState = some exampleStateAfter ∧
    (1 ∈ exampleStateAfter.instances ∧ exampleStateAfter.heap 1 = exampleState.heap 1 ∧
      ∃ added, exampleStateAfter.resetLog = exampleState.resetLog ++ added ∧ 1 ∉ added) ∧
    (exampleLevel.Scannable ∧ exampleState.protQueue.Nodup) :=
  ⟨⟨by decide, by decide, by rfl⟩, by decide, by rfl,
    (C10_protected_survives_rebuild exampleLevel 12 0 exampleState 1
      (by decide) (by decide) (by rfl)).1 exampleStateAfter (by rfl),
    ⟨⟨by decide, by decide, by decide⟩, by decide⟩⟩

/-! ## Theorems: protect-queue cleanup -/

theorem reset_keeps_spawn (e : Entity) :
    e.reset.toObject.m_protected = e.toObject.m_protected ∧
    e.reset.toObject.m_startx = e.toObject.m_startx ∧
    e.reset.toObject.m_starty = e.toObject.m_starty := by
  cases e with
  | thinIce s =>
    simp only [Entity.reset, Entity.toObject, ThinIce.reset]
    split <;> exact ⟨rfl, rfl, rfl⟩
  | _ => exact ⟨rfl, rfl, rfl⟩

theorem maintain_eq_bind (level : Level) (gx gy : Int) (s : PlayState) :
    maintain level gx gy s =
      (beforeCleanup level gx gy s).bind fun s2 =>
        (cleanupLoop gx gy s2.protQueue [] s2).map fun s3 => { s3 with first := false } :=
  rfl

/-- What a well-defined eviction does to the five vectors, the heap and the log. -/
theorem evict_lists (s s1 : PlayState) (q : ObjPtr) (h : evict s q = some s1) :
    s1.instances = s.instances.erase q ∧
    s1.solids = (if (s.heap q).toObject.m_solid then s.solids.erase q else s.solids) ∧
    s1.hazards = (if (s.heap q).toObject.m_hazard then s.hazards.erase q else s.hazards) ∧
    s1.enemies = (if (s.heap q).toObject.m_enemy then s.enemies.erase q else s.enemies) ∧
    s1.collectibles =
      (if (s.heap q).toObject.m_collectible then s.collectibles.erase q else s.collectibles) ∧
    s1.heap = heapSet s.heap q (s.heap q).reset ∧ s1.resetLog = s.resetLog ++ [q] := by
  obtain ⟨f1, f2, f3, f4⟩ := reset_keeps_flags (s.heap q)
  have hq : (s.resetAt q).heap q = (s.heap q).reset := by simp [PlayState.resetAt, heapSet]
  unfold evict at h
  simp only [Option.bind_eq_some] at h
  obtain ⟨v0, e0, v1, e1, v2, e2, v3, e3, v4, e4, hs1⟩ := h
  rw [hq] at e1 e2 e3 e4
  rw [f1] at e1
  rw [f2] at e2
  rw [f3] at e3
  rw [f4] at e4
  have pick : ∀ (flag : Bool) (v w : List ObjPtr),
      (if flag = true then vectorErase v (getIndex v q) else some v) = some w →
      w = (if flag = true then v.erase q else v) := by
    intro flag v w hw
    cases flag with
    | false => simpa using hw.symm
    | true =>
      simp only [if_true] at hw ⊢
      exact (vectorErase_getIndex_some v w q hw).2
  cases hs1
  exact ⟨(vectorErase_getIndex_some _ v0 q e0).2, pick _ _ _ e1, pick _ _ _ e2, pick _ _ _ e3,
    pick _ _ _ e4, rfl, rfl⟩

theorem evictable_heapSet_reset (heap : ObjPtr → Entity) (gx gy : Int) (q r : ObjPtr) :
    evictable (heapSet heap q (heap q).reset) gx gy r = evictable heap gx gy r := by
  obtain ⟨h1, h2, h3⟩ := reset_keeps_spawn (heap q)
  unfold evictable heapSet outsideEnlargedWindow
  by_cases hr : r = q
  · subst hr; simp only [if_true, h1, h2, h3]
  · simp only [hr, if_false]

theorem toObject_heapSet_reset (heap : ObjPtr → Entity) (q r : ObjPtr) :
    ((heapSet heap q (heap q).reset) r).toObject.m_protected = (heap r).toObject.m_protected ∧
    ((heapSet heap q (heap q).reset) r).toObject.m_solid = (heap r).toObject.m_solid ∧
    ((heapSet heap q (heap q).reset) r).toObject.m_hazard = (heap r).toObject.m_hazard ∧
    ((heapSet heap q (heap q).reset) r).toObject.m_enemy = (heap r).toObject.m_enemy ∧
    ((heapSet heap q (heap q).reset) r).toObject.m_collectible =
      (heap r).toObject.m_collectible := by
  obtain ⟨h1, _, _⟩ := reset_keeps_spawn (heap q)
  obtain ⟨f1, f2, f3, f4⟩ := reset_keeps_flags (heap q)
  unfold heapSet
  by_cases hr : r = q
  · subst hr; simp only [if_true]; exact ⟨h1, f1, f2, f3, f4⟩
  · simp only [hr, if_false, and_self]

/-- The cleanup loop in closed form: the members evicted are those of the queue that are
evictable on entry, each vector loses one occurrence per eviction of a member carrying its
flag, the queue keeps its protected members, and exactly the evicted members are reset. -/
theorem cleanupLoop_char (gx gy : Int) :
    ∀ (remaining kept : List ObjPtr) (s s1 : PlayState),
      cleanupLoop gx gy remaining kept s = some s1 →
      s1.instances = eraseAll s.instances (remaining.filter (evictable s.heap gx gy)) ∧
      s1.solids = eraseAll s.solids
        (remaining.filter fun q => evictable s.heap gx gy q && (s.heap q).toObject.m_solid) ∧
      s1.hazards = eraseAll s.hazards
        (remaining.filter fun q => evictable s.heap gx gy q && (s.heap q).toObject.m_hazard) ∧
      s1.enemies = eraseAll s.enemies
        (remaining.filter fun q => evictable s.heap gx gy q && (s.heap q).toObject.m_enemy) ∧
      s1.collectibles = eraseAll s.collectibles
        (remaining.filter fun q =>
          evictable s.heap gx gy q && (s.heap q).toObject.m_collectible) ∧
      s1.protQueue = kept ++ remaining.filter (fun q => (s.heap q).toObject.m_protected) ∧
      s1.resetLog = s.resetLog ++ remaining.filter (evictable s.heap gx gy) ∧
      (∀ r, r ∉ remaining.filter (evictable s.heap gx gy) → s1.heap r = s.heap r) := by
  intro remaining
  induction remaining with
  | nil =>
    intro kept s s1 h
    simp only [cleanupLoop, Option.some.injEq] at h
    subst h
    simp [eraseAll]
  | cons q rest ih =>
    intro kept s s1 h
    unfold cleanupLoop at h
    by_cases hq : (s.heap q).toObject.m_protected = true
    · simp only [hq, Bool.not_true, Bool.false_eq_true, if_false] at h
      obtain ⟨i1, i2, i3, i4, i5, i6, i7, i8⟩ := ih _ _ _ h
      have hev : evictable s.heap gx gy q = false := by simp [evictable, hq]
      simp only [List.filter_cons, hev, hq, Bool.false_and, Bool.false_eq_true, if_false,
        if_true]
      refine ⟨i1, i2, i3, i4, i5, ?_, i7, i8⟩
      rw [i6]; simp
    · have hq2 : (s.heap q).toObject.m_protected = false := by simpa using hq
      simp only [hq2, Bool.not_false, if_true] at h
      by_cases hout : outsideEnlargedWindow (s.heap q).toObject gx gy = true
      · have hev : evictable s.heap gx gy q = true := by simp [evictable, hq2, hout]
        simp only [hout, if_true, Option.bind_eq_some] at h
        obtain ⟨s2, hevict, hrest⟩ := h
        obtain ⟨e1, e2, e3, e4, e5, e6, e7⟩ := evict_lists s s2 q hevict
        obtain ⟨i1, i2, i3, i4, i5, i6, i7, i8⟩ := ih _ _ _ hrest
        have hfe : evictable s2.heap gx gy = evictable s.heap gx gy := by
          funext r; rw [e6]; exact evictable_heapSet_reset s.heap gx gy q r
        have hfl : ∀ r, (s2.heap r).toObject.m_protected = (s.heap r).toObject.m_protected ∧
            (s2.heap r).toObject.m_solid = (s.heap r).toObject.m_solid ∧
            (s2.heap r).toObject.m_hazard = (s.heap r).toObject.m_hazard ∧
            (s2.heap r).toObject.m_enemy = (s.heap r).toObject.m_enemy ∧
            (s2.heap r).toObject.m_collectible = (s.heap r).toObject.m_collectible := by
          intro r; rw [e6]; exact toObject_heapSet_reset s.heap q r
        simp only [hfe, fun r => (hfl r).1, fun r => (hfl r).2.1, fun r => (hfl r).2.2.1,
          fun r => (hfl r).2.2.2.1, fun r => (hfl r).2.2.2.2] at i1 i2 i3 i4 i5 i6 i7 i8
        simp only [List.filter_cons, hev, hq2, Bool.true_and, Bool.false_eq_true, if_false,
          if_true]
        refine ⟨?_, ?_, ?_, ?_, ?_, i6, ?_, ?_⟩
        · rw [i1, e1]; rfl
        · rw [i2, e2]; cases (s.heap q).toObject.m_solid <;> rfl
        · rw [i3, e3]; cases (s.heap q).toObject.m_hazard <;> rfl
        · rw [i4, e4]; cases (s.heap q).toObject.m_enemy <;> rfl
        · rw [i5, e5]; cases (s.heap q).toObject.m_collectible <;> rfl
        · rw [i7, e7]; simp
        · intro r hr
          have hrq : r ≠ q := fun e => hr (by rw [e]; exact List.mem_cons_self _ _)
          have hr2 : r ∉ rest.filter (evictable s.heap gx gy) :=
            fun m => hr (List.mem_cons_of_mem _ m)
          rw [i8 r hr2, e6]
          simp [heapSet, hrq]
      · have hout2 : outsideEnlargedWindow (s.heap q).toObject gx gy = false := by
          simpa using hout
        have hev : evictable s.heap gx gy q = false := by simp [evictable, hout2]
        simp only [hout2, Bool.false_eq_true, if_false] at h
        obtain ⟨i1, i2, i3, i4, i5, i6, i7, i8⟩ := ih _ _ _ h
        simp only [List.filter_cons, hev, hq2, Bool.false_and, Bool.false_eq_true, if_false]
        exact ⟨i1, i2, i3, i4, i5, i6, i7, i8⟩

theorem eraseAll_nil (l : List ObjPtr) : eraseAll l [] = l := rfl

theorem eraseAll_cons (l : List ObjPtr) (q : ObjPtr) (qs : List ObjPtr) :
    eraseAll l (q :: qs) = eraseAll (l.erase q) qs := rfl

theorem count_eraseAll (e : ObjPtr) (qs l : List ObjPtr) :
    (eraseAll l qs).count e = l.count e - qs.count e := by
  induction qs generalizing l with
  | nil => simp [eraseAll_nil]
  | cons q rest ih =>
    rw [eraseAll_cons, ih, List.count_erase, List.count_cons]
    by_cases hq : q = e
    · subst hq; simp; omega
    · have hne : ¬ (q == e) = true := by simpa using hq
      have hne2 : ¬ (e == q) = true := by simpa using fun h => hq h.symm
      simp [hne, hne2]

theorem mem_of_mem_eraseAll (x : ObjPtr) (qs l : List ObjPtr) (h : x ∈ eraseAll l qs) :
    x ∈ l := by
  induction qs generalizing l with
  | nil => exact h
  | cons q rest ih => exact List.mem_of_mem_erase (ih _ h)

theorem not_mem_of_count_le (e : ObjPtr) (l qs : List ObjPtr) (h : l.count e ≤ qs.count e) :
    e ∉ eraseAll l qs := by
  intro hm
  have := List.count_pos_iff.mpr hm
  rw [count_eraseAll] at this
  omega

/-- The fill loop appends protected entities only. -/
theorem fillFold_queue (l : List ObjPtr) (st : PlayState) :
    ∃ extra, (l.foldl fillStep st).protQueue = st.protQueue ++ extra ∧
      ∀ x ∈ extra, (st.heap x).toObject.m_protected = true := by
  induction l generalizing st with
  | nil => exact ⟨[], by simp, by simp⟩
  | cons a rest ih =>
    obtain ⟨extra, h1, h2⟩ := ih (fillStep st a)
    have hheap : (fillStep st a).heap = st.heap := (fillStep_frame st a).1
    simp only [List.foldl_cons]
    unfold fillStep at h1 h2 hheap ⊢
    split at h1
    · next hc =>
      simp only [Bool.and_eq_true, decide_eq_true_eq] at hc
      rw [if_pos (by simp [hc])]
      refine ⟨a :: extra, by rw [h1]; simp, ?_⟩
      intro x hx
      rcases List.mem_cons.mp hx with rfl | hx
      · exact hc.1
      · simpa [hc] using h2 x hx
    · next hc =>
      rw [if_neg hc]
      refine ⟨extra, h1, ?_⟩
      intro x hx
      simpa [hc] using h2 x hx

theorem filter_evictable_fill (gx gy : Int) (s : PlayState) :
    (fillProtQueue s).protQueue.filter (evictable s.heap gx gy) =
      s.protQueue.filter (evictable s.heap gx gy) := by
  obtain ⟨extra, h1, h2⟩ := fillFold_queue s.instances s
  unfold fillProtQueue
  rw [h1, List.filter_append]
  have : extra.filter (evictable s.heap gx gy) = [] := by
    rw [List.filter_eq_nil_iff]
    intro x hx
    simp [evictable, h2 x hx]
  rw [this, List.append_nil]

theorem beforeCleanup_of_not_rebuilds (level : Level) (gx gy : Int) (s : PlayState)
    (h : rebuilds gx gy s = false) : beforeCleanup level gx gy s = some (fillProtQueue s) := by
  obtain ⟨_, _, _, f4, f5, f6⟩ := fillFold_frame s.instances s
  have h2 : rebuilds gx gy (fillProtQueue s) = false := by
    unfold rebuilds at h ⊢
    unfold fillProtQueue
    rw [f4, f5, f6]; exact h
  simp [beforeCleanup, h2]

/-- C12 (counterexample): in the eviction frame the tracked tile is unchanged and the frame is
not the first, yet the dead snake at address 3 leaves `instances`. -/
theorem C12_counterexample :
    evictionState.first = false ∧
    (12 : Int) = evictionState.lastgridx ∧ (0 : Int) = evictionState.lastgridy ∧
    maintain exampleLevel 12 0 evictionState = some evictionStateAfter ∧
    3 ∈ evictionState.instances ∧ 3 ∉ evictionStateAfter.instances := by
  refine ⟨rfl, rfl, rfl, by rfl, by decide, by decide⟩

/-- C12 (amended): for every frame of play after the first in which the tracked tile
coordinates equal those of the previous frame, the active-set maintenance changes `instances`
only by the evictions of the protect-queue cleanup: `instances` afterwards is `instances`
before with one occurrence erased for each queue member that is evicted (protected flag off,
spawn tile outside the enlarged window); nothing is added, and when no queue member is
evictable `instances` is exactly what it was. -/
theorem C12_same_tile_only_evicts (level : Level) (gx gy : Int) (s s1 : PlayState)
    (hfirst : s.first = false) (hx : gx = s.lastgridx) (hy : gy = s.lastgridy)
    (hrun : maintain level gx gy s = some s1) :
    s1.instances = eraseAll s.instances (s.protQueue.filter (evictable s.heap gx gy)) ∧
    (∀ x, x ∈ s1.instances → x ∈ s.instances) ∧
    ((∀ q ∈ s.protQueue, evictable s.heap gx gy q = false) → s1.instances = s.instances) := by
  have hreb : rebuilds gx gy s = false := by simp [rebuilds, hfirst, hx, hy]
  obtain ⟨f1, f2, _, _, _, _⟩ := fillFold_frame s.instances s
  rw [maintain_eq_bind, beforeCleanup_of_not_rebuilds level gx gy s hreb] at hrun
  simp only [Option.some_bind, Option.map_eq_some'] at hrun
  obtain ⟨s3, hclean, hs1⟩ := hrun
  obtain ⟨c1, _⟩ := cleanupLoop_char gx gy _ _ _ _ hclean
  have hinst : s1.instances =
      eraseAll s.instances (s.protQueue.filter (evictable s.heap gx gy)) := by
    subst hs1
    show s3.instances = _
    rw [c1]
    have e1 : (fillProtQueue s).heap = s.heap := f1
    have e2 : (fillProtQueue s).instances = s.instances := f2
    rw [e1, e2, filter_evictable_fill]
  refine ⟨hinst, ?_, ?_⟩
  · intro x hxm
    rw [hinst] at hxm
    exact mem_of_mem_eraseAll x _ _ hxm
  · intro hno
    rw [hinst]
    have : s.protQueue.filter (evictable s.heap gx gy) = [] := by
      rw [List.filter_eq_nil_iff]
      intro q hq
      simp [hno q hq]
    rw [this, eraseAll_nil]

/-- Witness for C12 (amended): the eviction frame. -/
theorem C12_same_tile_only_evicts_witness :
    maintain exampleLevel 12 0 evictionState = some evictionStateAfter ∧
    (evictionStateAfter.instances =
      eraseAll evictionState.instances
        (evictionState.protQueue.filter (evictable evictionState.heap 12 0)) ∧
    (∀ x, x ∈ evictionStateAfter.instances → x ∈ evictionState.instances) ∧
    ((∀ q ∈ evictionState.protQueue, evictable evictionState.heap 12 0 q = false) →
      evictionStateAfter.instances = evictionState.instances)) :=
  ⟨by rfl, C12_same_tile_only_evicts exampleLevel 12 0 evictionState evictionStateAfter
    rfl rfl rfl (by rfl)⟩

/-- Up to the start of the cleanup, maintenance keeps the queue members of that moment
untouched: they are not reset. -/
theorem beforeCleanup_keeps_queue (level : Level) (gx gy : Int) (s s2 : PlayState) (e : ObjPtr)
    (hpre : beforeCleanup level gx gy s = some s2) (he : e ∈ s2.protQueue) :
    s2.heap e = s.heap e ∧ ∃ added, s2.resetLog = s.resetLog ++ added ∧ e ∉ added := by
  obtain ⟨f1, _, f3, _, _, _⟩ := fillFold_frame s.instances s
  unfold beforeCleanup at hpre
  simp only at hpre
  split at hpre
  · have hq : s2.protQueue = (fillProtQueue s).protQueue := by
      unfold rebuild at hpre
      simp only [Option.map_eq_some'] at hpre
      obtain ⟨s1, hscan, hs2⟩ := hpre
      obtain ⟨_, a2, _⟩ := scanRows_frame _ _ _ _ _ _ hscan
      obtain ⟨_, b2, _, _, _⟩ := addProtectedFold_frame s1.protQueue s1
      obtain ⟨c1, _⟩ := resetDepartedFold_lists (fillProtQueue s).instances (addProtected s1)
      subst hs2
      exact c1.trans (b2.trans a2)
    obtain ⟨_, _, a3, added, a4, a5⟩ :=
      rebuild_keeps_queue level gx gy _ s2 e hpre (by rw [← hq]; exact he)
    refine ⟨a3.trans (congrFun f1 e), added, ?_, a5⟩
    rw [a4]
    unfold fillProtQueue
    rw [f3]
  · cases hpre
    exact ⟨congrFun f1 e, [], by simpa using f3, by simp⟩

theorem count_filter_of_neg (p : ObjPtr → Bool) (l : List ObjPtr) (e : ObjPtr)
    (h : p e = false) : (l.filter p).count e = 0 := by
  rw [List.count_eq_zero]
  intro hm
  have := (List.mem_filter.mp hm).2
  rw [h] at this
  cases this

/-- C11: for every protect-queue member `e` (present once) whose protected flag is off during
the protect-queue cleanup and which is filed at most once in the vectors: if its spawn tile
(`m_startx / 32`, `m_starty / 32`) lies outside the enlarged window (column `< gx - 11` or
`> gx + 10`, row `< gy - 8` or `> gy + 8`), that frame's active-set maintenance invokes
`e.reset()` exactly once and afterwards `e` occurs in none of `instances`, `solids`,
`hazards`, `enemies`, `collectibles` or the protect queue; if its spawn tile is inside the
enlarged window it is only dropped from the protect queue: it is not reset, its state is
unchanged, and the cleanup leaves its occurrences in the five vectors as they were. -/
theorem C11_unprotected_member_evicted_once (level : Level) (gx gy : Int)
    (s s2 s1 : PlayState) (e : ObjPtr)
    (hpre : beforeCleanup level gx gy s = some s2)
    (hrun : maintain level gx gy s = some s1)
    (hmem : s2.protQueue.count e = 1)
    (hflag : (s2.heap e).toObject.m_protected = false)
    (hfiled : FiledOnce s2 e) :
    (outsideEnlargedWindow (s2.heap e).toObject gx gy = true →
      (∃ added, s1.resetLog = s.resetLog ++ added ∧ added.count e = 1) ∧
      e ∉ s1.instances ∧ e ∉ s1.solids ∧ e ∉ s1.hazards ∧ e ∉ s1.enemies ∧
      e ∉ s1.collectibles ∧ e ∉ s1.protQueue) ∧
    (outsideEnlargedWindow (s2.heap e).toObject gx gy = false →
      (∃ added, s1.resetLog = s.resetLog ++ added ∧ e ∉ added) ∧
      s1.heap e = s.heap e ∧ e ∉ s1.protQueue ∧
      s1.instances.count e = s2.instances.count e ∧
      s1.solids.count e = s2.solids.count e ∧
      s1.hazards.count e = s2.hazards.count e ∧
      s1.enemies.count e = s2.enemies.count e ∧
      s1.collectibles.count e = s2.collectibles.count e) := by
  have he : e ∈ s2.protQueue := List.count_pos_iff.mp (by omega)
  obtain ⟨p1, added0, p2, p3⟩ := beforeCleanup_keeps_queue level gx gy s s2 e hpre he
  rw [maintain_eq_bind, hpre] at hrun
  simp only [Option.some_bind, Option.map_eq_some'] at hrun
  obtain ⟨s3, hclean, hs1⟩ := hrun
  obtain ⟨c1, c2, c3, c4, c5, c6, c7, c8⟩ := cleanupLoop_char gx gy _ _ _ _ hclean
  obtain ⟨w1, w2, w3, w4, w5⟩ := hfiled
  have hnq : e ∉ s1.protQueue := by
    subst hs1
    show e ∉ s3.protQueue
    rw [c6, List.nil_append]
    intro hm
    have := (List.mem_filter.mp hm).2
    rw [hflag] at this
    cases this
  subst hs1
  constructor
  · intro hout
    have hev : evictable s2.heap gx gy e = true := by simp [evictable, hflag, hout]
    have hcountE : (s2.protQueue.filter (evictable s2.heap gx gy)).count e = 1 := by
      rw [List.count_filter hev, hmem]
    have cat : ∀ (flag : ObjPtr → Bool) (v : List ObjPtr),
        v.count e ≤ (if flag e = true then 1 else 0) →
        e ∉ eraseAll v (s2.protQueue.filter fun q => evictable s2.heap gx gy q && flag q) := by
      intro flag v hv
      apply not_mem_of_count_le
      cases hf : flag e with
      | false => rw [hf] at hv; simp at hv; omega
      | true =>
        rw [hf] at hv
        have hp : (fun q => evictable s2.heap gx gy q && flag q) e = true := by simp [hev, hf]
        rw [List.count_filter (p := fun q => evictable s2.heap gx gy q && flag q) hp, hmem]
        simpa using hv
    refine ⟨⟨added0 ++ s2.protQueue.filter (evictable s2.heap gx gy), ?_, ?_⟩, ?_, ?_, ?_, ?_, ?_,
      hnq⟩
    · show s3.resetLog = _
      rw [c7, p2, List.append_assoc]
    · rw [List.count_append, hcountE, List.count_eq_zero.mpr p3]
    · show e ∉ s3.instances
      rw [c1]
      exact not_mem_of_count_le e _ _ (by rw [hcountE]; exact w1)
    · show e ∉ s3.solids
      rw [c2]; exact cat (fun q => (s2.heap q).toObject.m_solid) _ w2
    · show e ∉ s3.hazards
      rw [c3]; exact cat (fun q => (s2.heap q).toObject.m_hazard) _ w3
    · show e ∉ s3.enemies
      rw [c4]; exact cat (fun q => (s2.heap q).toObject.m_enemy) _ w4
    · show e ∉ s3.collectibles
      rw [c5]; exact cat (fun q => (s2.heap q).toObject.m_collectible) _ w5
  · intro hin
    have hev : evictable s2.heap gx gy e = false := by simp [evictable, hin]
    have hnotE : e ∉ s2.protQueue.filter (evictable s2.heap gx gy) := by
      intro hm
      have := (List.mem_filter.mp hm).2
      rw [hev] at this
      cases this
    have cat : ∀ (flag : ObjPtr → Bool) (v : List ObjPtr),
        (eraseAll v (s2.protQueue.filter
          fun q => evictable s2.heap gx gy q && flag q)).count e = v.count e := by
      intro flag v
      rw [count_eraseAll, count_filter_of_neg _ _ e (by simp [hev])]
      rfl
    refine ⟨⟨added0 ++ s2.protQueue.filter (evictable s2.heap gx gy), ?_, ?_⟩, ?_, hnq, ?_, ?_,
      ?_, ?_, ?_⟩
    · show s3.resetLog = _
      rw [c7, p2, List.append_assoc]
    · simp [p3, hnotE]
    · show s3.heap e = _
      rw [c8 e hnotE, p1]
    · show s3.instances.count e = _
      rw [c1, count_eraseAll, List.count_eq_zero.mpr hnotE]; rfl
    · show s3.solids.count e = _
      rw [c2]; exact cat (fun q => (s2.heap q).toObject.m_solid) _
    · show s3.hazards.count e = _
      rw [c3]; exact cat (fun q => (s2.heap q).toObject.m_hazard) _
    · show s3.enemies.count e = _
      rw [c4]; exact cat (fun q => (s2.heap q).toObject.m_enemy) _
    · show s3.collectibles.count e = _
      rw [c5]; exact cat (fun q => (s2.heap q).toObject.m_collectible) _

/-- Witness for C11: the eviction frame, where the dead snake at address 3 is in the queue
with its flag off and its spawn column 0 is left of the enlarged window (columns 1 to 22). -/
theorem C11_unprotected_member_evicted_once_witness :
    (beforeCleanup exampleLevel 12 0 evictionState = some evictionState ∧
      maintain exampleLevel 12 0 evictionState = some evictionStateAfter ∧
      evictionState.protQueue.count 3 = 1 ∧
      (evictionState.heap 3).toObject.m_protected = false ∧
      FiledOnce evictionState 3 ∧
      outsideEnlargedWindow (evictionState.heap 3).toObject 12 0 = true) ∧
    ((∃ added, evictionStateAfter.resetLog = evictionState.resetLog ++ added ∧
        added.count 3 = 1) ∧
      3 ∉ evictionStateAfter.instances ∧ 3 ∉ evictionStateAfter.solids ∧
      3 ∉ evictionStateAfter.hazards ∧ 3 ∉ evictionStateAfter.enemies ∧
      3 ∉ evictionStateAfter.collectibles ∧ 3 ∉ evictionStateAfter.protQueue) :=
  ⟨⟨by rfl, by rfl, by decide, by rfl, by unfold FiledOnce; decide, by decide⟩,
    (C11_unprotected_member_evicted_once exampleLevel 12 0 evictionState evictionState
      evictionStateAfter 3 (by rfl) (by rfl) (by decide) (by rfl)
      (by unfold FiledOnce; decide)).1 (by decide)⟩

/-! ## Theorems: thin ice -/

theorem thinIce_update_position (s : ThinIce) (this : ObjPtr) (g : Int) (p : Player)
    (H : List ObjPtr) :
    (s.update this g p H).1.m_x = s.m_x ∧ (s.update this g p H).1.m_y = s.m_y := by
  unfold ThinIce.update
  dsimp only
  split_ifs <;> exact ⟨rfl, rfl⟩

/-- A crack update: below the threshold, with the player on top, the count goes up by one. -/
theorem thinIce_update_crack (s : ThinIce) (this : ObjPtr) (g : Int) (p : Player)
    (H : List ObjPtr) (hc : s.m_cracks ≠ 40) (hon : s.playerOnTop p = true) :
    (s.update this g p H).1.m_cracks = s.m_cracks + 1 ∧
    (s.update this g p H).1.m_timerBase = s.m_timerBase ∧ (s.update this g p H).2 = H := by
  have hon2 : ({ s with m_frameThinIce := Int.tdiv s.m_cracks 10 } : ThinIce).playerOnTop p
      = true := hon
  simp only [ThinIce.update, hc, if_false, hon2, if_true, and_self]

/-- The update that finds the threshold reached starts the refreeze timer. -/
theorem thinIce_update_start (s : ThinIce) (this : ObjPtr) (g : Int) (p : Player)
    (H : List ObjPtr) (hc : s.m_cracks = 40) (ht : s.m_timerBase = -1) :
    (s.update this g p H).1.m_cracks = 40 ∧
    (s.update this g p H).1.m_timerBase = g ∧ (s.update this g p H).2 = H := by
  simp only [ThinIce.update, hc, ht, if_true, and_self]

/-- While the timer runs the tile is kept in the hazards list. -/
theorem thinIce_update_cracked (s : ThinIce) (this : ObjPtr) (g : Int) (p : Player)
    (H : List ObjPtr) (hc : s.m_cracks = 40) (ht : s.m_timerBase ≠ -1)
    (hlt : g - s.m_timerBase < 100) :
    (s.update this g p H).1.m_cracks = 40 ∧
    (s.update this g p H).1.m_timerBase = s.m_timerBase ∧
    (s.update this g p H).2 = (if this ∈ H then H else H ++ [this]) := by
  simp only [ThinIce.update, hc, ht, hlt, if_true, if_false, and_self]

/-- Once the timer has run out the tile refreezes and leaves the hazards list. -/
theorem thinIce_update_refreeze (s : ThinIce) (this : ObjPtr) (g : Int) (p : Player)
    (H : List ObjPtr) (hc : s.m_cracks = 40) (ht : s.m_timerBase ≠ -1)
    (hge : ¬ g - s.m_timerBase < 100) (hm : this ∈ H) :
    (s.update this g p H).1.m_cracks = 0 ∧
    (s.update this g p H).1.m_timerBase = -1 ∧ (s.update this g p H).2 = H.erase this := by
  simp only [ThinIce.update, hc, ht, hge, hm, if_true, if_false, and_self]

theorem thinIce_updates_position (this : ObjPtr) (g0 : Int) (player : Nat → Player)
    (n : Nat) (st : ThinIce × List ObjPtr) :
    (ThinIce.updates this g0 player n st).1.m_x = st.1.m_x ∧
    (ThinIce.updates this g0 player n st).1.m_y = st.1.m_y := by
  induction n with
  | zero => exact ⟨rfl, rfl⟩
  | succ k ih =>
    obtain ⟨h1, h2⟩ := thinIce_update_position (ThinIce.updates this g0 player k st).1 this
      (g0 + k) (player k) (ThinIce.updates this g0 player k st).2
    exact ⟨h1.trans ih.1, h2.trans ih.2⟩

theorem playerOnTop_congr (s t : ThinIce) (p : Player) (hx : t.m_x = s.m_x)
    (hy : t.m_y = s.m_y) : t.playerOnTop p = s.playerOnTop p := by
  unfold ThinIce.playerOnTop
  rw [hx, hy]

/-- The state after `n` updates with the player on top throughout, as a function of `n`: the
tile goes through a cycle of 141 updates (40 cracking, one starting the timer, 99 as a
hazard, one refreezing). -/
theorem thinIce_updates_cycle (s : ThinIce) (this : ObjPtr) (g0 : Int) (player : Nat → Player)
    (H : List ObjPtr) (N : Nat) (hc : s.m_cracks = 0) (ht : s.m_timerBase = -1)
    (hH : this ∉ H) (hg : 0 ≤ g0) (hon : ∀ k, k < N → s.playerOnTop (player k) = true) :
    ∀ n, n ≤ N →
      (n % 141 ≤ 40 ∧
        (ThinIce.updates this g0 player n (s, H)).1.m_cracks = ((n % 141 : Nat) : Int) ∧
        (ThinIce.updates this g0 player n (s, H)).1.m_timerBase = -1 ∧
        (ThinIce.updates this g0 player n (s, H)).2 = H) ∨
      (n % 141 = 41 ∧
        (ThinIce.updates this g0 player n (s, H)).1.m_cracks = 40 ∧
        (ThinIce.updates this g0 player n (s, H)).1.m_timerBase = g0 + (n : Int) - 1 ∧
        (ThinIce.updates this g0 player n (s, H)).2 = H) ∨
      (42 ≤ n % 141 ∧
        (ThinIce.updates this g0 player n (s, H)).1.m_cracks = 40 ∧
        (ThinIce.updates this g0 player n (s, H)).1.m_timerBase =
          g0 + (n : Int) - ((n % 141 : Nat) : Int) + 40 ∧
        (ThinIce.updates this g0 player n (s, H)).2 = H ++ [this]) := by
  intro n
  induction n with
  | zero =>
    intro _
    left
    exact ⟨by omega, by simpa using hc, ht, rfl⟩
  | succ k ih =>
    intro hk
    have hpos := thinIce_updates_position this g0 player k (s, H)
    have hon2 : (ThinIce.updates this g0 player k (s, H)).1.playerOnTop (player k) = true := by
      rw [playerOnTop_congr s _ (player k) hpos.1 hpos.2]
      exact hon k (by omega)
    have hstep : ThinIce.updates this g0 player (k + 1) (s, H) =
        (ThinIce.updates this g0 player k (s, H)).1.update this (g0 + k) (player k)
          (ThinIce.updates this g0 player k (s, H)).2 := rfl
    rw [hstep]
    generalize ThinIce.updates this g0 player k (s, H) = st at ih hon2
    rcases ih (by omega) with ⟨hr, c, t, hz⟩ | ⟨hr, c, t, hz⟩ | ⟨hr, c, t, hz⟩
    · by_cases h40 : k % 141 = 40
      · obtain ⟨u1, u2, u3⟩ := thinIce_update_start st.1 this (g0 + k) (player k) st.2
          (by rw [c, h40]; rfl) t
        right; left
        refine ⟨by omega, u1, ?_, u3.trans hz⟩
        rw [u2]; push_cast; ring
      · obtain ⟨u1, u2, u3⟩ := thinIce_update_crack st.1 this (g0 + k) (player k) st.2
          (by rw [c]; omega) hon2
        left
        refine ⟨by omega, ?_, u2.trans t, u3.trans hz⟩
        rw [u1, c]; omega
    · obtain ⟨u1, u2, u3⟩ := thinIce_update_cracked st.1 this (g0 + k) (player k) st.2 c
        (by rw [t]; omega) (by rw [t]; omega)
      right; right
      refine ⟨by omega, u1, ?_, ?_⟩
      · rw [u2, t]; omega
      · rw [u3, hz, if_neg hH]
    · by_cases h140 : k % 141 = 140
      · obtain ⟨u1, u2, u3⟩ := thinIce_update_refreeze st.1 this (g0 + k) (player k) st.2 c
          (by rw [t]; omega) (by rw [t]; omega) (by rw [hz]; simp)
        left
        refine ⟨by omega, ?_, u2, ?_⟩
        · rw [u1]; omega
        · rw [u3, hz, List.erase_append_right _ hH]; simp
      · obtain ⟨u1, u2, u3⟩ := thinIce_update_cracked st.1 this (g0 + k) (player k) st.2 c
          (by rw [t]; omega) (by rw [t]; omega)
        right; right
        refine ⟨by omega, u1, ?_, ?_⟩
        · rw [u2, t]; omega
        · rw [u3, hz]; simp

/-- C13: starting from a frozen ThinIce tile with crack-count 0 (refreeze timer not running)
that is not in the hazards list, if `ThinIce::update` is applied on 400 consecutive frames
(frame clock increasing by 1 per update, non-negative) with the player standing directly on
top of the tile throughout and nothing else modifying the hazards list, then after the 400th
update the crack-count equals the threshold 40 and the tile is a member of the hazards
list. -/
theorem C13_thin_ice_400_frames (s : ThinIce) (this : ObjPtr) (g0 : Int)
    (player : Nat → Player) (H : List ObjPtr) (hc : s.m_cracks = 0)
    (ht : s.m_timerBase = -1) (hH : this ∉ H) (hg : 0 ≤ g0)
    (hon : ∀ k, k < 400 → s.playerOnTop (player k) = true) :
    (ThinIce.updates this g0 player 400 (s, H)).1.m_cracks = 40 ∧
    this ∈ (ThinIce.updates this g0 player 400 (s, H)).2 := by
  rcases thinIce_updates_cycle s this g0 player H 400 hc ht hH hg hon 400 (le_refl _) with
    ⟨hr, _⟩ | ⟨hr, _⟩ | ⟨_, c, _, hz⟩
  · omega
  · omega
  · exact ⟨c, by rw [hz]; simp⟩

/-- Witness for C13: the tile built at (96, 96), at address 5, and a player standing still at
(100, 64) on top of it, from frame clock 0 with an empty hazards list. -/
theorem C13_thin_ice_400_frames_witness :
    ((ThinIce.new 0 0 96 96).m_cracks = 0 ∧ (ThinIce.new 0 0 96 96).m_timerBase = -1 ∧
      (ThinIce.new 0 0 96 96).playerOnTop
        ⟨100, 64, 0, 0, 0, 0, ⟨100, 64, 28, 32⟩, true, false, 320, 272⟩ = true) ∧
    (ThinIce.updates 5 0
        (fun _ => ⟨100, 64, 0, 0, 0, 0, ⟨100, 64, 28, 32⟩, true, false, 320, 272⟩) 400
        (ThinIce.new 0 0 96 96, [])).1.m_cracks = 40 ∧
    5 ∈ (ThinIce.updates 5 0
        (fun _ => ⟨100, 64, 0, 0, 0, 0, ⟨100, 64, 28, 32⟩, true, false, 320, 272⟩) 400
        (ThinIce.new 0 0 96 96, [])).2 :=
  ⟨⟨rfl, rfl, by decide⟩,
    C13_thin_ice_400_frames (ThinIce.new 0 0 96 96) 5 0
      (fun _ => ⟨100, 64, 0, 0, 0, 0, ⟨100, 64, 28, 32⟩, true, false, 320, 272⟩) [] rfl rfl
      (by simp) (by decide) (fun _ _ => rfl)⟩

/-! ## Theorems: construction -/

/-- C20 (counterexample): the water entity built for slot (row 0, column 0) of tileset 0 has
`m_starty = 3`, not `32 * 0`; the gem built for slot (row 2, column 3) has
`m_startx = 104`, not `32 * 3`. -/
theorem C20_counterexample :
    (∃ e, construct 0 0 0 2 0 0 = some e ∧ e.toObject.m_starty = 3 ∧
      e.toObject.m_starty ≠ 32 * 0) ∧
    (∃ e, construct 0 0 0 4 3 2 = some e ∧ e.toObject.m_startx = 104 ∧
      e.toObject.m_startx ≠ 32 * 3) :=
  ⟨⟨_, rfl, rfl, by decide⟩, ⟨_, rfl, rfl, by decide⟩⟩

/-- C20 (amended): for every tileset (0 or 1), every mapped tile code and every slot
(row, col), the entity constructed for that slot has immutable spawn coordinates
`m_startx = 32 * col + dx` and `m_starty = 32 * row + dy`, where `(dx, dy)` is the hitbox
offset of its class ((0, 3) for Water and Thorns, (8, 8) for the gems, (0, 4) for Mushroom,
(0, 18) for Mammoth, (0, 0) for the others); so `m_startx / 32 = col` and
`m_starty / 32 = row`, and the entity starts at its spawn coordinates. -/
theorem C20_spawn_coordinates (vx vy tileSet code : Int) (col row : Nat) (e : Entity)
    (hc : construct vx vy tileSet code col row = some e) :
    (tileSet = 0 ∨ tileSet = 1) ∧
    e.toObject.m_startx = 32 * (col : Int) + e.spawnOffset.1 ∧
    e.toObject.m_starty = 32 * (row : Int) + e.spawnOffset.2 ∧
    0 ≤ e.spawnOffset.1 ∧ e.spawnOffset.1 < 32 ∧ 0 ≤ e.spawnOffset.2 ∧ e.spawnOffset.2 < 32 ∧
    Int.tdiv e.toObject.m_startx 32 = col ∧ Int.tdiv e.toObject.m_starty 32 = row ∧
    e.toObject.m_x = e.toObject.m_startx ∧ e.toObject.m_y = e.toObject.m_starty := by
  have key : (tileSet = 0 ∨ tileSet = 1) ∧
      e.toObject.m_startx = 32 * (col : Int) + e.spawnOffset.1 ∧
      e.toObject.m_starty = 32 * (row : Int) + e.spawnOffset.2 ∧
      0 ≤ e.spawnOffset.1 ∧ e.spawnOffset.1 < 32 ∧ 0 ≤ e.spawnOffset.2 ∧
      e.spawnOffset.2 < 32 ∧
      e.toObject.m_x = e.toObject.m_startx ∧ e.toObject.m_y = e.toObject.m_starty := by
    unfold construct at hc
    by_cases t0 : tileSet = 0
    · rw [if_pos t0] at hc
      by_cases c1 : code = 1
      · rw [if_pos c1] at hc
        cases hc
        simp only [Entity.toObject, Entity.spawnOffset, Wall.new, Wall.setFrame, Water.new,
          Thorns.new, Thorns.setFrame, Ice.new, ThinIce.new, Scenery3.new, Snake.new, Ptero.new,
          Frog.new, Plant.new, Spit.new, Yeti.new, Mushroom.new, Gem100.new, GemL.new,
          Mammoth.new, Object.mk0, and_true]
        omega
      · rw [if_neg c1] at hc
        by_cases c2 : code = 2
        · rw [if_pos c2] at hc
          cases hc
          simp only [Entity.toObject, Entity.spawnOffset, Wall.new, Wall.setFrame, Water.new,
            Thorns.new, Thorns.setFrame, Ice.new, ThinIce.new, Scenery3.new, Snake.new, Ptero.new,
            Frog.new, Plant.new, Spit.new, Yeti.new, Mushroom.new, Gem100.new, GemL.new,
            Mammoth.new, Object.mk0, and_true]
          omega
        · rw [if_neg c2] at hc
          by_cases c3 : code = 3
          · rw [if_pos c3] at hc
            cases hc
            simp only [Entity.toObject, Entity.spawnOffset, Wall.new, Wall.setFrame, Water.new,
              Thorns.new, Thorns.setFrame, Ice.new, ThinIce.new, Scenery3.new, Snake.new, Ptero.new,
              Frog.new, Plant.new, Spit.new, Yeti.new, Mushroom.new, Gem100.new, GemL.new,
              Mammoth.new, Object.mk0, and_true]
            omega
          · rw [if_neg c3] at hc
            by_cases c4 : code = 4
            · rw [if_pos c4] at hc
              cases hc
              simp only [Entity.toObject, Entity.spawnOffset, Wall.new, Wall.setFrame, Water.new,
                Thorns.new, Thorns.setFrame, Ice.new, ThinIce.new, Scenery3.new, Snake.new, Ptero.new,
                Frog.new, Plant.new, Spit.new, Yeti.new, Mushroom.new, Gem100.new, GemL.new,
                Mammoth.new, Object.mk0, and_true]
              omega
            · rw [if_neg c4] at hc
              by_cases c5 : code = 5
              · rw [if_pos c5] at hc
                cases hc
                simp only [Entity.toObject, Entity.spawnOffset, Wall.new, Wall.setFrame, Water.new,
                  Thorns.new, Thorns.setFrame, Ice.new, ThinIce.new, Scenery3.new, Snake.new, Ptero.new,
                  Frog.new, Plant.new, Spit.new, Yeti.new, Mushroom.new, Gem100.new, GemL.new,
                  Mammoth.new, Object.mk0, and_true]
                omega
              · rw [if_neg c5] at hc
                by_cases c6 : code = 6
                · rw [if_pos c6] at hc
                  cases hc
                  simp only [Entity.toObject, Entity.spawnOffset, Wall.new, Wall.setFrame, Water.new,
                    Thorns.new, Thorns.setFrame, Ice.new, ThinIce.new, Scenery3.new, Snake.new, Ptero.new,
                    Frog.new, Plant.new, Spit.new, Yeti.new, Mushroom.new, Gem100.new, GemL.new,
                    Mammoth.new, Object.mk0, and_true]
                  omega
                · rw [if_neg c6] at hc
                  by_cases c7 : code = 7
                  · rw [if_pos c7] at hc
                    cases hc
                    simp only [Entity.toObject, Entity.spawnOffset, Wall.new, Wall.setFrame, Water.new,
                      Thorns.new, Thorns.setFrame, Ice.new, ThinIce.new, Scenery3.new, Snake.new, Ptero.new,
                      Frog.new, Plant.new, Spit.new, Yeti.new, Mushroom.new, Gem100.new, GemL.new,
                      Mammoth.new, Object.mk0, and_true]
                    omega
                  · rw [if_neg c7] at hc
                    by_cases c8 : code = 8
                    · rw [if_pos c8] at hc
                      cases hc
                      simp only [Entity.toObject, Entity.spawnOffset, Wall.new, Wall.setFrame, Water.new,
                        Thorns.new, Thorns.setFrame, Ice.new, ThinIce.new, Scenery3.new, Snake.new, Ptero.new,
                        Frog.new, Plant.new, Spit.new, Yeti.new, Mushroom.new, Gem100.new, GemL.new,
                        Mammoth.new, Object.mk0, and_true]
                      omega
                    · rw [if_neg c8] at hc
                      by_cases c9 : code = 9
                      · rw [if_pos c9] at hc
                        cases hc
                        simp only [Entity.toObject, Entity.spawnOffset, Wall.new, Wall.setFrame, Water.new,
                          Thorns.new, Thorns.setFrame, Ice.new, ThinIce.new, Scenery3.new, Snake.new, Ptero.new,
                          Frog.new, Plant.new, Spit.new, Yeti.new, Mushroom.new, Gem100.new, GemL.new,
                          Mammoth.new, Object.mk0, and_true]
                        omega
                      · rw [if_neg c9] at hc
                        by_cases c10 : code = 10
                        · rw [if_pos c10] at hc
                          cases hc
                          simp only [Entity.toObject, Entity.spawnOffset, Wall.new, Wall.setFrame, Water.new,
                            Thorns.new, Thorns.setFrame, Ice.new, ThinIce.new, Scenery3.new, Snake.new, Ptero.new,
                            Frog.new, Plant.new, Spit.new, Yeti.new, Mushroom.new, Gem100.new, GemL.new,
                            Mammoth.new, Object.mk0, and_true]
                          omega
                        · rw [if_neg c10] at hc
                          by_cases c11 : code = 11
                          · rw [if_pos c11] at hc
                            cases hc
                            simp only [Entity.toObject, Entity.spawnOffset, Wall.new, Wall.setFrame, Water.new,
                              Thorns.new, Thorns.setFrame, Ice.new, ThinIce.new, Scenery3.new, Snake.new, Ptero.new,
                              Frog.new, Plant.new, Spit.new, Yeti.new, Mushroom.new, Gem100.new, GemL.new,
                              Mammoth.new, Object.mk0, and_true]
                            omega
                          · rw [if_neg c11] at hc
                            by_cases c12 : code = 12
                            · rw [if_pos c12] at hc
                              cases hc
                              simp only [Entity.toObject, Entity.spawnOffset, Wall.new, Wall.setFrame, Water.new,
                                Thorns.new, Thorns.setFrame, Ice.new, ThinIce.new, Scenery3.new, Snake.new, Ptero.new,
                                Frog.new, Plant.new, Spit.new, Yeti.new, Mushroom.new, Gem100.new, GemL.new,
                                Mammoth.new, Object.mk0, and_true]
                              omega
                            · rw [if_neg c12] at hc
                              by_cases c13 : code = 13
                              · rw [if_pos c13] at hc
                                cases hc
                                simp only [Entity.toObject, Entity.spawnOffset, Wall.new, Wall.setFrame, Water.new,
                                  Thorns.new, Thorns.setFrame, Ice.new, ThinIce.new, Scenery3.new, Snake.new, Ptero.new,
                                  Frog.new, Plant.new, Spit.new, Yeti.new, Mushroom.new, Gem100.new, GemL.new,
                                  Mammoth.new, Object.mk0, and_true]
                                omega
                              · rw [if_neg c13] at hc
                                cases hc
    · rw [if_neg t0] at hc
      by_cases t1 : tileSet = 1
      · rw [if_pos t1] at hc
        by_cases c1 : code = 1
        · rw [if_pos c1] at hc
          cases hc
          simp only [Entity.toObject, Entity.spawnOffset, Wall.new, Wall.setFrame, Water.new,
            Thorns.new, Thorns.setFrame, Ice.new, ThinIce.new, Scenery3.new, Snake.new, Ptero.new,
            Frog.new, Plant.new, Spit.new, Yeti.new, Mushroom.new, Gem100.new, GemL.new,
            Mammoth.new, Object.mk0, and_true]
          omega
        · rw [if_neg c1] at hc
          by_cases c2 : code = 2
          · rw [if_pos c2] at hc
            cases hc
            simp only [Entity.toObject, Entity.spawnOffset, Wall.new, Wall.setFrame, Water.new,
              Thorns.new, Thorns.setFrame, Ice.new, ThinIce.new, Scenery3.new, Snake.new, Ptero.new,
              Frog.new, Plant.new, Spit.new, Yeti.new, Mushroom.new, Gem100.new, GemL.new,
              Mammoth.new, Object.mk0, and_true]
            omega
          · rw [if_neg c2] at hc
            by_cases c3 : code = 3
            · rw [if_pos c3] at hc
              cases hc
              simp only [Entity.toObject, Entity.spawnOffset, Wall.new, Wall.setFrame, Water.new,
                Thorns.new, Thorns.setFrame, Ice.new, ThinIce.new, Scenery3.new, Snake.new, Ptero.new,
                Frog.new, Plant.new, Spit.new, Yeti.new, Mushroom.new, Gem100.new, GemL.new,
                Mammoth.new, Object.mk0, and_true]
              omega
            · rw [if_neg c3] at hc
              by_cases c4 : code = 4
              · rw [if_pos c4] at hc
                cases hc
                simp only [Entity.toObject, Entity.spawnOffset, Wall.new, Wall.setFrame, Water.new,
                  Thorns.new, Thorns.setFrame, Ice.new, ThinIce.new, Scenery3.new, Snake.new, Ptero.new,
                  Frog.new, Plant.new, Spit.new, Yeti.new, Mushroom.new, Gem100.new, GemL.new,
                  Mammoth.new, Object.mk0, and_true]
                omega
              · rw [if_neg c4] at hc
                by_cases c5 : code = 5
                · rw [if_pos c5] at hc
                  cases hc
                  simp only [Entity.toObject, Entity.spawnOffset, Wall.new, Wall.setFrame, Water.new,
                    Thorns.new, Thorns.setFrame, Ice.new, ThinIce.new, Scenery3.new, Snake.new, Ptero.new,
                    Frog.new, Plant.new, Spit.new, Yeti.new, Mushroom.new, Gem100.new, GemL.new,
                    Mammoth.new, Object.mk0, and_true]
                  omega
                · rw [if_neg c5] at hc
                  by_cases c6 : code = 6
                  · rw [if_pos c6] at hc
                    cases hc
                    simp only [Entity.toObject, Entity.spawnOffset, Wall.new, Wall.setFrame, Water.new,
                      Thorns.new, Thorns.setFrame, Ice.new, ThinIce.new, Scenery3.new, Snake.new, Ptero.new,
                      Frog.new, Plant.new, Spit.new, Yeti.new, Mushroom.new, Gem100.new, GemL.new,
                      Mammoth.new, Object.mk0, and_true]
                    omega
                  · rw [if_neg c6] at hc
                    by_cases c7 : code = 7
                    · rw [if_pos c7] at hc
                      cases hc
                      simp only [Entity.toObject, Entity.spawnOffset, Wall.new, Wall.setFrame, Water.new,
                        Thorns.new, Thorns.setFrame, Ice.new, ThinIce.new, Scenery3.new, Snake.new, Ptero.new,
                        Frog.new, Plant.new, Spit.new, Yeti.new, Mushroom.new, Gem100.new, GemL.new,
                        Mammoth.new, Object.mk0, and_true]
                      omega
                    · rw [if_neg c7] at hc
                      by_cases c8 : code = 8
                      · rw [if_pos c8] at hc
                        cases hc
                        simp only [Entity.toObject, Entity.spawnOffset, Wall.new, Wall.setFrame, Water.new,
                          Thorns.new, Thorns.setFrame, Ice.new, ThinIce.new, Scenery3.new, Snake.new, Ptero.new,
                          Frog.new, Plant.new, Spit.new, Yeti.new, Mushroom.new, Gem100.new, GemL.new,
                          Mammoth.new, Object.mk0, and_true]
                        omega
                      · rw [if_neg c8] at hc
                        by_cases c9 : code = 9
                        · rw [if_pos c9] at hc
                          cases hc
                          simp only [Entity.toObject, Entity.spawnOffset, Wall.new, Wall.setFrame, Water.new,
                            Thorns.new, Thorns.setFrame, Ice.new, ThinIce.new, Scenery3.new, Snake.new, Ptero.new,
                            Frog.new, Plant.new, Spit.new, Yeti.new, Mushroom.new, Gem100.new, GemL.new,
                            Mammoth.new, Object.mk0, and_true]
                          omega
                        · rw [if_neg c9] at hc
                          cases hc
      · rw [if_neg t1] at hc
        cases hc
  obtain ⟨k0, k1, k2, k3, k4, k5, k6, k7, k8⟩ := key
  refine ⟨k0, k1, k2, k3, k4, k5, k6, ?_, ?_, k7, k8⟩
  · rw [k1]
    have h : (32 * (col : Int) + e.spawnOffset.1).tdiv 32 =
        (32 * (col : Int) + e.spawnOffset.1) / 32 := Int.tdiv_eq_ediv (by omega) (by omega)
    rw [h]; omega
  · rw [k2]
    have h : (32 * (row : Int) + e.spawnOffset.2).tdiv 32 =
        (32 * (row : Int) + e.spawnOffset.2) / 32 := Int.tdiv_eq_ediv (by omega) (by omega)
    rw [h]; omega

/-- Witness for C20 (amended): the mammoth of tileset 1 at slot (row 4, column 7). -/
theorem C20_spawn_coordinates_witness :
    construct 0 0 1 8 (7 : Nat) (4 : Nat) = some (.mammoth (Mammoth.new 0 0 (7 * 32) (4 * 32))) ∧
    (Entity.mammoth (Mammoth.new 0 0 (7 * 32) (4 * 32))).toObject.m_starty = 32 * 4 + 18 ∧
    Int.tdiv (Entity.mammoth (Mammoth.new 0 0 (7 * 32) (4 * 32))).toObject.m_starty 32 =
      (4 : Nat) :=
  ⟨rfl, rfl, by
    obtain ⟨_, _, _, _, _, _, _, _, h, _, _⟩ :=
      C20_spawn_coordinates 0 0 1 8 7 4 (.mammoth (Mammoth.new 0 0 (7 * 32) (4 * 32))) rfl
    exact h⟩

/-! ## Theorems: what soft reset restores -/

/-- C17 (counterexample): a snake built at (96, 64) that has turned round (`m_hspd = -2`,
as `Snake::update` leaves it after a collision with a solid) keeps `m_hspd = -2` through
`reset()`, where construction gave 2; a mushroom bounced at frame 500 keeps
`m_timerBase = 500`, where construction gave -1; a spit plant that finished shaking keeps
`m_shake = 5`, where construction gave -1. -/
theorem C17_counterexample :
    (({ Snake.new 0 0 96 64 with m_hspd := -2, m_flip := true } : Snake).reset.m_hspd = -2 ∧
      (Snake.new 0 0 96 64).m_hspd = 2) ∧
    (({ Mushroom.new 0 0 96 64 with m_timerBase := 500 } : Mushroom).reset.m_timerBase = 500 ∧
      (Mushroom.new 0 0 96 64).m_timerBase = -1) ∧
    (({ Spit.new 0 0 96 64 with m_shake := 5 } : Spit).reset.m_shake = 5 ∧
      (Spit.new 0 0 96 64).m_shake = -1) :=
  ⟨⟨rfl, rfl⟩, ⟨rfl, rfl⟩, ⟨rfl, rfl⟩⟩

/-- C17 (amended): for every grid-resident entity kind with mutable motion or timers, built by
its constructor at `(x, y)`, and every state with the same immutable spawn coordinates (for
the kinds that never move, the same position; for Ptero, the same interval and the same
magnitude of acceleration), after `reset()`:
the position `(m_x, m_y)` equals the construction value for all nine kinds;
for Ptero and Frog the velocity fields and `m_timerBase` equal their construction values;
for ThinIce, Plant, Spit and Yeti `m_timerBase` (and ThinIce's crack-count) equals its
construction value;
Snake's and Mammoth's `m_hspd`, Mushroom's `m_timerBase` and Spit's `m_shake` are left as
they were before the reset. -/
theorem C17_reset_restores_spawn_defaults (vx vy x y : Int) :
    (∀ s : Snake, s.m_startx = (Snake.new vx vy x y).m_startx →
      s.m_starty = (Snake.new vx vy x y).m_starty →
      s.reset.m_x = (Snake.new vx vy x y).m_x ∧ s.reset.m_y = (Snake.new vx vy x y).m_y ∧
      s.reset.m_hspd = s.m_hspd) ∧
    (∀ s : Mammoth, s.m_startx = (Mammoth.new vx vy x y).m_startx →
      s.m_starty = (Mammoth.new vx vy x y).m_starty →
      s.reset.m_x = (Mammoth.new vx vy x y).m_x ∧ s.reset.m_y = (Mammoth.new vx vy x y).m_y ∧
      s.reset.m_hspd = s.m_hspd) ∧
    (∀ s : Mushroom, s.m_startx = (Mushroom.new vx vy x y).m_startx →
      s.m_starty = (Mushroom.new vx vy x y).m_starty →
      s.reset.m_x = (Mushroom.new vx vy x y).m_x ∧
      s.reset.m_y = (Mushroom.new vx vy x y).m_y ∧
      s.reset.m_timerBase = s.m_timerBase) ∧
    (∀ s : Ptero, s.m_startx = (Ptero.new vx vy x y).m_startx →
      s.m_starty = (Ptero.new vx vy x y).m_starty →
      s.m_interval = (Ptero.new vx vy x y).m_interval →
      |s.m_acc| = |(Ptero.new vx vy x y).m_acc| →
      s.reset.m_x = (Ptero.new vx vy x y).m_x ∧ s.reset.m_y = (Ptero.new vx vy x y).m_y ∧
      s.reset.m_acc = (Ptero.new vx vy x y).m_acc ∧
      s.reset.m_hspd = (Ptero.new vx vy x y).m_hspd ∧
      s.reset.m_timerBase = (Ptero.new vx vy x y).m_timerBase) ∧
    (∀ s : Frog, s.m_startx = (Frog.new vx vy x y).m_startx →
      s.m_starty = (Frog.new vx vy x y).m_starty →
      s.reset.m_x = (Frog.new vx vy x y).m_x ∧ s.reset.m_y = (Frog.new vx vy x y).m_y ∧
      s.reset.m_hspd = (Frog.new vx vy x y).m_hspd ∧
      s.reset.m_vspd = (Frog.new vx vy x y).m_vspd ∧
      s.reset.m_timerBase = (Frog.new vx vy x y).m_timerBase) ∧
    (∀ s : ThinIce, s.m_x = (ThinIce.new vx vy x y).m_x →
      s.m_y = (ThinIce.new vx vy x y).m_y →
      s.reset.m_x = (ThinIce.new vx vy x y).m_x ∧ s.reset.m_y = (ThinIce.new vx vy x y).m_y ∧
      s.reset.m_cracks = (ThinIce.new vx vy x y).m_cracks ∧
      s.reset.m_timerBase = (ThinIce.new vx vy x y).m_timerBase) ∧
    (∀ s : Plant, s.m_x = (Plant.new vx vy x y).m_x → s.m_y = (Plant.new vx vy x y).m_y →
      s.reset.m_x = (Plant.new vx vy x y).m_x ∧ s.reset.m_y = (Plant.new vx vy x y).m_y ∧
      s.reset.m_timerBase = (Plant.new vx vy x y).m_timerBase) ∧
    (∀ s : Yeti, s.m_x = (Yeti.new vx vy x y).m_x → s.m_y = (Yeti.new vx vy x y).m_y →
      s.reset.m_x = (Yeti.new vx vy x y).m_x ∧ s.reset.m_y = (Yeti.new vx vy x y).m_y ∧
      s.reset.m_timerBase = (Yeti.new vx vy x y).m_timerBase) ∧
    (∀ s : Spit, s.m_x = (Spit.new vx vy x y).m_x → s.m_y = (Spit.new vx vy x y).m_y →
      s.reset.m_x = (Spit.new vx vy x y).m_x ∧ s.reset.m_y = (Spit.new vx vy x y).m_y ∧
      s.reset.m_timerBase = (Spit.new vx vy x y).m_timerBase ∧
      s.reset.m_shake = s.m_shake) := by
  refine ⟨?_, ?_, ?_, ?_, ?_, ?_, ?_, ?_, ?_⟩
  · intro s h1 h2
    exact ⟨h1, h2, rfl⟩
  · intro s h1 h2
    exact ⟨h1, h2, rfl⟩
  · intro s h1 h2
    exact ⟨h1, h2, rfl⟩
  · intro s h1 h2 h3 h4
    have hacc : s.reset.m_acc = (Ptero.new vx vy x y).m_acc := by
      show -|s.m_acc| = _
      rw [h4]
      simp [Ptero.new, abs_of_pos]
    refine ⟨h1, h2, hacc, ?_, rfl⟩
    show ((Int.tdiv s.m_interval 2 : Int) : ℚ) * -|s.m_acc| = _
    rw [h3, h4]
    simp [Ptero.new, abs_of_pos]
  · intro s h1 h2
    exact ⟨h1, h2, rfl, rfl, rfl⟩
  · intro s h1 h2
    have hx : s.reset.m_x = s.m_x := by unfold ThinIce.reset; dsimp only; split <;> rfl
    have hy : s.reset.m_y = s.m_y := by unfold ThinIce.reset; dsimp only; split <;> rfl
    have hc : s.reset.m_cracks = 0 := by unfold ThinIce.reset; dsimp only; split <;> rfl
    have ht : s.reset.m_timerBase = -1 := by unfold ThinIce.reset; dsimp only; split <;> rfl
    exact ⟨hx.trans h1, hy.trans h2, hc, ht⟩
  · intro s h1 h2
    exact ⟨h1, h2, rfl⟩
  · intro s h1 h2
    exact ⟨h1, h2, rfl⟩
  · intro s h1 h2
    exact ⟨h1, h2, rfl, rfl⟩

/-- Witness for C17 (amended): a flying Ptero and a snake that has turned round, both built at
(96, 64). -/
theorem C17_reset_restores_spawn_defaults_witness :
    ({ Ptero.new 0 0 96 64 with
        toObject := { (Ptero.new 0 0 96 64).toObject with m_x := 70, m_exists := false }
        m_timerBase := 12, m_acc := 1 / 8, m_hspd := 3 } : Ptero).reset.m_hspd =
      (Ptero.new 0 0 96 64).m_hspd ∧
    ({ Snake.new 0 0 96 64 with
        toObject := { (Snake.new 0 0 96 64).toObject with m_x := 130 }
        m_hspd := -2 } : Snake).reset.m_x = (Snake.new 0 0 96 64).m_x :=
  ⟨((C17_reset_restores_spawn_defaults 0 0 96 64).2.2.2.1
      { Ptero.new 0 0 96 64 with
        toObject := { (Ptero.new 0 0 96 64).toObject with m_x := 70, m_exists := false }
        m_timerBase := 12, m_acc := 1 / 8, m_hspd := 3 } rfl rfl rfl
      (by simp [Ptero.new, abs_of_pos])).2.2.2.1,
    ((C17_reset_restores_spawn_defaults 0 0 96 64).1
      { Snake.new 0 0 96 64 with
        toObject := { (Snake.new 0 0 96 64).toObject with m_x := 130 }
        m_hspd := -2 } rfl rfl).1⟩

/-! ## Theorems: the result code of the player update -/

theorem hazardPass_eq (rect : SDL_Rect) (heap : ObjPtr → Entity)
    (projectiles : List (ObjPtr × Object)) (hazards : List ObjPtr) (result : Int) :
    hazardPass rect heap projectiles hazards result =
      if hazards.any (hazardHit rect heap projectiles) = true then -1 else result := by
  unfold hazardPass
  induction hazards generalizing result with
  | nil => simp
  | cons h rest ih =>
    simp only [List.foldl_cons, List.any_cons, Bool.or_eq_true]
    rw [ih]
    by_cases hh : hazardHit rect heap projectiles h = true
    · simp [hh]
    · simp [hh]

theorem enemyPass_rect (keys : Keys) (enemies : List ObjPtr) (enemyhit : Bool) (c : Contact) :
    (enemyPass keys enemies enemyhit c).player.m_rect = c.player.m_rect ∧
    (enemyPass keys enemies enemyhit c).player.m_x = c.player.m_x ∧
    (enemyPass keys enemies enemyhit c).player.m_y = c.player.m_y := by
  induction enemies generalizing c with
  | nil => exact ⟨rfl, rfl, rfl⟩
  | cons e rest ih =>
    unfold enemyPass
    split
    · split
      · dsimp only
        split <;> exact ⟨rfl, rfl, rfl⟩
      · split
        · exact ih _
        · exact ih _
    · exact ih _

theorem atHazardPass_rect (keys : Keys) (gl : Globals) (heap : ObjPtr → Entity)
    (enemies : List ObjPtr) (p : Player) :
    (atHazardPass keys gl heap enemies p).player.m_rect =
      { p.m_rect with y := p.m_rect.y + 1 } :=
  (enemyPass_rect keys enemies false _).1

/-- The result code of `Player::update` is the one left by the boundary checks unless the
hazard loop finds a contact, in which case it is -1. -/
theorem update_result (fuel : Nat) (nan : Int) (keys : Keys) (gl : Globals)
    (heap : ObjPtr → Entity) (projectiles : List (ObjPtr × Object))
    (solids hazards enemies collectibles : List ObjPtr) (p p1 : Player) (r : Int)
    (hpre : p.beforeContacts fuel nan keys gl heap solids = some (p1, r)) :
    ∃ out, Player.update fuel nan keys gl heap projectiles solids hazards enemies collectibles p
        = some out ∧
      out.heap = (collectibles.foldl collectibleStep
        { atHazardPass keys gl heap enemies p1 with
          player := { (atHazardPass keys gl heap enemies p1).player with
            m_rect := { (atHazardPass keys gl heap enemies p1).player.m_rect with
              y := (atHazardPass keys gl heap enemies p1).player.m_rect.y - 1 } } }).heap ∧
      out.result =
        if hazards.any (hazardHit { p1.m_rect with y := p1.m_rect.y + 1 }
          (atHazardPass keys gl heap enemies p1).heap projectiles) = true then -1 else r := by
  refine ⟨_, by rw [Player.update, hpre]; rfl, rfl, ?_⟩
  show hazardPass _ _ _ _ _ = _
  rw [hazardPass_eq, atHazardPass_rect]

/-- The result code left by the quit check and the boundary checks. -/
theorem beforeContacts_result (fuel : Nat) (nan : Int) (keys : Keys) (gl : Globals)
    (heap : ObjPtr → Entity) (solids : List ObjPtr) (p p1 : Player) (r : Int)
    (hpre : p.beforeContacts fuel nan keys gl heap solids = some (p1, r)) :
    r = if p1.m_x > gl.g_levelW * 32 then 1
        else if p1.m_y > gl.g_levelH * 32 then -1
        else if keys.escape = true then -2 else 0 := by
  unfold Player.beforeContacts at hpre
  simp only [Option.bind_eq_some, Option.some.injEq, Prod.mk.injEq] at hpre
  obtain ⟨p5, _, p6, _, h6, hr⟩ := hpre
  subst h6
  subst hr
  simp only [boundsResult]

/-- With no solid near, no movement key held, no horizontal speed and a vertical speed of
-0.3, the first part of the update leaves the player where it is. -/
theorem beforeContacts_idle (fuel : Nat) (nan : Int) (escape : Bool) (gl : Globals)
    (heap : ObjPtr → Entity) (p : Player) (hh : p.m_hspd = 0) (hv : p.m_vspd = -(3 / 10))
    (hj : p.m_jumping = false) :
    p.beforeContacts fuel nan (idleKeys escape) gl heap [] =
      some ({ p with m_grounded := false, m_vspd := 0, m_rect := ⟨p.m_x, p.m_y, 28, 32⟩ },
        boundsResult gl p (if escape = true then -2 else 0)) := by
  have e0 : ∀ n : Int, doubleToInt ((n : ℚ) + 0) = n := by
    intro n; rw [add_zero]; exact doubleToInt_intCast n
  have ev : (-(3 / 10) : ℚ) + 3 / 10 = 0 := by norm_num
  simp [Player.beforeContacts, Player.groundProbe, Player.horizontalInput, Player.jumpInput,
    idleKeys, hh, hv, hj, ev, Player.moveX, Player.moveY, Player.alignXAll, Player.alignYAll,
    e0, doubleToInt_intCast, boundsResult]

/-- C14: for every player state and input, if at the hazard pass of `Player::update` some
entity in the active hazards list has `m_exists = true` and `collided` holds between the
player rectangle shifted down by one unit and the entity's rectangle, then `Player::update`
returns -1, whatever the quit input and the level-bound checks decided earlier in the same
frame (the result code `r` they left is arbitrary). -/
theorem C14_hazard_contact_returns_died (fuel : Nat) (nan : Int) (keys : Keys) (gl : Globals)
    (heap : ObjPtr → Entity) (projectiles : List (ObjPtr × Object))
    (solids hazards enemies collectibles : List ObjPtr) (p p1 : Player) (r : Int) (h : ObjPtr)
    (hpre : p.beforeContacts fuel nan keys gl heap solids = some (p1, r))
    (hmem : h ∈ hazards)
    (hex : (derefObject (atHazardPass keys gl heap enemies p1).heap projectiles h).m_exists
      = true)
    (hcol : collided { p1.m_rect with y := p1.m_rect.y + 1 }
      (derefObject (atHazardPass keys gl heap enemies p1).heap projectiles h).m_rect = true) :
    ∃ out, Player.update fuel nan keys gl heap projectiles solids hazards enemies collectibles p
        = some out ∧ out.result = -1 := by
  obtain ⟨out, h1, _, h3⟩ := update_result fuel nan keys gl heap projectiles solids hazards
    enemies collectibles p p1 r hpre
  refine ⟨out, h1, ?_⟩
  rw [h3, if_pos]
  rw [List.any_eq_true]
  exact ⟨h, hmem, by simp [hazardHit, hex, hcol]⟩

/-- Witness for C14: the player of the pounce example pressing Escape, with the snake at
address 2 in the hazards list and no enemy list. -/
theorem C14_hazard_contact_returns_died_witness :
    ∃ out, Player.update 64 0 (idleKeys true) exampleGlobals pounceHeap [] [] [2] [] []
        pouncePlayer = some out ∧ out.result = -1 :=
  C14_hazard_contact_returns_died 64 0 (idleKeys true) exampleGlobals pounceHeap [] [] [2] [] []
    pouncePlayer _ _ 2
    (beforeContacts_idle 64 0 true exampleGlobals pounceHeap pouncePlayer rfl rfl rfl)
    (by decide) (by rfl) (by decide)

/-- C15, as stated, fails: with Escape pressed and the player past the right edge of the
level, `Player::update` returns 1 (level complete), not -2. -/
theorem C15_counterexample :
    (idleKeys true).escape = true ∧
    ∃ out, Player.update 64 0 (idleKeys true) narrowGlobals pounceHeap [] [] [] [] []
        pouncePlayer = some out ∧ out.result = 1 ∧ out.result ≠ -2 := by
  obtain ⟨out, h1, _, h3⟩ := update_result 64 0 (idleKeys true) narrowGlobals pounceHeap [] []
    [] [] [] pouncePlayer _ _
    (beforeContacts_idle 64 0 true narrowGlobals pounceHeap pouncePlayer rfl rfl rfl)
  have h4 : out.result = 1 := by rw [h3]; decide
  exact ⟨rfl, out, h1, h4, by rw [h4]; decide⟩

/-- C15 (amended): for every player state and active sets, if Escape is pressed during a
frame whose movement part returns, `Player::update` returns -1 when the hazard pass finds a
contact, otherwise 1 when the player is past the right edge of the level, otherwise -1 when
the player is below its bottom, and otherwise -2; so it returns -2 exactly when none of the
three later assignments to the result code fires. -/
theorem C15_escape_result (fuel : Nat) (nan : Int) (keys : Keys) (gl : Globals)
    (heap : ObjPtr → Entity) (projectiles : List (ObjPtr × Object))
    (solids hazards enemies collectibles : List ObjPtr) (p p1 : Player) (r : Int)
    (hesc : keys.escape = true)
    (hpre : p.beforeContacts fuel nan keys gl heap solids = some (p1, r)) :
    ∃ out, Player.update fuel nan keys gl heap projectiles solids hazards enemies collectibles p
        = some out ∧
      out.result =
        (if hazards.any (hazardHit { p1.m_rect with y := p1.m_rect.y + 1 }
          (atHazardPass keys gl heap enemies p1).heap projectiles) = true then -1
        else if p1.m_x > gl.g_levelW * 32 then 1
        else if p1.m_y > gl.g_levelH * 32 then -1
        else -2) ∧
      (out.result = -2 ↔
        (hazards.any (hazardHit { p1.m_rect with y := p1.m_rect.y + 1 }
          (atHazardPass keys gl heap enemies p1).heap projectiles) = false ∧
        p1.m_x ≤ gl.g_levelW * 32 ∧ p1.m_y ≤ gl.g_levelH * 32)) := by
  obtain ⟨out, h1, _, h3⟩ := update_result fuel nan keys gl heap projectiles solids hazards
    enemies collectibles p p1 r hpre
  have hr := beforeContacts_result fuel nan keys gl heap solids p p1 r hpre
  rw [if_pos hesc] at hr
  have h4 : out.result =
      (if hazards.any (hazardHit { p1.m_rect with y := p1.m_rect.y + 1 }
          (atHazardPass keys gl heap enemies p1).heap projectiles) = true then -1
        else if p1.m_x > gl.g_levelW * 32 then 1
        else if p1.m_y > gl.g_levelH * 32 then -1
        else -2) := by rw [h3, hr]
  refine ⟨out, h1, h4, ?_⟩
  rw [h4]
  split_ifs with ha hx hy
  · simp [ha]
  · constructor
    · intro h; exact absurd h (by decide)
    · rintro ⟨_, h, _⟩; omega
  · constructor
    · intro h; exact absurd h (by decide)
    · rintro ⟨_, _, h⟩; omega
  · simp only [true_iff]
    exact ⟨by simpa using ha, by omega, by omega⟩

/-- Witness for C15: the example player in the air, inside the level and away from every
hazard, with Escape pressed. -/
theorem C15_escape_result_witness :
    ∃ out, Player.update 64 0 (idleKeys true) exampleGlobals pounceHeap [] [] [] [] []
        pouncePlayer = some out ∧ out.result = -2 := by
  obtain ⟨out, h1, _, h3⟩ := C15_escape_result 64 0 (idleKeys true) exampleGlobals pounceHeap
    [] [] [] [] [] pouncePlayer _ _ rfl
    (beforeContacts_idle 64 0 true exampleGlobals pounceHeap pouncePlayer rfl rfl rfl)
  exact ⟨out, h1, h3.2 ⟨rfl, by decide, by decide⟩⟩

/-- An enemy loop entered with `enemyhit` false changes the entity at no more than one
address: once an enemy is pounced the loop ends, and before that nothing is written. -/
theorem enemyPass_false_heap (keys : Keys) (enemies : List ObjPtr) (c : Contact) :
    ∃ e, ∀ q, q ≠ e → (enemyPass keys enemies false c).heap q = c.heap q := by
  induction enemies generalizing c with
  | nil => exact ⟨0, fun _ _ => rfl⟩
  | cons e rest ih =>
    unfold enemyPass
    split
    · split
      · refine ⟨e, fun q hq => ?_⟩
        dsimp only
        unfold heapSet
        rw [if_neg hq]
      · rw [if_neg (by simp)]
        exact ih c
    · exact ih c

/-- C16 (behaviour of the code at the failing input): the player is above two live snakes,
at addresses 1 and 2, both overlapped by its shifted rectangle, and high enough to pounce on
either.  `Player::update` kills the snake at address 1, bounces (`m_vspd = -4`, 50 points),
leaves the snake at address 2 alive and returns -1 on its account: the `break` after the
first pounce ends the enemy loop, so no chained bounce takes place. -/
theorem C16_pounce_ends_enemy_loop :
    (pounceHeap 1).toObject.m_exists = true ∧ (pounceHeap 2).toObject.m_exists = true ∧
    collided ⟨100, 71, 28, 32⟩ (pounceHeap 1).toObject.m_rect = true ∧
    collided ⟨100, 71, 28, 32⟩ (pounceHeap 2).toObject.m_rect = true ∧
    pouncePlayer.m_y + 16 < (pounceHeap 1).toObject.m_y ∧
    ∃ out, Player.update 64 0 (idleKeys false) exampleGlobals pounceHeap [] [] [1, 2] [1, 2] []
        pouncePlayer = some out ∧
      (out.heap 1).toObject.m_exists = false ∧ (out.heap 2).toObject.m_exists = true ∧
      out.player.m_vspd = -4 ∧ out.globals.g_score = 50 ∧ out.result = -1 := by
  refine ⟨rfl, rfl, by decide, by decide, by decide, ?_⟩
  rw [Player.update,
    beforeContacts_idle 64 0 false exampleGlobals pounceHeap pouncePlayer rfl rfl rfl]
  exact ⟨_, rfl, rfl, rfl, rfl, rfl, rfl⟩

/-! ## Theorems: strong reset at the end of a life attempt -/

theorem resetStrong_collectible (e : Entity) (hk : e.isCollectibleKind = true) :
    e.resetStrong.isCollectibleKind = true ∧ e.resetStrong.toObject.m_exists = true ∧
    e.resetStrong.resetStrong = e.resetStrong := by
  cases e <;> first | exact ⟨rfl, rfl, rfl⟩ | cases hk

theorem strongResetAll_eq (level : Level) (heap : ObjPtr → Entity) :
    strongResetAll level heap = level.flatten.foldl strongResetSlot (heap, []) := by
  unfold strongResetAll
  generalize (heap, ([] : List ObjPtr)) = st
  induction level generalizing st with
  | nil => rfl
  | cons row rest ih =>
    rw [List.foldl_cons, ih, List.flatten_cons, List.foldl_append]
    rfl

theorem strongResetFold_log (l : List (Option ObjPtr)) (st : (ObjPtr → Entity) × List ObjPtr) :
    (l.foldl strongResetSlot st).2 = st.2 ++ l.reduceOption := by
  induction l generalizing st with
  | nil => simp
  | cons a rest ih =>
    rw [List.foldl_cons, ih]
    cases a with
    | none => simp [strongResetSlot]
    | some q => simp [strongResetSlot]

theorem strongResetFold_collectible (l : List (Option ObjPtr))
    (st : (ObjPtr → Entity) × List ObjPtr) (q : ObjPtr)
    (hk : (st.1 q).isCollectibleKind = true) :
    (l.foldl strongResetSlot st).1 q =
      if some q ∈ l then (st.1 q).resetStrong else st.1 q := by
  induction l generalizing st with
  | nil => simp
  | cons a rest ih =>
    rw [List.foldl_cons]
    obtain ⟨k1, _, k3⟩ := resetStrong_collectible (st.1 q) hk
    by_cases ha : a = some q
    · subst ha
      have h1 : (strongResetSlot st (some q)).1 q = (st.1 q).resetStrong := by
        simp only [strongResetSlot, heapSet, if_true]
      rw [ih _ (by rw [h1]; exact k1), h1, k3]
      simp
    · have h1 : (strongResetSlot st a).1 q = st.1 q := by
        cases a with
        | none => rfl
        | some r =>
          have hr : q ≠ r := fun e => ha (by rw [e])
          simp only [strongResetSlot, heapSet, if_neg hr]
      rw [ih _ (by rw [h1]; exact hk), h1]
      have : (some q ∈ a :: rest) ↔ some q ∈ rest := by
        rw [List.mem_cons]
        constructor
        · rintro (h | h)
          · exact absurd h.symm ha
          · exact h
        · exact Or.inr
      simp only [this]

theorem strongResetFold_frame (l : List (Option ObjPtr))
    (st : (ObjPtr → Entity) × List ObjPtr) (q : ObjPtr) (h : some q ∉ l) :
    (l.foldl strongResetSlot st).1 q = st.1 q := by
  induction l generalizing st with
  | nil => rfl
  | cons a rest ih =>
    rw [List.foldl_cons, ih _ (fun m => h (List.mem_cons_of_mem _ m))]
    cases a with
    | none => rfl
    | some r =>
      have hr : q ≠ r := fun e => h (by rw [e]; exact List.mem_cons_self _ _)
      simp only [strongResetSlot, heapSet, if_neg hr]

/-- A soft reset at any address leaves every collectible as it is. -/
theorem heapSet_reset_collectible (heap : ObjPtr → Entity) (a q : ObjPtr)
    (hk : (heap q).isCollectibleKind = true) : heapSet heap a (heap a).reset q = heap q := by
  unfold heapSet
  by_cases hq : q = a
  · subst hq
    rw [if_pos rfl]
    cases he : heap q <;> rw [he] at hk <;> first | rfl | cases hk
  · rw [if_neg hq]

theorem resetDepartedFold_collectible (l : List ObjPtr) (st : PlayState) (q : ObjPtr)
    (hk : (st.heap q).isCollectibleKind = true) :
    (l.foldl resetDepartedStep st).heap q = st.heap q := by
  induction l generalizing st with
  | nil => rfl
  | cons a rest ih =>
    rw [List.foldl_cons]
    have hstep : (resetDepartedStep st a).heap q = st.heap q := by
      unfold resetDepartedStep
      split
      · exact heapSet_reset_collectible st.heap a q hk
      · rfl
    rw [ih _ (by rw [hstep]; exact hk), hstep]

theorem cleanupLoop_collectible (gx gy : Int) (q : ObjPtr) :
    ∀ (remaining kept : List ObjPtr) (s s1 : PlayState),
      cleanupLoop gx gy remaining kept s = some s1 →
      (s.heap q).isCollectibleKind = true → s1.heap q = s.heap q := by
  intro remaining
  induction remaining with
  | nil =>
    intro kept s s1 h _
    simp only [cleanupLoop, Option.some.injEq] at h
    rw [← h]
  | cons a rest ih =>
    intro kept s s1 h hk
    unfold cleanupLoop at h
    split at h
    · split at h
      · cases he : evict s a with
        | none => rw [he] at h; cases h
        | some s2 =>
          rw [he] at h
          obtain ⟨_, _, hh, _, _⟩ := evict_frame s s2 a he
          have h2 : s2.heap q = s.heap q := by
            rw [hh]; exact heapSet_reset_collectible s.heap a q hk
          rw [ih kept s2 s1 h (by rw [h2]; exact hk), h2]
      · exact ih kept s s1 h hk
    · exact ih _ s s1 h hk

theorem beforeCleanup_collectible (level : Level) (gx gy : Int) (s s2 : PlayState) (q : ObjPtr)
    (h : beforeCleanup level gx gy s = some s2) (hk : (s.heap q).isCollectibleKind = true) :
    s2.heap q = s.heap q := by
  have hf : (fillProtQueue s).heap = s.heap := (fillFold_frame s.instances s).1
  unfold beforeCleanup at h
  dsimp only at h
  split at h
  · unfold rebuild at h
    simp only [Option.map_eq_some'] at h
    obtain ⟨s1, hs1, hs2⟩ := h
    have h1 := (scanRows_frame _ _ _ _ _ _ hs1).1
    have h2 : (addProtected s1).heap = s1.heap := (addProtectedFold_frame _ _).1
    have h3 : (addProtected s1).heap q = s.heap q := by rw [h2, h1]; exact congrFun hf q
    rw [← hs2]
    unfold resetDeparted
    rw [resetDepartedFold_collectible _ _ q (by rw [h3]; exact hk), h3]
  · cases h
    exact congrFun hf q

/-- Active-set maintenance, with all the soft resets it performs, leaves every collectible as
it is. -/
theorem maintain_collectible (level : Level) (gx gy : Int) (s s1 : PlayState) (q : ObjPtr)
    (h : maintain level gx gy s = some s1) (hk : (s.heap q).isCollectibleKind = true) :
    s1.heap q = s.heap q := by
  rw [maintain_eq_bind] at h
  simp only [Option.bind_eq_some, Option.map_eq_some'] at h
  obtain ⟨s2, h2, s3, h3, h4⟩ := h
  have e2 := beforeCleanup_collectible level gx gy s s2 q h2 hk
  have e3 := cleanupLoop_collectible gx gy q _ _ _ _ h3 (by rw [e2]; exact hk)
  rw [← h4]
  exact e3.trans e2

/-- C18: when the frame of `play` ends with `Player::update` having returned -1, `play` takes
a life, restores the score, invokes `resetStrong()` exactly on the occupied slots of the grid,
row by row, and returns 0; afterwards every collectible in the grid is its strongly reset
self and has `m_exists = true`, whether or not it was consumed during the attempt.  The soft
resets of active-set maintenance, in contrast, leave every collectible as it is, so a
consumed one stays consumed while scrolling. -/
theorem C18_strong_reset_after_death (level : Level) (startScore : Int)
    (heap : ObjPtr → Entity) (gl : Globals) :
    (frameEnd level startScore (-1) heap gl).returned = some 0 ∧
    (frameEnd level startScore (-1) heap gl).globals =
      { gl with g_count := gl.g_count + 1, g_lives := gl.g_lives - 1, g_score := startScore } ∧
    (frameEnd level startScore (-1) heap gl).strongLog = level.flatten.reduceOption ∧
    (∀ q, some q ∈ level.flatten → (heap q).isCollectibleKind = true →
      (frameEnd level startScore (-1) heap gl).heap q = (heap q).resetStrong ∧
      ((frameEnd level startScore (-1) heap gl).heap q).toObject.m_exists = true) ∧
    (∀ (gx gy : Int) (s s1 : PlayState) (q : ObjPtr), maintain level gx gy s = some s1 →
      (s.heap q).isCollectibleKind = true →
      s1.heap q = s.heap q ∧ (s1.heap q).toObject.m_exists = (s.heap q).toObject.m_exists) := by
  have hf : frameEnd level startScore (-1) heap gl =
      { heap := (strongResetAll level heap).1,
        globals := { gl with g_count := gl.g_count + 1, g_lives := gl.g_lives - 1,
                             g_score := startScore },
        strongLog := (strongResetAll level heap).2, returned := some 0 } := by
    unfold frameEnd
    rw [if_pos rfl]
  rw [hf, strongResetAll_eq]
  refine ⟨rfl, rfl, ?_, ?_, ?_⟩
  · show (level.flatten.foldl strongResetSlot (heap, [])).2 = _
    rw [strongResetFold_log]
    rfl
  · intro q hq hk
    have h1 : (level.flatten.foldl strongResetSlot (heap, [])).1 q = (heap q).resetStrong := by
      rw [strongResetFold_collectible _ _ q hk, if_pos hq]
    show (level.flatten.foldl strongResetSlot (heap, [])).1 q = _ ∧
      ((level.flatten.foldl strongResetSlot (heap, [])).1 q).toObject.m_exists = true
    rw [h1]
    exact ⟨rfl, (resetStrong_collectible _ hk).2.1⟩
  · intro gx gy s s1 q hm hk
    have := maintain_collectible level gx gy s s1 q hm hk
    exact ⟨this, by rw [this]⟩

/-- Witness for C18: the example level with its two consumed gems.  The strong reset visits
the addresses 2, 5, 1 and restores both gems; the maintenance of the scrolling frame soft
resets the score gem (address 1 enters the reset log) and leaves it consumed. -/
theorem C18_strong_reset_after_death_witness :
    (frameEnd gemLevel 0 (-1) gemHeap exampleGlobals).returned = some 0 ∧
    (frameEnd gemLevel 0 (-1) gemHeap exampleGlobals).strongLog = [2, 5, 1] ∧
    (gemHeap 1).toObject.m_exists = false ∧ (gemHeap 2).toObject.m_exists = false ∧
    ((frameEnd gemLevel 0 (-1) gemHeap exampleGlobals).heap 1).toObject.m_exists = true ∧
    ((frameEnd gemLevel 0 (-1) gemHeap exampleGlobals).heap 2).toObject.m_exists = true ∧
    ∃ s1, maintain gemLevel 30 2 gemState = some s1 ∧ s1.resetLog = [1] ∧
      s1.heap 1 = gemHeap 1 ∧ (s1.heap 1).toObject.m_exists = false := by
  obtain ⟨h1, _, h3, h4, h5⟩ := C18_strong_reset_after_death gemLevel 0 gemHeap exampleGlobals
  have hm : maintain gemLevel 30 2 gemState =
      some { gemState with heap := heapSet gemHeap 1 (gemHeap 1).reset, instances := [],
                           collectibles := [], protQueue := [], resetLog := [1] } := by rfl
  have h6 := (h5 30 2 gemState _ 1 hm rfl).1
  exact ⟨h1, h3, rfl, rfl, (h4 1 (by decide) rfl).2, (h4 2 (by decide) rfl).2, _, hm, rfl, h6,
    by rw [h6]; rfl⟩

/-! ## Theorems: reads of the level grid -/

/-- On a rectangular grid a read is defined exactly when both indices are in range. -/
theorem gridAt_isSome (level : Level) (rows cols : Nat) (h : level.Rectangular rows cols)
    (r c : Int) :
    (gridAt level r c).isSome = true ↔ (0 ≤ r ∧ r < rows) ∧ (0 ≤ c ∧ c < cols) := by
  obtain ⟨hlen, hrow⟩ := h
  unfold gridAt
  by_cases hr : 0 ≤ r ∧ r < (level.length : Int)
  · rw [if_pos hr]
    have hlt : r.toNat < level.length := by omega
    have hget : level.get? r.toNat = some (level.get ⟨r.toNat, hlt⟩) := List.get?_eq_get hlt
    have hcols : (level.get ⟨r.toNat, hlt⟩).length = cols := hrow _ (List.get_mem _ _ _)
    rw [hget]
    dsimp only
    rw [hcols]
    by_cases hc : 0 ≤ c ∧ c < (cols : Int)
    · rw [if_pos hc]
      have hclt : c.toNat < (level.get ⟨r.toNat, hlt⟩).length := by omega
      rw [List.get?_eq_get hclt]
      simp only [Option.isSome_some, true_iff]
      exact ⟨by omega, hc⟩
    · rw [if_neg hc]
      simp only [Option.isSome_none, Bool.false_eq_true, false_iff]
      exact fun hh => hc hh.2
  · rw [if_neg hr]
    simp only [Option.isSome_none, Bool.false_eq_true, false_iff]
    exact fun hh => hr (by omega)

theorem gridAt_some (level : Level) (rows cols : Nat) (h : level.Rectangular rows cols)
    (r c : Int) (hr0 : 0 ≤ r) (hr1 : r < rows) (hc0 : 0 ≤ c) (hc1 : c < cols) :
    ∃ slot, gridAt level r c = some slot :=
  Option.isSome_iff_exists.mp ((gridAt_isSome level rows cols h r c).mpr ⟨⟨hr0, hr1⟩, hc0, hc1⟩)

/-- Each adjacency check of a wall inside the grid reads inside the grid, and leaves the wall
where it is. -/
theorem adjacentStep_defined (level : Level) (rows cols : Nat) (gl : Globals)
    (heap : ObjPtr → Entity) (h : level.Rectangular rows cols)
    (hH : gl.g_levelH = rows) (hW : gl.g_levelW = cols) (s : Wall) (i : Nat) (hi : i < 4)
    (hr0 : 0 ≤ Int.tdiv s.m_y 32) (hr1 : Int.tdiv s.m_y 32 < rows)
    (hc0 : 0 ≤ Int.tdiv s.m_x 32) (hc1 : Int.tdiv s.m_x 32 < cols) :
    ∃ s1, Wall.adjacentStep level gl heap s i = some s1 ∧ s1.m_x = s.m_x ∧ s1.m_y = s.m_y := by
  have key : ∀ (r c : Int), (0 ≤ r ∧ r < rows) ∧ (0 ≤ c ∧ c < cols) →
      ∃ s1, (match gridAt level r c with
        | none => none
        | some none => some s
        | some (some q) =>
          if (heap q).toObject.m_solid then
            some { s with m_adjacent := s.m_adjacent.set i false }
          else some s) = some s1 ∧ s1.m_x = s.m_x ∧ s1.m_y = s.m_y := by
    intro r c hrc
    obtain ⟨slot, hslot⟩ := gridAt_some level rows cols h r c hrc.1.1 hrc.1.2 hrc.2.1 hrc.2.2
    rw [hslot]
    cases slot with
    | none => exact ⟨s, rfl, rfl, rfl⟩
    | some q =>
      dsimp only
      split
      · exact ⟨_, rfl, rfl, rfl⟩
      · exact ⟨s, rfl, rfl, rfl⟩
  generalize hr : Int.tdiv s.m_y 32 = r at hr0 hr1
  generalize hc : Int.tdiv s.m_x 32 = c at hc0 hc1
  unfold Wall.adjacentStep
  simp only [hr, hc]
  interval_cases i
  · simp only [Nat.zero_div, pow_zero, Nat.zero_mod, if_true, one_mul, Nat.cast_zero, mul_zero,
      sub_zero, hr, zero_add, Nat.one_mod, Nat.cast_one, mul_one]
    split
    · exact ⟨_, rfl, rfl, rfl⟩
    · exact key _ _ ⟨⟨by omega, by omega⟩, hc0, hc1⟩
  · norm_num [hc]
    split
    · exact ⟨_, rfl, rfl, rfl⟩
    · exact key _ _ ⟨⟨by omega, by omega⟩, by omega, by omega⟩
  · norm_num [hr, hH]
    split
    · exact ⟨_, rfl, rfl, rfl⟩
    · exact key _ _ ⟨⟨by omega, by omega⟩, by omega, by omega⟩
  · norm_num [hc, hW]
    split
    · exact ⟨_, rfl, rfl, rfl⟩
    · exact key _ _ ⟨⟨by omega, by omega⟩, by omega, by omega⟩

/-- The adjacency checks of a wall located at a slot inside the grid never read outside it. -/
theorem wall_update_defined (level : Level) (rows cols : Nat) (gl : Globals)
    (heap : ObjPtr → Entity) (h : level.Rectangular rows cols)
    (hH : gl.g_levelH = rows) (hW : gl.g_levelW = cols) (s : Wall)
    (hr0 : 0 ≤ Int.tdiv s.m_y 32) (hr1 : Int.tdiv s.m_y 32 < rows)
    (hc0 : 0 ≤ Int.tdiv s.m_x 32) (hc1 : Int.tdiv s.m_x 32 < cols) :
    ∃ s1, Wall.update level gl heap s = some s1 := by
  unfold Wall.update
  split
  · obtain ⟨s0, e0, x0, y0⟩ := adjacentStep_defined level rows cols gl heap h hH hW s 0
      (by decide) hr0 hr1 hc0 hc1
    obtain ⟨s1, e1, x1, y1⟩ := adjacentStep_defined level rows cols gl heap h hH hW s0 1
      (by decide) (by rw [y0]; exact hr0) (by rw [y0]; exact hr1) (by rw [x0]; exact hc0)
      (by rw [x0]; exact hc1)
    rw [← x0] at hc0 hc1
    rw [← y0] at hr0 hr1
    obtain ⟨s2, e2, x2, y2⟩ := adjacentStep_defined level rows cols gl heap h hH hW s1 2
      (by decide) (by rw [y1]; exact hr0) (by rw [y1]; exact hr1) (by rw [x1]; exact hc0)
      (by rw [x1]; exact hc1)
    rw [← x1] at hc0 hc1
    rw [← y1] at hr0 hr1
    obtain ⟨s3, e3, _, _⟩ := adjacentStep_defined level rows cols gl heap h hH hW s2 3
      (by decide) (by rw [y2]; exact hr0) (by rw [y2]; exact hr1) (by rw [x2]; exact hc0)
      (by rw [x2]; exact hc1)
    exact ⟨_, by rw [e0, Option.some_bind, e1, Option.some_bind, e2, Option.some_bind, e3,
      Option.some_bind]⟩
  · exact ⟨s, rfl⟩

/-- The lookahead of a snake is defined exactly when its speed is not zero and the three
indices it uses are in range. -/
theorem snake_lookahead_isSome (level : Level) (rows cols : Nat)
    (h : level.Rectangular rows cols) (heap : ObjPtr → Entity) (s : Snake) :
    (Snake.lookahead level heap s).isSome = true ↔
      s.m_hspd ≠ 0 ∧ (0 ≤ Int.tdiv s.m_y 32 + 1 ∧ Int.tdiv s.m_y 32 + 1 < rows) ∧
      (0 ≤ Int.tdiv (s.m_x + 8 + Int.tdiv (32 * s.m_hspd) |s.m_hspd|) 32 ∧
        Int.tdiv (s.m_x + 8 + Int.tdiv (32 * s.m_hspd) |s.m_hspd|) 32 < cols) ∧
      (0 ≤ Int.tdiv (s.m_x + 8 - Int.tdiv (32 * s.m_hspd) |s.m_hspd|) 32 ∧
        Int.tdiv (s.m_x + 8 - Int.tdiv (32 * s.m_hspd) |s.m_hspd|) 32 < cols) := by
  have g1 := gridAt_isSome level rows cols h (Int.tdiv s.m_y 32 + 1)
    (Int.tdiv (s.m_x + 8 + Int.tdiv (32 * s.m_hspd) |s.m_hspd|) 32)
  have g2 := gridAt_isSome level rows cols h (Int.tdiv s.m_y 32 + 1)
    (Int.tdiv (s.m_x + 8 - Int.tdiv (32 * s.m_hspd) |s.m_hspd|) 32)
  unfold Snake.lookahead
  by_cases h0 : s.m_hspd = 0
  · rw [if_pos h0]
    simp only [Option.isSome_none, Bool.false_eq_true, false_iff]
    exact fun hh => hh.1 h0
  · rw [if_neg h0]
    cases e1 : gridAt level (Int.tdiv s.m_y 32 + 1)
        (Int.tdiv (s.m_x + 8 + Int.tdiv (32 * s.m_hspd) |s.m_hspd|) 32) with
    | none =>
      rw [e1] at g1
      simp only [Option.none_bind, Option.isSome_none, Bool.false_eq_true, false_iff]
      exact fun hh => absurd (g1.mpr ⟨hh.2.1, hh.2.2.1⟩) (by simp)
    | some a1 =>
      rw [e1] at g1
      cases e2 : gridAt level (Int.tdiv s.m_y 32 + 1)
          (Int.tdiv (s.m_x + 8 - Int.tdiv (32 * s.m_hspd) |s.m_hspd|) 32) with
      | none =>
        rw [e2] at g2
        simp only [Option.some_bind, Option.none_bind, Option.isSome_none, Bool.false_eq_true,
          false_iff]
        exact fun hh => absurd (g2.mpr ⟨hh.2.1, hh.2.2.2⟩) (by simp)
      | some a2 =>
        rw [e2] at g2
        simp only [Option.some_bind, Option.isSome_some, true_iff]
        exact ⟨h0, (g1.mp rfl).1, (g1.mp rfl).2, (g2.mp rfl).2⟩

/-- The lookahead of a mammoth is defined exactly when its speed is not zero and the three
indices it uses are in range. -/
theorem mammoth_lookahead_isSome (level : Level) (rows cols : Nat)
    (h : level.Rectangular rows cols) (heap : ObjPtr → Entity) (s : Mammoth) :
    (Mammoth.lookahead level heap s).isSome = true ↔
      s.m_hspd ≠ 0 ∧ (0 ≤ Int.tdiv (s.m_y + 16) 32 + 1 ∧ Int.tdiv (s.m_y + 16) 32 + 1 < rows) ∧
      (0 ≤ doubleToInt ((((s.m_x - 1 + 32 : Int) : ℚ) + 32 * s.m_hspd / |s.m_hspd|) / 32) ∧
        doubleToInt ((((s.m_x - 1 + 32 : Int) : ℚ) + 32 * s.m_hspd / |s.m_hspd|) / 32) < cols) ∧
      (0 ≤ doubleToInt ((((s.m_x + 1 : Int) : ℚ) - 32 * s.m_hspd / |s.m_hspd|) / 32) ∧
        doubleToInt ((((s.m_x + 1 : Int) : ℚ) - 32 * s.m_hspd / |s.m_hspd|) / 32) < cols) := by
  have g1 := gridAt_isSome level rows cols h (Int.tdiv (s.m_y + 16) 32 + 1)
    (doubleToInt ((((s.m_x - 1 + 32 : Int) : ℚ) + 32 * s.m_hspd / |s.m_hspd|) / 32))
  have g2 := gridAt_isSome level rows cols h (Int.tdiv (s.m_y + 16) 32 + 1)
    (doubleToInt ((((s.m_x + 1 : Int) : ℚ) - 32 * s.m_hspd / |s.m_hspd|) / 32))
  unfold Mammoth.lookahead
  by_cases h0 : s.m_hspd = 0
  · rw [if_pos h0]
    simp only [Option.isSome_none, Bool.false_eq_true, false_iff]
    exact fun hh => hh.1 h0
  · rw [if_neg h0]
    cases e1 : gridAt level (Int.tdiv (s.m_y + 16) 32 + 1)
        (doubleToInt ((((s.m_x - 1 + 32 : Int) : ℚ) + 32 * s.m_hspd / |s.m_hspd|) / 32)) with
    | none =>
      rw [e1] at g1
      simp only [Option.none_bind, Option.isSome_none, Bool.false_eq_true, false_iff]
      exact fun hh => absurd (g1.mpr ⟨hh.2.1, hh.2.2.1⟩) (by simp)
    | some a1 =>
      rw [e1] at g1
      cases e2 : gridAt level (Int.tdiv (s.m_y + 16) 32 + 1)
          (doubleToInt ((((s.m_x + 1 : Int) : ℚ) - 32 * s.m_hspd / |s.m_hspd|) / 32)) with
      | none =>
        rw [e2] at g2
        simp only [Option.some_bind, Option.none_bind, Option.isSome_none, Bool.false_eq_true,
          false_iff]
        exact fun hh => absurd (g2.mpr ⟨hh.2.1, hh.2.2.2⟩) (by simp)
      | some a2 =>
        rw [e2] at g2
        simp only [Option.some_bind, Option.isSome_some, true_iff]
        exact ⟨h0, (g1.mp rfl).1, (g1.mp rfl).2, (g2.mp rfl).2⟩

/-- The first update of a water tile reads the slot above it before testing whether there is
one: it is defined exactly when the row above is inside the grid. -/
theorem water_update_isSome (level : Level) (rows cols : Nat)
    (h : level.Rectangular rows cols) (g_count : Int) (heap : ObjPtr → Entity) (s : Water)
    (hcheck : s.m_check = false) :
    (Water.update level g_count heap s).isSome = true ↔
      (0 ≤ Int.tdiv s.m_y 32 - 1 ∧ Int.tdiv s.m_y 32 - 1 < rows) ∧
      (0 ≤ Int.tdiv s.m_x 32 ∧ Int.tdiv s.m_x 32 < cols) := by
  have g1 := gridAt_isSome level rows cols h (Int.tdiv s.m_y 32 - 1) (Int.tdiv s.m_x 32)
  unfold Water.update
  simp only [hcheck, Bool.not_false, if_true, Option.isSome_map']
  cases e1 : gridAt level (Int.tdiv s.m_y 32 - 1) (Int.tdiv s.m_x 32) with
  | none =>
    rw [e1] at g1
    simp only [Option.isSome_none, Bool.false_eq_true, false_iff]
    exact fun hh => absurd (g1.mpr hh) (by simp)
  | some a1 =>
    rw [e1] at g1
    simp only [Option.isSome_some, true_iff]
    exact g1.mp rfl

/-- A water tile in the top row of the example level, at tile (1, 0), reads row -1. -/
theorem water_update_top_row (g_count : Int) (heap : ObjPtr → Entity) :
    Water.update probeLevel g_count heap (Water.new 0 0 32 0) = none := rfl

/-- Which grid reads stay inside the grid.  On every rectangular grid of `rows` by `cols`
slots, with at least one row and one column and with `g_levelH = rows` and `g_levelW = cols`,
every index of the window scan is in range (the rebuild that contains it is defined), and so
is every index of the adjacency checks of `Wall::update` for a wall located at a slot inside
the grid.  The lookahead of `Snake::update` and of `Mammoth::update` tests no index: it reads
inside the grid exactly when the row below the entity (`m_y / 32 + 1` for a snake,
`(m_y + 16) / 32 + 1` for a mammoth) is less than `rows` and the two columns it computes are
in `[0, cols)`. -/
theorem grid_reads_in_range (level : Level) (rows cols : Nat) (gl : Globals)
    (hrect : level.Rectangular rows cols) (hrows : 0 < rows) (hcols : 0 < cols)
    (hr64 : rows < 2 ^ 64) (hc64 : cols < 2 ^ 64)
    (hH : gl.g_levelH = rows) (hW : gl.g_levelW = cols) :
    (∀ (gx gy : Int) (s : PlayState), ∃ s2, rebuild level gx gy s = some s2) ∧
    (∀ (heap : ObjPtr → Entity) (w : Wall),
      (0 ≤ Int.tdiv w.m_y 32 ∧ Int.tdiv w.m_y 32 < rows) →
      (0 ≤ Int.tdiv w.m_x 32 ∧ Int.tdiv w.m_x 32 < cols) →
      ∃ w1, Wall.update level gl heap w = some w1) ∧
    (∀ (heap : ObjPtr → Entity) (s : Snake),
      (Snake.lookahead level heap s).isSome = true ↔
        s.m_hspd ≠ 0 ∧ (0 ≤ Int.tdiv s.m_y 32 + 1 ∧ Int.tdiv s.m_y 32 + 1 < rows) ∧
        (0 ≤ Int.tdiv (s.m_x + 8 + Int.tdiv (32 * s.m_hspd) |s.m_hspd|) 32 ∧
          Int.tdiv (s.m_x + 8 + Int.tdiv (32 * s.m_hspd) |s.m_hspd|) 32 < cols) ∧
        (0 ≤ Int.tdiv (s.m_x + 8 - Int.tdiv (32 * s.m_hspd) |s.m_hspd|) 32 ∧
          Int.tdiv (s.m_x + 8 - Int.tdiv (32 * s.m_hspd) |s.m_hspd|) 32 < cols)) ∧
    (∀ (heap : ObjPtr → Entity) (m : Mammoth),
      (Mammoth.lookahead level heap m).isSome = true ↔
        m.m_hspd ≠ 0 ∧
        (0 ≤ Int.tdiv (m.m_y + 16) 32 + 1 ∧ Int.tdiv (m.m_y + 16) 32 + 1 < rows) ∧
        (0 ≤ doubleToInt ((((m.m_x - 1 + 32 : Int) : ℚ) + 32 * m.m_hspd / |m.m_hspd|) / 32) ∧
          doubleToInt ((((m.m_x - 1 + 32 : Int) : ℚ) + 32 * m.m_hspd / |m.m_hspd|) / 32)
            < cols) ∧
        (0 ≤ doubleToInt ((((m.m_x + 1 : Int) : ℚ) - 32 * m.m_hspd / |m.m_hspd|) / 32) ∧
          doubleToInt ((((m.m_x + 1 : Int) : ℚ) - 32 * m.m_hspd / |m.m_hspd|) / 32)
            < cols)) := by
  have hscan : level.Scannable := by
    obtain ⟨hlen, hrow⟩ := hrect
    refine ⟨?_, by omega, fun row hmem => ?_⟩
    · intro hnil
      rw [hnil] at hlen
      simp at hlen
      omega
    · have := hrow row hmem
      refine ⟨?_, by omega⟩
      intro hnil
      rw [hnil] at this
      simp at this
      omega
  refine ⟨fun gx gy s => ?_, fun heap w hr hc => ?_, fun heap s => ?_, fun heap m => ?_⟩
  · obtain ⟨s2, h2, _⟩ := rebuild_defined level gx gy s hscan
    exact ⟨s2, h2⟩
  · exact wall_update_defined level rows cols gl heap hrect hH hW w hr.1 hr.2 hc.1 hc.2
  · exact snake_lookahead_isSome level rows cols hrect heap s
  · exact mammoth_lookahead_isSome level rows cols hrect heap m

/-- The 3 by 4 example level: the rebuild about tile (1, 1) is defined, the wall at tile
(3, 2), in the bottom right corner, is updated without a read outside the grid, and the snake
at tile (1, 1) reads the floor below it. -/
theorem grid_reads_in_range_example :
    (∃ s2, rebuild probeLevel 1 1 exampleState = some s2) ∧
    (∃ w1, Wall.update probeLevel probeGlobals exampleHeap (Wall.new 0 0 96 64) = some w1) ∧
    (Snake.lookahead probeLevel exampleHeap middleSnake).isSome = true := by
  obtain ⟨h1, h2, h3, _⟩ := grid_reads_in_range probeLevel 3 4 probeGlobals
    ⟨rfl, by decide⟩ (by decide) (by decide) (by norm_num) (by norm_num) rfl rfl
  exact ⟨h1 1 1 exampleState, h2 exampleHeap (Wall.new 0 0 96 64) (by decide) (by decide),
    (h3 exampleHeap middleSnake).mpr (by decide)⟩

/-! ## Theorems: termination of `align` -/

/-- With a step that is not (0, 0), enough translations separate any two rectangles. -/
theorem exists_separated (A B : SDL_Rect) (sx sy : Int) (h : sx ≠ 0 ∨ sy ≠ 0) :
    ∃ n : Nat, collided (translated A sx sy n) B = false := by
  refine ⟨A.x.natAbs + A.w.natAbs + B.x.natAbs + B.w.natAbs + A.y.natAbs + A.h.natAbs +
    B.y.natAbs + B.h.natAbs, ?_⟩
  generalize hn : A.x.natAbs + A.w.natAbs + B.x.natAbs + B.w.natAbs + A.y.natAbs + A.h.natAbs +
    B.y.natAbs + B.h.natAbs = n
  rw [← Bool.not_eq_true, collided_iff_sample]
  rintro ⟨a, v, _, ha0, haw, _, hv0, hvh, hx1, hx2, hy1, hy2⟩
  simp only [translated] at hx1 hx2 hy1 hy2 haw hvh
  have hpos : ∀ s : Int, 1 ≤ s → (n : Int) ≤ (n : Int) * s := fun s hs => by nlinarith
  have hneg : ∀ s : Int, s ≤ -1 → (n : Int) * s ≤ -(n : Int) := fun s hs => by nlinarith
  rcases h with h | h
  · rcases lt_or_gt_of_ne h with hs | hs
    · have := hneg sx (by omega)
      omega
    · have := hpos sx (by omega)
      omega
  · rcases lt_or_gt_of_ne h with hs | hs
    · have := hneg sy (by omega)
      omega
    · have := hpos sy (by omega)
      omega

/-- With step (0, 0) the loop body changes nothing, so a loop entered with colliding
rectangles uses up any budget of loop tests. -/
theorem alignLoop_zero_step (right : SDL_Rect) (fuel : Nat) (left : SDL_Rect) (rvalue : Bool)
    (hc : collided left right = true) : alignLoop right 0 0 fuel left rvalue = none := by
  induction fuel generalizing rvalue with
  | zero => rfl
  | succ n ih =>
    unfold alignLoop
    rw [if_pos hc]
    have : alignStep left 0 0 = left := by simp [alignStep]
    rw [this]
    exact ih true

/-- C29: for all rectangles A, B and integer steps (sx, sy), `align(A, B, sx, sy)` terminates
(some budget of loop tests lets it return) if and only if `collided(A, B)` is false on entry
or (sx, sy) is not (0, 0); with step (0, 0) and colliding rectangles the loop body leaves A
as it is, A is the same after any number of iterations, and no budget of loop tests lets the
loop exit. -/
theorem C29_align_terminates_iff (A B : SDL_Rect) (sx sy : Int) :
    ((∃ fuel, (align fuel A B sx sy).isSome = true) ↔
      (collided A B = false ∨ (sx, sy) ≠ (0, 0))) ∧
    (collided A B = true →
      alignStep A 0 0 = A ∧ (∀ k, translated A 0 0 k = A) ∧
      ∀ fuel, align fuel A B 0 0 = none) := by
  constructor
  · constructor
    · rintro ⟨fuel, hf⟩
      by_contra hcon
      rw [not_or] at hcon
      obtain ⟨h1, h2⟩ := hcon
      have hc : collided A B = true := by simpa using h1
      have hs : (sx, sy) = (0, 0) := not_not.mp h2
      simp only [Prod.mk.injEq] at hs
      rw [hs.1, hs.2] at hf
      unfold align at hf
      rw [alignLoop_zero_step B fuel A false hc] at hf
      simp at hf
    · rintro (hc | hs)
      · exact ⟨1, by simp [align, alignLoop, hc]⟩
      · have hstep : sx ≠ 0 ∨ sy ≠ 0 := by
          by_contra hcon
          rw [not_or, not_not, not_not] at hcon
          exact hs (by rw [hcon.1, hcon.2])
        have hex := exists_separated A B sx sy hstep
        refine ⟨Nat.find hex + 1, ?_⟩
        unfold align
        rw [alignLoop_of_least B sx sy (Nat.find hex) _ A false (Nat.lt_succ_self _)
          (fun j hj => by simpa using Nat.find_min hex hj) (Nat.find_spec hex)]
        rfl
  · intro hc
    refine ⟨by simp [alignStep], fun k => by simp [translated], fun fuel => ?_⟩
    exact alignLoop_zero_step B fuel A false hc

/-- Witness for C29: a 28x32 rectangle overlapping a 32x32 one never leaves the loop with
step (0, 0), and leaves it with step (1, 0). -/
theorem C29_align_terminates_iff_witness :
    collided ⟨20, 0, 28, 32⟩ ⟨0, 0, 32, 32⟩ = true ∧
    (∀ fuel, align fuel ⟨20, 0, 28, 32⟩ ⟨0, 0, 32, 32⟩ 0 0 = none) ∧
    (∃ fuel, (align fuel ⟨20, 0, 28, 32⟩ ⟨0, 0, 32, 32⟩ 1 0).isSome = true) :=
  ⟨by decide,
    ((C29_align_terminates_iff ⟨20, 0, 28, 32⟩ ⟨0, 0, 32, 32⟩ 0 0).2 (by decide)).2.2,
    (C29_align_terminates_iff ⟨20, 0, 28, 32⟩ ⟨0, 0, 32, 32⟩ 1 0).1.mpr (Or.inr (by decide))⟩

/-! ## Theorems: the camera -/

theorem camera_bounds (gl : Globals) (q : Player) (hW : 20 ≤ gl.g_levelW)
    (hH : 13 ≤ gl.g_levelH) :
    (q.camera gl).m_x = q.m_x ∧ (q.camera gl).m_y = q.m_y ∧
    0 ≤ q.m_x - (q.camera gl).v_x ∧ q.m_x - (q.camera gl).v_x + 640 ≤ 32 * gl.g_levelW ∧
    0 ≤ q.m_y - ((q.camera gl).v_y - 64) ∧
    q.m_y - ((q.camera gl).v_y - 64) + 416 ≤ 32 * gl.g_levelH := by
  have hw : Int.tdiv 640 2 = 320 := by decide
  have hh : Int.tdiv 416 2 = 208 := by decide
  have sw : screenw = 640 := rfl
  have sh : screenh = 416 := rfl
  refine ⟨rfl, rfl, ?_⟩
  unfold Player.camera
  simp only [sw, sh, hw, hh]
  split_ifs <;> refine ⟨?_, ?_, ?_, ?_⟩ <;> omega

theorem action_level (e : Entity) (g : Globals) :
    (e.action g).g_levelW = g.g_levelW ∧ (e.action g).g_levelH = g.g_levelH := by
  cases e <;> exact ⟨rfl, rfl⟩

theorem enemyPass_level (keys : Keys) (enemies : List ObjPtr) (enemyhit : Bool) (c : Contact) :
    (enemyPass keys enemies enemyhit c).globals.g_levelW = c.globals.g_levelW ∧
    (enemyPass keys enemies enemyhit c).globals.g_levelH = c.globals.g_levelH := by
  induction enemies generalizing c with
  | nil => exact ⟨rfl, rfl⟩
  | cons e rest ih =>
    unfold enemyPass
    split
    · split
      · exact action_level _ _
      · split
        · exact ih _
        · exact ih _
    · exact ih _

theorem collectibleFold_level (l : List ObjPtr) (c : Contact) :
    (l.foldl collectibleStep c).globals.g_levelW = c.globals.g_levelW ∧
    (l.foldl collectibleStep c).globals.g_levelH = c.globals.g_levelH := by
  induction l generalizing c with
  | nil => exact ⟨rfl, rfl⟩
  | cons a rest ih =>
    rw [List.foldl_cons]
    obtain ⟨h1, h2⟩ := ih (collectibleStep c a)
    rw [h1, h2]
    unfold collectibleStep
    split
    · exact action_level _ _
    · exact ⟨rfl, rfl⟩

/-- The player that `Player::update` hands back is the result of the camera computation on
counters with the level size of the call. -/
theorem contacts_player (keys : Keys) (gl : Globals) (heap : ObjPtr → Entity)
    (projectiles : List (ObjPtr × Object)) (hazards enemies collectibles : List ObjPtr)
    (p : Player) (r : Int) :
    ∃ (q : Player) (g : Globals), g.g_levelW = gl.g_levelW ∧ g.g_levelH = gl.g_levelH ∧
      (Player.contacts keys gl heap projectiles hazards enemies collectibles p r).player =
        q.camera g ∧
      (Player.contacts keys gl heap projectiles hazards enemies collectibles p r).globals = g := by
  refine ⟨_, _, ?_, ?_, rfl, rfl⟩
  · rw [(collectibleFold_level _ _).1]
    exact (enemyPass_level keys enemies false _).1
  · rw [(collectibleFold_level _ _).2]
    exact (enemyPass_level keys enemies false _).2

/-- C23: for every level of at least one screen in size (`g_levelW >= 20`, `g_levelH >= 13`)
and every integer player position, the camera computed at the end of `Player::update` never
shows beyond the level bounds: `0 <= m_x - v_x`, `m_x - v_x + 640 <= 32 * g_levelW`,
`0 <= m_y - (v_y - 64)` and `m_y - (v_y - 64) + 416 <= 32 * g_levelH`.  This holds of the
camera computation on any player, and of the player handed back by every update whose
movement part returns. -/
theorem C23_camera_within_level (gl : Globals) (hW : 20 ≤ gl.g_levelW) (hH : 13 ≤ gl.g_levelH) :
    (∀ q : Player,
      0 ≤ q.m_x - (q.camera gl).v_x ∧ q.m_x - (q.camera gl).v_x + 640 ≤ 32 * gl.g_levelW ∧
      0 ≤ q.m_y - ((q.camera gl).v_y - 64) ∧
      q.m_y - ((q.camera gl).v_y - 64) + 416 ≤ 32 * gl.g_levelH) ∧
    (∀ (fuel : Nat) (nan : Int) (keys : Keys) (heap : ObjPtr → Entity)
      (projectiles : List (ObjPtr × Object)) (solids hazards enemies collectibles : List ObjPtr)
      (p p1 : Player) (r : Int),
      p.beforeContacts fuel nan keys gl heap solids = some (p1, r) →
      ∃ out, Player.update fuel nan keys gl heap projectiles solids hazards enemies
          collectibles p = some out ∧
        0 ≤ out.player.m_x - out.player.v_x ∧
        out.player.m_x - out.player.v_x + 640 ≤ 32 * gl.g_levelW ∧
        0 ≤ out.player.m_y - (out.player.v_y - 64) ∧
        out.player.m_y - (out.player.v_y - 64) + 416 ≤ 32 * gl.g_levelH) := by
  constructor
  · intro q
    exact (camera_bounds gl q hW hH).2.2
  · intro fuel nan keys heap projectiles solids hazards enemies collectibles p p1 r hpre
    refine ⟨_, by rw [Player.update, hpre]; rfl, ?_⟩
    obtain ⟨q, g, gW, gH, hq, _⟩ := contacts_player keys gl heap projectiles hazards enemies
      collectibles p1 r
    show 0 ≤ (Player.contacts keys gl heap projectiles hazards enemies collectibles p1
        r).player.m_x - _ ∧ _
    rw [hq]
    obtain ⟨e1, e2, b⟩ := camera_bounds g q (by rw [gW]; exact hW) (by rw [gH]; exact hH)
    rw [e1, e2, ← gW, ← gH]
    exact b

/-- Witness for C23: the example level of 40 by 13 tiles; the example player at (100, 70) is
near the left and top edges and is shown from the level's corner. -/
theorem C23_camera_within_level_witness :
    (pouncePlayer.camera exampleGlobals).v_x = 100 ∧
    (pouncePlayer.camera exampleGlobals).v_y = 134 ∧
    0 ≤ pouncePlayer.m_x - (pouncePlayer.camera exampleGlobals).v_x ∧
    pouncePlayer.m_x - (pouncePlayer.camera exampleGlobals).v_x + 640
      ≤ 32 * exampleGlobals.g_levelW ∧
    0 ≤ pouncePlayer.m_y - ((pouncePlayer.camera exampleGlobals).v_y - 64) ∧
    pouncePlayer.m_y - ((pouncePlayer.camera exampleGlobals).v_y - 64) + 416
      ≤ 32 * exampleGlobals.g_levelH :=
  ⟨by decide, by decide,
    (C23_camera_within_level exampleGlobals (by decide) (by decide)).1 pouncePlayer⟩

/-! ## Theorems: level loading -/

/-- C21: for every path whose file cannot be opened, `loadLevel` returns normally, leaves the
level grid empty (zero rows) whatever it contained before, and leaves the tileset, weather
and track outputs unchanged. -/
theorem C21_unopened_file_gives_empty_grid (level : List (List Int)) (tileSet : Int)
    (weather : Bool) (track : Int) :
    loadLevel none level tileSet weather track = .returned ⟨[], tileSet, weather, track⟩ ∧
    (∃ out, loadLevel none level tileSet weather track = .returned out ∧
      out.level.length = 0 ∧ out.tileSet = tileSet ∧ out.weather = weather ∧
      out.track = track) :=
  ⟨rfl, _, rfl, rfl, rfl, rfl, rfl⟩

/-- What `loadLevel` does with a file that opens, by the length of its header line. -/
theorem loadLevel_opened (content : List Int) (level : List (List Int)) (tileSet : Int)
    (weather : Bool) (track : Int) :
    ((splitLines content).headD []).length < 3 ∧
      (∃ out, loadLevel (some content) level tileSet weather track = .thrown out ∧
        out.level = [] ∧ out.tileSet = tileSet) ∨
    3 ≤ ((splitLines content).headD []).length ∧
      (∃ out, loadLevel (some content) level tileSet weather track = .returned out ∧
        out.level = (splitLines content).tail.map (fun line => line.map fun c => c - 97)) := by
  cases hs : splitLines content with
  | nil => left; exact ⟨by simp, by simp [loadLevel, hs, vectorClear]⟩
  | cons line rows =>
    match line with
    | [] => left; exact ⟨by simp, by simp [loadLevel, hs, vectorClear]⟩
    | [c0] => left; exact ⟨by simp, by simp [loadLevel, hs, vectorClear]⟩
    | [c0, c1] => left; exact ⟨by simp, by simp [loadLevel, hs, vectorClear]⟩
    | c0 :: c1 :: c2 :: more =>
      right
      exact ⟨by simp, by simp [loadLevel, hs, vectorClear]⟩

/-- C22, as stated, fails: on a file that opens and holds no character at all, and on one
whose header line is "10", `loadLevel` does not return: the header read throws
`std::out_of_range`. -/
theorem C22_counterexample :
    loadLevel (some []) [[1, 1]] 0 false 0 = .thrown ⟨[], 0, false, 0⟩ ∧
    loadLevel (some [49, 48, 10]) [[1, 1]] 0 false 0 = .thrown ⟨[], 0, true, 0⟩ ∧
    (∀ out, loadLevel (some []) [[1, 1]] 0 false 0 ≠ .returned out) := by
  refine ⟨rfl, rfl, fun out h => ?_⟩
  have : loadLevel (some []) [[1, 1]] 0 false 0 = .thrown ⟨[], 0, false, 0⟩ := rfl
  rw [this] at h
  cases h

/-- C22 (amended): for every level source that opens successfully, if it holds no line or a
header line of fewer than three characters, `loadLevel` empties the grid and the header read
throws `std::out_of_range` to the caller; if it holds a header line of at least three
characters and no further line, `loadLevel` returns normally with an empty grid. -/
theorem C22_opened_empty_source (content : List Int) (level : List (List Int))
    (tileSet : Int) (weather : Bool) (track : Int) :
    (((splitLines content).headD []).length < 3 →
      ∃ out, loadLevel (some content) level tileSet weather track = .thrown out ∧
        out.level = []) ∧
    (3 ≤ ((splitLines content).headD []).length → (splitLines content).tail = [] →
      ∃ out, loadLevel (some content) level tileSet weather track = .returned out ∧
        out.level = []) := by
  rcases loadLevel_opened content level tileSet weather track with
    ⟨h, out, e1, e2, _⟩ | ⟨h, out, e1, e2⟩
  · exact ⟨fun _ => ⟨out, e1, e2⟩, fun h3 => by omega⟩
  · refine ⟨fun h3 => by omega, fun _ ht => ⟨out, e1, ?_⟩⟩
    rw [e2, ht]
    rfl

/-- Witness for C22 (amended): the file "100" followed by a newline is a header and nothing
else; the file "10" is a header that is too short. -/
theorem C22_opened_empty_source_witness :
    (∃ out, loadLevel (some [49, 48, 48, 10]) [[1, 1]] 1 false 3 = .returned out ∧
      out.level = []) ∧
    (∃ out, loadLevel (some [49, 48]) [[1, 1]] 1 false 3 = .thrown out ∧ out.level = []) :=
  ⟨(C22_opened_empty_source [49, 48, 48, 10] [[1, 1]] 1 false 3).2 (by decide) (by decide),
    (C22_opened_empty_source [49, 48] [[1, 1]] 1 false 3).1 (by decide)⟩

/-! ## Theorems: the shape of the constructed grid -/

theorem groupAll_append (l1 l2 : List ObjPtr) (s : PlayState) :
    groupAll (l1 ++ l2) s = groupAll l2 (groupAll l1 s) := by
  unfold groupAll
  rw [List.foldl_append]

theorem groupAll_frame (ptrs : List ObjPtr) (s : PlayState) :
    (groupAll ptrs s).heap = s.heap ∧ (groupAll ptrs s).protQueue = s.protQueue ∧
    (groupAll ptrs s).resetLog = s.resetLog ∧
    (groupAll ptrs s).instances = s.instances ++ ptrs := by
  induction ptrs generalizing s with
  | nil => exact ⟨rfl, rfl, rfl, by simp [groupAll]⟩
  | cons p rest ih =>
    obtain ⟨h1, h2, h3, h4⟩ := ih (groupInstance p s)
    obtain ⟨g1, g2, g3, g4⟩ := groupInstance_frame p s
    have e : groupAll (p :: rest) s = groupAll rest (groupInstance p s) := rfl
    rw [e]
    refine ⟨h1.trans g1, h2.trans g2, h3.trans g3, ?_⟩
    rw [h4, g4]
    simp

theorem toSizeT_of_nonneg (v : Int) (h0 : 0 ≤ v) (h1 : v < 2 ^ 64) : toSizeT v = v.toNat := by
  unfold toSizeT
  rw [Int.emod_eq_of_lt h0 h1]

/-- One cell of the window scan: the slot at column `gx + x` of the row, when there is one,
is grouped. -/
theorem scanCell_eq (level : Level) (r : Nat) (hr : r < level.length) (gx x : Int)
    (s : PlayState) (hne : level.get ⟨r, hr⟩ ≠ []) (h64 : (level.get ⟨r, hr⟩).length < 2 ^ 64)
    (hx : gx + x < 2 ^ 64) :
    scanCell (level.get ⟨r, hr⟩) gx x s =
      some (groupAll (gridAt level r (gx + x)).join.toList s) := by
  have hpos : 0 < (level.get ⟨r, hr⟩).length := List.length_pos.mpr hne
  have hlast := toSizeT_pred_length _ hpos h64
  have hgrid : gridAt level r (gx + x) =
      if 0 ≤ gx + x ∧ gx + x < (level.get ⟨r, hr⟩).length then
        (level.get ⟨r, hr⟩).get? (gx + x).toNat else none := by
    unfold gridAt
    rw [if_pos ⟨by omega, by omega⟩]
    have : ((r : Nat) : Int).toNat = r := by omega
    rw [this, List.get?_eq_get hr]
  rw [hgrid]
  unfold scanCell
  by_cases hneg : gx + x < 0
  · rw [if_pos (Or.inr hneg), if_neg (by omega)]
    rfl
  · have hv := toSizeT_of_nonneg (gx + x) (by omega) hx
    by_cases hin : gx + x < (level.get ⟨r, hr⟩).length
    · rw [if_neg (by rw [hv, hlast]; omega), if_pos ⟨by omega, hin⟩, hv]
      have hlt : (gx + x).toNat < (level.get ⟨r, hr⟩).length := by omega
      rw [List.get?_eq_get hlt]
      cases (level.get ⟨r, hr⟩).get ⟨(gx + x).toNat, hlt⟩ with
      | none => rfl
      | some ptr => rfl
    · rw [if_pos (Or.inl (by rw [hv, hlast]; omega)), if_neg (by omega)]
      rfl

theorem scanCells_eq (level : Level) (r : Nat) (hr : r < level.length) (gx : Int)
    (xs : List Int) (s : PlayState) (hne : level.get ⟨r, hr⟩ ≠ [])
    (h64 : (level.get ⟨r, hr⟩).length < 2 ^ 64) (hx : ∀ x ∈ xs, gx + x < 2 ^ 64) :
    scanCells (level.get ⟨r, hr⟩) gx xs s =
      some (groupAll (xs.filterMap fun x => (gridAt level r (gx + x)).join) s) := by
  induction xs generalizing s with
  | nil => rfl
  | cons x rest ih =>
    unfold scanCells
    rw [scanCell_eq level r hr gx x s hne h64 (hx x (List.mem_cons_self _ _)),
      Option.some_bind, ih _ (fun y hy => hx y (List.mem_cons_of_mem _ hy))]
    congr 1
    rw [List.filterMap_cons]
    cases (gridAt level (↑r) (gx + x)).join with
    | none => rfl
    | some ptr => rfl

theorem flatMap_single {α β : Type} (l : List α) (f : α → β) :
    (l.flatMap fun a => [f a]) = l.map f := by
  induction l with
  | nil => rfl
  | cons a rest ih => rw [List.flatMap_cons, ih]; rfl

theorem intRange_eq (lo hi : Int) :
    intRange lo hi = (List.range (hi - lo).toNat).map (fun k : Nat => lo + (k : Int)) := by
  unfold intRange
  simp only [Functor.map, List.map_flatMap, List.flatMap_map, bind, pure, List.map_cons,
    List.map_nil]
  exact flatMap_single _ _

theorem mem_intRange (lo hi v : Int) : v ∈ intRange lo hi ↔ lo ≤ v ∧ v < hi := by
  rw [intRange_eq]
  simp only [List.mem_map, List.mem_range]
  constructor
  · rintro ⟨k, hk, rfl⟩
    omega
  · rintro ⟨h1, h2⟩
    exact ⟨(v - lo).toNat, by omega, by omega⟩

theorem intRange_shift (g lo hi : Int) :
    (intRange lo hi).map (fun y => g + y) = intRange (g + lo) (g + hi) := by
  rw [intRange_eq, intRange_eq, List.map_map]
  have : (g + hi - (g + lo)).toNat = (hi - lo).toNat := by congr 1; ring
  rw [this]
  apply List.map_congr_left
  intro k _
  simp only [Function.comp]
  ring

theorem gridAt_row_out (level : Level) (r c : Int) (h : ¬ (0 ≤ r ∧ r < level.length)) :
    gridAt level r c = none := by
  unfold gridAt
  rw [if_neg h]

theorem filterMap_none {α β : Type} (l : List α) (f : α → Option β) (h : ∀ a ∈ l, f a = none) :
    l.filterMap f = [] := by
  induction l with
  | nil => rfl
  | cons a rest ih =>
    rw [List.filterMap_cons, h a (List.mem_cons_self _ _)]
    exact ih fun b hb => h b (List.mem_cons_of_mem _ hb)

/-- One row of the window scan: the slots of row `gy + y` between the columns `gx - 10` and
`gx + 10` that exist and are occupied are grouped, in order. -/
theorem scanRow_eq (level : Level) (gx gy y : Int) (s : PlayState) (hlevel : level.Scannable)
    (hx : gx + 10 < 2 ^ 64) (hy : gy + y < 2 ^ 64) :
    scanRow level gx gy y s =
      some (groupAll ((intRange (gx - 10) (gx + 11)).filterMap fun c =>
        (gridAt level (gy + y) c).join) s) := by
  obtain ⟨hne, hlen, hrows⟩ := hlevel
  have hpos : 0 < level.length := List.length_pos.mpr hne
  have hlast := toSizeT_pred_length _ hpos hlen
  have hskip : ¬ (0 ≤ gy + y ∧ gy + y < level.length) →
      some s = some (groupAll ((intRange (gx - 10) (gx + 11)).filterMap fun c =>
        (gridAt level (gy + y) c).join) s) := by
    intro hout
    rw [filterMap_none _ _ (fun c _ => by rw [gridAt_row_out level _ c hout]; rfl)]
    rfl
  unfold scanRow
  by_cases hneg : gy + y < 0
  · rw [if_pos (Or.inr hneg)]
    exact hskip (by omega)
  · have hv := toSizeT_of_nonneg (gy + y) (by omega) hy
    by_cases hin : gy + y < level.length
    · rw [if_neg (by rw [hv, hlast]; omega), hv]
      have hlt : (gy + y).toNat < level.length := by omega
      rw [List.get?_eq_get hlt]
      dsimp only
      obtain ⟨hrne, hr64⟩ := hrows _ (List.get_mem level _ hlt)
      have hv2 : viewRangeH = 10 := rfl
      rw [scanCells_eq level (gy + y).toNat hlt gx _ s hrne hr64
        (fun x hx2 => by
          rw [mem_intRange] at hx2
          rw [hv2] at hx2
          omega)]
      have hcast : (((gy + y).toNat : Nat) : Int) = gy + y := by omega
      have e1 : gx + -viewRangeH = gx - 10 := by rw [hv2]; ring
      have e2 : gx + (viewRangeH + 1) = gx + 11 := by rw [hv2]; ring
      rw [hcast, ← e1, ← e2, ← intRange_shift, List.filterMap_map]
      rfl
    · rw [if_pos (Or.inl (by rw [hv, hlast]; omega))]
      exact hskip (by omega)

/-- The window scan groups, row after row, the occupied slots of the window that exist. -/
theorem scanRows_eq (level : Level) (gx gy : Int) (ys : List Int) (s : PlayState)
    (hlevel : level.Scannable) (hx : gx + 10 < 2 ^ 64) (hy : ∀ y ∈ ys, gy + y < 2 ^ 64) :
    scanRows level gx gy ys s =
      some (groupAll (ys.flatMap fun y => (intRange (gx - 10) (gx + 11)).filterMap fun c =>
        (gridAt level (gy + y) c).join) s) := by
  induction ys generalizing s with
  | nil => rfl
  | cons y rest ih =>
    unfold scanRows
    rw [scanRow_eq level gx gy y s hlevel hx (hy y (List.mem_cons_self _ _)),
      Option.some_bind, ih _ (fun z hz => hy z (List.mem_cons_of_mem _ hz)),
      List.flatMap_cons, groupAll_append]

theorem scan_window (level : Level) (gx gy : Int) (s : PlayState)
    (hlevel : level.Scannable) (hx : gx + 10 < 2 ^ 64) (hy : gy + 8 < 2 ^ 64) :
    scanRows level gx gy (intRange (-viewRangeV) (viewRangeV + 1)) s =
      some (groupAll (windowEntities level gx gy) s) := by
  have hv : viewRangeV = 8 := rfl
  rw [scanRows_eq level gx gy _ s hlevel hx (fun y hy2 => by
    rw [mem_intRange, hv] at hy2
    omega)]
  congr 2
  unfold windowEntities
  have e1 : gy + -viewRangeV = gy - 8 := by rw [hv]; ring
  have e2 : gy + (viewRangeV + 1) = gy + 9 := by rw [hv]; ring
  rw [← e1, ← e2, ← intRange_shift, List.flatMap_map]

/-! ### The scan only ever groups -/

theorem scanCell_groupAll (row : List (Option ObjPtr)) (gx x : Int) (s s1 : PlayState)
    (h : scanCell row gx x s = some s1) : ∃ ptrs, s1 = groupAll ptrs s := by
  unfold scanCell at h
  split at h
  · cases h; exact ⟨[], rfl⟩
  · split at h
    · cases h
    · cases h; exact ⟨[], rfl⟩
    · next ptr _ => cases h; exact ⟨[ptr], rfl⟩

theorem scanCells_groupAll (row : List (Option ObjPtr)) (gx : Int) (xs : List Int)
    (s s1 : PlayState) (h : scanCells row gx xs s = some s1) : ∃ ptrs, s1 = groupAll ptrs s := by
  induction xs generalizing s with
  | nil => cases h; exact ⟨[], rfl⟩
  | cons x rest ih =>
    unfold scanCells at h
    cases hc : scanCell row gx x s with
    | none => rw [hc] at h; cases h
    | some s2 =>
      rw [hc, Option.some_bind] at h
      obtain ⟨p1, e1⟩ := scanCell_groupAll row gx x s s2 hc
      obtain ⟨p2, e2⟩ := ih s2 h
      exact ⟨p1 ++ p2, by rw [groupAll_append, ← e1, e2]⟩

theorem scanRow_groupAll (level : Level) (gx gy y : Int) (s s1 : PlayState)
    (h : scanRow level gx gy y s = some s1) : ∃ ptrs, s1 = groupAll ptrs s := by
  unfold scanRow at h
  split at h
  · cases h; exact ⟨[], rfl⟩
  · split at h
    · cases h
    · exact scanCells_groupAll _ _ _ _ _ h

theorem scanRows_groupAll (level : Level) (gx gy : Int) (ys : List Int) (s s1 : PlayState)
    (h : scanRows level gx gy ys s = some s1) : ∃ ptrs, s1 = groupAll ptrs s := by
  induction ys generalizing s with
  | nil => cases h; exact ⟨[], rfl⟩
  | cons y rest ih =>
    unfold scanRows at h
    cases hc : scanRow level gx gy y s with
    | none => rw [hc] at h; cases h
    | some s2 =>
      rw [hc, Option.some_bind] at h
      obtain ⟨p1, e1⟩ := scanRow_groupAll level gx gy y s s2 hc
      obtain ⟨p2, e2⟩ := ih s2 h
      exact ⟨p1 ++ p2, by rw [groupAll_append, ← e1, e2]⟩

/-! ### The category vectors stay filters of `instances` -/

theorem filed_groupInstance (p : ObjPtr) (s : PlayState) (h : Filed s) :
    Filed (groupInstance p s) := by
  obtain ⟨h1, h2, h3, h4⟩ := h
  unfold Filed groupInstance
  dsimp only
  split_ifs <;> simp_all [List.filter_append]

theorem filed_groupAll (ptrs : List ObjPtr) (s : PlayState) (h : Filed s) :
    Filed (groupAll ptrs s) := by
  induction ptrs generalizing s with
  | nil => exact h
  | cons p rest ih => exact ih _ (filed_groupInstance p s h)

theorem filed_addProtectedFold (l : List ObjPtr) (st : PlayState) (h : Filed st) :
    Filed (l.foldl addProtectedStep st) := by
  induction l generalizing st with
  | nil => exact h
  | cons a rest ih =>
    apply ih
    unfold addProtectedStep
    split
    · exact filed_groupInstance a st h
    · exact h

theorem filed_resetAt (s : PlayState) (a : ObjPtr) (h : Filed s) : Filed (s.resetAt a) := by
  obtain ⟨h1, h2, h3, h4⟩ := h
  have hf := fun r => toObject_heapSet_reset s.heap a r
  unfold Filed PlayState.resetAt
  dsimp only
  refine ⟨?_, ?_, ?_, ?_⟩
  · rw [h1]; exact List.filter_congr fun r _ => ((hf r).2.1).symm
  · rw [h2]; exact List.filter_congr fun r _ => ((hf r).2.2.1).symm
  · rw [h3]; exact List.filter_congr fun r _ => ((hf r).2.2.2.1).symm
  · rw [h4]; exact List.filter_congr fun r _ => ((hf r).2.2.2.2).symm

theorem filed_resetDepartedFold (l : List ObjPtr) (st : PlayState) (h : Filed st) :
    Filed (l.foldl resetDepartedStep st) := by
  induction l generalizing st with
  | nil => exact h
  | cons a rest ih =>
    apply ih
    unfold resetDepartedStep
    split
    · exact filed_resetAt st a h
    · exact h

/-- Whenever the rebuild returns, it leaves every category vector the filter of `instances`
by its capability flag. -/
theorem rebuild_filed (level : Level) (gx gy : Int) (s s2 : PlayState)
    (h : rebuild level gx gy s = some s2) : Filed s2 := by
  unfold rebuild at h
  simp only [Option.map_eq_some'] at h
  obtain ⟨s1, hscan, hs2⟩ := h
  obtain ⟨ptrs, e⟩ := scanRows_groupAll _ _ _ _ _ _ hscan
  rw [← hs2, e]
  unfold resetDeparted addProtected
  apply filed_resetDepartedFold
  apply filed_addProtectedFold
  apply filed_groupAll
  exact ⟨rfl, rfl, rfl, rfl⟩

/-! ### The protect-queue members added after the scan -/

theorem firstOccurrences_filter (p : ObjPtr → Bool) (l : List ObjPtr) :
    firstOccurrences (l.filter p) = (firstOccurrences l).filter p := by
  induction l with
  | nil => rfl
  | cons a rest ih =>
    by_cases ha : p a = true
    · rw [List.filter_cons_of_pos ha]
      simp only [firstOccurrences]
      rw [List.filter_cons_of_pos ha, ih, List.filter_filter, List.filter_filter]
      congr 1
      apply List.filter_congr
      intro x _
      exact Bool.and_comm _ _
    · rw [List.filter_cons_of_neg ha]
      simp only [firstOccurrences]
      rw [List.filter_cons_of_neg ha, ih, List.filter_filter]
      apply List.filter_congr
      intro x _
      by_cases hx : x = a
      · subst hx; simp [ha]
      · simp [hx]

theorem firstOccurrences_of_nodup (l : List ObjPtr) (h : l.Nodup) : firstOccurrences l = l := by
  induction l with
  | nil => rfl
  | cons a rest ih =>
    obtain ⟨ha, hr⟩ := List.nodup_cons.mp h
    simp only [firstOccurrences]
    rw [ih hr, List.filter_eq_self.mpr]
    intro x hx
    simp only [decide_eq_true_eq]
    exact fun e => ha (e ▸ hx)

theorem mem_firstOccurrences (l : List ObjPtr) (x : ObjPtr) :
    x ∈ firstOccurrences l ↔ x ∈ l := by
  induction l with
  | nil => simp [firstOccurrences]
  | cons a rest ih =>
    simp only [firstOccurrences, List.mem_cons, List.mem_filter, decide_eq_true_eq, ih]
    constructor
    · rintro (h | ⟨h, _⟩)
      · exact Or.inl h
      · exact Or.inr h
    · rintro (h | h)
      · exact Or.inl h
      · by_cases hx : x = a
        · exact Or.inl hx
        · exact Or.inr ⟨h, hx⟩

theorem firstOccurrences_nodup (l : List ObjPtr) : (firstOccurrences l).Nodup := by
  induction l with
  | nil => exact List.nodup_nil
  | cons a rest ih =>
    simp only [firstOccurrences]
    apply List.nodup_cons.mpr
    refine ⟨?_, ih.filter _⟩
    simp [List.mem_filter]

/-- The loop over the protect queue after the scan appends to `instances` the queue members
that are not there yet, each once, in queue order. -/
theorem addProtectedFold_instances (l : List ObjPtr) (st : PlayState) :
    (l.foldl addProtectedStep st).instances =
      st.instances ++ firstOccurrences (l.filter fun q => decide (q ∉ st.instances)) := by
  induction l generalizing st with
  | nil => simp [firstOccurrences]
  | cons a rest ih =>
    rw [List.foldl_cons, ih]
    unfold addProtectedStep
    by_cases hidx : getIndex st.instances a = -1
    · have ha : a ∉ st.instances := (getIndex_eq_neg_one_iff _ _).mp hidx
      rw [if_pos hidx, (groupInstance_frame a st).2.2.2,
        List.filter_cons_of_pos (by simpa using ha)]
      simp only [firstOccurrences]
      rw [← firstOccurrences_filter, List.filter_filter, List.append_assoc]
      congr 2
      simp only [List.singleton_append]
      congr 2
      apply List.filter_congr
      intro x _
      simp only [List.mem_append, List.mem_singleton, not_or, Bool.decide_and]
      exact Bool.and_comm _ _
    · have ha : a ∈ st.instances := by
        by_contra hn
        exact hidx ((getIndex_eq_neg_one_iff _ _).mpr hn)
      rw [if_neg hidx, List.filter_cons_of_neg (by simpa using ha)]

/-! ### The resets of the rebuild -/

/-- The loop over the previous instances resets, in order, those that are not in the new
`instances`, and touches no other entity. -/
theorem resetDepartedFold_log (l : List ObjPtr) (st : PlayState) :
    (l.foldl resetDepartedStep st).resetLog =
      st.resetLog ++ l.filter (fun q => decide (q ∉ st.instances)) ∧
    ∀ q, q ∉ l.filter (fun q => decide (q ∉ st.instances)) →
      (l.foldl resetDepartedStep st).heap q = st.heap q := by
  induction l generalizing st with
  | nil => exact ⟨by simp, fun q _ => rfl⟩
  | cons a rest ih =>
    rw [List.foldl_cons]
    obtain ⟨i1, i2⟩ := ih (resetDepartedStep st a)
    unfold resetDepartedStep at i1 i2 ⊢
    by_cases hidx : getIndex st.instances a = -1
    · have ha : a ∉ st.instances := (getIndex_eq_neg_one_iff _ _).mp hidx
      rw [if_pos hidx] at i1 i2 ⊢
      rw [List.filter_cons_of_pos (by simpa using ha)]
      constructor
      · rw [i1]
        simp [PlayState.resetAt]
      · intro q hq
        rw [List.mem_cons, not_or] at hq
        rw [i2 q hq.2]
        exact resetAt_heap_of_ne st a q hq.1
    · have ha : a ∈ st.instances := by
        by_contra hn
        exact hidx ((getIndex_eq_neg_one_iff _ _).mpr hn)
      rw [if_neg hidx] at i1 i2 ⊢
      rw [List.filter_cons_of_neg (by simpa using ha)]
      exact ⟨i1, i2⟩

/-- What a rebuild that returns has done: `instances` is what the scan grouped followed by
the protect-queue members that the scan missed; the reset log grew by the previous instances
that are not in the new `instances`; no other entity changed. -/
theorem rebuild_spec (level : Level) (gx gy : Int) (s s2 : PlayState)
    (h : rebuild level gx gy s = some s2) :
    ∃ scanned : List ObjPtr,
      scanRows level gx gy (intRange (-viewRangeV) (viewRangeV + 1))
        { s with instances := [], solids := [], hazards := [], enemies := [],
                 collectibles := [] } =
        some (groupAll scanned
          { s with instances := [], solids := [], hazards := [], enemies := [],
                   collectibles := [] }) ∧
      s2.instances =
        scanned ++ firstOccurrences (s.protQueue.filter fun q => decide (q ∉ scanned)) ∧
      s2.resetLog = s.resetLog ++ s.instances.filter (fun q => decide (q ∉ s2.instances)) ∧
      ∀ q, q ∉ s.instances.filter (fun q => decide (q ∉ s2.instances)) →
        s2.heap q = s.heap q := by
  unfold rebuild at h
  simp only [Option.map_eq_some'] at h
  obtain ⟨s1, hscan, hs2⟩ := h
  obtain ⟨scanned, e⟩ := scanRows_groupAll _ _ _ _ _ _ hscan
  obtain ⟨g1, g2, g3, g4⟩ := groupAll_frame scanned
    { s with instances := [], solids := [], hazards := [], enemies := [], collectibles := [] }
  rw [← e] at g1 g2 g3 g4
  simp only [List.nil_append] at g4
  obtain ⟨b1, _, b3, _, _⟩ := addProtectedFold_frame s1.protQueue s1
  have hinst : (addProtected s1).instances =
      scanned ++ firstOccurrences (s.protQueue.filter fun q => decide (q ∉ scanned)) := by
    unfold addProtected
    rw [addProtectedFold_instances, g4, g2]
  obtain ⟨l1, l2⟩ := resetDepartedFold_log s.instances (addProtected s1)
  have hi2 : s2.instances = (addProtected s1).instances := by
    rw [← hs2]; exact (resetDepartedFold_lists _ _).2
  refine ⟨scanned, by rw [hscan, e], by rw [hi2, hinst], ?_, ?_⟩
  · rw [hi2, ← hs2]
    unfold resetDeparted
    rw [l1]
    congr 1
    show (List.foldl addProtectedStep s1 s1.protQueue).resetLog = _
    rw [b3, g3]
  · intro q hq
    rw [hi2] at hq
    rw [← hs2]
    unfold resetDeparted
    rw [l2 q hq]
    show (List.foldl addProtectedStep s1 s1.protQueue).heap q = _
    rw [b1, g1]

/-- C26: for every grid with at least one row and no empty row, every window centre
`(gx, gy)` and every protect queue, immediately after a window rebuild `instances` consists
of exactly the entities of the occupied slots `(r, c)` with `gy - 8 <= r <= gy + 8`,
`gx - 10 <= c <= gx + 10`, `0 <= r <` number of rows and `0 <= c <` length of row `r`, in
row-major order, followed by the protect-queue members that are not among those entities,
each once, in queue order (for a queue without duplicates: the queue filtered). -/
theorem C26_rebuild_instances (level : Level) (gx gy : Int) (s : PlayState)
    (hlevel : level.Scannable) (hx : gx + 10 < 2 ^ 64) (hy : gy + 8 < 2 ^ 64) :
    ∃ s2, rebuild level gx gy s = some s2 ∧
      s2.instances = windowEntities level gx gy ++
        firstOccurrences (s.protQueue.filter fun q => decide (q ∉ windowEntities level gx gy)) ∧
      (s.protQueue.Nodup →
        s2.instances = windowEntities level gx gy ++
          s.protQueue.filter fun q => decide (q ∉ windowEntities level gx gy)) := by
  obtain ⟨s2, h2, _⟩ := rebuild_defined level gx gy s hlevel
  obtain ⟨scanned, e1, e2, _⟩ := rebuild_spec level gx gy s s2 h2
  rw [scan_window level gx gy _ hlevel hx hy] at e1
  have hsc : scanned = windowEntities level gx gy := by
    have := congrArg PlayState.instances (Option.some.inj e1)
    rw [(groupAll_frame _ _).2.2.2, (groupAll_frame _ _).2.2.2] at this
    simpa using this.symm
  rw [hsc] at e2
  refine ⟨s2, h2, e2, fun hnd => ?_⟩
  rw [e2, firstOccurrences_of_nodup _ (hnd.filter _)]

/-- Witness for C26: the example level, one row with the plant in column 0 and the wall in
column 15, rebuilt about tile (12, 0) with the plant in the protect queue: the scan finds the
wall, the plant follows from the queue. -/
theorem C26_rebuild_instances_witness :
    windowEntities exampleLevel 12 0 = [2] ∧
    ∃ s2, rebuild exampleLevel 12 0 { exampleState with protQueue := [1] } = some s2 ∧
      s2.instances = [2, 1] := by
  have hw : windowEntities exampleLevel 12 0 = [2] := by decide
  obtain ⟨s2, h1, _, h3⟩ := C26_rebuild_instances exampleLevel 12 0
    { exampleState with protQueue := [1] }
    ⟨by decide, by decide, by decide⟩ (by norm_num) (by norm_num)
  refine ⟨hw, s2, h1, ?_⟩
  rw [h3 (by decide), hw]
  decide

/-- C27: immediately after every window rebuild, each of the four category lists is exactly
the order-preserving sublist of `instances` selected by the corresponding capability flag:
`solids` is `instances` filtered by `m_solid`, `hazards` by `m_hazard`, `enemies` by
`m_enemy`, `collectibles` by `m_collectible`; and on a grid with at least one row and no
empty row the rebuild does return. -/
theorem C27_categories_are_filters (level : Level) (gx gy : Int) (s s2 : PlayState)
    (h : rebuild level gx gy s = some s2) :
    s2.solids = s2.instances.filter (fun q => (s2.heap q).toObject.m_solid) ∧
    s2.hazards = s2.instances.filter (fun q => (s2.heap q).toObject.m_hazard) ∧
    s2.enemies = s2.instances.filter (fun q => (s2.heap q).toObject.m_enemy) ∧
    s2.collectibles = s2.instances.filter (fun q => (s2.heap q).toObject.m_collectible) ∧
    (level.Scannable → ∀ s0 : PlayState, ∃ s3, rebuild level gx gy s0 = some s3) := by
  obtain ⟨h1, h2, h3, h4⟩ := rebuild_filed level gx gy s s2 h
  refine ⟨h1, h2, h3, h4, fun hl s0 => ?_⟩
  obtain ⟨s3, e, _⟩ := rebuild_defined level gx gy s0 hl
  exact ⟨s3, e⟩

/-- Witness for C27: the rebuild of the example level about tile (12, 0); the wall at
address 2 is solid, the plant at address 1 has no capability flag. -/
theorem C27_categories_are_filters_witness :
    rebuild exampleLevel 12 0 { exampleState with protQueue := [1] } =
      some { exampleStateAfter with first := false } ∧
    exampleStateAfter.instances = [2, 1] ∧ exampleStateAfter.solids = [2] ∧
    exampleStateAfter.solids =
      exampleStateAfter.instances.filter (fun q => (exampleHeap q).toObject.m_solid) := by
  have hr : rebuild exampleLevel 12 0 { exampleState with protQueue := [1] } =
      some { exampleStateAfter with first := false } := by rfl
  exact ⟨hr, rfl, rfl, (C27_categories_are_filters exampleLevel 12 0 _ _ hr).1⟩

/-- C28: during every window rebuild, `reset()` is invoked, in order, on exactly those
entities of the previous `instances` list that are absent from the new one: an entity that
is in both lists, or in neither, is not reset and is left as it was; an entity that was in
the previous list and is absent from the new one is reset as many times as it occurred in
the previous list, which is once when the previous list holds no entity twice. -/
theorem C28_rebuild_resets_departed (level : Level) (gx gy : Int) (s s2 : PlayState)
    (h : rebuild level gx gy s = some s2) :
    ∃ added, s2.resetLog = s.resetLog ++ added ∧
      added = s.instances.filter (fun q => decide (q ∉ s2.instances)) ∧
      (∀ q, q ∈ added ↔ q ∈ s.instances ∧ q ∉ s2.instances) ∧
      (∀ q, q ∉ added → s2.heap q = s.heap q) ∧
      (∀ q, q ∈ added → added.count q = s.instances.count q) ∧
      (s.instances.Nodup → ∀ q, q ∈ added → added.count q = 1) ∧
      (level.Scannable → ∀ s0 : PlayState, ∃ s3, rebuild level gx gy s0 = some s3) := by
  obtain ⟨_, _, _, e3, e4⟩ := rebuild_spec level gx gy s s2 h
  refine ⟨_, e3, rfl, fun q => ?_, e4, fun q hq => ?_, fun hnd q hq => ?_, fun hl s0 => ?_⟩
  · simp [List.mem_filter]
  · rw [List.count_filter]
    simpa [List.mem_filter] using (List.mem_filter.mp hq).2
  · exact List.count_eq_one_of_mem (hnd.filter _) hq
  · obtain ⟨s3, e, _⟩ := rebuild_defined level gx gy s0 hl
    exact ⟨s3, e⟩

/-- Witness for C28: the eviction example rebuilt about tile (30, 0).  The previous instances
are the snake (address 3, kept through the protect queue) and the wall (address 2, in
column 15, now outside the window): the wall alone is reset, once. -/
theorem C28_rebuild_resets_departed_witness :
    evictionState.instances = [3, 2] ∧
    ∃ s2, rebuild exampleLevel 30 0 evictionState = some s2 ∧ s2.instances = [3] ∧
      s2.resetLog = [2] ∧ s2.heap 3 = evictionHeap 3 := by
  have hr : rebuild exampleLevel 30 0 evictionState =
      some { evictionState with
        heap := heapSet evictionHeap 2 (evictionHeap 2).reset, instances := [3], solids := [],
        resetLog := [2] } := by rfl
  obtain ⟨added, h1, h2, _, h4, _⟩ := C28_rebuild_resets_departed exampleLevel 30 0 _ _ hr
  have hadd : added = [2] := by rw [h2]; decide
  exact ⟨rfl, _, hr, rfl, by rw [h1, hadd]; rfl, h4 3 (by rw [hadd]; decide)⟩

/-! ## Theorems: the frame invariant -/

theorem intRange_nodup (lo hi : Int) : (intRange lo hi).Nodup := by
  rw [intRange_eq]
  apply List.Nodup.map _ (List.nodup_range _)
  intro a b hab
  simp only at hab
  omega

/-- On a grid whose slots own distinct entities the window scan finds no entity twice. -/
theorem windowEntities_nodup (level : Level) (gx gy : Int) (hd : level.DistinctSlots) :
    (windowEntities level gx gy).Nodup := by
  unfold windowEntities
  rw [List.nodup_flatMap]
  constructor
  · intro r _
    apply List.Nodup.filterMap _ (intRange_nodup _ _)
    intro c c2 p hp hp2
    have h1 : gridAt level r c = some (some p) := by
      cases hg : gridAt level r c with
      | none => rw [hg] at hp; cases hp
      | some slot =>
        rw [hg] at hp
        cases slot with
        | none => cases hp
        | some q => cases hp; rfl
    have h2 : gridAt level r c2 = some (some p) := by
      cases hg : gridAt level r c2 with
      | none => rw [hg] at hp2; cases hp2
      | some slot =>
        rw [hg] at hp2
        cases slot with
        | none => cases hp2
        | some q => cases hp2; rfl
    exact (hd r c r c2 p h1 h2).2
  · apply List.Nodup.pairwise_of_forall_ne (intRange_nodup _ _)
    intro r _ r2 _ hne
    intro p hp hp2
    simp only [List.mem_filterMap] at hp hp2
    obtain ⟨c, _, hc⟩ := hp
    obtain ⟨c2, _, hc2⟩ := hp2
    have h1 : gridAt level r c = some (some p) := by
      cases hg : gridAt level r c with
      | none => rw [hg] at hc; cases hc
      | some slot =>
        rw [hg] at hc
        cases slot with
        | none => cases hc
        | some q => cases hc; rfl
    have h2 : gridAt level r2 c2 = some (some p) := by
      cases hg : gridAt level r2 c2 with
      | none => rw [hg] at hc2; cases hc2
      | some slot =>
        rw [hg] at hc2
        cases slot with
        | none => cases hc2
        | some q => cases hc2; rfl
    exact hne (hd r c r2 c2 p h1 h2).1

theorem fillFold_members (l : List ObjPtr) (st : PlayState) :
    ∀ x ∈ (l.foldl fillStep st).protQueue, x ∈ st.protQueue ∨ x ∈ l := by
  induction l generalizing st with
  | nil => intro x hx; exact Or.inl hx
  | cons a rest ih =>
    intro x hx
    rw [List.foldl_cons] at hx
    rcases ih (fillStep st a) x hx with h | h
    · unfold fillStep at h
      split at h
      · rcases List.mem_append.mp h with h1 | h1
        · exact Or.inl h1
        · rw [List.mem_singleton] at h1
          exact Or.inr (by rw [h1]; exact List.mem_cons_self _ _)
      · exact Or.inl h
    · exact Or.inr (List.mem_cons_of_mem _ h)

theorem grouped_congr (s t : PlayState) (q : ObjPtr) (hh : t.heap = s.heap)
    (h0 : t.instances = s.instances) (h1 : t.solids = s.solids) (h2 : t.hazards = s.hazards)
    (h3 : t.enemies = s.enemies) (h4 : t.collectibles = s.collectibles) (h : Grouped s q) :
    Grouped t q := by
  unfold Grouped at h ⊢
  rw [hh, h0, h1, h2, h3, h4]
  exact h

theorem fillFold_grouped (l : List ObjPtr) (st : PlayState) (q : ObjPtr) (h : Grouped st q) :
    Grouped (l.foldl fillStep st) q := by
  induction l generalizing st with
  | nil => exact h
  | cons a rest ih =>
    apply ih
    unfold fillStep
    split
    · exact grouped_congr st _ q rfl rfl rfl rfl rfl rfl h
    · exact h

theorem groupAll_grouped (ptrs : List ObjPtr) (s : PlayState)
    (h : ∀ q ∈ s.instances, Grouped s q) : ∀ q ∈ (groupAll ptrs s).instances,
      Grouped (groupAll ptrs s) q := by
  induction ptrs generalizing s with
  | nil => exact h
  | cons p rest ih => exact ih _ (allGrouped_groupInstance s p h)

/-- A rebuild that returns keeps the protect queue and leaves every member of `instances`
filed in the category vectors of its flags. -/
theorem rebuild_keeps_all (level : Level) (gx gy : Int) (s s2 : PlayState)
    (h : rebuild level gx gy s = some s2) :
    s2.protQueue = s.protQueue ∧ ∀ q ∈ s2.instances, Grouped s2 q := by
  unfold rebuild at h
  simp only [Option.map_eq_some'] at h
  obtain ⟨s1, hscan, hs2⟩ := h
  obtain ⟨ptrs, e⟩ := scanRows_groupAll _ _ _ _ _ _ hscan
  obtain ⟨_, a2, _⟩ := scanRows_frame _ _ _ _ _ _ hscan
  obtain ⟨_, b2, _, _, _⟩ := addProtectedFold_frame s1.protQueue s1
  have g1 : ∀ q ∈ s1.instances, Grouped s1 q := by
    rw [e]
    exact groupAll_grouped ptrs _ (fun q hq => by cases hq)
  have g2 := addProtectedFold_grouped s1.protQueue s1 g1
  have g3 := resetDepartedFold_grouped s.instances _ g2
  rw [← hs2]
  refine ⟨?_, g3⟩
  unfold resetDeparted
  rw [(resetDepartedFold_lists _ _).1]
  exact b2.trans a2

/-- On a scannable grid the rebuild returns with `instances` made of the window entities
followed by the protect-queue members the scan missed. -/
theorem rebuild_window (level : Level) (gx gy : Int) (s : PlayState)
    (hlevel : level.Scannable) (hx : gx + 10 < 2 ^ 64) (hy : gy + 8 < 2 ^ 64) :
    ∃ s2, rebuild level gx gy s = some s2 ∧
      s2.instances = windowEntities level gx gy ++
        firstOccurrences
          (s.protQueue.filter fun q => decide (q ∉ windowEntities level gx gy)) := by
  obtain ⟨s2, h2, _⟩ := rebuild_defined level gx gy s hlevel
  obtain ⟨scanned, e1, e2, _⟩ := rebuild_spec level gx gy s s2 h2
  rw [scan_window level gx gy _ hlevel hx hy] at e1
  have hsc : scanned = windowEntities level gx gy := by
    have := congrArg PlayState.instances (Option.some.inj e1)
    rw [(groupAll_frame _ _).2.2.2, (groupAll_frame _ _).2.2.2] at this
    simpa using this.symm
  rw [hsc] at e2
  exact ⟨s2, h2, e2⟩

/-- The state before the cleanup satisfies the frame invariant. -/
theorem beforeCleanup_invariant (level : Level) (gx gy : Int) (s : PlayState)
    (hinv : FrameInvariant s) (hlevel : level.Scannable) (hd : level.DistinctSlots)
    (hx : gx + 10 < 2 ^ 64) (hy : gy + 8 < 2 ^ 64) :
    ∃ s2, beforeCleanup level gx gy s = some s2 ∧ FrameInvariant s2 := by
  obtain ⟨i1, i2, i3, i4⟩ := hinv
  obtain ⟨f1, f2, _, _, _, _⟩ := fillFold_frame s.instances s
  have hq1 : (fillProtQueue s).protQueue.Nodup := fillFold_nodup s.instances s i1
  have hq2 : ∀ x ∈ (fillProtQueue s).protQueue, x ∈ s.instances := by
    intro x hx2
    rcases fillFold_members s.instances s x hx2 with h | h
    · exact i2 x h
    · exact h
  unfold beforeCleanup
  dsimp only
  split
  · obtain ⟨s2, h2, e1⟩ := rebuild_window level gx gy (fillProtQueue s) hlevel hx hy
    refine ⟨s2, h2, ?_, ?_, ?_, ?_⟩
    · rw [(rebuild_keeps_all level gx gy _ s2 h2).1]; exact hq1
    · intro q hq
      rw [(rebuild_keeps_all level gx gy _ s2 h2).1] at hq
      rw [e1]
      by_cases hw : q ∈ windowEntities level gx gy
      · exact List.mem_append_left _ hw
      · apply List.mem_append_right
        rw [mem_firstOccurrences, List.mem_filter]
        exact ⟨hq, by simpa using hw⟩
    · rw [e1, List.nodup_append]
      refine ⟨windowEntities_nodup level gx gy hd, firstOccurrences_nodup _, ?_⟩
      intro x hx1 hx2
      rw [mem_firstOccurrences, List.mem_filter] at hx2
      exact (by simpa using hx2.2 : x ∉ windowEntities level gx gy) hx1
    · exact (rebuild_keeps_all level gx gy _ s2 h2).2
  · refine ⟨_, rfl, hq1, ?_, ?_, ?_⟩
    · intro q hq
      show q ∈ (fillProtQueue s).instances
      unfold fillProtQueue
      rw [f2]
      exact hq2 q hq
    · show (fillProtQueue s).instances.Nodup
      unfold fillProtQueue
      rw [f2]
      exact i3
    · intro q hq
      have hq3 : q ∈ s.instances := by
        have : (fillProtQueue s).instances = s.instances := f2
        rw [this] at hq
        exact hq
      exact fillFold_grouped s.instances s q (i4 q hq3)

/-- From a state in which the queue is a duplicate-free subset of a duplicate-free, filed
`instances`, the cleanup loop returns and leaves the frame invariant. -/
theorem cleanupLoop_invariant (gx gy : Int) :
    ∀ (remaining kept : List ObjPtr) (s : PlayState), (kept ++ remaining).Nodup →
      (∀ q ∈ kept ++ remaining, q ∈ s.instances) → s.instances.Nodup →
      (∀ q ∈ s.instances, Grouped s q) →
      ∃ s1, cleanupLoop gx gy remaining kept s = some s1 ∧ FrameInvariant s1 := by
  intro remaining
  induction remaining with
  | nil =>
    intro kept s hnd hsub hi hg
    rw [List.append_nil] at hnd hsub
    exact ⟨_, rfl, hnd, hsub, hi, fun q hq =>
      grouped_congr s _ q rfl rfl rfl rfl rfl rfl (hg q hq)⟩
  | cons q rest ih =>
    intro kept s hnd hsub hi hg
    have hnd2 : (kept ++ rest).Nodup := by
      rw [List.nodup_append] at hnd ⊢
      obtain ⟨n1, n2, n3⟩ := hnd
      exact ⟨n1, (List.nodup_cons.mp n2).2, fun x hx1 hx2 =>
        n3 hx1 (List.mem_cons_of_mem _ hx2)⟩
    have hq : q ∉ kept ++ rest := by
      rw [List.nodup_append] at hnd
      obtain ⟨_, n2, n3⟩ := hnd
      intro hm
      rcases List.mem_append.mp hm with h1 | h1
      · exact n3 h1 (List.mem_cons_self _ _)
      · exact (List.nodup_cons.mp n2).1 h1
    have hsub2 : ∀ r ∈ kept ++ rest, r ∈ s.instances := by
      intro r hr
      apply hsub
      rcases List.mem_append.mp hr with h1 | h1
      · exact List.mem_append_left _ h1
      · exact List.mem_append_right _ (List.mem_cons_of_mem _ h1)
    have hqi : q ∈ s.instances :=
      hsub q (List.mem_append_right _ (List.mem_cons_self _ _))
    unfold cleanupLoop
    split
    · split
      · obtain ⟨s2, h2⟩ := evict_defined s q (hg q hqi)
        rw [h2, Option.some_bind]
        obtain ⟨_, e1, _, _, _⟩ := evict_frame s s2 q h2
        apply ih kept s2 hnd2
        · intro r hr
          rw [e1, hi.mem_erase_iff]
          exact ⟨fun e => hq (e ▸ hr), hsub2 r hr⟩
        · rw [e1]; exact hi.erase q
        · intro r hr
          rw [e1, hi.mem_erase_iff] at hr
          exact evict_keeps_grouped s s2 q r h2 hr.1 (hg r hr.2)
      · exact ih kept s hnd2 hsub2 hi hg
    · apply ih (kept ++ [q]) s
      · rw [List.append_assoc]; exact hnd
      · intro r hr
        rw [List.append_assoc] at hr
        exact hsub r hr
      · exact hi
      · exact hg

/-- Active-set maintenance keeps the frame invariant, and is defined on every state that
satisfies it. -/
theorem maintain_invariant (level : Level) (gx gy : Int) (s : PlayState)
    (hinv : FrameInvariant s) (hlevel : level.Scannable) (hd : level.DistinctSlots)
    (hx : gx + 10 < 2 ^ 64) (hy : gy + 8 < 2 ^ 64) :
    ∃ s1, maintain level gx gy s = some s1 ∧ FrameInvariant s1 := by
  obtain ⟨s2, h2, j1, j2, j3, j4⟩ := beforeCleanup_invariant level gx gy s hinv hlevel hd hx hy
  obtain ⟨s3, h3, k1, k2, k3, k4⟩ := cleanupLoop_invariant gx gy s2.protQueue [] s2
    (by simpa using j1) (by simpa using j2) j3 j4
  refine ⟨{ s3 with first := false }, ?_, k1, k2, k3, fun q hq =>
    grouped_congr s3 _ q rfl rfl rfl rfl rfl rfl (k4 q hq)⟩
  rw [maintain_eq_bind, h2, Option.some_bind, h3]
  rfl

/-- The index that `getIndex` returns for a member is a position inside the vector. -/
theorem getIndex_nonneg_of_mem (l : List ObjPtr) (q : ObjPtr) (h : q ∈ l) :
    0 ≤ getIndex l q ∧ getIndex l q < l.length := by
  rw [getIndex_of_mem l q h]
  have := List.indexOf_lt_length.mpr h
  omega

/-- C30: provided each TileGrid slot owns a distinct entity (on a grid with at least one row
and no empty row), at every frame boundary of `play` the protect queue is a duplicate-free
subset of `instances`, `instances` is duplicate-free, and every member of `instances` whose
solid, hazard, enemy or collectible flag is set occurs in the corresponding category list:
this holds before the first frame, active-set maintenance is defined on every such state and
leaves such a state, and the property is kept by every change of the state that leaves
`instances`, the protect queue, `solids`, `enemies`, `collectibles` and the capability flags
alone and removes no flagged member of `instances` from `hazards`.  Consequently, for every
queue member that the eviction code handles, every `getIndex` call returns a position inside
its vector, never -1, so no `erase` is performed at `begin() - 1`. -/
theorem C30_frame_invariant (level : Level) (hlevel : level.Scannable)
    (hd : level.DistinctSlots) :
    (∀ heap, FrameInvariant (playStart level heap)) ∧
    (∀ (gx gy : Int) (s : PlayState), gx + 10 < 2 ^ 64 → gy + 8 < 2 ^ 64 → FrameInvariant s →
      ∃ s1, maintain level gx gy s = some s1 ∧ FrameInvariant s1) ∧
    (∀ s t : PlayState, FrameInvariant s → t.instances = s.instances →
      t.protQueue = s.protQueue → t.solids = s.solids → t.enemies = s.enemies →
      t.collectibles = s.collectibles →
      (∀ q, (t.heap q).toObject.m_solid = (s.heap q).toObject.m_solid ∧
        (t.heap q).toObject.m_hazard = (s.heap q).toObject.m_hazard ∧
        (t.heap q).toObject.m_enemy = (s.heap q).toObject.m_enemy ∧
        (t.heap q).toObject.m_collectible = (s.heap q).toObject.m_collectible) →
      (∀ q ∈ s.instances, (s.heap q).toObject.m_hazard = true → q ∈ s.hazards →
        q ∈ t.hazards) →
      FrameInvariant t) ∧
    (∀ (s : PlayState) (q : ObjPtr), FrameInvariant s → q ∈ s.protQueue →
      (0 ≤ getIndex s.instances q ∧ getIndex s.instances q < s.instances.length) ∧
      ((s.heap q).toObject.m_solid = true →
        0 ≤ getIndex s.solids q ∧ getIndex s.solids q < s.solids.length) ∧
      ((s.heap q).toObject.m_hazard = true →
        0 ≤ getIndex s.hazards q ∧ getIndex s.hazards q < s.hazards.length) ∧
      ((s.heap q).toObject.m_enemy = true →
        0 ≤ getIndex s.enemies q ∧ getIndex s.enemies q < s.enemies.length) ∧
      ((s.heap q).toObject.m_collectible = true →
        0 ≤ getIndex s.collectibles q ∧ getIndex s.collectibles q < s.collectibles.length) ∧
      ∃ s1, evict s q = some s1) := by
  refine ⟨fun heap => ?_, fun gx gy s hx hy hinv => ?_, ?_, ?_⟩
  · unfold FrameInvariant playStart
    exact ⟨List.nodup_nil, fun q hq => absurd hq (List.not_mem_nil q), List.nodup_nil,
      fun q hq => absurd hq (List.not_mem_nil q)⟩
  · exact maintain_invariant level gx gy s hinv hlevel hd hx hy
  · intro s t hinv e0 eq e1 e3 e4 hflags hhaz
    obtain ⟨i1, i2, i3, i4⟩ := hinv
    refine ⟨by rw [eq]; exact i1, fun q hq => ?_, by rw [e0]; exact i3, fun q hq => ?_⟩
    · rw [e0]; rw [eq] at hq; exact i2 q hq
    · rw [e0] at hq
      obtain ⟨g0, g1, g2, g3, g4⟩ := i4 q hq
      obtain ⟨f1, f2, f3, f4⟩ := hflags q
      refine ⟨by rw [e0]; exact g0, fun h => ?_, fun h => ?_, fun h => ?_, fun h => ?_⟩
      · rw [e1]; exact g1 (by rw [← f1]; exact h)
      · exact hhaz q hq (by rw [← f2]; exact h) (g2 (by rw [← f2]; exact h))
      · rw [e3]; exact g3 (by rw [← f3]; exact h)
      · rw [e4]; exact g4 (by rw [← f4]; exact h)
  · intro s q hinv hq
    obtain ⟨_, i2, _, i4⟩ := hinv
    obtain ⟨g0, g1, g2, g3, g4⟩ := i4 q (i2 q hq)
    exact ⟨getIndex_nonneg_of_mem _ _ g0, fun h => getIndex_nonneg_of_mem _ _ (g1 h),
      fun h => getIndex_nonneg_of_mem _ _ (g2 h), fun h => getIndex_nonneg_of_mem _ _ (g3 h),
      fun h => getIndex_nonneg_of_mem _ _ (g4 h), evict_defined s q (i4 q (i2 q hq))⟩

theorem pairLevel_distinct : pairLevel.DistinctSlots := by
  have hrect : pairLevel.Rectangular 1 2 := ⟨rfl, by decide⟩
  have e00 : gridAt pairLevel 0 0 = some (some 1) := by decide
  have e01 : gridAt pairLevel 0 1 = some (some 2) := by decide
  intro r c r2 c2 p h1 h2
  have b1 := (gridAt_isSome pairLevel 1 2 hrect r c).mp (by rw [h1]; rfl)
  have b2 := (gridAt_isSome pairLevel 1 2 hrect r2 c2).mp (by rw [h2]; rfl)
  have hr : r = 0 := by omega
  have hr2 : r2 = 0 := by omega
  subst hr hr2
  refine ⟨rfl, ?_⟩
  have hc : c = 0 ∨ c = 1 := by omega
  have hc2 : c2 = 0 ∨ c2 = 1 := by omega
  rcases hc with rfl | rfl <;> rcases hc2 with rfl | rfl
  · rfl
  · rw [e00] at h1; rw [e01] at h2; cases h1; cases h2
  · rw [e01] at h1; rw [e00] at h2; cases h1; cases h2
  · rfl

/-- Witness for C30: the first frame of `play` on the example level of one row with two
occupied slots: the maintenance loads both entities and leaves the frame invariant. -/
theorem C30_frame_invariant_witness :
    ∃ s1, maintain pairLevel 0 0 (playStart pairLevel exampleHeap) = some s1 ∧
      FrameInvariant s1 :=
  (C30_frame_invariant pairLevel ⟨by decide, by decide, by decide⟩ pairLevel_distinct).2.1 0 0
    (playStart pairLevel exampleHeap) (by norm_num) (by norm_num)
    ((C30_frame_invariant pairLevel ⟨by decide, by decide, by decide⟩ pairLevel_distinct).1
      exampleHeap)

/-! ## Theorems: spawners stay protected while they own a projectile -/

/-- The loop over the owned projectiles only ever removes projectiles. -/
theorem updateOwned_length {π : Type} (exists_ : π → Bool)
    (upd : ObjPtr → π → List ObjPtr → Option (π × List ObjPtr)) (l : List (ObjPtr × π))
    (hazards : List ObjPtr) (r : List (ObjPtr × π) × List ObjPtr)
    (h : updateOwned exists_ upd l hazards = some r) : r.1.length ≤ l.length := by
  induction l generalizing hazards r with
  | nil =>
    simp only [updateOwned, Option.some.injEq] at h
    rw [← h]
  | cons a rest ih =>
    obtain ⟨a0, x⟩ := a
    simp only [updateOwned, Option.bind_eq_some, Option.map_eq_some'] at h
    obtain ⟨r1, _, t, ht, hr⟩ := h
    have := ih r1.2 t ht
    rw [← hr]
    dsimp only
    split
    · simp only [List.length_cons]; omega
    · simp only [List.length_cons]; omega

theorem plant_update_protected (fuel : Nat) (nan g_count : Int) (rows : Nat)
    (solids : List SDL_Rect) (a1 a2 a3 : ObjPtr) (s s1 : Plant) (hz hz1 : List ObjPtr)
    (h : Plant.update fuel nan g_count rows solids a1 a2 a3 s hz = some (s1, hz1))
    (hown : s1.m_spores ≠ []) : s1.m_protected = true := by
  unfold Plant.update at h
  simp only [Option.map_eq_some', Prod.mk.injEq] at h
  obtain ⟨r, hr, hs1, _⟩ := h
  have hlen := updateOwned_length _ _ _ _ _ hr
  rw [← hs1] at hown ⊢
  have hpos : 0 < r.1.length := List.length_pos.mpr hown
  simp only [decide_eq_true_eq]
  omega

theorem spit_update_protected (fuel : Nat) (nan g_count : Int) (rows : Nat) (p : Player)
    (solids : List SDL_Rect) (shot : Option (ℚ × ℚ)) (a1 : ObjPtr) (s s1 : Spit)
    (hz hz1 : List ObjPtr)
    (h : Spit.update fuel nan g_count rows p solids shot a1 s hz = some (s1, hz1))
    (hown : s1.m_spores ≠ []) : s1.m_protected = true := by
  unfold Spit.update at h
  simp only [Option.map_eq_some', Prod.mk.injEq] at h
  obtain ⟨r, hr, hs1, _⟩ := h
  have hlen := updateOwned_length _ _ _ _ _ hr
  rw [← hs1] at hown ⊢
  have hpos : 0 < r.1.length := List.length_pos.mpr hown
  simp only [decide_eq_true_eq]
  omega

theorem yeti_update_protected (fuel : Nat) (nan g_count : Int) (rows : Nat)
    (cols : Option Nat) (p : Player) (solids : List SDL_Rect) (shot : ℚ × ℚ) (a1 : ObjPtr)
    (s s1 : Yeti) (hz hz1 : List ObjPtr)
    (hinv : s.m_snowballs ≠ [] → s.m_protected = true)
    (h : Yeti.update fuel nan g_count rows cols p solids shot a1 s hz = some (s1, hz1))
    (hown : s1.m_snowballs ≠ []) : s1.m_protected = true := by
  unfold Yeti.update at h
  simp only [Option.map_eq_some'] at h
  obtain ⟨r, hr, hs1⟩ := h
  have hlen := updateOwned_length _ _ _ _ _ hr
  dsimp only at hs1
  split at hs1
  · simp only [Prod.mk.injEq] at hs1
    obtain ⟨hs1, _⟩ := hs1
    rw [← hs1] at hown ⊢
    simp only [decide_eq_true_eq]
    exact fun e => hown (List.length_eq_zero.mp e)
  · simp only [Prod.mk.injEq] at hs1
    obtain ⟨hs1, _⟩ := hs1
    rw [← hs1] at hown ⊢
    have hpos : 0 < r.1.length := List.length_pos.mpr hown
    apply hinv
    intro e
    rw [e, List.length_nil] at hlen
    omega

/-- The update of the example plant on frame 1: nothing is fired, the spore at the top of its
flight stays where it is and the plant keeps it. -/
theorem firingPlant_update :
    Plant.update 64 0 1 13 [] 10 11 12 firingPlant [9] =
      some ({ firingPlant with
          toObject := { firingPlant.toObject with m_protected := true }
          m_spores := [(9, { Spore.new 0 0 96 20 0 (-(3 / 10)) with m_vspd := 0 })] },
        [9]) := by
  have e0 : ∀ n : Int, doubleToInt ((n : ℚ) + 0) = n := by
    intro n; rw [add_zero]; exact doubleToInt_intCast n
  have ev : (-(3 / 10) : ℚ) + 3 / 10 = 0 := by norm_num
  have eg : getIndex [9] (9 : ObjPtr) = 0 := by decide
  have d1 : doubleToInt (104 : ℚ) = 104 := by exact_mod_cast doubleToInt_intCast 104
  have d2 : doubleToInt (28 : ℚ) = 28 := by exact_mod_cast doubleToInt_intCast 28
  simp [Plant.update, firingPlant, Plant.new, Object.mk0, updateOwned, Spore.update, Spore.new,
    foldSolids, ev, e0, eg, Int.tmod, d1, d2]

/-- C24: for every spawner (Plant, Spit, Yeti), after its update or reset completes, if it
still owns at least one projectile then its protected flag is true.  For Plant and Spit this
holds after every update that returns, from any state; for Yeti, whose update leaves the flag
alone while the yeti is dead, it holds after every update entered in a state where it held,
and it holds of every newly built spawner; every reset leaves the spawner with no projectile
at all. -/
theorem C24_spawner_protected_while_owning :
    (∀ (fuel : Nat) (nan g_count : Int) (rows : Nat) (solids : List SDL_Rect)
      (a1 a2 a3 : ObjPtr) (s s1 : Plant) (hz hz1 : List ObjPtr),
      Plant.update fuel nan g_count rows solids a1 a2 a3 s hz = some (s1, hz1) →
      s1.m_spores ≠ [] → s1.m_protected = true) ∧
    (∀ (fuel : Nat) (nan g_count : Int) (rows : Nat) (p : Player) (solids : List SDL_Rect)
      (shot : Option (ℚ × ℚ)) (a1 : ObjPtr) (s s1 : Spit) (hz hz1 : List ObjPtr),
      Spit.update fuel nan g_count rows p solids shot a1 s hz = some (s1, hz1) →
      s1.m_spores ≠ [] → s1.m_protected = true) ∧
    (∀ (fuel : Nat) (nan g_count : Int) (rows : Nat) (cols : Option Nat) (p : Player)
      (solids : List SDL_Rect) (shot : ℚ × ℚ) (a1 : ObjPtr) (s s1 : Yeti)
      (hz hz1 : List ObjPtr),
      (s.m_snowballs ≠ [] → s.m_protected = true) →
      Yeti.update fuel nan g_count rows cols p solids shot a1 s hz = some (s1, hz1) →
      s1.m_snowballs ≠ [] → s1.m_protected = true) ∧
    (∀ s : Plant, s.reset.m_spores = []) ∧ (∀ s : Spit, s.reset.m_spores = []) ∧
    (∀ s : Yeti, s.reset.m_snowballs = []) ∧
    (∀ vx vy x y : Int, (Plant.new vx vy x y).m_spores = [] ∧
      (Spit.new vx vy x y).m_spores = [] ∧ (Yeti.new vx vy x y).m_snowballs = []) :=
  ⟨plant_update_protected, spit_update_protected, yeti_update_protected, fun _ => rfl,
    fun _ => rfl, fun _ => rfl, fun _ _ _ _ => ⟨rfl, rfl, rfl⟩⟩

/-- Witness for C24: the example plant on frame 1 keeps its spore and is protected. -/
theorem C24_spawner_protected_while_owning_witness :
    ∃ s1 hz1, Plant.update 64 0 1 13 [] 10 11 12 firingPlant [9] = some (s1, hz1) ∧
      s1.m_spores.length = 1 ∧ s1.m_protected = true :=
  ⟨_, _, firingPlant_update, rfl,
    C24_spawner_protected_while_owning.1 64 0 1 13 [] 10 11 12 firingPlant _ [9] [9]
      firingPlant_update (by simp)⟩

/-! ## Theorems: what the sampled overlap test says about geometry -/

/-- C32: `collided` has no false positives: for all rectangles A and B, if `collided(A, B)`
is true then the rectangles geometrically overlap, that is `B.x < A.x + A.w`,
`A.x < B.x + B.w`, `B.y < A.y + A.h` and `A.y < B.y + B.h`. -/
theorem C32_collided_implies_overlap (A B : SDL_Rect) (h : collided A B = true) :
    B.x < A.x + A.w ∧ A.x < B.x + B.w ∧ B.y < A.y + A.h ∧ A.y < B.y + B.h := by
  obtain ⟨a, v, _, ha0, haw, _, hv0, hvh, hx1, hx2, hy1, hy2⟩ := (collided_iff_sample A B).mp h
  refine ⟨?_, ?_, ?_, ?_⟩ <;> omega

/-- Witness for C32: a 28x32 rectangle overlapping a 32x32 one. -/
theorem C32_collided_implies_overlap_witness :
    collided ⟨20, 0, 28, 32⟩ ⟨0, 0, 32, 32⟩ = true ∧
    (0 : Int) < 20 + 28 ∧ (20 : Int) < 0 + 32 ∧ (0 : Int) < 0 + 32 ∧ (0 : Int) < 0 + 32 :=
  ⟨by decide, C32_collided_implies_overlap ⟨20, 0, 28, 32⟩ ⟨0, 0, 32, 32⟩ (by decide)⟩

/-- C34: the sampled overlap test can miss a real overlap: there are rectangles A and B with
positive width and height whose interiors geometrically intersect and for which
`collided(A, B)` is false; A = (0, 0, 32, 32) and B = (1, 1, 6, 6) are such a pair, B lying
strictly between the sample points (0, 0) and (8, 8) of A. -/
theorem C34_collided_misses_overlap :
    collided ⟨0, 0, 32, 32⟩ ⟨1, 1, 6, 6⟩ = false ∧
    (∃ A B : SDL_Rect, 0 < A.w ∧ 0 < A.h ∧ 0 < B.w ∧ 0 < B.h ∧
      B.x < A.x + A.w ∧ A.x < B.x + B.w ∧ B.y < A.y + A.h ∧ A.y < B.y + B.h ∧
      collided A B = false) ∧
    (∀ a v : Int, 8 ∣ a → 8 ∣ v → ¬ (1 < 0 + a ∧ 0 + a < 1 + 6 ∧ 1 < 0 + v ∧ 0 + v < 1 + 6)) := by
  refine ⟨by decide, ⟨⟨0, 0, 32, 32⟩, ⟨1, 1, 6, 6⟩, by decide, by decide, by decide, by decide,
    by decide, by decide, by decide, by decide, by decide⟩, ?_⟩
  intro a v ha hv hcon
  omega

/-! ## Theorems: truncation of the horizontal step -/

theorem doubleToInt_sub_frac (n : Int) (s : ℚ) (hn : 1 ≤ n) (h0 : 0 < s) (h1 : s < 1) :
    doubleToInt ((n : ℚ) + -s) = n - 1 := by
  have hn1 : (1 : ℚ) ≤ (n : ℚ) := by exact_mod_cast hn
  unfold doubleToInt
  rw [if_pos (by linarith)]
  rw [Int.floor_eq_iff]
  push_cast
  constructor <;> linarith

theorem doubleToInt_add_frac (n : Int) (s : ℚ) (hn : 1 ≤ n) (h0 : 0 < s) (h1 : s < 1) :
    doubleToInt ((n : ℚ) + s) = n := by
  have hn1 : (1 : ℚ) ≤ (n : ℚ) := by exact_mod_cast hn
  unfold doubleToInt
  rw [if_pos (by linarith)]
  rw [Int.floor_eq_iff]
  constructor <;> linarith

/-- With the sum of `m_x += m_hspd` taken exactly, truncation toward zero makes sub-unit
motion asymmetric: for every `m_x >= 1` and every speed `s` with `0 < s < 1`, a horizontal
step with `m_hspd = -s` changes `m_x` to `m_x - 1`, whereas a step with `m_hspd = +s` leaves
`m_x` unchanged (no solid being near, so that no alignment follows). -/
theorem moveX_truncation_exact (fuel : Nat) (nan : Int) (p : Player) (s : ℚ)
    (hx : 1 ≤ p.m_x) (h0 : 0 < s) (h1 : s < 1) :
    Player.moveX fuel nan { p with m_hspd := -s } [] =
      some { p with m_hspd := -s, m_x := p.m_x - 1, m_rect := ⟨p.m_x - 1, p.m_y, 28, 32⟩ } ∧
    Player.moveX fuel nan { p with m_hspd := s } [] =
      some { p with m_hspd := s, m_x := p.m_x, m_rect := ⟨p.m_x, p.m_y, 28, 32⟩ } := by
  constructor
  · simp only [Player.moveX, Player.alignXAll]
    rw [doubleToInt_sub_frac p.m_x s hx h0 h1]
  · simp only [Player.moveX, Player.alignXAll]
    rw [doubleToInt_add_frac p.m_x s hx h0 h1]

/-! ## Theorems: the speed limit of the player -/

theorem clamp_bound (h : ℚ) : |if |h| > 4 then 4 * h / |h| else h| ≤ 4 := by
  split
  · next hc =>
    have hpos : 0 < |h| := by linarith
    rw [abs_div, abs_mul, abs_abs]
    rw [mul_div_assoc, div_self (ne_of_gt hpos)]
    norm_num
  · next hc => exact not_lt.mp hc

theorem horizontalInput_bound (keys : Keys) (gp : GroundProbe) (p : Player) :
    |(p.horizontalInput keys gp).m_hspd| ≤ 4 := by
  unfold Player.horizontalInput
  dsimp only
  have key : ∀ q : Player,
      |(if |q.m_hspd| > 4 then ({ q with m_hspd := 4 * q.m_hspd / |q.m_hspd| } : Player)
        else q).m_hspd| ≤ 4 := by
    intro q
    have := clamp_bound q.m_hspd
    split
    · next hc => rw [if_pos hc] at this; exact this
    · next hc => rw [if_neg hc] at this; exact this
  exact key _

theorem jumpInput_hspd (keys : Keys) (p : Player) : (p.jumpInput keys).m_hspd = p.m_hspd := by
  unfold Player.jumpInput
  dsimp only
  split_ifs <;> rfl

theorem alignXAll_bound (fuel : Nat) (nan : Int) (rects : List SDL_Rect) (p p1 : Player)
    (hb : |p.m_hspd| ≤ 4) (h : Player.alignXAll fuel nan p rects = some p1) :
    |p1.m_hspd| ≤ 4 := by
  induction rects generalizing p with
  | nil =>
    simp only [Player.alignXAll, Option.some.injEq] at h
    rw [← h]; exact hb
  | cons right rest ih =>
    simp only [Player.alignXAll, Option.bind_eq_some] at h
    obtain ⟨p2, h2, h3⟩ := h
    apply ih p2 _ h3
    unfold Player.alignX at h2
    split at h2
    · cases h2
    · next rect hit _ =>
      simp only [Option.some.injEq] at h2
      rw [← h2]
      dsimp only
      split
      · simp
      · exact hb

theorem alignYAll_hspd (fuel : Nat) (nan : Int) (rects : List SDL_Rect) (p p1 : Player)
    (h : Player.alignYAll fuel nan p rects = some p1) : p1.m_hspd = p.m_hspd := by
  induction rects generalizing p with
  | nil =>
    simp only [Player.alignYAll, Option.some.injEq] at h
    rw [← h]
  | cons right rest ih =>
    simp only [Player.alignYAll, Option.bind_eq_some] at h
    obtain ⟨p2, h2, h3⟩ := h
    rw [ih p2 h3]
    unfold Player.alignY at h2
    split at h2
    · cases h2
    · next rect hit _ =>
      simp only [Option.some.injEq] at h2
      rw [← h2]
      dsimp only
      split <;> rfl

/-- The movement part of the update leaves a horizontal speed within the limit. -/
theorem beforeContacts_bound (fuel : Nat) (nan : Int) (keys : Keys) (gl : Globals)
    (heap : ObjPtr → Entity) (solids : List ObjPtr) (p p1 : Player) (r : Int)
    (hpre : p.beforeContacts fuel nan keys gl heap solids = some (p1, r)) :
    |p1.m_hspd| ≤ 4 := by
  unfold Player.beforeContacts at hpre
  simp only [Option.bind_eq_some, Option.some.injEq, Prod.mk.injEq] at hpre
  obtain ⟨p5, h5, p6, h6, e6, _⟩ := hpre
  rw [← e6]
  unfold Player.moveY at h6
  rw [alignYAll_hspd _ _ _ _ _ h6]
  dsimp only
  unfold Player.moveX at h5
  refine alignXAll_bound _ _ _ _ _ ?_ h5
  dsimp only
  rw [jumpInput_hspd]
  exact horizontalInput_bound _ _ _

theorem enemyPass_hspd (keys : Keys) (enemies : List ObjPtr) (enemyhit : Bool) (c : Contact) :
    (enemyPass keys enemies enemyhit c).player.m_hspd = c.player.m_hspd := by
  induction enemies generalizing c with
  | nil => rfl
  | cons e rest ih =>
    unfold enemyPass
    split
    · split
      · dsimp only
        split <;> rfl
      · split
        · exact ih _
        · exact ih _
    · exact ih _

theorem collectibleFold_player (l : List ObjPtr) (c : Contact) :
    (l.foldl collectibleStep c).player = c.player := by
  induction l generalizing c with
  | nil => rfl
  | cons a rest ih =>
    rw [List.foldl_cons, ih]
    unfold collectibleStep
    split <;> rfl

theorem contacts_hspd (keys : Keys) (gl : Globals) (heap : ObjPtr → Entity)
    (projectiles : List (ObjPtr × Object)) (hazards enemies collectibles : List ObjPtr)
    (p : Player) (r : Int) :
    (Player.contacts keys gl heap projectiles hazards enemies collectibles p r).player.m_hspd =
      p.m_hspd := by
  unfold Player.contacts
  dsimp only
  show ((collectibles.foldl collectibleStep _).player).m_hspd = _
  rw [collectibleFold_player]
  exact enemyPass_hspd keys enemies false _

/-- C39: for every player state (any prior horizontal speed, an exact rational), every input
and every active solids list, whatever the traction coefficients, the horizontal speed after
`Player::update` satisfies `|m_hspd| <= 4`, the fixed max speed; the update returns whenever
its movement part does. -/
theorem C39_speed_limit (fuel : Nat) (nan : Int) (keys : Keys) (gl : Globals)
    (heap : ObjPtr → Entity) (projectiles : List (ObjPtr × Object))
    (solids hazards enemies collectibles : List ObjPtr) (p : Player) :
    (∀ out, Player.update fuel nan keys gl heap projectiles solids hazards enemies
        collectibles p = some out → |out.player.m_hspd| ≤ 4) ∧
    (∀ p1 r, p.beforeContacts fuel nan keys gl heap solids = some (p1, r) →
      ∃ out, Player.update fuel nan keys gl heap projectiles solids hazards enemies
        collectibles p = some out ∧ |out.player.m_hspd| ≤ 4) := by
  have main : ∀ out, Player.update fuel nan keys gl heap projectiles solids hazards enemies
      collectibles p = some out → |out.player.m_hspd| ≤ 4 := by
    intro out h
    unfold Player.update at h
    simp only [Option.map_eq_some'] at h
    obtain ⟨⟨p1, r⟩, hpre, hout⟩ := h
    rw [← hout, contacts_hspd]
    exact beforeContacts_bound fuel nan keys gl heap solids p p1 r hpre
  refine ⟨main, fun p1 r hpre => ?_⟩
  have e : Player.update fuel nan keys gl heap projectiles solids hazards enemies
      collectibles p = some (Player.contacts keys gl heap projectiles hazards enemies
        collectibles p1 r) := by
    rw [Player.update, hpre]; rfl
  exact ⟨_, e, main _ e⟩

/-- Witness for C39: the example player entering the update with a horizontal speed of 100
and no key pressed leaves it with a speed within the limit. -/
theorem C39_speed_limit_witness :
    ∃ out, Player.update 64 0 (idleKeys false) exampleGlobals pounceHeap [] [] [] [] []
        { pouncePlayer with m_hspd := 100 } = some out ∧ |out.player.m_hspd| ≤ 4 := by
  have hdef : ∃ pr, Player.beforeContacts 64 0 (idleKeys false) exampleGlobals pounceHeap []
      { pouncePlayer with m_hspd := 100 } = some pr := by
    simp [Player.beforeContacts, Player.moveX, Player.moveY, Player.alignXAll,
      Player.alignYAll]
  obtain ⟨⟨p1, r⟩, hpre⟩ := hdef
  exact (C39_speed_limit 64 0 (idleKeys false) exampleGlobals pounceHeap [] [] [] [] []
    { pouncePlayer with m_hspd := 100 }).2 p1 r hpre

/-! ## Theorems: the states of a thin ice tile -/

theorem thinIce_new_wellFormed (vx vy x y : Int) : (ThinIce.new vx vy x y).WellFormed :=
  ⟨Int.le_refl 0, (by decide : (0 : Int) ≤ 40), Or.inl ⟨(by decide : (0 : Int) ≤ 3), rfl, rfl, rfl⟩⟩

theorem thinIce_update_wellFormed (s : ThinIce) (this : ObjPtr) (g : Int) (p : Player)
    (hazards : List ObjPtr) (hg : 0 ≤ g) (h : s.WellFormed) :
    (s.update this g p hazards).1.WellFormed := by
  obtain ⟨h0, h40, hs⟩ := h
  unfold ThinIce.update
  by_cases hc : s.m_cracks = 40
  · rw [if_pos hc]
    by_cases ht : s.m_timerBase = -1
    · rw [if_pos ht]
      rcases hs with ⟨_, _, hy, _⟩ | ⟨_, hne, _⟩
      · refine ⟨h0, h40, Or.inr ⟨Or.inl rfl, ?_, ?_, rfl, hc⟩⟩
        · show g ≠ -1
          omega
        · show s.m_rect.y + 3 = s.m_y + 3
          omega
      · exact absurd ht hne
    · rw [if_neg ht]
      rcases hs with ⟨_, hneg, _⟩ | ⟨hf, hne, hy, hh, _⟩
      · exact absurd hneg ht
      · by_cases hlt : g - s.m_timerBase < 100
        · rw [if_pos hlt]
          refine ⟨h0, h40, Or.inr ⟨?_, hne, hy, hh, hc⟩⟩
          dsimp only
          split_ifs
          · exact Or.inr rfl
          · exact Or.inl rfl
          · exact hf
        · rw [if_neg hlt]
          by_cases hm : this ∈ hazards
          · rw [if_pos hm]
            refine ⟨Int.le_refl 0, (by decide : (0 : Int) ≤ 40),
              Or.inl ⟨(by decide : (0 : Int) ≤ 3), rfl, ?_, rfl⟩⟩
            show s.m_rect.y - 3 = s.m_y
            omega
          · rw [if_neg hm]
            exact ⟨h0, h40, Or.inr ⟨hf, hne, hy, hh, hc⟩⟩
  · rw [if_neg hc]
    rcases hs with ⟨_, ht, hy, hh⟩ | ⟨_, _, _, _, h4⟩
    · have hdiv : Int.tdiv s.m_cracks 10 ≤ 3 := by
        rw [Int.tdiv_eq_ediv h0 (by decide)]
        omega
      dsimp only
      split_ifs with h1 h2
      · exact ⟨by show 0 ≤ s.m_cracks + 1; omega, by show s.m_cracks + 1 ≤ 40; omega,
          Or.inl ⟨hdiv, ht, hy, hh⟩⟩
      · exact ⟨by show 0 ≤ s.m_cracks - 1; omega, by show s.m_cracks - 1 ≤ 40; omega,
          Or.inl ⟨hdiv, ht, hy, hh⟩⟩
      · exact ⟨h0, h40, Or.inl ⟨hdiv, ht, hy, hh⟩⟩
    · exact absurd h4 hc

theorem thinIce_reset_wellFormed (s : ThinIce) (h : s.WellFormed) : s.reset.WellFormed := by
  obtain ⟨_, _, hs⟩ := h
  unfold ThinIce.reset
  dsimp only
  rcases hs with ⟨hf, _, hy, hh⟩ | ⟨hf, _, hy, _, _⟩
  · rw [if_neg (by omega)]
    exact ⟨Int.le_refl 0, (by decide : (0 : Int) ≤ 40), Or.inl ⟨hf, rfl, hy, hh⟩⟩
  · rw [if_pos (by omega)]
    refine ⟨Int.le_refl 0, (by decide : (0 : Int) ≤ 40),
              Or.inl ⟨(by decide : (0 : Int) ≤ 3), rfl, ?_, rfl⟩⟩
    show s.m_rect.y - 3 = s.m_y
    omega

theorem thinIce_run_wellFormed (this : ObjPtr) (calls : List ThinIceCall) (s : ThinIce)
    (hclock : ∀ c ∈ calls, c.ClockNonneg) (h : s.WellFormed) :
    (ThinIce.run this calls s).WellFormed := by
  induction calls generalizing s with
  | nil => exact h
  | cons c rest ih =>
    apply ih (ThinIce.call this s c) (fun d hd => hclock d (List.mem_cons_of_mem _ hd))
    have hc := hclock c (List.mem_cons_self _ _)
    cases c with
    | update g p hazards => exact thinIce_update_wellFormed s this g p hazards hc h
    | reset => exact thinIce_reset_wellFormed s h

theorem thinIce_update_y (s : ThinIce) (this : ObjPtr) (g : Int) (p : Player)
    (hazards : List ObjPtr) : (s.update this g p hazards).1.m_y = s.m_y := by
  unfold ThinIce.update
  dsimp only
  split_ifs <;> rfl

theorem thinIce_run_y (this : ObjPtr) (calls : List ThinIceCall) (s : ThinIce) :
    (ThinIce.run this calls s).m_y = s.m_y := by
  induction calls generalizing s with
  | nil => rfl
  | cons c rest ih =>
    show (ThinIce.run this rest (ThinIce.call this s c)).m_y = _
    rw [ih]
    cases c with
    | update g p hazards => exact thinIce_update_y s this g p hazards
    | reset =>
      show s.reset.m_y = s.m_y
      unfold ThinIce.reset
      dsimp only
      split <;> rfl

/-- C36: for every ThinIce tile and every sequence of update and reset calls (frame clock
non-negative) from its construction at `(x, y)`, the collision rectangle and sprite state
stay synchronised: either the sprite frame is at most 3, the refreeze timer is -1 and the
rectangle is `(y = m_y, h = 32)`, or the sprite frame is 4 or 5, the timer is set and the
rectangle is `(y = m_y + 3, h = 29)`; `m_y` stays `y`, so the rectangle is only ever at `y`
or at `y + 3`: it is never shifted twice nor restored twice. -/
theorem C36_thin_ice_synchronised (vx vy x y : Int) (this : ObjPtr)
    (calls : List ThinIceCall) (hclock : ∀ c ∈ calls, c.ClockNonneg) :
    (ThinIce.run this calls (ThinIce.new vx vy x y)).Synchronised ∧
    (ThinIce.run this calls (ThinIce.new vx vy x y)).m_y = y ∧
    ((ThinIce.run this calls (ThinIce.new vx vy x y)).m_rect.y = y ∨
      (ThinIce.run this calls (ThinIce.new vx vy x y)).m_rect.y = y + 3) := by
  obtain ⟨_, _, hs⟩ := thinIce_run_wellFormed this calls _ hclock
    (thinIce_new_wellFormed vx vy x y)
  have hy : (ThinIce.run this calls (ThinIce.new vx vy x y)).m_y = y :=
    thinIce_run_y this calls _
  rcases hs with ⟨a, b, c, d⟩ | ⟨a, b, c, d, _⟩
  · exact ⟨Or.inl ⟨a, b, c, d⟩, hy, Or.inl (by rw [c, hy])⟩
  · exact ⟨Or.inr ⟨a, b, c, d⟩, hy, Or.inr (by rw [c, hy])⟩

/-- Witness for C36: a tile built at (96, 96) after an update at frame 0 with the player
elsewhere, a reset and an update at frame 1 is synchronised and has `m_y = 96`. -/
theorem C36_thin_ice_synchronised_witness :
    (ThinIce.run 5 [.update 0 pouncePlayer [], .reset, .update 1 pouncePlayer []]
      (ThinIce.new 0 0 96 96)).Synchronised ∧
    (ThinIce.run 5 [.update 0 pouncePlayer [], .reset, .update 1 pouncePlayer []]
      (ThinIce.new 0 0 96 96)).m_y = 96 := by
  obtain ⟨h1, h2, _⟩ := C36_thin_ice_synchronised 0 0 96 96 5
    [.update 0 pouncePlayer [], .reset, .update 1 pouncePlayer []]
    (by
      intro c hc
      simp only [List.mem_cons, List.mem_singleton, List.not_mem_nil, or_false] at hc
      rcases hc with rfl | rfl | rfl
      · show (0 : Int) ≤ 0
        decide
      · trivial
      · show (0 : Int) ≤ 1
        decide)
  exact ⟨h1, h2⟩

theorem thinIce_update_cracks_bounds (s : ThinIce) (this : ObjPtr) (g : Int) (p : Player)
    (hazards : List ObjPtr) (h : 0 ≤ s.m_cracks ∧ s.m_cracks ≤ 40) :
    0 ≤ (s.update this g p hazards).1.m_cracks ∧ (s.update this g p hazards).1.m_cracks ≤ 40 := by
  obtain ⟨h0, h40⟩ := h
  have z0 : (0 : Int) ≤ 0 := Int.le_refl 0
  have z40 : (0 : Int) ≤ 40 := by decide
  unfold ThinIce.update
  by_cases hc : s.m_cracks = 40
  · rw [if_pos hc]
    by_cases ht : s.m_timerBase = -1
    · rw [if_pos ht]
      exact ⟨h0, h40⟩
    · rw [if_neg ht]
      by_cases hlt : g - s.m_timerBase < 100
      · rw [if_pos hlt]
        exact ⟨h0, h40⟩
      · rw [if_neg hlt]
        by_cases hm : this ∈ hazards
        · rw [if_pos hm]
          exact ⟨z0, z40⟩
        · rw [if_neg hm]
          exact ⟨h0, h40⟩
  · rw [if_neg hc]
    dsimp only
    split_ifs
    · exact ⟨by show 0 ≤ s.m_cracks + 1; omega, by show s.m_cracks + 1 ≤ 40; omega⟩
    · exact ⟨by show 0 ≤ s.m_cracks - 1; omega, by show s.m_cracks - 1 ≤ 40; omega⟩
    · exact ⟨h0, h40⟩

theorem thinIce_reset_cracks (s : ThinIce) : s.reset.m_cracks = 0 := by
  unfold ThinIce.reset
  dsimp only
  split <;> rfl

theorem thinIce_run_cracks_bounds (this : ObjPtr) (calls : List ThinIceCall) (s : ThinIce)
    (h : 0 ≤ s.m_cracks ∧ s.m_cracks ≤ 40) :
    0 ≤ (ThinIce.run this calls s).m_cracks ∧ (ThinIce.run this calls s).m_cracks ≤ 40 := by
  induction calls generalizing s with
  | nil => exact h
  | cons c rest ih =>
    apply ih (ThinIce.call this s c)
    cases c with
    | update g p hazards => exact thinIce_update_cracks_bounds s this g p hazards h
    | reset =>
      show 0 ≤ s.reset.m_cracks ∧ s.reset.m_cracks ≤ 40
      rw [thinIce_reset_cracks]
      exact ⟨Int.le_refl 0, by decide⟩

theorem thinIce_update_frozen (s : ThinIce) (this : ObjPtr) (g : Int) (p : Player)
    (hazards : List ObjPtr) (hc : s.m_cracks ≠ 40) :
    (s.update this g p hazards).1.m_cracks =
      if s.playerOnTop p = true then s.m_cracks + 1
      else if Int.tmod g 20 = 0 ∧ s.m_cracks > 0 then s.m_cracks - 1 else s.m_cracks := by
  have hp : ({ s with m_frameThinIce := Int.tdiv s.m_cracks 10 } : ThinIce).playerOnTop p =
      s.playerOnTop p := rfl
  unfold ThinIce.update
  rw [if_neg hc]
  dsimp only
  rw [hp]
  split_ifs <;> rfl

/-- C38: for every ThinIce tile and every sequence of update and reset calls starting from
construction the crack-count satisfies `0 <= m_cracks <= 40`; an update with the player
directly above while the count is below the threshold increases it by exactly 1; and an
update decreases it by 1 only on a frame whose clock is divisible by 20, with the player
elsewhere and the count positive (and, below the threshold, it does decrease by 1 then). -/
theorem C38_crack_count (vx vy x y : Int) (this : ObjPtr) (calls : List ThinIceCall)
    (s : ThinIce) (g : Int) (p : Player) (hazards : List ObjPtr) :
    (0 ≤ (ThinIce.run this calls (ThinIce.new vx vy x y)).m_cracks ∧
      (ThinIce.run this calls (ThinIce.new vx vy x y)).m_cracks ≤ 40) ∧
    (s.m_cracks < 40 → s.playerOnTop p = true →
      (s.update this g p hazards).1.m_cracks = s.m_cracks + 1) ∧
    ((s.update this g p hazards).1.m_cracks = s.m_cracks - 1 →
      Int.tmod g 20 = 0 ∧ s.playerOnTop p = false ∧ 0 < s.m_cracks) ∧
    (s.m_cracks < 40 → Int.tmod g 20 = 0 → s.playerOnTop p = false → 0 < s.m_cracks →
      (s.update this g p hazards).1.m_cracks = s.m_cracks - 1) := by
  refine ⟨thinIce_run_cracks_bounds this calls _
    ⟨Int.le_refl 0, (by decide : (0 : Int) ≤ 40)⟩, ?_, ?_, ?_⟩
  · intro hlt htop
    rw [thinIce_update_frozen s this g p hazards (by omega), if_pos htop]
  · by_cases hc : s.m_cracks = 40
    · unfold ThinIce.update
      rw [if_pos hc]
      by_cases ht : s.m_timerBase = -1
      · rw [if_pos ht]
        intro h
        change s.m_cracks = s.m_cracks - 1 at h
        omega
      · rw [if_neg ht]
        by_cases hlt : g - s.m_timerBase < 100
        · rw [if_pos hlt]
          intro h
          change s.m_cracks = s.m_cracks - 1 at h
          omega
        · rw [if_neg hlt]
          by_cases hm : this ∈ hazards
          · rw [if_pos hm]
            intro h
            change (0 : Int) = s.m_cracks - 1 at h
            omega
          · rw [if_neg hm]
            intro h
            change s.m_cracks = s.m_cracks - 1 at h
            omega
    · rw [thinIce_update_frozen s this g p hazards hc]
      split_ifs with h1 h2
      · intro h
        omega
      · intro _
        exact ⟨h2.1, Bool.eq_false_iff.mpr h1, h2.2⟩
      · intro h
        omega
  · intro hlt hm htop hpos
    rw [thinIce_update_frozen s this g p hazards (by omega), if_neg (by simp [htop]),
      if_pos ⟨hm, hpos⟩]

/-- Witness for C38: a tile at (96, 96) with the player standing on it at (100, 64) gains one
crack per update; with the player away at (100, 70) on frame 20 the count goes back down. -/
theorem C38_crack_count_witness :
    ((ThinIce.new 0 0 96 96).update 5 1 { pouncePlayer with m_y := 64 } []).1.m_cracks = 1 ∧
    Int.tmod 20 20 = 0 ∧
    (ThinIce.run 5 [.update 1 { pouncePlayer with m_y := 64 } [], .update 20 pouncePlayer []]
      (ThinIce.new 0 0 96 96)).m_cracks ≤ 40 := by
  obtain ⟨h1, h2, _, _⟩ := C38_crack_count 0 0 96 96 5
    [.update 1 { pouncePlayer with m_y := 64 } [], .update 20 pouncePlayer []]
    (ThinIce.new 0 0 96 96) 1 { pouncePlayer with m_y := 64 } []
  exact ⟨h2 (by decide) (by decide), by decide, h1.2⟩

/-! ## Theorems: the snake -/

theorem snake_alignX_speed (fuel : Nat) (start : Int) (s : Snake) (right : SDL_Rect)
    (hs : s.m_hspd = 2 ∨ s.m_hspd = -2) (hst : start = 2 ∨ start = -2) :
    Snake.alignX fuel start s right ≠ .error .divByZero ∧
    ∀ s1, Snake.alignX fuel start s right = .ok s1 → s1.m_hspd = 2 ∨ s1.m_hspd = -2 := by
  have hne : s.m_hspd ≠ 0 := by omega
  unfold Snake.alignX
  rw [if_neg hne]
  cases align fuel s.m_rect right (Int.tdiv s.m_hspd |s.m_hspd|) 0 with
  | none => exact ⟨by simp, by simp⟩
  | some r =>
    obtain ⟨rect, hit⟩ := r
    refine ⟨by simp, ?_⟩
    intro s1 h1
    simp only [Except.ok.injEq] at h1
    subst h1
    cases hit
    · exact hs
    · show -start = 2 ∨ -start = -2
      omega

theorem snake_alignAll_speed (fuel : Nat) (start : Int) (solids : List SDL_Rect) (s : Snake)
    (hs : s.m_hspd = 2 ∨ s.m_hspd = -2) (hst : start = 2 ∨ start = -2) :
    Snake.alignAll fuel start s solids ≠ .error .divByZero ∧
    ∀ s1, Snake.alignAll fuel start s solids = .ok s1 → s1.m_hspd = 2 ∨ s1.m_hspd = -2 := by
  induction solids generalizing s with
  | nil =>
    refine ⟨by simp [Snake.alignAll], ?_⟩
    intro s1 h1
    simp only [Snake.alignAll, Except.ok.injEq] at h1
    subst h1
    exact hs
  | cons right rest ih =>
    obtain ⟨h1, h2⟩ := snake_alignX_speed fuel start s right hs hst
    unfold Snake.alignAll
    cases hx : Snake.alignX fuel start s right with
    | error f =>
      refine ⟨?_, by intro s1 h; cases h⟩
      intro h
      have : f = Fault.divByZero := by
        simpa [Except.bind] using h
      exact h1 (by rw [hx, this])
    | ok s0 => exact ih s0 (h2 s0 hx)

theorem snake_look_speed (level : Level) (heap : ObjPtr → Entity) (s : Snake)
    (hs : s.m_hspd = 2 ∨ s.m_hspd = -2) :
    Snake.look level heap s ≠ .error .divByZero ∧
    ∀ s1, Snake.look level heap s = .ok s1 → s1.m_hspd = 2 ∨ s1.m_hspd = -2 := by
  have hne : s.m_hspd ≠ 0 := by omega
  unfold Snake.look
  rw [if_neg hne]
  cases hl : Snake.lookahead level heap s with
  | none => exact ⟨by simp, by simp⟩
  | some s0 =>
    refine ⟨by simp, ?_⟩
    intro s1 h1
    simp only [Except.ok.injEq] at h1
    subst h1
    unfold Snake.lookahead at hl
    rw [if_neg hne] at hl
    simp only [Option.bind_eq_some] at hl
    obtain ⟨a1, _, a2, _, h3⟩ := hl
    simp only [Option.some.injEq] at h3
    subst h3
    dsimp only
    split_ifs <;> omega

theorem snake_update_speed (fuel : Nat) (level : Level) (heap : ObjPtr → Entity) (g : Int)
    (p : Player) (solids : List SDL_Rect) (s : Snake) (hs : s.m_hspd = 2 ∨ s.m_hspd = -2) :
    Snake.update fuel level heap g p solids s ≠ .error .divByZero ∧
    ∀ s1, Snake.update fuel level heap g p solids s = .ok s1 →
      s1.m_hspd = 2 ∨ s1.m_hspd = -2 := by
  unfold Snake.update
  by_cases hex : s.m_exists = true
  · rw [if_pos hex]
    by_cases hg : Int.tmod g 10 = 0
    · simp only [if_pos hg]
      obtain ⟨h1, h2⟩ := snake_alignAll_speed fuel s.m_hspd solids s.step hs hs
      cases ha : Snake.alignAll fuel s.m_hspd s.step solids with
      | error f =>
        refine ⟨?_, by intro s1 h; cases h⟩
        intro h
        have : f = Fault.divByZero := by
          simpa [Except.bind, Except.map] using h
        exact h1 (by rw [ha, this])
      | ok s2 =>
        obtain ⟨h3, h4⟩ := snake_look_speed level heap s2 (h2 s2 ha)
        cases hk : Snake.look level heap s2 with
        | error f =>
          refine ⟨?_, by intro s1 h; simp [Except.bind, Except.map, hk] at h⟩
          intro h
          have : f = Fault.divByZero := by
            simpa [Except.bind, Except.map, hk] using h
          exact h3 (by rw [hk, this])
        | ok s3 =>
          refine ⟨by simp [Except.bind, Except.map, hk], ?_⟩
          intro s1 h
          simp only [Except.bind, Except.map, hk, Except.ok.injEq] at h
          subst h
          exact h4 s3 hk
    · simp only [if_neg hg]
      refine ⟨by simp [Except.map], ?_⟩
      intro s1 h
      simp only [Except.map, Except.ok.injEq] at h
      subst h
      exact hs
  · rw [if_neg hex]
    refine ⟨by simp, ?_⟩
    intro s1 h
    simp only [Except.ok.injEq] at h
    subst h
    exact hs

theorem snake_run_speed (fuel : Nat) (calls : List SnakeCall) (s : Snake)
    (hs : s.m_hspd = 2 ∨ s.m_hspd = -2) :
    Snake.run fuel calls s ≠ .error .divByZero ∧
    ∀ s1, Snake.run fuel calls s = .ok s1 → s1.m_hspd = 2 ∨ s1.m_hspd = -2 := by
  induction calls generalizing s with
  | nil =>
    refine ⟨by simp [Snake.run], ?_⟩
    intro s1 h
    simp only [Snake.run, Except.ok.injEq] at h
    subst h
    exact hs
  | cons c rest ih =>
    have hc : Snake.call fuel s c ≠ .error .divByZero ∧
        ∀ s1, Snake.call fuel s c = .ok s1 → s1.m_hspd = 2 ∨ s1.m_hspd = -2 := by
      cases c with
      | update level heap g p solids => exact snake_update_speed fuel level heap g p solids s hs
      | reset =>
        refine ⟨by simp [Snake.call], ?_⟩
        intro s1 h
        simp only [Snake.call, Except.ok.injEq] at h
        subst h
        exact hs
    obtain ⟨h1, h2⟩ := hc
    unfold Snake.run
    cases hx : Snake.call fuel s c with
    | error f =>
      refine ⟨?_, by intro s1 h; cases h⟩
      intro h
      have : f = Fault.divByZero := by
        simpa [Except.bind] using h
      exact h1 (by rw [hx, this])
    | ok s0 => exact ih s0 (h2 s0 hx)

/-- C19 fails in the code: the lookahead of `Snake::update` and of `Mammoth::update` indexes
the grid with no test of the indices, and `Water::update` tests the row only after the read.
On the 3 by 4 example level, a rectangular grid: a snake built at tile (1, 2), in the bottom
row, reads row 3 on its first movement frame; a snake built at tile (2, 1), above the full
floor (the four walls being the active solids), walks right for eleven movement frames, to
`x = 86` in column 2, and on the twelfth reads column 4; a mammoth built at tile (1, 1) reads row 3; a water tile built at tile
(1, 0) reads row -1 on its first update. -/
theorem C19_unchecked_reads_leave_grid :
    probeLevel.Rectangular 3 4 ∧
    ((0 ≤ Int.tdiv bottomSnake.m_y 32 ∧ Int.tdiv bottomSnake.m_y 32 < 3) ∧
      (0 ≤ Int.tdiv bottomSnake.m_x 32 ∧ Int.tdiv bottomSnake.m_x 32 < 4) ∧
      Int.tdiv bottomSnake.m_y 32 + 1 = 3 ∧
      (∀ heap : ObjPtr → Entity, Snake.lookahead probeLevel heap bottomSnake = none) ∧
      ∀ heap : ObjPtr → Entity,
        Snake.update 100 probeLevel heap 10 pouncePlayer [] bottomSnake = .error .outOfRange) ∧
    ((∃ s, Snake.run 100 (List.replicate 11 (.update probeLevel wallHeap 10 pouncePlayer floorRects))
        (Snake.new 0 0 64 32) = .ok s ∧ s.m_x = 86 ∧ s.m_y = 32 ∧ s.m_hspd = 2 ∧
        Int.tdiv s.m_x 32 = 2 ∧ Int.tdiv (s.m_x + 2 + 8 + 32) 32 = 4) ∧
      Snake.run 100 (List.replicate 12 (.update probeLevel wallHeap 10 pouncePlayer floorRects))
        (Snake.new 0 0 64 32) = .error .outOfRange) ∧
    (Int.tdiv (Mammoth.new 0 0 32 32).m_y 32 = 1 ∧
      Int.tdiv ((Mammoth.new 0 0 32 32).m_y + 16) 32 + 1 = 3 ∧
      ∀ heap : ObjPtr → Entity,
        Mammoth.lookahead probeLevel heap (Mammoth.new 0 0 32 32) = none) ∧
    (Int.tdiv (Water.new 0 0 32 0).m_y 32 - 1 = -1 ∧
      ∀ (g_count : Int) (heap : ObjPtr → Entity),
        Water.update probeLevel g_count heap (Water.new 0 0 32 0) = none) := by
  refine ⟨⟨rfl, by decide⟩, ⟨by decide, by decide, by decide, fun heap => rfl, fun heap => rfl⟩,
    ⟨⟨_, rfl, rfl, rfl, rfl, by decide, by decide⟩, rfl⟩,
    ⟨by decide, by decide, fun heap => ?_⟩, ⟨by decide, fun g heap => rfl⟩⟩
  unfold Mammoth.lookahead
  rw [if_neg (by simp [Mammoth.new])]
  have hrow : Int.tdiv ((Mammoth.new 0 0 32 32).m_y + 16) 32 + 1 = 3 := by decide
  rw [hrow]
  have hout : ∀ c : Int, gridAt probeLevel 3 c = none := fun c => rfl
  rw [hout]
  rfl

/-- C35: for every Snake and every sequence of update and reset calls from its construction,
no call ends in a division by zero, and after the calls the horizontal speed `m_hspd` is 2 or
-2 (never 0), so that the step `m_hspd / abs(m_hspd)` passed to `align` and used in the
lookahead is exactly +1 or -1. -/
theorem C35_snake_speed (fuel : Nat) (vx vy x y : Int) (calls : List SnakeCall) :
    Snake.run fuel calls (Snake.new vx vy x y) ≠ .error .divByZero ∧
    ∀ s, Snake.run fuel calls (Snake.new vx vy x y) = .ok s →
      (s.m_hspd = 2 ∨ s.m_hspd = -2) ∧ s.m_hspd ≠ 0 ∧
      (Int.tdiv s.m_hspd |s.m_hspd| = 1 ∨ Int.tdiv s.m_hspd |s.m_hspd| = -1) := by
  obtain ⟨h1, h2⟩ := snake_run_speed fuel calls (Snake.new vx vy x y) (Or.inl rfl)
  refine ⟨h1, fun s hs => ?_⟩
  have h3 := h2 s hs
  refine ⟨h3, by omega, ?_⟩
  rcases h3 with h | h
  · left
    rw [h]
    decide
  · right
    rw [h]
    decide

/-- Witness for C35: a snake at (32, 32) of the 3 by 4 level walks into a solid on frame 10
and turns, is reset, and is updated on frame 11: the run ends without a fault, with a
speed of 2 or -2. -/
theorem C35_snake_speed_witness :
    ∃ s, Snake.run 100 [.update probeLevel wallHeap 10 pouncePlayer [⟨48, 32, 32, 32⟩],
      .reset, .update probeLevel wallHeap 11 pouncePlayer []] (Snake.new 0 0 32 32) = .ok s ∧
      (s.m_hspd = 2 ∨ s.m_hspd = -2) ∧ s.m_hspd ≠ 0 ∧
      (Int.tdiv s.m_hspd |s.m_hspd| = 1 ∨ Int.tdiv s.m_hspd |s.m_hspd| = -1) :=
  ⟨_, rfl, (C35_snake_speed 100 0 0 32 32
    [.update probeLevel wallHeap 10 pouncePlayer [⟨48, 32, 32, 32⟩],
      .reset, .update probeLevel wallHeap 11 pouncePlayer []]).2 _ rfl⟩

/-- C37: in `Snake::update` on a movement frame (frame clock divisible by 10) of a live
snake, after the solid-collision step has left the snake in state `s2`: if the slot
diagonally ahead-below is empty and the slot behind-below is also empty, the update ends with
the direction unchanged (the snake proceeds off the ledge); if the slot ahead-below is empty
and the slot behind-below is occupied, the update ends with the direction reversed. -/
theorem C37_ledge_lookahead (fuel : Nat) (level : Level) (heap : ObjPtr → Entity) (g : Int)
    (p : Player) (solids : List SDL_Rect) (s s2 : Snake)
    (hex : s.m_exists = true) (hg : Int.tmod g 10 = 0)
    (hal : Snake.alignAll fuel s.m_hspd s.step solids = .ok s2) (hne : s2.m_hspd ≠ 0)
    (hahead : gridAt level (Int.tdiv s2.m_y 32 + 1)
      (Int.tdiv (s2.m_x + 8 + Int.tdiv (32 * s2.m_hspd) |s2.m_hspd|) 32) = some none) :
    (gridAt level (Int.tdiv s2.m_y 32 + 1)
        (Int.tdiv (s2.m_x + 8 - Int.tdiv (32 * s2.m_hspd) |s2.m_hspd|) 32) = some none →
      ∃ s3, Snake.update fuel level heap g p solids s = .ok s3 ∧ s3.m_hspd = s2.m_hspd ∧
        s3.m_flip = decide (s2.m_hspd < 0)) ∧
    (∀ q, gridAt level (Int.tdiv s2.m_y 32 + 1)
        (Int.tdiv (s2.m_x + 8 - Int.tdiv (32 * s2.m_hspd) |s2.m_hspd|) 32) = some (some q) →
      ∃ s3, Snake.update fuel level heap g p solids s = .ok s3 ∧ s3.m_hspd = -s2.m_hspd ∧
        s3.m_flip = decide (-s2.m_hspd < 0)) := by
  have hu : ∀ s1, Snake.lookahead level heap s2 = some s1 →
      Snake.update fuel level heap g p solids s =
        .ok { s1 with toObject := { s1.toObject with m_protected := s1.nearCamera p } } := by
    intro s1 h1
    unfold Snake.update
    rw [if_pos hex]
    simp only [if_pos hg, hal, Except.bind, Snake.look, if_neg hne, h1, Except.map]
  constructor
  · intro hbehind
    have hl : Snake.lookahead level heap s2 =
        some { s2 with m_hspd := s2.m_hspd, m_flip := decide (s2.m_hspd < 0) } := by
      unfold Snake.lookahead
      rw [if_neg hne, hahead, hbehind]
      rfl
    exact ⟨_, hu _ hl, rfl, rfl⟩
  · intro q hbehind
    have hl : Snake.lookahead level heap s2 =
        some { s2 with m_hspd := s2.m_hspd * -1, m_flip := decide (s2.m_hspd * -1 < 0) } := by
      unfold Snake.lookahead
      rw [if_neg hne, hahead, hbehind]
      rfl
    refine ⟨_, hu _ hl, ?_, ?_⟩
    · show s2.m_hspd * -1 = -s2.m_hspd
      omega
    · show decide (s2.m_hspd * -1 < 0) = decide (-s2.m_hspd < 0)
      rw [show s2.m_hspd * -1 = -s2.m_hspd by omega]

/-- Witness for C37: a snake at (32, 32) on frame 10 steps to x = 34.  Over the level with
an empty bottom row it keeps its speed 2; over the level whose bottom row holds walls in
columns 0 and 1 only (a ledge ahead, footing behind) it ends with speed -2. -/
theorem C37_ledge_lookahead_witness :
    (∃ s3, Snake.update 100 pitLevel wallHeap 10 pouncePlayer [] (Snake.new 0 0 32 32) = .ok s3 ∧
      s3.m_hspd = 2) ∧
    (∃ s3, Snake.update 100 ledgeLevel wallHeap 10 pouncePlayer [] (Snake.new 0 0 32 32)
      = .ok s3 ∧ s3.m_hspd = -2) := by
  obtain ⟨s3, h1, h2, _⟩ := (C37_ledge_lookahead 100 pitLevel wallHeap 10 pouncePlayer []
    (Snake.new 0 0 32 32) (Snake.new 0 0 32 32).step rfl (by decide) rfl (by decide)
    (by decide)).1 (by decide)
  obtain ⟨s4, h3, h4, _⟩ := (C37_ledge_lookahead 100 ledgeLevel wallHeap 10 pouncePlayer []
    (Snake.new 0 0 32 32) (Snake.new 0 0 32 32).step rfl (by decide) rfl (by decide)
    (by decide)).2 1 (by decide)
  exact ⟨⟨s3, h1, h2⟩, ⟨s4, h3, h4⟩⟩

/-! ## Theorems: the order of a frame -/

theorem runner_update (fuel : Nat) (nan : Int) :
    Player.update fuel nan rightKeys exampleGlobals runHeap [] [] [] [] [] runner =
      some { player := runnerAfter, heap := runHeap, globals := exampleGlobals, result := 0 } := by
  have e1 : doubleToInt ((351 : ℚ) + 4) = 355 := by
    have := doubleToInt_intCast 355
    norm_num at this ⊢
    exact this
  have e2 : doubleToInt ((208 : ℚ) + 0) = 208 := by
    have := doubleToInt_intCast 208
    norm_num at this ⊢
    exact this
  have e3 : doubleToInt (355 : ℚ) = 355 := by exact_mod_cast doubleToInt_intCast 355
  have e4 : doubleToInt (208 : ℚ) = 208 := by exact_mod_cast doubleToInt_intCast 208
  have hw : Int.tdiv 640 2 = 320 := by decide
  have hh : Int.tdiv 416 2 = 208 := by decide
  have ev : (-(3 / 10) : ℚ) + 3 / 10 = 0 := by norm_num
  have ea : |(4 : ℚ)| = 4 := abs_of_pos (by norm_num)
  have hb : runner.beforeContacts fuel nan rightKeys exampleGlobals runHeap [] =
      some ({ runnerAfter with m_frame := 0 }, 0) := by
    simp [Player.beforeContacts, Player.groundProbe, Player.horizontalInput, Player.jumpInput,
      rightKeys, idleKeys, runner, runnerAfter, ev, ea, Player.moveX, Player.moveY,
      Player.alignXAll, Player.alignYAll, e1, e2, e3, e4, boundsResult, exampleGlobals]
  rw [Player.update, hb]
  simp [Player.contacts, atHazardPass, enemyPass, hazardPass, Player.animate, Player.camera,
    rightKeys, idleKeys, runnerAfter, exampleGlobals, ea, screenw, screenh, hw, hh]

theorem runFrame_maintain_entry :
    maintain runLevel 10 6 runState = some runState := rfl

theorem runFrame_maintain_after :
    maintain runLevel 11 6 runState = some { runState with instances := [1] } := rfl

theorem phaseEntities_keeps (upd : EntityUpdate) (solid : Bool) (w w1 : FrameState)
    (h : phaseEntities upd solid w = some w1) :
    w1.play.instances = w.play.instances ∧ w1.play.lastgridx = w.play.lastgridx := by
  unfold phaseEntities at h
  cases hu : updateWhere upd w.player w.globals solid w.play.instances
      { heap := w.play.heap, solids := w.play.solids, hazards := w.play.hazards } with
  | none =>
    rw [hu] at h
    cases h
  | some r =>
    rw [hu] at h
    simp only [Option.map_some', Option.some.injEq] at h
    subst h
    exact ⟨rfl, rfl⟩

theorem runFrame_step (upd : EntityUpdate) :
    frameStep 100 0 rightKeys runLevel [] upd runFrame =
      some { play := runState, player := runnerAfter, globals := exampleGlobals, result := 0 } := by
  have hu := runner_update 100 0
  simp only [frameStep, runFrame, show newGridX runState runner = 10 by decide,
    show newGridY runState runner = 6 by decide, runFrame_maintain_entry, Option.some_bind]
  rw [show runState.heap = runHeap from rfl, show runState.solids = [] from rfl,
    show runState.hazards = [] from rfl, show runState.enemies = [] from rfl,
    show runState.collectibles = [] from rfl, hu]
  rfl

/-- C33, as stated, fails.  In the example frame the player runs from x = 351 (tile column
10, the tracked column) to x = 355 (tile column 11) and the only entity of the level stands
in column 21, just outside the window around column 10.  The game loop maintains the window
first, against column 10: nothing is loaded, no entity is updated and the tracked column
stays 10.  In the order of the claim the window would follow the player to column 11 and
load the entity in the same frame. -/
theorem C33_counterexample :
    newGridX runState runner = 10 ∧ newGridX runState runnerAfter = 11 ∧
    (∃ w, specFrameStep 100 0 rightKeys runLevel [] (fun _ _ _ r => some r) runFrame = some w ∧
      w.play.instances = [1] ∧ w.play.lastgridx = 11) ∧
    ∀ upd : EntityUpdate,
      (∃ w, frameStep 100 0 rightKeys runLevel [] upd runFrame = some w ∧
        w.play.instances = [] ∧ w.play.lastgridx = 10 ∧ w.player = runnerAfter) ∧
      (∀ w, specFrameStep 100 0 rightKeys runLevel [] upd runFrame = some w →
        w.play.instances = [1] ∧ w.play.lastgridx = 11) ∧
      frameStep 100 0 rightKeys runLevel [] upd runFrame ≠
        specFrameStep 100 0 rightKeys runLevel [] upd runFrame := by
  have hx0 : newGridX runState runner = 10 := by decide
  have hx1 : newGridX runState runnerAfter = 11 := by decide
  have hy1 : newGridY runState runnerAfter = 6 := by decide
  have hsrc := runFrame_step
  have hplayer : phasePlayer 100 0 rightKeys [] runFrame =
      some { play := runState, player := runnerAfter, globals := exampleGlobals, result := 0 } := by
    have hu := runner_update 100 0
    simp only [phasePlayer, runFrame]
    rw [show runState.heap = runHeap from rfl, show runState.solids = [] from rfl,
      show runState.hazards = [] from rfl, show runState.enemies = [] from rfl,
      show runState.collectibles = [] from rfl, hu]
    rfl
  have hmaint : phaseMaintain runLevel
      { play := runState, player := runnerAfter, globals := exampleGlobals, result := 0 } =
      some { play := { runState with instances := [1], lastgridx := 11 },
             player := runnerAfter, globals := exampleGlobals, result := 0 } := by
    simp only [phaseMaintain, hx1, hy1, runFrame_maintain_after]
    rfl
  have hspec : ∀ (upd : EntityUpdate) (w : FrameState),
      specFrameStep 100 0 rightKeys runLevel [] upd runFrame = some w →
        w.play.instances = [1] ∧ w.play.lastgridx = 11 := by
    intro upd w hw
    simp only [specFrameStep, hplayer, hmaint, Option.some_bind] at hw
    obtain ⟨w3, h3, h4⟩ := Option.bind_eq_some.mp hw
    obtain ⟨a3, b3⟩ := phaseEntities_keeps upd false _ w3 h3
    obtain ⟨a4, b4⟩ := phaseEntities_keeps upd true w3 w h4
    rw [a4, a3, b4, b3]
    exact ⟨rfl, rfl⟩
  have hid : specFrameStep 100 0 rightKeys runLevel [] (fun _ _ _ r => some r) runFrame =
      some { play := { runState with instances := [1], lastgridx := 11 },
             player := runnerAfter, globals := exampleGlobals, result := 0 } := by
    simp only [specFrameStep, hplayer, hmaint, Option.some_bind]
    rfl
  refine ⟨hx0, hx1, ⟨_, hid, rfl, rfl⟩,
    fun upd => ⟨⟨_, hsrc upd, rfl, rfl, rfl⟩, hspec upd, ?_⟩⟩
  · intro h
    rw [hsrc upd] at h
    have h2 := (hspec upd _ h.symm).1
    exact absurd h2 (by decide)

/-- C33 (amended): in every frame of play the four phases run in the order: active-set
maintenance (protect-queue fill, window rebuild, eviction) against the tile of the player as
the frame finds it, then player update (physics and collision) against the maintained
vectors, then updates of all non-solid active entities, then updates of all solid active
entities; that is, the frame step equals the composition of these phases in that order, for
every input, every state and whatever the entity updates do. -/
theorem C33_frame_order (fuel : Nat) (nan : Int) (keys : Keys) (level : Level)
    (projectiles : List (ObjPtr × Object)) (upd : EntityUpdate) (w : FrameState) :
    frameStep fuel nan keys level projectiles upd w =
      maintainFirstFrameStep fuel nan keys level projectiles upd w ∧
    ∀ w1, frameStep fuel nan keys level projectiles upd w = some w1 →
      w1.play.lastgridx = newGridX w.play w.player ∧
      w1.play.lastgridy = newGridY w.play w.player := by
  constructor
  · unfold frameStep maintainFirstFrameStep phaseMaintain
    dsimp only
    cases hm : maintain level (newGridX w.play w.player) (newGridY w.play w.player) w.play with
    | none => rfl
    | some s1 =>
      simp only [Option.some_bind, Option.map_some', phasePlayer]
      cases hp : Player.update fuel nan keys w.globals s1.heap projectiles s1.solids s1.hazards
          s1.enemies s1.collectibles w.player with
      | none => rfl
      | some out =>
        simp only [Option.some_bind, Option.map_some', phaseEntities]
        cases h1 : updateWhere upd out.player out.globals false s1.instances
            { heap := out.heap, solids := s1.solids, hazards := s1.hazards } with
        | none => rfl
        | some r1 =>
          simp only [Option.some_bind, Option.map_some']
          cases h2 : updateWhere upd out.player out.globals true s1.instances r1 with
          | none => rfl
          | some r2 => rfl
  · intro w1 h
    unfold frameStep at h
    simp only [Option.bind_eq_some, Option.some.injEq] at h
    obtain ⟨s1, _, out, _, r1, _, r2, _, h5⟩ := h
    subst h5
    exact ⟨rfl, rfl⟩

/-- Witness for C33 (amended): the example frame, whatever the entity updates do, ends with
the tracked column 10 of the player as the frame found it, though the player is in column
11 by then. -/
theorem C33_frame_order_witness :
    ∃ w1, frameStep 100 0 rightKeys runLevel [] (fun _ _ _ r => some r) runFrame = some w1 ∧
      maintainFirstFrameStep 100 0 rightKeys runLevel [] (fun _ _ _ r => some r) runFrame =
        some w1 ∧
      w1.play.lastgridx = 10 ∧ Int.tdiv w1.player.m_x 32 = 11 := by
  obtain ⟨h1, h2⟩ := C33_frame_order 100 0 rightKeys runLevel [] (fun _ _ _ r => some r)
    runFrame
  have hsrc := runFrame_step (fun _ _ _ r => some r)
  exact ⟨_, hsrc, h1 ▸ hsrc, (h2 _ hsrc).1, by decide⟩

/-! ## Theorems: rounding of the horizontal step -/

theorem roundHalfEven_bounds (q : ℚ) : ⌊q⌋ ≤ roundHalfEven q ∧ roundHalfEven q ≤ ⌈q⌉ := by
  have hfl : (⌊q⌋ : ℚ) ≤ q := Int.floor_le q
  have hc : ⌊q⌋ ≤ ⌈q⌉ := Int.floor_le_ceil q
  have hup : (1 : ℚ) / 2 ≤ q - ⌊q⌋ → ⌊q⌋ + 1 ≤ ⌈q⌉ := by
    intro h
    have : ⌊q⌋ < ⌈q⌉ := Int.lt_ceil.mpr (by linarith)
    omega
  unfold roundHalfEven
  split_ifs with h1 h2 h3
  · exact ⟨le_refl _, hc⟩
  · exact ⟨by omega, hup (le_of_lt h2)⟩
  · exact ⟨le_refl _, hc⟩
  · exact ⟨by omega, hup (not_lt.mp h1)⟩

theorem ulp_of_lt (q : ℚ) (n : Nat) (hq : 0 < q) (hn : n ≤ 52) (h : q < 2 ^ n) :
    ∃ k : Nat, 53 - n ≤ k ∧ ulp q = 1 / 2 ^ k := by
  have hlog : Int.log 2 |q| < (n : ℤ) := by
    rw [abs_of_pos hq, ← Int.lt_zpow_iff_log_lt (by norm_num) hq]
    exact_mod_cast h
  refine ⟨(52 - max (Int.log 2 |q|) (-1022)).toNat, ?_, ?_⟩
  · omega
  · unfold ulp
    have e : max (Int.log 2 |q|) (-1022) - 52 =
        -(((52 - max (Int.log 2 |q|) (-1022)).toNat : ℕ) : ℤ) := by omega
    rw [e, zpow_neg, zpow_natCast, one_div]

theorem roundDouble_le (x y : ℚ) (k : Nat) (m : Int) (hu : ulp x = 1 / 2 ^ k)
    (hy : y = m / 2 ^ k) (hxy : x ≤ y) : roundDouble x ≤ y := by
  have hpos : (0 : ℚ) < 2 ^ k := by positivity
  unfold roundDouble
  rw [hu, hy, div_div_eq_mul_div, div_one, mul_one_div]
  apply div_le_div_of_nonneg_right _ hpos.le
  have h1 : x * 2 ^ k ≤ (m : ℚ) := by
    rw [hy] at hxy
    exact (le_div_iff₀ hpos).mp hxy
  have h2 : ⌈x * 2 ^ k⌉ ≤ m := Int.ceil_le.mpr h1
  exact_mod_cast le_trans (roundHalfEven_bounds _).2 h2

theorem le_roundDouble (x y : ℚ) (k : Nat) (m : Int) (hu : ulp x = 1 / 2 ^ k)
    (hy : y = m / 2 ^ k) (hxy : y ≤ x) : y ≤ roundDouble x := by
  have hpos : (0 : ℚ) < 2 ^ k := by positivity
  unfold roundDouble
  rw [hu, hy, div_div_eq_mul_div, div_one, mul_one_div]
  apply div_le_div_of_nonneg_right _ hpos.le
  have h1 : (m : ℚ) ≤ x * 2 ^ k := by
    rw [hy] at hxy
    exact (div_le_iff₀ hpos).mp hxy
  have h2 : m ≤ ⌊x * 2 ^ k⌋ := Int.le_floor.mpr h1
  exact_mod_cast le_trans h2 (roundHalfEven_bounds _).1

theorem roundHalfEven_low (y : ℚ) (f : Int) (h1 : (f : ℚ) ≤ y) (h2 : y < f + 1 / 2) :
    roundHalfEven y = f := by
  have hf : ⌊y⌋ = f := Int.floor_eq_iff.mpr ⟨h1, by linarith⟩
  unfold roundHalfEven
  rw [hf, if_pos (by linarith)]

theorem roundHalfEven_high (y : ℚ) (f : Int) (h1 : (f : ℚ) + 1 / 2 < y) (h2 : y < f + 1) :
    roundHalfEven y = f + 1 := by
  have hf : ⌊y⌋ = f := Int.floor_eq_iff.mpr ⟨by linarith, h2⟩
  unfold roundHalfEven
  rw [hf, if_neg (by linarith), if_pos (by linarith)]

theorem roundHalfEven_tie (y : ℚ) (f : Int) (h : y = f + 1 / 2) :
    roundHalfEven y = if f % 2 = 0 then f else f + 1 := by
  have hf : ⌊y⌋ = f := Int.floor_eq_iff.mpr ⟨by linarith, by linarith⟩
  unfold roundHalfEven
  rw [hf, if_neg (by linarith), if_neg (by linarith)]

theorem ulp_of_scaled (q : ℚ) (k : Nat) (hk : k ≤ 1074)
    (hlo : (2 : ℚ) ^ 52 ≤ |q| * 2 ^ k) (hhi : |q| * 2 ^ k < 2 ^ 53) : ulp q = 1 / 2 ^ k := by
  have hpos : (0 : ℚ) < 2 ^ k := by positivity
  have habs : 0 < |q| := by
    rcases (abs_nonneg q).eq_or_lt with h | h
    · rw [← h, zero_mul] at hlo
      exact absurd hlo (by norm_num)
    · exact h
  have e1 : (2 : ℚ) ^ ((52 : ℤ) - k) ≤ |q| := by
    rw [zpow_sub₀ (by norm_num), zpow_natCast]
    exact (div_le_iff₀ hpos).mpr (by exact_mod_cast hlo)
  have e2 : |q| < (2 : ℚ) ^ ((53 : ℤ) - k) := by
    rw [zpow_sub₀ (by norm_num), zpow_natCast]
    exact (lt_div_iff₀ hpos).mpr (by exact_mod_cast hhi)
  have l1 : (52 : ℤ) - k ≤ Int.log 2 |q| :=
    (Int.zpow_le_iff_le_log (by norm_num) habs).mp (by exact_mod_cast e1)
  have l2 : Int.log 2 |q| < (53 : ℤ) - k :=
    (Int.lt_zpow_iff_log_lt (by norm_num) habs).mp (by exact_mod_cast e2)
  unfold ulp
  have e : max (Int.log 2 |q|) (-1022) - 52 = -((k : ℕ) : ℤ) := by omega
  rw [e, zpow_neg, zpow_natCast, one_div]

theorem roundDouble_eval (q : ℚ) (k : Nat) (m : Int) (hk : k ≤ 1074)
    (hlo : (2 : ℚ) ^ 52 ≤ |q| * 2 ^ k) (hhi : |q| * 2 ^ k < 2 ^ 53)
    (hr : roundHalfEven (q * 2 ^ k) = m) : roundDouble q = m / 2 ^ k := by
  unfold roundDouble
  rw [ulp_of_scaled q k hk hlo hhi, div_div_eq_mul_div, div_one, hr, mul_one_div]

theorem doubleToInt_of_mem (r : ℚ) (n : Int) (h0 : 0 ≤ n) (h1 : (n : ℚ) ≤ r) (h2 : r < n + 1) :
    doubleToInt r = n := by
  have hn : (0 : ℚ) ≤ n := by exact_mod_cast h0
  unfold doubleToInt
  rw [if_pos (by linarith)]
  exact Int.floor_eq_iff.mpr ⟨h1, h2⟩

theorem roundDouble_between (x : ℚ) (n : Int) (hn0 : 0 ≤ n) (hn : n + 1 ≤ 2 ^ 31)
    (h1 : (n : ℚ) < x) (h2 : x < n + 1) :
    (n : ℚ) ≤ roundDouble x ∧ roundDouble x ≤ n + 1 ∧
    (x ≤ n + 1 - 1 / 2 ^ 22 → roundDouble x ≤ n + 1 - 1 / 2 ^ 22) ∧
    ((n : ℚ) + 1 / 2 ^ 22 ≤ x → (n : ℚ) + 1 / 2 ^ 22 ≤ roundDouble x) := by
  have hn0q : (0 : ℚ) ≤ n := by exact_mod_cast hn0
  have hnq : (n : ℚ) + 1 ≤ 2 ^ 31 := by exact_mod_cast hn
  have hx0 : 0 < x := by linarith
  obtain ⟨k, hk, hu⟩ := ulp_of_lt x 31 hx0 (by norm_num) (by linarith)
  have hk22 : 22 ≤ k := by omega
  have hpos : (0 : ℚ) < 2 ^ k := by positivity
  have hsplit : (2 : ℚ) ^ k = 2 ^ (k - 22) * 2 ^ 22 := by
    rw [← pow_add]
    congr 1
    omega
  have y0 : (n : ℚ) = ((n * 2 ^ k : Int) : ℚ) / 2 ^ k := by
    push_cast
    field_simp
  have y1 : (n : ℚ) + 1 = (((n + 1) * 2 ^ k : Int) : ℚ) / 2 ^ k := by
    push_cast
    field_simp
  have y2 : (n : ℚ) + 1 - 1 / 2 ^ 22 =
      ((((n + 1) * 2 ^ 22 - 1) * 2 ^ (k - 22) : Int) : ℚ) / 2 ^ k := by
    push_cast
    rw [hsplit]
    field_simp
    ring
  have y3 : (n : ℚ) + 1 / 2 ^ 22 = (((n * 2 ^ 22 + 1) * 2 ^ (k - 22) : Int) : ℚ) / 2 ^ k := by
    push_cast
    rw [hsplit]
    field_simp
    ring
  refine ⟨le_roundDouble x _ k _ hu y0 h1.le, roundDouble_le x _ k _ hu y1 h2.le, ?_, ?_⟩
  · intro h
    exact roundDouble_le x _ k _ hu y2 h
  · intro h
    exact le_roundDouble x _ k _ hu y3 h

/-- When the sum of `m_x += m_hspd` is a `double`, the rounded move is the exact move. -/
theorem moveXRounded_eq_moveX (fuel : Nat) (nan : Int) (p : Player) (solids : List SDL_Rect)
    (h : roundDouble ((p.m_x : ℚ) + p.m_hspd) = (p.m_x : ℚ) + p.m_hspd) :
    Player.moveXRounded fuel nan p solids = Player.moveX fuel nan p solids := by
  unfold Player.moveXRounded Player.moveX
  rw [h]

/-- The `double` nearest to 0.1. -/
theorem iceTraction_eq : iceTraction = ((7205759403792794 : Int) : ℚ) / 2 ^ 56 := by
  unfold iceTraction
  exact roundDouble_eval _ 56 (7205759403792794 : Int) (by norm_num)
      (by rw [abs_of_pos (by norm_num)]; norm_num) (by rw [abs_of_pos (by norm_num)]; norm_num)
      (by rw [roundHalfEven_high _ (7205759403792793 : Int) (by norm_num) (by norm_num)]
          norm_num)

/-- Ten frames of `m_hspd += 0.1` from rest give the largest `double` below 1. -/
theorem ten_presses_on_ice : frames iceTraction 10 0 = 1 - 1 / 2 ^ 53 := by
  rw [iceTraction_eq]
  have s1 : fadd ((0 : ℚ))
      (((7205759403792794 : Int) : ℚ) / 2 ^ 56) =
      ((7205759403792794 : Int) : ℚ) / 2 ^ 56 := by
    unfold fadd
    exact roundDouble_eval _ 56 (7205759403792794 : Int) (by norm_num)
      (by rw [abs_of_pos (by norm_num)]; norm_num) (by rw [abs_of_pos (by norm_num)]; norm_num)
      (by rw [roundHalfEven_low _ (7205759403792794 : Int) (by norm_num) (by norm_num)])
  have s2 : fadd (((7205759403792794 : Int) : ℚ) / 2 ^ 56)
      (((7205759403792794 : Int) : ℚ) / 2 ^ 56) =
      ((7205759403792794 : Int) : ℚ) / 2 ^ 55 := by
    unfold fadd
    exact roundDouble_eval _ 55 (7205759403792794 : Int) (by norm_num)
      (by rw [abs_of_pos (by norm_num)]; norm_num) (by rw [abs_of_pos (by norm_num)]; norm_num)
      (by rw [roundHalfEven_low _ (7205759403792794 : Int) (by norm_num) (by norm_num)])
  have s3 : fadd (((7205759403792794 : Int) : ℚ) / 2 ^ 55)
      (((7205759403792794 : Int) : ℚ) / 2 ^ 56) =
      ((5404319552844596 : Int) : ℚ) / 2 ^ 54 := by
    unfold fadd
    exact roundDouble_eval _ 54 (5404319552844596 : Int) (by norm_num)
      (by rw [abs_of_pos (by norm_num)]; norm_num) (by rw [abs_of_pos (by norm_num)]; norm_num)
      (by rw [roundHalfEven_tie _ (5404319552844595 : Int) (by norm_num)]; norm_num)
  have s4 : fadd (((5404319552844596 : Int) : ℚ) / 2 ^ 54)
      (((7205759403792794 : Int) : ℚ) / 2 ^ 56) =
      ((7205759403792794 : Int) : ℚ) / 2 ^ 54 := by
    unfold fadd
    exact roundDouble_eval _ 54 (7205759403792794 : Int) (by norm_num)
      (by rw [abs_of_pos (by norm_num)]; norm_num) (by rw [abs_of_pos (by norm_num)]; norm_num)
      (by rw [roundHalfEven_tie _ (7205759403792794 : Int) (by norm_num)]; norm_num)
  have s5 : fadd (((7205759403792794 : Int) : ℚ) / 2 ^ 54)
      (((7205759403792794 : Int) : ℚ) / 2 ^ 56) =
      ((4503599627370496 : Int) : ℚ) / 2 ^ 53 := by
    unfold fadd
    exact roundDouble_eval _ 53 (4503599627370496 : Int) (by norm_num)
      (by rw [abs_of_pos (by norm_num)]; norm_num) (by rw [abs_of_pos (by norm_num)]; norm_num)
      (by rw [roundHalfEven_low _ (4503599627370496 : Int) (by norm_num) (by norm_num)])
  have s6 : fadd (((4503599627370496 : Int) : ℚ) / 2 ^ 53)
      (((7205759403792794 : Int) : ℚ) / 2 ^ 56) =
      ((5404319552844595 : Int) : ℚ) / 2 ^ 53 := by
    unfold fadd
    exact roundDouble_eval _ 53 (5404319552844595 : Int) (by norm_num)
      (by rw [abs_of_pos (by norm_num)]; norm_num) (by rw [abs_of_pos (by norm_num)]; norm_num)
      (by rw [roundHalfEven_low _ (5404319552844595 : Int) (by norm_num) (by norm_num)])
  have s7 : fadd (((5404319552844595 : Int) : ℚ) / 2 ^ 53)
      (((7205759403792794 : Int) : ℚ) / 2 ^ 56) =
      ((6305039478318694 : Int) : ℚ) / 2 ^ 53 := by
    unfold fadd
    exact roundDouble_eval _ 53 (6305039478318694 : Int) (by norm_num)
      (by rw [abs_of_pos (by norm_num)]; norm_num) (by rw [abs_of_pos (by norm_num)]; norm_num)
      (by rw [roundHalfEven_low _ (6305039478318694 : Int) (by norm_num) (by norm_num)])
  have s8 : fadd (((6305039478318694 : Int) : ℚ) / 2 ^ 53)
      (((7205759403792794 : Int) : ℚ) / 2 ^ 56) =
      ((7205759403792793 : Int) : ℚ) / 2 ^ 53 := by
    unfold fadd
    exact roundDouble_eval _ 53 (7205759403792793 : Int) (by norm_num)
      (by rw [abs_of_pos (by norm_num)]; norm_num) (by rw [abs_of_pos (by norm_num)]; norm_num)
      (by rw [roundHalfEven_low _ (7205759403792793 : Int) (by norm_num) (by norm_num)])
  have s9 : fadd (((7205759403792793 : Int) : ℚ) / 2 ^ 53)
      (((7205759403792794 : Int) : ℚ) / 2 ^ 56) =
      ((8106479329266892 : Int) : ℚ) / 2 ^ 53 := by
    unfold fadd
    exact roundDouble_eval _ 53 (8106479329266892 : Int) (by norm_num)
      (by rw [abs_of_pos (by norm_num)]; norm_num) (by rw [abs_of_pos (by norm_num)]; norm_num)
      (by rw [roundHalfEven_low _ (8106479329266892 : Int) (by norm_num) (by norm_num)])
  have s10 : fadd (((8106479329266892 : Int) : ℚ) / 2 ^ 53)
      (((7205759403792794 : Int) : ℚ) / 2 ^ 56) =
      ((9007199254740991 : Int) : ℚ) / 2 ^ 53 := by
    unfold fadd
    exact roundDouble_eval _ 53 (9007199254740991 : Int) (by norm_num)
      (by rw [abs_of_pos (by norm_num)]; norm_num) (by rw [abs_of_pos (by norm_num)]; norm_num)
      (by rw [roundHalfEven_low _ (9007199254740991 : Int) (by norm_num) (by norm_num)])
  simp only [frames]
  rw [s1, s2, s3, s4, s5, s6, s7, s8, s9, s10]
  norm_num

/-- Three frames of `m_hspd -= 0.1` and three of `m_hspd += 0.1` from rest do not give 0. -/
theorem three_left_three_right_on_ice :
    frames iceTraction 3 (frames (-iceTraction) 3 0) = -(1 / 2 ^ 55) := by
  rw [iceTraction_eq]
  have s1 : fadd ((0 : ℚ))
      (-(((7205759403792794 : Int) : ℚ) / 2 ^ 56)) =
      ((-7205759403792794 : Int) : ℚ) / 2 ^ 56 := by
    unfold fadd
    exact roundDouble_eval _ 56 (-7205759403792794 : Int) (by norm_num)
      (by rw [abs_of_neg (by norm_num)]; norm_num) (by rw [abs_of_neg (by norm_num)]; norm_num)
      (by rw [roundHalfEven_low _ (-7205759403792794 : Int) (by norm_num) (by norm_num)])
  have s2 : fadd (((-7205759403792794 : Int) : ℚ) / 2 ^ 56)
      (-(((7205759403792794 : Int) : ℚ) / 2 ^ 56)) =
      ((-7205759403792794 : Int) : ℚ) / 2 ^ 55 := by
    unfold fadd
    exact roundDouble_eval _ 55 (-7205759403792794 : Int) (by norm_num)
      (by rw [abs_of_neg (by norm_num)]; norm_num) (by rw [abs_of_neg (by norm_num)]; norm_num)
      (by rw [roundHalfEven_low _ (-7205759403792794 : Int) (by norm_num) (by norm_num)])
  have s3 : fadd (((-7205759403792794 : Int) : ℚ) / 2 ^ 55)
      (-(((7205759403792794 : Int) : ℚ) / 2 ^ 56)) =
      ((-5404319552844596 : Int) : ℚ) / 2 ^ 54 := by
    unfold fadd
    exact roundDouble_eval _ 54 (-5404319552844596 : Int) (by norm_num)
      (by rw [abs_of_neg (by norm_num)]; norm_num) (by rw [abs_of_neg (by norm_num)]; norm_num)
      (by rw [roundHalfEven_tie _ (-5404319552844596 : Int) (by norm_num)]; norm_num)
  have s4 : fadd (((-5404319552844596 : Int) : ℚ) / 2 ^ 54)
      (((7205759403792794 : Int) : ℚ) / 2 ^ 56) =
      ((-7205759403792795 : Int) : ℚ) / 2 ^ 55 := by
    unfold fadd
    exact roundDouble_eval _ 55 (-7205759403792795 : Int) (by norm_num)
      (by rw [abs_of_neg (by norm_num)]; norm_num) (by rw [abs_of_neg (by norm_num)]; norm_num)
      (by rw [roundHalfEven_low _ (-7205759403792795 : Int) (by norm_num) (by norm_num)])
  have s5 : fadd (((-7205759403792795 : Int) : ℚ) / 2 ^ 55)
      (((7205759403792794 : Int) : ℚ) / 2 ^ 56) =
      ((-7205759403792796 : Int) : ℚ) / 2 ^ 56 := by
    unfold fadd
    exact roundDouble_eval _ 56 (-7205759403792796 : Int) (by norm_num)
      (by rw [abs_of_neg (by norm_num)]; norm_num) (by rw [abs_of_neg (by norm_num)]; norm_num)
      (by rw [roundHalfEven_low _ (-7205759403792796 : Int) (by norm_num) (by norm_num)])
  have s6 : fadd (((-7205759403792796 : Int) : ℚ) / 2 ^ 56)
      (((7205759403792794 : Int) : ℚ) / 2 ^ 56) =
      ((-4503599627370496 : Int) : ℚ) / 2 ^ 107 := by
    unfold fadd
    exact roundDouble_eval _ 107 (-4503599627370496 : Int) (by norm_num)
      (by rw [abs_of_neg (by norm_num)]; norm_num) (by rw [abs_of_neg (by norm_num)]; norm_num)
      (by rw [roundHalfEven_low _ (-4503599627370496 : Int) (by norm_num) (by norm_num)])
  simp only [frames]
  rw [s1, s2, s3, s4, s5, s6]
  norm_num

theorem pounce_moveXRounded (h : ℚ) :
    (Player.moveXRounded 64 0 { pouncePlayer with m_hspd := h } []).map (fun q => q.m_x) =
      some (doubleToInt (roundDouble ((100 : ℚ) + h))) := by
  simp [Player.moveXRounded, Player.alignXAll, pouncePlayer]

/-- C40, as stated, fails on the machine's `double` sums.  Ten frames of `m_hspd += 0.1` from
rest (the right key held on thin ice) give the speed `1 - 2^-53`, a `double` in (0, 1); at
`m_x = 100` the sum `100 + m_hspd` is rounded to 101 and the step moves the player to 101
instead of leaving `m_x` unchanged.  Three frames of `m_hspd -= 0.1` and three of
`m_hspd += 0.1` leave the speed `-2^-55`; at `m_x = 100` the sum is rounded to 100 and the
player stays at 100 instead of moving to 99. -/
theorem C40_counterexample :
    ((0 : ℚ) < 1 - 1 / 2 ^ 53 ∧ (1 - 1 / 2 ^ 53 : ℚ) < 1 ∧
      roundDouble (1 - 1 / 2 ^ 53) = 1 - 1 / 2 ^ 53 ∧
      frames iceTraction 10 0 = 1 - 1 / 2 ^ 53 ∧
      (Player.moveXRounded 64 0 { pouncePlayer with m_hspd := 1 - 1 / 2 ^ 53 } []).map
        (fun q => q.m_x) = some 101) ∧
    ((0 : ℚ) < 1 / 2 ^ 55 ∧ (1 / 2 ^ 55 : ℚ) < 1 ∧
      roundDouble (-(1 / 2 ^ 55)) = -(1 / 2 ^ 55) ∧
      frames iceTraction 3 (frames (-iceTraction) 3 0) = -(1 / 2 ^ 55) ∧
      (Player.moveXRounded 64 0 { pouncePlayer with m_hspd := -(1 / 2 ^ 55) } []).map
        (fun q => q.m_x) = some 100) := by
  have r1 : roundDouble (1 - 1 / 2 ^ 53) = 1 - 1 / 2 ^ 53 := by
    rw [roundDouble_eval (1 - 1 / 2 ^ 53) 53 (9007199254740991 : Int) (by norm_num)
      (by rw [abs_of_pos (by norm_num)]; norm_num) (by rw [abs_of_pos (by norm_num)]; norm_num)
      (by rw [roundHalfEven_low _ (9007199254740991 : Int) (by norm_num) (by norm_num)])]
    norm_num
  have r2 : roundDouble ((100 : ℚ) + (1 - 1 / 2 ^ 53)) = 101 := by
    rw [roundDouble_eval ((100 : ℚ) + (1 - 1 / 2 ^ 53)) 46 (7107243161944064 : Int)
      (by norm_num) (by rw [abs_of_pos (by norm_num)]; norm_num)
      (by rw [abs_of_pos (by norm_num)]; norm_num)
      (by rw [roundHalfEven_high _ (7107243161944063 : Int) (by norm_num) (by norm_num)]
          norm_num)]
    norm_num
  have r3 : roundDouble (-(1 / 2 ^ 55)) = -(1 / 2 ^ 55) := by
    rw [roundDouble_eval (-(1 / 2 ^ 55)) 107 (-4503599627370496 : Int) (by norm_num)
      (by rw [abs_of_neg (by norm_num)]; norm_num) (by rw [abs_of_neg (by norm_num)]; norm_num)
      (by rw [roundHalfEven_low _ (-4503599627370496 : Int) (by norm_num) (by norm_num)])]
    norm_num
  have r4 : roundDouble ((100 : ℚ) + -(1 / 2 ^ 55)) = 100 := by
    rw [roundDouble_eval ((100 : ℚ) + -(1 / 2 ^ 55)) 46 (7036874417766400 : Int)
      (by norm_num) (by rw [abs_of_pos (by norm_num)]; norm_num)
      (by rw [abs_of_pos (by norm_num)]; norm_num)
      (by rw [roundHalfEven_high _ (7036874417766399 : Int) (by norm_num) (by norm_num)]
          norm_num)]
    norm_num
  have d1 : doubleToInt (101 : ℚ) = 101 := by exact_mod_cast doubleToInt_intCast 101
  have d2 : doubleToInt (100 : ℚ) = 100 := by exact_mod_cast doubleToInt_intCast 100
  refine ⟨⟨by norm_num, by norm_num, r1, ten_presses_on_ice, ?_⟩,
    ⟨by norm_num, by norm_num, r3, three_left_three_right_on_ice, ?_⟩⟩
  · rw [pounce_moveXRounded, r2, d1]
  · rw [pounce_moveXRounded, r4, d2]

/-- C40 (amended): the position update `m_x += m_hspd` forms the sum as a `double` and
truncates it toward zero, which makes sub-unit motion asymmetric.  For every `m_x` with
`1 <= m_x < 2^31` and every speed `s` with `0 < s < 1`, no solid being near: a step with
`m_hspd = -s` changes `m_x` to `m_x - 1`, unless the sum is rounded to `m_x`, and then `m_x`
is unchanged; a step with `m_hspd = +s` leaves `m_x` unchanged, unless the sum is rounded to
`m_x + 1`, and then `m_x` becomes `m_x + 1`.  For `2^-22 <= s <= 1 - 2^-22` neither
exception occurs: the step with `-s` gives `m_x - 1` and the step with `+s` gives `m_x`. -/
theorem C40_truncation_with_rounding (fuel : Nat) (nan : Int) (p : Player) (s : ℚ)
    (hx : 1 ≤ p.m_x) (hx31 : p.m_x < 2 ^ 31) (h0 : 0 < s) (h1 : s < 1) :
    (∃ x, Player.moveXRounded fuel nan { p with m_hspd := -s } [] =
        some { p with m_hspd := -s, m_x := x, m_rect := ⟨x, p.m_y, 28, 32⟩ } ∧
      x = if roundDouble ((p.m_x : ℚ) + -s) < p.m_x then p.m_x - 1 else p.m_x) ∧
    (∃ x, Player.moveXRounded fuel nan { p with m_hspd := s } [] =
        some { p with m_hspd := s, m_x := x, m_rect := ⟨x, p.m_y, 28, 32⟩ } ∧
      x = if roundDouble ((p.m_x : ℚ) + s) < p.m_x + 1 then p.m_x else p.m_x + 1) ∧
    (1 / 2 ^ 22 ≤ s → s ≤ 1 - 1 / 2 ^ 22 →
      Player.moveXRounded fuel nan { p with m_hspd := -s } [] =
        some { p with m_hspd := -s, m_x := p.m_x - 1,
                      m_rect := ⟨p.m_x - 1, p.m_y, 28, 32⟩ } ∧
      Player.moveXRounded fuel nan { p with m_hspd := s } [] =
        some { p with m_hspd := s, m_x := p.m_x, m_rect := ⟨p.m_x, p.m_y, 28, 32⟩ }) := by
  have hxq : (1 : ℚ) ≤ p.m_x := by exact_mod_cast hx
  have c1 : ((p.m_x - 1 : Int) : ℚ) = (p.m_x : ℚ) - 1 := by push_cast; rfl
  -- the sum with `-s` lies between `m_x - 1` and `m_x`
  obtain ⟨a1, a2, _, a4⟩ := roundDouble_between ((p.m_x : ℚ) + -s) (p.m_x - 1) (by omega)
    (by omega) (by rw [c1]; linarith) (by rw [c1]; linarith)
  rw [c1] at a1 a2 a4
  have a2' : roundDouble ((p.m_x : ℚ) + -s) ≤ p.m_x := by linarith
  -- the sum with `+s` lies between `m_x` and `m_x + 1`
  obtain ⟨b1, b2, b3, _⟩ := roundDouble_between ((p.m_x : ℚ) + s) p.m_x (by omega)
    (by omega) (by linarith) (by linarith)
  have em : doubleToInt (roundDouble ((p.m_x : ℚ) + -s)) =
      if roundDouble ((p.m_x : ℚ) + -s) < p.m_x then p.m_x - 1 else p.m_x := by
    split_ifs with h
    · exact doubleToInt_of_mem _ (p.m_x - 1) (by omega) (by rw [c1]; exact a1)
        (by rw [c1]; linarith)
    · have e : roundDouble ((p.m_x : ℚ) + -s) = p.m_x := le_antisymm a2' (not_lt.mp h)
      rw [e]
      exact doubleToInt_intCast _
  have ep : doubleToInt (roundDouble ((p.m_x : ℚ) + s)) =
      if roundDouble ((p.m_x : ℚ) + s) < p.m_x + 1 then p.m_x else p.m_x + 1 := by
    split_ifs with h
    · exact doubleToInt_of_mem _ p.m_x (by omega) b1 h
    · have e : roundDouble ((p.m_x : ℚ) + s) = ((p.m_x + 1 : Int) : ℚ) := by
        push_cast
        exact le_antisymm b2 (not_lt.mp h)
      rw [e]
      exact doubleToInt_intCast _
  refine ⟨⟨_, ?_, em⟩, ⟨_, ?_, ep⟩, fun hlo hhi => ⟨?_, ?_⟩⟩
  · simp only [Player.moveXRounded, Player.alignXAll]
  · simp only [Player.moveXRounded, Player.alignXAll]
  · have hlt : roundDouble ((p.m_x : ℚ) + -s) < p.m_x := by
      obtain ⟨_, _, a3, _⟩ := roundDouble_between ((p.m_x : ℚ) + -s) (p.m_x - 1) (by omega)
        (by omega) (by rw [c1]; linarith) (by rw [c1]; linarith)
      rw [c1] at a3
      have := a3 (by linarith)
      have hp : (0 : ℚ) < 1 / 2 ^ 22 := by positivity
      linarith
    simp only [Player.moveXRounded, Player.alignXAll]
    rw [em, if_pos hlt]
  · have hlt : roundDouble ((p.m_x : ℚ) + s) < p.m_x + 1 := by
      have := b3 (by linarith)
      have hp : (0 : ℚ) < 1 / 2 ^ 22 := by positivity
      linarith
    simp only [Player.moveXRounded, Player.alignXAll]
    rw [ep, if_pos hlt]

/-- Witness for C40 (amended): the example player at `m_x = 100` with speeds -1/2 and +1/2
goes to 99 and stays at 100. -/
theorem C40_truncation_with_rounding_witness :
    (Player.moveXRounded 64 0 { pouncePlayer with m_hspd := -(1 / 2) } []).map (fun q => q.m_x)
      = some 99 ∧
    (Player.moveXRounded 64 0 { pouncePlayer with m_hspd := 1 / 2 } []).map (fun q => q.m_x)
      = some 100 := by
  obtain ⟨_, _, h3⟩ := C40_truncation_with_rounding 64 0 pouncePlayer (1 / 2) (by decide)
    (by decide) (by norm_num) (by norm_num)
  obtain ⟨h1, h2⟩ := h3 (by norm_num) (by norm_num)
  rw [h1, h2]
  exact ⟨rfl, rfl⟩

end Platformer
